import Mathlib

/-!
Shallow embeddings of `src/tools/elf2x68k.c` (namespace `Elf2x68k`) and of the
GDB side of `src/tools/hudson-bridge.c` (namespace `HudsonBridge`)

The converter reads a 32-bit big-endian m68k ELF file and writes a Human68k
X-file.  The embedding follows `main` phase by phase: header validation,
section classifier, image assembler, relocation harvester, delta encoder,
symbol transformer, writer.

Conventions of the embedding:

* A file or buffer is a list of byte values; a `uint8_t` load reduces the
  element modulo 256.
* `uint32_t` arithmetic is arithmetic on `Nat` reduced modulo `2^32` (`add32`,
  `sub32`); `int` values are natural numbers, and a run in which an `int`
  computation would leave the range of `int` is `Run.undefined`.
* A load or store outside its buffer makes the run `Run.undefined`.  Pointers
  into the input file are offsets; sums of a pointer and `uint32_t` offsets do
  not wrap (64-bit host).
* A `for` loop over `0 .. n-1` is a recursion over `List.range n`, the loop
  variables are the further arguments.
* `qsort` is an insertion sort by the comparison function.
* `fopen`, `fread`, `malloc` and `fwrite` do not fail; the diagnostics on
  `stderr` other than those before `return 1` are left out.

The bridge translates between the GDB remote serial protocol and the monitor
on the target.  Its embedding keeps the globals and the two byte streams in a
record `Bridge`:

* A `char` is its byte value (0 to 255); a socket is the list of the bytes
  still to be read and the list of the buffers written, one per `write`.
* `read` gives the next byte of the client stream and fails at its end;
  `write` does not fail.  The output on `stderr` is left out.
* The loop `for (;;)` of `dispatchLoop` is a recursion on a number of turns
  (`fuel`); the results are stated for every positive amount of fuel.
-/

namespace Elf2x68k

/-! ## Machine arithmetic and big-endian helpers -/

/-- Subtraction of two `uint32_t` values (wraps modulo `2^32`). -/
def sub32 (a b : Nat) : Nat := (a + 4294967296 - b) % 4294967296

/-- Addition of two `uint32_t` values (wraps modulo `2^32`). -/
def add32 (a b : Nat) : Nat := (a + b) % 4294967296

/-- The two bytes that `be16(v)` followed by `memcpy(.., 2)` stores: `htons`
puts the most significant byte first in memory. -/
def be16 (v : Nat) : List Nat := [(v >>> 8) % 256, v % 256]

/-- The four bytes that `be32(v)` followed by `memcpy(.., 4)` stores. -/
def be32 (v : Nat) : List Nat :=
  [(v >>> 24) % 256, (v >>> 16) % 256, (v >>> 8) % 256, v % 256]

/-! ## Relocation sorting and the delta encoder -/

/-- The comparison function `relocCmp` on the `offset` fields. -/
def relocCmp (a b : Nat) : Int :=
  if a < b then -1
  else if a > b then 1
  else 0

/-- The order `qsort` sorts by: `a` may precede `b` when `relocCmp a b ≤ 0`. -/
def relocLe (a b : Nat) : Prop := relocCmp a b ≤ 0

instance relocLeDecidable : DecidableRel relocLe :=
  fun a b => inferInstanceAs (Decidable (relocCmp a b ≤ 0))

/-- The call `qsort(relocs, numRelocs, sizeof(struct Reloc), relocCmp)`.  The
keys are the whole elements, so every correct sort returns this list. -/
def qsortRelocs (relocs : List Nat) : List Nat :=
  relocs.insertionSort relocLe

/-- The delta encoder loop of `main`: `relocs` is the part of the array not
yet visited, `i` the loop index, `lastOffset` the loop variable, and `relBuf`
the bytes stored so far, in the order of the stores (their number is
`relBufSize`).  The result is the bytes stored when the loop ends.  The size
of the buffer, `numRelocs * 4 + 4`, is no part of this function: the loop
inside its buffer is `buildRelBuf`, which is undefined when a store passes
the end of the buffer. -/
def encodeLoop : List Nat → Nat → Nat → List Nat → List Nat
  | [], _, _, relBuf => relBuf
  | off :: rest, i, lastOffset, relBuf =>
    let delta := sub32 off lastOffset
    if delta = 0 ∧ i > 0 then
      encodeLoop rest (i + 1) lastOffset relBuf
    else if delta > 0xFFFF ∨ (delta &&& 0x10000) ≠ 0 then
      encodeLoop rest (i + 1) off (relBuf ++ be16 0x0001 ++ be32 off)
    else
      encodeLoop rest (i + 1) off (relBuf ++ be16 (delta % 65536))

/-- The bytes that the encoder loop stores for the sorted array: the loop
started with `i = 0`, `lastOffset = 0` and nothing stored.  They are the
relocation table when they fit the buffer (`buildRelBuf`). -/
def encodeRelocs (relocs : List Nat) : List Nat :=
  encodeLoop relocs 0 0 []

/-- Specification side of the round trip: the decoder of the on-device loader,
which is no part of the repository, as the specification words it.  It reads a
big-endian u16; if its low bit is 0 the word is a delta added to the previous
offset; if its low bit is 1 a big-endian u32 follows and is the absolute
offset.  A truncated stream ends the decoding. -/
def decodeFrom : Nat → List Nat → List Nat
  | prev, b0 :: b1 :: rest =>
    let w := b0 * 256 + b1
    if w % 2 = 0 then
      (prev + w) :: decodeFrom (prev + w) rest
    else
      match rest with
      | c0 :: c1 :: c2 :: c3 :: rest2 =>
        let o := c0 * 16777216 + c1 * 65536 + c2 * 256 + c3
        o :: decodeFrom o rest2
      | _ => []
  | _, _ => []

/-- Specification side of the round trip: decoding starts with previous offset 0. -/
def decodeRelocs (stream : List Nat) : List Nat := decodeFrom 0 stream

/-! ## Outcomes of a run -/

/-- The diagnostics of `main` that are followed by `return 1`. -/
inductive Diag where
  | notAnElfFile
  | not32BitBigEndian
  | notM68k
  | noSectionHeaders
  | noTextSection
  | sectionExceedsImage
deriving DecidableEq

/-- The result of running a part of `main`: a value, or `return 1` after a
diagnostic (always before the output file is opened), or `undefined` when the
C program has no defined behaviour (a load or store outside a buffer, or an
`int` computation that overflows). -/
inductive Run (α : Type) where
  | ok (a : α)
  | exit1 (d : Diag)
  | undefined
deriving DecidableEq

/-- Sequencing of two parts of a run. -/
def Run.bind {α β : Type} (x : Run α) (f : α → Run β) : Run β :=
  match x with
  | .ok a => f a
  | .exit1 d => .exit1 d
  | .undefined => .undefined

instance : Monad Run where
  pure := Run.ok
  bind := Run.bind

/-! ## Loads from the input file -/

/-- A `uint8_t` load at byte offset `p` of a buffer. -/
def load8 (mem : List Nat) (p : Nat) : Run Nat :=
  match mem[p]? with
  | some b => .ok (b % 256)
  | none => .undefined

/-- The helper `read_be16` applied to the address `mem + p`. -/
def read_be16 (mem : List Nat) (p : Nat) : Run Nat := do
  let b0 ← load8 mem p
  let b1 ← load8 mem (p + 1)
  pure ((b0 <<< 8) ||| b1)

/-- The helper `read_be32` applied to the address `mem + p`. -/
def read_be32 (mem : List Nat) (p : Nat) : Run Nat := do
  let b0 ← load8 mem p
  let b1 ← load8 mem (p + 1)
  let b2 ← load8 mem (p + 2)
  let b3 ← load8 mem (p + 3)
  pure ((b0 <<< 24) ||| (b1 <<< 16) ||| (b2 <<< 8) ||| b3)

/-! ## ELF and X-file constants -/

def ELFMAG0 : Nat := 0x7f
def ELFMAG1 : Nat := 0x45
def ELFMAG2 : Nat := 0x4c
def ELFMAG3 : Nat := 0x46
def ELFCLASS32 : Nat := 1
def ELFDATA2MSB : Nat := 2
def EM_68K : Nat := 4
def SHT_RELA : Nat := 4
def SHT_SYMTAB : Nat := 2
def SHF_ALLOC : Nat := 0x2
def SHF_EXECINSTR : Nat := 0x4
def SHT_NOBITS : Nat := 8
def R_68K_32 : Nat := 1
def STB_GLOBAL : Nat := 1
def SHN_ABS : Nat := 0xFFF1
def X_HEADER_SIZE : Nat := 0x40
def X_SYM_EXTERNAL : Nat := 0x00
def X_SYM_LOCAL : Nat := 0x02

/-- The macro `ELF32_R_TYPE(i)`. -/
def ELF32_R_TYPE (i : Nat) : Nat := i &&& 0xff

/-- The macro `ELF32_R_SYM(i)`. -/
def ELF32_R_SYM (i : Nat) : Nat := i >>> 8

/-- The macro `ELF32_ST_BIND(i)`, stored into a `uint8_t`. -/
def ELF32_ST_BIND (i : Nat) : Nat := (i >>> 4) % 256

/-- The macro `ELF32_ST_TYPE(i)`, stored into a `uint8_t`. -/
def ELF32_ST_TYPE (i : Nat) : Nat := (i &&& 0xf) % 256

/-- The value of `sizeof(Elf32_Rela)`. -/
def sizeofRela : Nat := 12

/-- The value of `sizeof(Elf32_Sym)`. -/
def sizeofSym : Nat := 16

/-! ## ELF header validation -/

/-- The values `main` keeps from the ELF header. -/
structure Ehdr where
  entryPoint : Nat
  shoff : Nat
  shentsize : Nat
  shnum : Nat
  shstrndx : Nat
deriving DecidableEq

/-- Leave with `return 1` and diagnostic `d` when `c` holds. -/
def failIf (c : Bool) (d : Diag) : Run Unit :=
  if c then .exit1 d else .ok ()

/-- The header validation of `main`.  The fields of `Elf32_Ehdr` are at their
offsets in the struct; the `||` of C evaluates its operands left to right and
stops at the first that holds. -/
def validateHeader (elf : List Nat) : Run Ehdr := do
  let m0 ← load8 elf 0
  failIf (m0 != ELFMAG0) .notAnElfFile
  let m1 ← load8 elf 1
  failIf (m1 != ELFMAG1) .notAnElfFile
  let m2 ← load8 elf 2
  failIf (m2 != ELFMAG2) .notAnElfFile
  let m3 ← load8 elf 3
  failIf (m3 != ELFMAG3) .notAnElfFile
  let cls ← load8 elf 4
  failIf (cls != ELFCLASS32) .not32BitBigEndian
  let dat ← load8 elf 5
  failIf (dat != ELFDATA2MSB) .not32BitBigEndian
  let machine ← read_be16 elf 18
  failIf (machine != EM_68K) .notM68k
  let entryPoint ← read_be32 elf 24
  let shoff ← read_be32 elf 32
  let shentsize ← read_be16 elf 46
  let shnum ← read_be16 elf 48
  let shstrndx ← read_be16 elf 50
  failIf (shoff == 0 || shnum == 0) .noSectionHeaders
  pure { entryPoint := entryPoint, shoff := shoff, shentsize := shentsize,
         shnum := shnum, shstrndx := shstrndx }

/-- A `read_be32` of the field at offset `field` of section header `i`, where
`i` is an `int` (or a `uint16_t` promoted to `int`): the header is at
`(uint8_t*)shdrs + i * shentsize`, and the product is an `int`. -/
def shField (elf : List Nat) (h : Ehdr) (i field : Nat) : Run Nat :=
  if i * h.shentsize < 2147483648 then
    read_be32 elf (h.shoff + i * h.shentsize + field)
  else .undefined

/-- A `read_be32` of the field at offset `field` of the section header with
`uint32_t` index `idx`: the product `idx * shentsize` is a `uint32_t`. -/
def shFieldU (elf : List Nat) (h : Ehdr) (idx field : Nat) : Run Nat :=
  read_be32 elf (h.shoff + (idx * h.shentsize) % 4294967296 + field)

/-! ## Section classifier -/

/-- The variables the classifier loop updates: `sectionType` (0 none, 1 text,
2 data, 3 bss) and the three address ranges. -/
structure Classes where
  sectionType : List Nat
  textStart : Nat
  textEnd : Nat
  dataStart : Nat
  dataEnd : Nat
  bssStart : Nat
  bssEnd : Nat
deriving DecidableEq

/-- The variables before the loop: `calloc`ed `sectionType`, empty ranges. -/
def Classes.init (shnum : Nat) : Classes :=
  { sectionType := List.replicate shnum 0
    textStart := 0xFFFFFFFF, textEnd := 0
    dataStart := 0xFFFFFFFF, dataEnd := 0
    bssStart := 0xFFFFFFFF, bssEnd := 0 }

/-- The body of the classifier loop for section `i`, after its header fields
have been read. -/
def classifyStep (c : Classes) (i flags type addr size : Nat) : Classes :=
  if flags &&& SHF_ALLOC = 0 then c
  else if size = 0 then c
  else if type = SHT_NOBITS then
    { c with
      sectionType := c.sectionType.set i 3
      bssStart := if addr < c.bssStart then addr else c.bssStart
      bssEnd := if add32 addr size > c.bssEnd then add32 addr size else c.bssEnd }
  else if flags &&& SHF_EXECINSTR ≠ 0 then
    { c with
      sectionType := c.sectionType.set i 1
      textStart := if addr < c.textStart then addr else c.textStart
      textEnd := if add32 addr size > c.textEnd then add32 addr size else c.textEnd }
  else
    { c with
      sectionType := c.sectionType.set i 2
      dataStart := if addr < c.dataStart then addr else c.dataStart
      dataEnd := if add32 addr size > c.dataEnd then add32 addr size else c.dataEnd }

/-- The classifier loop over the section indices still to visit. -/
def classifyLoop (elf : List Nat) (h : Ehdr) : List Nat → Classes → Run Classes
  | [], c => .ok c
  | i :: todo, c => do
    let flags ← shField elf h i 8
    let type ← shField elf h i 4
    let addr ← shField elf h i 12
    let size ← shField elf h i 20
    let _name ← shField elf h i 0
    classifyLoop elf h todo (classifyStep c i flags type addr size)

/-- The section classifier: the load of the string-table header's `sh_offset`,
then `for (int i = 0; i < shnum; i++)`. -/
def classify (elf : List Nat) (h : Ehdr) : Run Classes := do
  let _shstrtab ← shField elf h h.shstrndx 16
  classifyLoop elf h (List.range h.shnum) (Classes.init h.shnum)

/-- The value of `textSize`. -/
def Classes.textSize (c : Classes) : Nat := sub32 c.textEnd c.textStart

/-- The value of `dataSize`. -/
def Classes.dataSize (c : Classes) : Nat :=
  if c.dataStart ≠ 0xFFFFFFFF then sub32 c.dataEnd c.dataStart else 0

/-- The value of `bssSize`. -/
def Classes.bssSize (c : Classes) : Nat :=
  if c.bssStart ≠ 0xFFFFFFFF then sub32 c.bssEnd c.bssStart else 0

/-- The value of `imageSize`. -/
def Classes.imageSize (c : Classes) : Nat := add32 c.textSize c.dataSize

/-! ## Image assembler -/

/-- The call `memcpy(dst + pos, src + start, n)`: defined when both ranges lie
inside their buffers. -/
def memcpy (dst : List Nat) (pos : Nat) (src : List Nat) (start n : Nat) : Run (List Nat) :=
  if pos + n ≤ dst.length ∧ start + n ≤ src.length then
    .ok (dst.take pos ++ (src.drop start).take n ++ dst.drop (pos + n))
  else .undefined

/-- The first half of the body of the image loop for section `i`: `none` when
the section is passed over (`continue`), else the values of `imgOffset`,
`offset` and `size`. -/
def placement (elf : List Nat) (h : Ehdr) (c : Classes) (i : Nat) :
    Run (Option (Nat × Nat × Nat)) := do
  let type ← shField elf h i 4
  if c.sectionType.getD i 0 = 0 ∨ type = SHT_NOBITS then pure none
  else do
    let addr ← shField elf h i 12
    let offset ← shField elf h i 16
    let size ← shField elf h i 20
    let imgOffset :=
      if c.sectionType.getD i 0 = 1 then sub32 addr c.textStart
      else add32 c.textSize (sub32 addr c.dataStart)
    pure (some (imgOffset, offset, size))

/-- The image assembler loop over the section indices still to visit. -/
def imageLoop (elf : List Nat) (h : Ehdr) (c : Classes) : List Nat → List Nat → Run (List Nat)
  | [], image => .ok image
  | i :: todo, image => do
    let p ← placement elf h c i
    match p with
    | none => imageLoop elf h c todo image
    | some (imgOffset, offset, size) =>
      if add32 imgOffset size > c.imageSize then .exit1 .sectionExceedsImage
      else do
        let image2 ← memcpy image imgOffset elf offset size
        imageLoop elf h c todo image2

/-- The image assembler: `calloc(1, imageSize)` and the copy loop. -/
def buildImage (elf : List Nat) (h : Ehdr) (c : Classes) : Run (List Nat) :=
  imageLoop elf h c (List.range h.shnum) (List.replicate c.imageSize 0)

/-! ## Relocation harvester -/

/-- What the harvester knows of the symbol table linked to a RELA section:
`symOffset` and `symEntSize`. -/
structure SymtabRef where
  symOffset : Nat
  symEntSize : Nat
deriving DecidableEq

/-- The lookup of the symbol table named by `sh_link` (`symtabSh` stays `NULL`
when the index is not below `shnum`). -/
def linkedSymtab (elf : List Nat) (h : Ehdr) (symtabIdx : Nat) : Run (Option SymtabRef) :=
  if symtabIdx < h.shnum then do
    let symOffset ← shFieldU elf h symtabIdx 16
    let ent ← shFieldU elf h symtabIdx 36
    pure (some { symOffset := symOffset, symEntSize := if ent ≠ 0 then ent else sizeofSym })
  else pure none

/-- The body of the entry loop for the RELA entry at file offset `rela`: the
image offset it contributes, or `none` when the entry is passed over. -/
def relaEntry (elf : List Nat) (c : Classes) (targetType : Nat) (symtabSh : Option SymtabRef)
    (rela : Nat) : Run (Option Nat) := do
  let rInfo ← read_be32 elf (rela + 4)
  let rOffset ← read_be32 elf rela
  if ELF32_R_TYPE rInfo ≠ R_68K_32 then pure none
  else do
    let skip ← (match symtabSh with
      | some st => do
        let symIdx := ELF32_R_SYM rInfo
        let symShndx ← read_be16 elf (st.symOffset + (symIdx * st.symEntSize) % 4294967296 + 14)
        pure (symShndx == SHN_ABS)
      | none => pure false)
    if skip then pure none
    else
      let absOffset :=
        if targetType = 1 then rOffset
        else add32 c.textSize (sub32 rOffset c.dataStart)
      pure (some absOffset)

/-- The entry loop `for (int j = 0; j < numEntries; j++)` over the indices
still to visit; `relocs` is the array filled so far. -/
def relaLoop (elf : List Nat) (c : Classes) (targetType : Nat) (symtabSh : Option SymtabRef)
    (relaOffset relaEntSize : Nat) : List Nat → List Nat → Run (List Nat)
  | [], relocs => .ok relocs
  | j :: todo, relocs => do
    let r ← relaEntry elf c targetType symtabSh (relaOffset + (j * relaEntSize) % 4294967296)
    match r with
    | some absOffset =>
      relaLoop elf c targetType symtabSh relaOffset relaEntSize todo (relocs ++ [absOffset])
    | none => relaLoop elf c targetType symtabSh relaOffset relaEntSize todo relocs

/-- The value of `int numEntries = relaSize / relaEntSize`: a quotient of
`2^31` or more does not fit an `int` and converts to a negative number, so
that the loop body never runs. -/
def entryCount (size entSize : Nat) : Nat :=
  if size / entSize < 2147483648 then size / entSize else 0

/-- The body of the section loop of the harvester for section `i`. -/
def harvestSection (elf : List Nat) (h : Ehdr) (c : Classes) (relocs : List Nat) (i : Nat) :
    Run (List Nat) := do
  let type ← shField elf h i 4
  if type ≠ SHT_RELA then pure relocs
  else do
    let info ← shField elf h i 28
    if info ≥ h.shnum then pure relocs
    else
      let targetType := c.sectionType.getD info 0
      if targetType ≠ 1 ∧ targetType ≠ 2 then pure relocs
      else do
        let relaOffset ← shField elf h i 16
        let relaSize ← shField elf h i 20
        let relaEntSize0 ← shField elf h i 36
        let relaEntSize := if relaEntSize0 = 0 then sizeofRela else relaEntSize0
        let symtabIdx ← shField elf h i 24
        let symtabSh ← linkedSymtab elf h symtabIdx
        relaLoop elf c targetType symtabSh relaOffset relaEntSize
          (List.range (entryCount relaSize relaEntSize)) relocs

/-- The section loop of the harvester over the indices still to visit. -/
def harvestLoop (elf : List Nat) (h : Ehdr) (c : Classes) : List Nat → List Nat → Run (List Nat)
  | [], relocs => .ok relocs
  | i :: todo, relocs => do
    let relocs2 ← harvestSection elf h c relocs i
    harvestLoop elf h c todo relocs2

/-- The relocation harvester: the array `relocs` after the section loop (the
array grows by `realloc`, so that every entry is kept). -/
def harvest (elf : List Nat) (h : Ehdr) (c : Classes) : Run (List Nat) :=
  harvestLoop elf h c (List.range h.shnum) []

/-- The relocation table: `qsort`, the `malloc(numRelocs * 4 + 4)` of `relBuf`
(an `int` product) and the encoder loop, whose stores must stay inside
`relBuf`. -/
def buildRelBuf (relocs : List Nat) : Run (List Nat) :=
  if relocs.length * 4 + 4 < 2147483648 then
    let relBuf := encodeRelocs (qsortRelocs relocs)
    if relBuf.length ≤ relocs.length * 4 + 4 then .ok relBuf else .undefined
  else .undefined

/-! ## Symbol transformer -/

/-- The struct `XSym`; `name` is the pointer to the name, kept as an offset
into the input file. -/
structure XSym where
  location : Nat
  sect : Nat
  value : Nat
  name : Nat
deriving DecidableEq

/-- The comparison function `xsymCmp`. -/
def xsymCmp (sa sb : XSym) : Int :=
  if sa.sect ≠ sb.sect then (sa.sect : Int) - (sb.sect : Int)
  else if sa.value < sb.value then -1
  else if sa.value > sb.value then 1
  else 0

/-- The order `qsort` sorts the symbols by. -/
def xsymLe (sa sb : XSym) : Prop := xsymCmp sa sb ≤ 0

instance xsymLeDecidable : DecidableRel xsymLe :=
  fun a b => inferInstanceAs (Decidable (xsymCmp a b ≤ 0))

/-- The call `qsort(xsyms, numXSyms, sizeof(struct XSym), xsymCmp)`.  `qsort`
leaves the order of symbols that compare equal open; this sort keeps them in
their order of collection. -/
def qsortXSyms (xsyms : List XSym) : List XSym :=
  xsyms.insertionSort xsymLe

/-- The search for the symbol table: the first section of type `SHT_SYMTAB`
gives `symtabHdr` (returned as its index) and `strtab` (as a file offset). -/
def findSymtab (elf : List Nat) (h : Ehdr) : List Nat → Run (Option (Nat × Nat))
  | [] => .ok none
  | i :: todo => do
    let type ← shField elf h i 4
    if type = SHT_SYMTAB then do
      let link ← shField elf h i 24
      let strtab ← shFieldU elf h link 16
      pure (some (i, strtab))
    else findSymtab elf h todo

/-- The body of the symbol loop for the `Elf32_Sym` at file offset `sym`: the
`XSym` it adds, or `none` when the symbol is passed over. -/
def collectSym (elf : List Nat) (h : Ehdr) (c : Classes) (strtab sym : Nat) :
    Run (Option XSym) := do
  let nameIdx ← read_be32 elf sym
  let value ← read_be32 elf (sym + 4)
  let shndx ← read_be16 elf (sym + 14)
  let info ← load8 elf (sym + 12)
  if nameIdx = 0 then pure none
  else do
    let name := strtab + nameIdx
    let name0 ← load8 elf name
    if name0 = 0 then pure none
    else if shndx = 0 ∨ shndx ≥ h.shnum then pure none
    else
      let secType := c.sectionType.getD shndx 0
      if secType = 0 then pure none
      else
        let bind := ELF32_ST_BIND info
        let type := ELF32_ST_TYPE info
        if type = 4 ∨ type = 3 then pure none
        else
          pure (some { location := if bind = STB_GLOBAL then X_SYM_EXTERNAL else X_SYM_LOCAL
                       sect := secType % 256
                       value := value
                       name := name })

/-- The symbol loop `for (int i = 0; i < numElfSyms; i++)` over the indices
still to visit; `xsyms` is the array filled so far. -/
def collectLoop (elf : List Nat) (h : Ehdr) (c : Classes) (strtab symOffset symEntSize : Nat) :
    List Nat → List XSym → Run (List XSym)
  | [], xsyms => .ok xsyms
  | i :: todo, xsyms => do
    let r ← collectSym elf h c strtab (symOffset + (i * symEntSize) % 4294967296)
    match r with
    | some x => collectLoop elf h c strtab symOffset symEntSize todo (xsyms ++ [x])
    | none => collectLoop elf h c strtab symOffset symEntSize todo xsyms

/-- The call `strlen(mem + p)`: the number of bytes before the first NUL at or
after `p`; undefined when the buffer ends first. -/
def strlen (mem : List Nat) (p : Nat) : Run Nat :=
  match (mem.drop p).findIdx? (fun b => b % 256 == 0) with
  | some n => .ok n
  | none => .undefined

/-- The value of `(nameLen + 2) & ~1` for an `int nameLen ≥ 0` whose sum does
not overflow: `~1` has every bit but bit 0 set. -/
def paddedLen (nameLen : Nat) : Nat := (nameLen + 2) &&& 0xFFFFFFFE

/-- The loop that computes `symBufSize` (an `int`) over the sorted symbols. -/
def symSizeLoop (elf : List Nat) : List XSym → Nat → Run Nat
  | [], symBufSize => .ok symBufSize
  | x :: todo, symBufSize => do
    let nameLen ← strlen elf x.name
    if nameLen + 2 < 2147483648 ∧ symBufSize + (6 + paddedLen nameLen) < 2147483648 then
      symSizeLoop elf todo (symBufSize + (6 + paddedLen nameLen))
    else .undefined

/-- The sorted array `xsyms` and the value of `symBufSize` after the symbol
collection (`[]` and 0 when `-s` is absent or no symbol table is found). -/
def collectSymbols (includeSymbols : Bool) (elf : List Nat) (h : Ehdr) (c : Classes) :
    Run (List XSym × Nat) :=
  if includeSymbols then do
    let found ← findSymtab elf h (List.range h.shnum)
    match found with
    | some (symtabHdr, strtab) => do
      let symOffset ← shField elf h symtabHdr 16
      let symSize ← shField elf h symtabHdr 20
      let symEntSize0 ← shField elf h symtabHdr 36
      let symEntSize := if symEntSize0 = 0 then sizeofSym else symEntSize0
      let collected ← collectLoop elf h c strtab symOffset symEntSize
        (List.range (entryCount symSize symEntSize)) []
      let xsyms := qsortXSyms collected
      let symBufSize ← symSizeLoop elf xsyms 0
      pure (xsyms, symBufSize)
    | none => pure ([], 0)
  else pure ([], 0)

/-! ## Writer -/

/-- The 64 bytes of `header` before `fwrite`. -/
def xHeader (entryPoint textSize dataSize bssSize relBufSize symBufSize : Nat) : List Nat :=
  [0x48, 0x55, 0, 0, 0, 0, 0, 0] ++ be32 entryPoint ++ be32 textSize ++ be32 dataSize ++
    be32 bssSize ++ be32 relBufSize ++ be32 symBufSize ++ List.replicate 32 0

/-- The bytes written for one symbol: `symEntry`, the name, the padding. -/
def symRecord (elf : List Nat) (x : XSym) : Run (List Nat) := do
  let nameLen ← strlen elf x.name
  if nameLen + 2 < 2147483648 ∧ nameLen ≤ paddedLen nameLen ∧ paddedLen nameLen - nameLen ≤ 2 then
    pure ([x.location, x.sect] ++ be32 x.value ++
      (elf.drop x.name).take nameLen ++ List.replicate (paddedLen nameLen - nameLen) 0)
  else .undefined

/-- The symbol writer loop. -/
def symRecords (elf : List Nat) : List XSym → Run (List Nat)
  | [] => .ok []
  | x :: todo => do
    let r ← symRecord elf x
    let rs ← symRecords elf todo
    pure (r ++ rs)

/-- The bytes written by `fwrite(buf + start, 1, n, fout)`. -/
def fwrite (buf : List Nat) (start n : Nat) : Run (List Nat) :=
  if start + n ≤ buf.length then .ok ((buf.drop start).take n) else .undefined

/-- The writer: header, text, data, relocation table, symbol records. -/
def writeXFile (includeSymbols : Bool) (elf : List Nat) (h : Ehdr) (c : Classes)
    (image relBuf : List Nat) (xsyms : List XSym) (symBufSize : Nat) : Run (List Nat) := do
  let header := xHeader h.entryPoint c.textSize c.dataSize c.bssSize relBuf.length symBufSize
  let text ← fwrite image 0 c.textSize
  let data ← (if c.dataSize > 0 then fwrite image c.textSize c.dataSize else pure [])
  let relocs := if relBuf.length > 0 then relBuf else []
  let syms ← (if includeSymbols ∧ xsyms.length > 0 then symRecords elf xsyms else pure [])
  pure (header ++ text ++ data ++ relocs ++ syms)

/-- The program `elf2x68k [-s] input.elf output.x` on an input file that was
read in full: the bytes of the output file on `return 0`. -/
def main (includeSymbols : Bool) (elf : List Nat) : Run (List Nat) := do
  let h ← validateHeader elf
  let c ← classify elf h
  failIf (c.textStart == 0xFFFFFFFF) .noTextSection
  let image ← buildImage elf h c
  let relocs ← harvest elf h c
  let relBuf ← buildRelBuf relocs
  let (xsyms, symBufSize) ← collectSymbols includeSymbols elf h c
  writeXFile includeSymbols elf h c image relBuf xsyms symBufSize

/-- Entry `j` of section `i` passes every test of the harvester and adds the
image offset `o`: section `i` has type `SHT_RELA`, its `sh_info` is a section
index below `shnum` classified text or data, `j` is below the entry count, and
the entry loop body returns `o` for the entry. -/
def HarvestedFrom (elf : List Nat) (h : Ehdr) (c : Classes) (i j o : Nat) : Prop :=
  ∃ info relaOffset relaSize relaEntSize0 symtabIdx symtabSh,
    shField elf h i 4 = Run.ok SHT_RELA ∧ shField elf h i 28 = Run.ok info ∧
    info < h.shnum ∧
    (c.sectionType.getD info 0 = 1 ∨ c.sectionType.getD info 0 = 2) ∧
    shField elf h i 16 = Run.ok relaOffset ∧ shField elf h i 20 = Run.ok relaSize ∧
    shField elf h i 36 = Run.ok relaEntSize0 ∧ shField elf h i 24 = Run.ok symtabIdx ∧
    linkedSymtab elf h symtabIdx = Run.ok symtabSh ∧
    j < entryCount relaSize (if relaEntSize0 = 0 then sizeofRela else relaEntSize0) ∧
    relaEntry elf c (c.sectionType.getD info 0) symtabSh
      (relaOffset + (j * (if relaEntSize0 = 0 then sizeofRela else relaEntSize0)) % 4294967296) =
      Run.ok (some o)

/-- The big-endian 32-bit value held by the four bytes at offset `p` of an
output file: how the X-file format reads a header field. -/
def u32At (out : List Nat) (p : Nat) : Nat :=
  out.getD p 0 * 16777216 + out.getD (p + 1) 0 * 65536 + out.getD (p + 2) 0 * 256 +
    out.getD (p + 3) 0
/-- Scenario S1 as an ELF file: 8 bytes of text at address 0, entry 0, one `R_68K_32` entry at text offset 4 whose symbol lies in the text section. -/
def elfS1 : List Nat :=
  [
   0x7f, 0x45, 0x4c, 0x46, 0x01, 0x02, 0x01, 0x00, 0x00, 0x00, 0x00, 0x00, 0x00, 0x00, 0x00, 0x00,
   0x00, 0x02, 0x00, 0x04, 0x00, 0x00, 0x00, 0x01, 0x00, 0x00, 0x00, 0x00, 0x00, 0x00, 0x00, 0x00,
   0x00, 0x00, 0x00, 0x70, 0x00, 0x00, 0x00, 0x00, 0x00, 0x34, 0x00, 0x00, 0x00, 0x00, 0x00, 0x28,
   0x00, 0x05, 0x00, 0x04, 0x4e, 0x71, 0x4e, 0x71, 0x00, 0x00, 0x00, 0x00, 0x00, 0x00, 0x00, 0x04,
   0x00, 0x00, 0x01, 0x01, 0x00, 0x00, 0x00, 0x00, 0x00, 0x00, 0x00, 0x00, 0x00, 0x00, 0x00, 0x00,
   0x00, 0x00, 0x00, 0x00, 0x00, 0x00, 0x00, 0x00, 0x00, 0x00, 0x00, 0x01, 0x00, 0x00, 0x00, 0x00,
   0x00, 0x00, 0x00, 0x08, 0x12, 0x00, 0x00, 0x01, 0x00, 0x6d, 0x61, 0x69, 0x6e, 0x00, 0x00, 0x00,
   0x00, 0x00, 0x00, 0x00, 0x00, 0x00, 0x00, 0x00, 0x00, 0x00, 0x00, 0x00, 0x00, 0x00, 0x00, 0x00,
   0x00, 0x00, 0x00, 0x00, 0x00, 0x00, 0x00, 0x00, 0x00, 0x00, 0x00, 0x00, 0x00, 0x00, 0x00, 0x00,
   0x00, 0x00, 0x00, 0x00, 0x00, 0x00, 0x00, 0x00, 0x00, 0x00, 0x00, 0x00, 0x00, 0x00, 0x00, 0x01,
   0x00, 0x00, 0x00, 0x06, 0x00, 0x00, 0x00, 0x00, 0x00, 0x00, 0x00, 0x34, 0x00, 0x00, 0x00, 0x08,
   0x00, 0x00, 0x00, 0x00, 0x00, 0x00, 0x00, 0x00, 0x00, 0x00, 0x00, 0x02, 0x00, 0x00, 0x00, 0x00,
   0x00, 0x00, 0x00, 0x00, 0x00, 0x00, 0x00, 0x04, 0x00, 0x00, 0x00, 0x00, 0x00, 0x00, 0x00, 0x00,
   0x00, 0x00, 0x00, 0x3c, 0x00, 0x00, 0x00, 0x0c, 0x00, 0x00, 0x00, 0x03, 0x00, 0x00, 0x00, 0x01,
   0x00, 0x00, 0x00, 0x00, 0x00, 0x00, 0x00, 0x0c, 0x00, 0x00, 0x00, 0x00, 0x00, 0x00, 0x00, 0x02,
   0x00, 0x00, 0x00, 0x00, 0x00, 0x00, 0x00, 0x00, 0x00, 0x00, 0x00, 0x48, 0x00, 0x00, 0x00, 0x20,
   0x00, 0x00, 0x00, 0x04, 0x00, 0x00, 0x00, 0x01, 0x00, 0x00, 0x00, 0x00, 0x00, 0x00, 0x00, 0x10,
   0x00, 0x00, 0x00, 0x00, 0x00, 0x00, 0x00, 0x03, 0x00, 0x00, 0x00, 0x00, 0x00, 0x00, 0x00, 0x00,
   0x00, 0x00, 0x00, 0x68, 0x00, 0x00, 0x00, 0x08, 0x00, 0x00, 0x00, 0x00, 0x00, 0x00, 0x00, 0x00,
   0x00, 0x00, 0x00, 0x00, 0x00, 0x00, 0x00, 0x00]

/-- The file `elfS1` with the `r_offset` of its one `R_68K_32` entry changed to 0xFFFF. -/
def elfDeltaFFFF : List Nat :=
  [
   0x7f, 0x45, 0x4c, 0x46, 0x01, 0x02, 0x01, 0x00, 0x00, 0x00, 0x00, 0x00, 0x00, 0x00, 0x00, 0x00,
   0x00, 0x02, 0x00, 0x04, 0x00, 0x00, 0x00, 0x01, 0x00, 0x00, 0x00, 0x00, 0x00, 0x00, 0x00, 0x00,
   0x00, 0x00, 0x00, 0x70, 0x00, 0x00, 0x00, 0x00, 0x00, 0x34, 0x00, 0x00, 0x00, 0x00, 0x00, 0x28,
   0x00, 0x05, 0x00, 0x04, 0x4e, 0x71, 0x4e, 0x71, 0x00, 0x00, 0x00, 0x00, 0x00, 0x00, 0xff, 0xff,
   0x00, 0x00, 0x01, 0x01, 0x00, 0x00, 0x00, 0x00, 0x00, 0x00, 0x00, 0x00, 0x00, 0x00, 0x00, 0x00,
   0x00, 0x00, 0x00, 0x00, 0x00, 0x00, 0x00, 0x00, 0x00, 0x00, 0x00, 0x01, 0x00, 0x00, 0x00, 0x00,
   0x00, 0x00, 0x00, 0x08, 0x12, 0x00, 0x00, 0x01, 0x00, 0x6d, 0x61, 0x69, 0x6e, 0x00, 0x00, 0x00,
   0x00, 0x00, 0x00, 0x00, 0x00, 0x00, 0x00, 0x00, 0x00, 0x00, 0x00, 0x00, 0x00, 0x00, 0x00, 0x00,
   0x00, 0x00, 0x00, 0x00, 0x00, 0x00, 0x00, 0x00, 0x00, 0x00, 0x00, 0x00, 0x00, 0x00, 0x00, 0x00,
   0x00, 0x00, 0x00, 0x00, 0x00, 0x00, 0x00, 0x00, 0x00, 0x00, 0x00, 0x00, 0x00, 0x00, 0x00, 0x01,
   0x00, 0x00, 0x00, 0x06, 0x00, 0x00, 0x00, 0x00, 0x00, 0x00, 0x00, 0x34, 0x00, 0x00, 0x00, 0x08,
   0x00, 0x00, 0x00, 0x00, 0x00, 0x00, 0x00, 0x00, 0x00, 0x00, 0x00, 0x02, 0x00, 0x00, 0x00, 0x00,
   0x00, 0x00, 0x00, 0x00, 0x00, 0x00, 0x00, 0x04, 0x00, 0x00, 0x00, 0x00, 0x00, 0x00, 0x00, 0x00,
   0x00, 0x00, 0x00, 0x3c, 0x00, 0x00, 0x00, 0x0c, 0x00, 0x00, 0x00, 0x03, 0x00, 0x00, 0x00, 0x01,
   0x00, 0x00, 0x00, 0x00, 0x00, 0x00, 0x00, 0x0c, 0x00, 0x00, 0x00, 0x00, 0x00, 0x00, 0x00, 0x02,
   0x00, 0x00, 0x00, 0x00, 0x00, 0x00, 0x00, 0x00, 0x00, 0x00, 0x00, 0x48, 0x00, 0x00, 0x00, 0x20,
   0x00, 0x00, 0x00, 0x04, 0x00, 0x00, 0x00, 0x01, 0x00, 0x00, 0x00, 0x00, 0x00, 0x00, 0x00, 0x10,
   0x00, 0x00, 0x00, 0x00, 0x00, 0x00, 0x00, 0x03, 0x00, 0x00, 0x00, 0x00, 0x00, 0x00, 0x00, 0x00,
   0x00, 0x00, 0x00, 0x68, 0x00, 0x00, 0x00, 0x08, 0x00, 0x00, 0x00, 0x00, 0x00, 0x00, 0x00, 0x00,
   0x00, 0x00, 0x00, 0x00, 0x00, 0x00, 0x00, 0x00]

/-- An ELF file with two executable sections that are both linked at address 0: section 1 holds AA AA AA AA (file offset 52), section 2 holds BB BB BB BB (file offset 56). -/
def elfOverlap : List Nat :=
  [
   0x7f, 0x45, 0x4c, 0x46, 0x01, 0x02, 0x01, 0x00, 0x00, 0x00, 0x00, 0x00, 0x00, 0x00, 0x00, 0x00,
   0x00, 0x02, 0x00, 0x04, 0x00, 0x00, 0x00, 0x01, 0x00, 0x00, 0x00, 0x00, 0x00, 0x00, 0x00, 0x00,
   0x00, 0x00, 0x00, 0x3c, 0x00, 0x00, 0x00, 0x00, 0x00, 0x34, 0x00, 0x00, 0x00, 0x00, 0x00, 0x28,
   0x00, 0x03, 0x00, 0x00, 0xaa, 0xaa, 0xaa, 0xaa, 0xbb, 0xbb, 0xbb, 0xbb, 0x00, 0x00, 0x00, 0x00,
   0x00, 0x00, 0x00, 0x00, 0x00, 0x00, 0x00, 0x00, 0x00, 0x00, 0x00, 0x00, 0x00, 0x00, 0x00, 0x00,
   0x00, 0x00, 0x00, 0x00, 0x00, 0x00, 0x00, 0x00, 0x00, 0x00, 0x00, 0x00, 0x00, 0x00, 0x00, 0x00,
   0x00, 0x00, 0x00, 0x00, 0x00, 0x00, 0x00, 0x00, 0x00, 0x00, 0x00, 0x01, 0x00, 0x00, 0x00, 0x06,
   0x00, 0x00, 0x00, 0x00, 0x00, 0x00, 0x00, 0x34, 0x00, 0x00, 0x00, 0x04, 0x00, 0x00, 0x00, 0x00,
   0x00, 0x00, 0x00, 0x00, 0x00, 0x00, 0x00, 0x02, 0x00, 0x00, 0x00, 0x00, 0x00, 0x00, 0x00, 0x00,
   0x00, 0x00, 0x00, 0x01, 0x00, 0x00, 0x00, 0x06, 0x00, 0x00, 0x00, 0x00, 0x00, 0x00, 0x00, 0x38,
   0x00, 0x00, 0x00, 0x04, 0x00, 0x00, 0x00, 0x00, 0x00, 0x00, 0x00, 0x00, 0x00, 0x00, 0x00, 0x02,
   0x00, 0x00, 0x00, 0x00]

/-- Scenario S3 as an ELF file: 12 bytes of text at address 0 and three RELA entries for it, at offset 2 of type 2, at offset 4 of type 1 with symbol 1 (in the text section), at offset 8 of type 1 with symbol 2, whose `st_shndx` is 0xFFF1. -/
def elfS3 : List Nat :=
  [
   0x7f, 0x45, 0x4c, 0x46, 0x01, 0x02, 0x01, 0x00, 0x00, 0x00, 0x00, 0x00, 0x00, 0x00, 0x00, 0x00,
   0x00, 0x02, 0x00, 0x04, 0x00, 0x00, 0x00, 0x01, 0x00, 0x00, 0x00, 0x00, 0x00, 0x00, 0x00, 0x00,
   0x00, 0x00, 0x00, 0xa0, 0x00, 0x00, 0x00, 0x00, 0x00, 0x34, 0x00, 0x00, 0x00, 0x00, 0x00, 0x28,
   0x00, 0x05, 0x00, 0x04, 0x4e, 0x71, 0x4e, 0x71, 0x00, 0x00, 0x00, 0x00, 0x00, 0x00, 0x00, 0x00,
   0x00, 0x00, 0x00, 0x02, 0x00, 0x00, 0x01, 0x02, 0x00, 0x00, 0x00, 0x00, 0x00, 0x00, 0x00, 0x04,
   0x00, 0x00, 0x01, 0x01, 0x00, 0x00, 0x00, 0x00, 0x00, 0x00, 0x00, 0x08, 0x00, 0x00, 0x02, 0x01,
   0x00, 0x00, 0x00, 0x00, 0x00, 0x00, 0x00, 0x00, 0x00, 0x00, 0x00, 0x00, 0x00, 0x00, 0x00, 0x00,
   0x00, 0x00, 0x00, 0x00, 0x00, 0x00, 0x00, 0x01, 0x00, 0x00, 0x00, 0x00, 0x00, 0x00, 0x00, 0x0c,
   0x12, 0x00, 0x00, 0x01, 0x00, 0x00, 0x00, 0x06, 0x00, 0x00, 0x10, 0x00, 0x00, 0x00, 0x00, 0x00,
   0x10, 0x00, 0xff, 0xf1, 0x00, 0x6d, 0x61, 0x69, 0x6e, 0x00, 0x61, 0x62, 0x73, 0x00, 0x00, 0x00,
   0x00, 0x00, 0x00, 0x00, 0x00, 0x00, 0x00, 0x00, 0x00, 0x00, 0x00, 0x00, 0x00, 0x00, 0x00, 0x00,
   0x00, 0x00, 0x00, 0x00, 0x00, 0x00, 0x00, 0x00, 0x00, 0x00, 0x00, 0x00, 0x00, 0x00, 0x00, 0x00,
   0x00, 0x00, 0x00, 0x00, 0x00, 0x00, 0x00, 0x00, 0x00, 0x00, 0x00, 0x00, 0x00, 0x00, 0x00, 0x01,
   0x00, 0x00, 0x00, 0x06, 0x00, 0x00, 0x00, 0x00, 0x00, 0x00, 0x00, 0x34, 0x00, 0x00, 0x00, 0x0c,
   0x00, 0x00, 0x00, 0x00, 0x00, 0x00, 0x00, 0x00, 0x00, 0x00, 0x00, 0x02, 0x00, 0x00, 0x00, 0x00,
   0x00, 0x00, 0x00, 0x00, 0x00, 0x00, 0x00, 0x04, 0x00, 0x00, 0x00, 0x00, 0x00, 0x00, 0x00, 0x00,
   0x00, 0x00, 0x00, 0x40, 0x00, 0x00, 0x00, 0x24, 0x00, 0x00, 0x00, 0x03, 0x00, 0x00, 0x00, 0x01,
   0x00, 0x00, 0x00, 0x00, 0x00, 0x00, 0x00, 0x0c, 0x00, 0x00, 0x00, 0x00, 0x00, 0x00, 0x00, 0x02,
   0x00, 0x00, 0x00, 0x00, 0x00, 0x00, 0x00, 0x00, 0x00, 0x00, 0x00, 0x64, 0x00, 0x00, 0x00, 0x30,
   0x00, 0x00, 0x00, 0x04, 0x00, 0x00, 0x00, 0x01, 0x00, 0x00, 0x00, 0x00, 0x00, 0x00, 0x00, 0x10,
   0x00, 0x00, 0x00, 0x00, 0x00, 0x00, 0x00, 0x03, 0x00, 0x00, 0x00, 0x00, 0x00, 0x00, 0x00, 0x00,
   0x00, 0x00, 0x00, 0x94, 0x00, 0x00, 0x00, 0x0c, 0x00, 0x00, 0x00, 0x00, 0x00, 0x00, 0x00, 0x00,
   0x00, 0x00, 0x00, 0x00, 0x00, 0x00, 0x00, 0x00]

/-- The header values of `elfS3`. -/
def hdrS3 : Ehdr :=
  { entryPoint := 0, shoff := 160, shentsize := 40, shnum := 5, shstrndx := 4 }

/-- The classification of `elfS3`: section 1 is text, covering addresses 0 to 12. -/
def clsS3 : Classes :=
  { sectionType := [0, 1, 0, 0, 0]
    textStart := 0, textEnd := 12
    dataStart := 0xFFFFFFFF, dataEnd := 0
    bssStart := 0xFFFFFFFF, bssEnd := 0 }

/-- The header values of `elfS1`. -/
def hdrS1 : Ehdr :=
  { entryPoint := 0, shoff := 112, shentsize := 40, shnum := 5, shstrndx := 4 }

/-- The classification of `elfS1`: section 1 is text, covering addresses 0 to 8. -/
def clsS1 : Classes :=
  { sectionType := [0, 1, 0, 0, 0]
    textStart := 0, textEnd := 8
    dataStart := 0xFFFFFFFF, dataEnd := 0
    bssStart := 0xFFFFFFFF, bssEnd := 0 }

/-- The header values of `elfOverlap`. -/
def hdrOverlap : Ehdr :=
  { entryPoint := 0, shoff := 60, shentsize := 40, shnum := 3, shstrndx := 0 }

/-- The classification of `elfOverlap`: sections 1 and 2 are text, covering
addresses 0 to 4. -/
def clsOverlap : Classes :=
  { sectionType := [0, 1, 1]
    textStart := 0, textEnd := 4
    dataStart := 0xFFFFFFFF, dataEnd := 0
    bssStart := 0xFFFFFFFF, bssEnd := 0 }

/-- The output file for `elfS1` converted with `-s`: header, 8 text bytes, the
relocation stream 00 04 and the record of the symbol `main`. -/
def outS1Symbols : List Nat :=
  xHeader 0 8 0 0 2 12 ++ [0x4e, 0x71, 0x4e, 0x71, 0, 0, 0, 0] ++ [0, 4] ++
    [0, 1, 0, 0, 0, 0, 0x6d, 0x61, 0x69, 0x6e, 0, 0]

/-! ## Vocabulary for the class ranges -/

/-- The header of section `i` holds the flags, type, address and size that the
classifier loop reads for it. -/
def SectionAttrs (elf : List Nat) (h : Ehdr) (i flags type addr size : Nat) : Prop :=
  shField elf h i 8 = Run.ok flags ∧ shField elf h i 4 = Run.ok type ∧
  shField elf h i 12 = Run.ok addr ∧ shField elf h i 20 = Run.ok size

/-- The value the classifier loop body stores in `sectionType[i]` for a section
with these header fields (0 when it leaves the entry as `calloc` made it). -/
def classOf (flags type size : Nat) : Nat :=
  if flags &&& SHF_ALLOC = 0 ∨ size = 0 then 0
  else if type = SHT_NOBITS then 3
  else if flags &&& SHF_EXECINSTR ≠ 0 then 1
  else 2

/-- The start variable of class `k`: `textStart` for 1, `dataStart` for 2,
`bssStart` for 3. -/
def Classes.startOf (c : Classes) (k : Nat) : Nat :=
  if k = 1 then c.textStart else if k = 2 then c.dataStart else c.bssStart

/-- The end variable of class `k`: `textEnd` for 1, `dataEnd` for 2, `bssEnd`
for 3. -/
def Classes.endOf (c : Classes) (k : Nat) : Nat :=
  if k = 1 then c.textEnd else if k = 2 then c.dataEnd else c.bssEnd

/-- An ELF file with a text section (8 bytes at address 0), a data section (4 bytes at address 8), a bss section (4 bytes at address 12) and a symbol table that lists, after the null symbol, a file symbol, a section symbol, the local data object `d` (value 8), the global bss object `b` (value 12), the global function `t2` (value 4) and the local function `t1` (value 0). -/
def elfSyms : List Nat :=
  [
   0x7f, 0x45, 0x4c, 0x46, 0x01, 0x02, 0x01, 0x00, 0x00, 0x00, 0x00, 0x00, 0x00, 0x00, 0x00, 0x00,
   0x00, 0x02, 0x00, 0x04, 0x00, 0x00, 0x00, 0x01, 0x00, 0x00, 0x00, 0x00, 0x00, 0x00, 0x00, 0x00,
   0x00, 0x00, 0x00, 0xc0, 0x00, 0x00, 0x00, 0x00, 0x00, 0x34, 0x00, 0x00, 0x00, 0x00, 0x00, 0x28,
   0x00, 0x06, 0x00, 0x05, 0x4e, 0x71, 0x4e, 0x71, 0x4e, 0x75, 0x4e, 0x71, 0x11, 0x22, 0x33, 0x44,
   0x00, 0x00, 0x00, 0x00, 0x00, 0x00, 0x00, 0x00, 0x00, 0x00, 0x00, 0x00, 0x00, 0x00, 0x00, 0x00,
   0x00, 0x00, 0x00, 0x0b, 0x00, 0x00, 0x00, 0x00, 0x00, 0x00, 0x00, 0x00, 0x04, 0x00, 0xff, 0xf1,
   0x00, 0x00, 0x00, 0x00, 0x00, 0x00, 0x00, 0x00, 0x00, 0x00, 0x00, 0x00, 0x03, 0x00, 0x00, 0x01,
   0x00, 0x00, 0x00, 0x01, 0x00, 0x00, 0x00, 0x08, 0x00, 0x00, 0x00, 0x04, 0x01, 0x00, 0x00, 0x02,
   0x00, 0x00, 0x00, 0x03, 0x00, 0x00, 0x00, 0x0c, 0x00, 0x00, 0x00, 0x04, 0x11, 0x00, 0x00, 0x03,
   0x00, 0x00, 0x00, 0x05, 0x00, 0x00, 0x00, 0x04, 0x00, 0x00, 0x00, 0x00, 0x12, 0x00, 0x00, 0x01,
   0x00, 0x00, 0x00, 0x08, 0x00, 0x00, 0x00, 0x00, 0x00, 0x00, 0x00, 0x00, 0x02, 0x00, 0x00, 0x01,
   0x00, 0x64, 0x00, 0x62, 0x00, 0x74, 0x32, 0x00, 0x74, 0x31, 0x00, 0x66, 0x2e, 0x63, 0x00, 0x00,
   0x00, 0x00, 0x00, 0x00, 0x00, 0x00, 0x00, 0x00, 0x00, 0x00, 0x00, 0x00, 0x00, 0x00, 0x00, 0x00,
   0x00, 0x00, 0x00, 0x00, 0x00, 0x00, 0x00, 0x00, 0x00, 0x00, 0x00, 0x00, 0x00, 0x00, 0x00, 0x00,
   0x00, 0x00, 0x00, 0x00, 0x00, 0x00, 0x00, 0x00, 0x00, 0x00, 0x00, 0x00, 0x00, 0x00, 0x00, 0x01,
   0x00, 0x00, 0x00, 0x06, 0x00, 0x00, 0x00, 0x00, 0x00, 0x00, 0x00, 0x34, 0x00, 0x00, 0x00, 0x08,
   0x00, 0x00, 0x00, 0x00, 0x00, 0x00, 0x00, 0x00, 0x00, 0x00, 0x00, 0x02, 0x00, 0x00, 0x00, 0x00,
   0x00, 0x00, 0x00, 0x00, 0x00, 0x00, 0x00, 0x01, 0x00, 0x00, 0x00, 0x03, 0x00, 0x00, 0x00, 0x08,
   0x00, 0x00, 0x00, 0x3c, 0x00, 0x00, 0x00, 0x04, 0x00, 0x00, 0x00, 0x00, 0x00, 0x00, 0x00, 0x00,
   0x00, 0x00, 0x00, 0x02, 0x00, 0x00, 0x00, 0x00, 0x00, 0x00, 0x00, 0x00, 0x00, 0x00, 0x00, 0x08,
   0x00, 0x00, 0x00, 0x03, 0x00, 0x00, 0x00, 0x0c, 0x00, 0x00, 0x00, 0x40, 0x00, 0x00, 0x00, 0x04,
   0x00, 0x00, 0x00, 0x00, 0x00, 0x00, 0x00, 0x00, 0x00, 0x00, 0x00, 0x02, 0x00, 0x00, 0x00, 0x00,
   0x00, 0x00, 0x00, 0x00, 0x00, 0x00, 0x00, 0x02, 0x00, 0x00, 0x00, 0x00, 0x00, 0x00, 0x00, 0x00,
   0x00, 0x00, 0x00, 0x40, 0x00, 0x00, 0x00, 0x70, 0x00, 0x00, 0x00, 0x05, 0x00, 0x00, 0x00, 0x01,
   0x00, 0x00, 0x00, 0x00, 0x00, 0x00, 0x00, 0x10, 0x00, 0x00, 0x00, 0x00, 0x00, 0x00, 0x00, 0x03,
   0x00, 0x00, 0x00, 0x00, 0x00, 0x00, 0x00, 0x00, 0x00, 0x00, 0x00, 0xb0, 0x00, 0x00, 0x00, 0x10,
   0x00, 0x00, 0x00, 0x00, 0x00, 0x00, 0x00, 0x00, 0x00, 0x00, 0x00, 0x00, 0x00, 0x00, 0x00, 0x00]

/-- The header values of `elfSyms`. -/
def hdrSyms : Ehdr :=
  { entryPoint := 0, shoff := 192, shentsize := 40, shnum := 6, shstrndx := 5 }

/-- The classification of `elfSyms`. -/
def clsSyms : Classes :=
  { sectionType := [0, 1, 2, 3, 0, 0]
    textStart := 0, textEnd := 8
    dataStart := 8, dataEnd := 12
    bssStart := 12, bssEnd := 16 }

/-- The symbols of `elfSyms` in the order of the symbol loop; names are file
offsets into the string table at offset 176. -/
def collectedSyms : List XSym :=
  [{ location := 2, sect := 2, value := 8, name := 177 },
   { location := 0, sect := 3, value := 12, name := 179 },
   { location := 0, sect := 1, value := 4, name := 181 },
   { location := 2, sect := 1, value := 0, name := 184 }]

/-- The symbols of `elfSyms` in the order in which they are written. -/
def sortedSyms : List XSym :=
  [{ location := 2, sect := 1, value := 0, name := 184 },
   { location := 0, sect := 1, value := 4, name := 181 },
   { location := 2, sect := 2, value := 8, name := 177 },
   { location := 0, sect := 3, value := 12, name := 179 }]

/-- Scenario S2 as an ELF file: the file `elfS1` with two `R_68K_32` entries for the text section, the first with `r_offset` 0x20000 and the second with `r_offset` 0 (the harvester does not compare an offset with the size of its section). -/
def elfS2 : List Nat :=
  [
   0x7f, 0x45, 0x4c, 0x46, 0x01, 0x02, 0x01, 0x00, 0x00, 0x00, 0x00, 0x00, 0x00, 0x00, 0x00, 0x00,
   0x00, 0x02, 0x00, 0x04, 0x00, 0x00, 0x00, 0x01, 0x00, 0x00, 0x00, 0x00, 0x00, 0x00, 0x00, 0x00,
   0x00, 0x00, 0x00, 0x7c, 0x00, 0x00, 0x00, 0x00, 0x00, 0x34, 0x00, 0x00, 0x00, 0x00, 0x00, 0x28,
   0x00, 0x05, 0x00, 0x04, 0x4e, 0x71, 0x4e, 0x71, 0x00, 0x00, 0x00, 0x00, 0x00, 0x02, 0x00, 0x00,
   0x00, 0x00, 0x01, 0x01, 0x00, 0x00, 0x00, 0x00, 0x00, 0x00, 0x00, 0x00, 0x00, 0x00, 0x01, 0x01,
   0x00, 0x00, 0x00, 0x00, 0x00, 0x00, 0x00, 0x00, 0x00, 0x00, 0x00, 0x00, 0x00, 0x00, 0x00, 0x00,
   0x00, 0x00, 0x00, 0x00, 0x00, 0x00, 0x00, 0x01, 0x00, 0x00, 0x00, 0x00, 0x00, 0x00, 0x00, 0x08,
   0x12, 0x00, 0x00, 0x01, 0x00, 0x6d, 0x61, 0x69, 0x6e, 0x00, 0x00, 0x00, 0x00, 0x00, 0x00, 0x00,
   0x00, 0x00, 0x00, 0x00, 0x00, 0x00, 0x00, 0x00, 0x00, 0x00, 0x00, 0x00, 0x00, 0x00, 0x00, 0x00,
   0x00, 0x00, 0x00, 0x00, 0x00, 0x00, 0x00, 0x00, 0x00, 0x00, 0x00, 0x00, 0x00, 0x00, 0x00, 0x00,
   0x00, 0x00, 0x00, 0x00, 0x00, 0x00, 0x00, 0x00, 0x00, 0x00, 0x00, 0x01, 0x00, 0x00, 0x00, 0x06,
   0x00, 0x00, 0x00, 0x00, 0x00, 0x00, 0x00, 0x34, 0x00, 0x00, 0x00, 0x08, 0x00, 0x00, 0x00, 0x00,
   0x00, 0x00, 0x00, 0x00, 0x00, 0x00, 0x00, 0x02, 0x00, 0x00, 0x00, 0x00, 0x00, 0x00, 0x00, 0x00,
   0x00, 0x00, 0x00, 0x04, 0x00, 0x00, 0x00, 0x00, 0x00, 0x00, 0x00, 0x00, 0x00, 0x00, 0x00, 0x3c,
   0x00, 0x00, 0x00, 0x18, 0x00, 0x00, 0x00, 0x03, 0x00, 0x00, 0x00, 0x01, 0x00, 0x00, 0x00, 0x00,
   0x00, 0x00, 0x00, 0x0c, 0x00, 0x00, 0x00, 0x00, 0x00, 0x00, 0x00, 0x02, 0x00, 0x00, 0x00, 0x00,
   0x00, 0x00, 0x00, 0x00, 0x00, 0x00, 0x00, 0x54, 0x00, 0x00, 0x00, 0x20, 0x00, 0x00, 0x00, 0x04,
   0x00, 0x00, 0x00, 0x01, 0x00, 0x00, 0x00, 0x00, 0x00, 0x00, 0x00, 0x10, 0x00, 0x00, 0x00, 0x00,
   0x00, 0x00, 0x00, 0x03, 0x00, 0x00, 0x00, 0x00, 0x00, 0x00, 0x00, 0x00, 0x00, 0x00, 0x00, 0x74,
   0x00, 0x00, 0x00, 0x08, 0x00, 0x00, 0x00, 0x00, 0x00, 0x00, 0x00, 0x00, 0x00, 0x00, 0x00, 0x00,
   0x00, 0x00, 0x00, 0x00]

/-- The header values of `elfS2`. -/
def hdrS2 : Ehdr :=
  { entryPoint := 0, shoff := 124, shentsize := 40, shnum := 5, shstrndx := 4 }

/-- The file `elfSyms` with the section headers 1 (text) and 2 (data) exchanged. -/
def elfSymsSwapped : List Nat :=
  [
   0x7f, 0x45, 0x4c, 0x46, 0x01, 0x02, 0x01, 0x00, 0x00, 0x00, 0x00, 0x00, 0x00, 0x00, 0x00, 0x00,
   0x00, 0x02, 0x00, 0x04, 0x00, 0x00, 0x00, 0x01, 0x00, 0x00, 0x00, 0x00, 0x00, 0x00, 0x00, 0x00,
   0x00, 0x00, 0x00, 0xc0, 0x00, 0x00, 0x00, 0x00, 0x00, 0x34, 0x00, 0x00, 0x00, 0x00, 0x00, 0x28,
   0x00, 0x06, 0x00, 0x05, 0x4e, 0x71, 0x4e, 0x71, 0x4e, 0x75, 0x4e, 0x71, 0x11, 0x22, 0x33, 0x44,
   0x00, 0x00, 0x00, 0x00, 0x00, 0x00, 0x00, 0x00, 0x00, 0x00, 0x00, 0x00, 0x00, 0x00, 0x00, 0x00,
   0x00, 0x00, 0x00, 0x0b, 0x00, 0x00, 0x00, 0x00, 0x00, 0x00, 0x00, 0x00, 0x04, 0x00, 0xff, 0xf1,
   0x00, 0x00, 0x00, 0x00, 0x00, 0x00, 0x00, 0x00, 0x00, 0x00, 0x00, 0x00, 0x03, 0x00, 0x00, 0x01,
   0x00, 0x00, 0x00, 0x01, 0x00, 0x00, 0x00, 0x08, 0x00, 0x00, 0x00, 0x04, 0x01, 0x00, 0x00, 0x02,
   0x00, 0x00, 0x00, 0x03, 0x00, 0x00, 0x00, 0x0c, 0x00, 0x00, 0x00, 0x04, 0x11, 0x00, 0x00, 0x03,
   0x00, 0x00, 0x00, 0x05, 0x00, 0x00, 0x00, 0x04, 0x00, 0x00, 0x00, 0x00, 0x12, 0x00, 0x00, 0x01,
   0x00, 0x00, 0x00, 0x08, 0x00, 0x00, 0x00, 0x00, 0x00, 0x00, 0x00, 0x00, 0x02, 0x00, 0x00, 0x01,
   0x00, 0x64, 0x00, 0x62, 0x00, 0x74, 0x32, 0x00, 0x74, 0x31, 0x00, 0x66, 0x2e, 0x63, 0x00, 0x00,
   0x00, 0x00, 0x00, 0x00, 0x00, 0x00, 0x00, 0x00, 0x00, 0x00, 0x00, 0x00, 0x00, 0x00, 0x00, 0x00,
   0x00, 0x00, 0x00, 0x00, 0x00, 0x00, 0x00, 0x00, 0x00, 0x00, 0x00, 0x00, 0x00, 0x00, 0x00, 0x00,
   0x00, 0x00, 0x00, 0x00, 0x00, 0x00, 0x00, 0x00, 0x00, 0x00, 0x00, 0x00, 0x00, 0x00, 0x00, 0x01,
   0x00, 0x00, 0x00, 0x03, 0x00, 0x00, 0x00, 0x08, 0x00, 0x00, 0x00, 0x3c, 0x00, 0x00, 0x00, 0x04,
   0x00, 0x00, 0x00, 0x00, 0x00, 0x00, 0x00, 0x00, 0x00, 0x00, 0x00, 0x02, 0x00, 0x00, 0x00, 0x00,
   0x00, 0x00, 0x00, 0x00, 0x00, 0x00, 0x00, 0x01, 0x00, 0x00, 0x00, 0x06, 0x00, 0x00, 0x00, 0x00,
   0x00, 0x00, 0x00, 0x34, 0x00, 0x00, 0x00, 0x08, 0x00, 0x00, 0x00, 0x00, 0x00, 0x00, 0x00, 0x00,
   0x00, 0x00, 0x00, 0x02, 0x00, 0x00, 0x00, 0x00, 0x00, 0x00, 0x00, 0x00, 0x00, 0x00, 0x00, 0x08,
   0x00, 0x00, 0x00, 0x03, 0x00, 0x00, 0x00, 0x0c, 0x00, 0x00, 0x00, 0x40, 0x00, 0x00, 0x00, 0x04,
   0x00, 0x00, 0x00, 0x00, 0x00, 0x00, 0x00, 0x00, 0x00, 0x00, 0x00, 0x02, 0x00, 0x00, 0x00, 0x00,
   0x00, 0x00, 0x00, 0x00, 0x00, 0x00, 0x00, 0x02, 0x00, 0x00, 0x00, 0x00, 0x00, 0x00, 0x00, 0x00,
   0x00, 0x00, 0x00, 0x40, 0x00, 0x00, 0x00, 0x70, 0x00, 0x00, 0x00, 0x05, 0x00, 0x00, 0x00, 0x01,
   0x00, 0x00, 0x00, 0x00, 0x00, 0x00, 0x00, 0x10, 0x00, 0x00, 0x00, 0x00, 0x00, 0x00, 0x00, 0x03,
   0x00, 0x00, 0x00, 0x00, 0x00, 0x00, 0x00, 0x00, 0x00, 0x00, 0x00, 0xb0, 0x00, 0x00, 0x00, 0x10,
   0x00, 0x00, 0x00, 0x00, 0x00, 0x00, 0x00, 0x00, 0x00, 0x00, 0x00, 0x00, 0x00, 0x00, 0x00, 0x00]

/-- The classification of `elfSymsSwapped`. -/
def clsSymsSwapped : Classes :=
  { sectionType := [0, 2, 1, 3, 0, 0]
    textStart := 0, textEnd := 8
    dataStart := 8, dataEnd := 12
    bssStart := 12, bssEnd := 16 }

/-- The exchange of the section indices 1 and 2. -/
def swap12 (i : Nat) : Nat := if i = 1 then 2 else if i = 2 then 1 else i
/-- An ELF file with two executable sections of 8 bytes: section 1 is linked at address 0x1000 (file offset 52) and section 2 at address 0xFFFFFFF8 (file offset 60), so that the sum of its address and size is 2^32. -/
def elfWrapEnd : List Nat :=
  [
   0x7f, 0x45, 0x4c, 0x46, 0x01, 0x02, 0x01, 0x00, 0x00, 0x00, 0x00, 0x00, 0x00, 0x00, 0x00, 0x00,
   0x00, 0x02, 0x00, 0x04, 0x00, 0x00, 0x00, 0x01, 0x00, 0x00, 0x00, 0x00, 0x00, 0x00, 0x00, 0x00,
   0x00, 0x00, 0x00, 0x44, 0x00, 0x00, 0x00, 0x00, 0x00, 0x34, 0x00, 0x00, 0x00, 0x00, 0x00, 0x28,
   0x00, 0x03, 0x00, 0x00, 0xaa, 0xaa, 0xaa, 0xaa, 0xaa, 0xaa, 0xaa, 0xaa, 0xbb, 0xbb, 0xbb, 0xbb,
   0xbb, 0xbb, 0xbb, 0xbb, 0x00, 0x00, 0x00, 0x00, 0x00, 0x00, 0x00, 0x00, 0x00, 0x00, 0x00, 0x00,
   0x00, 0x00, 0x00, 0x00, 0x00, 0x00, 0x00, 0x00, 0x00, 0x00, 0x00, 0x00, 0x00, 0x00, 0x00, 0x00,
   0x00, 0x00, 0x00, 0x00, 0x00, 0x00, 0x00, 0x00, 0x00, 0x00, 0x00, 0x00, 0x00, 0x00, 0x00, 0x00,
   0x00, 0x00, 0x00, 0x01, 0x00, 0x00, 0x00, 0x06, 0x00, 0x00, 0x10, 0x00, 0x00, 0x00, 0x00, 0x34,
   0x00, 0x00, 0x00, 0x08, 0x00, 0x00, 0x00, 0x00, 0x00, 0x00, 0x00, 0x00, 0x00, 0x00, 0x00, 0x02,
   0x00, 0x00, 0x00, 0x00, 0x00, 0x00, 0x00, 0x00, 0x00, 0x00, 0x00, 0x01, 0x00, 0x00, 0x00, 0x06,
   0xff, 0xff, 0xff, 0xf8, 0x00, 0x00, 0x00, 0x3c, 0x00, 0x00, 0x00, 0x08, 0x00, 0x00, 0x00, 0x00,
   0x00, 0x00, 0x00, 0x00, 0x00, 0x00, 0x00, 0x02, 0x00, 0x00, 0x00, 0x00]

/-- The header values of `elfWrapEnd`. -/
def hdrWrapEnd : Ehdr :=
  { entryPoint := 0, shoff := 68, shentsize := 40, shnum := 3, shstrndx := 0 }

/-- The classification of `elfWrapEnd`: sections 1 and 2 are text; the start
is 0x1000 and the end 0x1008, since the 32-bit end of section 2 is 0. -/
def clsWrapEnd : Classes :=
  { sectionType := [0, 1, 1]
    textStart := 0x1000, textEnd := 0x1008
    dataStart := 0xFFFFFFFF, dataEnd := 0
    bssStart := 0xFFFFFFFF, bssEnd := 0 }
/-- Scenario S1 linked at 0x1000: 8 bytes of text at address 0x1000 (file offset 52), entry 0x1000, and one `R_68K_32` entry whose `r_offset` is the address 0x1004 and whose symbol lies in the text section. -/
def elfText1000 : List Nat :=
  [
   0x7f, 0x45, 0x4c, 0x46, 0x01, 0x02, 0x01, 0x00, 0x00, 0x00, 0x00, 0x00, 0x00, 0x00, 0x00, 0x00,
   0x00, 0x02, 0x00, 0x04, 0x00, 0x00, 0x00, 0x01, 0x00, 0x00, 0x10, 0x00, 0x00, 0x00, 0x00, 0x00,
   0x00, 0x00, 0x00, 0x70, 0x00, 0x00, 0x00, 0x00, 0x00, 0x34, 0x00, 0x00, 0x00, 0x00, 0x00, 0x28,
   0x00, 0x05, 0x00, 0x04, 0x4e, 0x71, 0x4e, 0x71, 0x00, 0x00, 0x10, 0x00, 0x00, 0x00, 0x10, 0x04,
   0x00, 0x00, 0x01, 0x01, 0x00, 0x00, 0x00, 0x00, 0x00, 0x00, 0x00, 0x00, 0x00, 0x00, 0x00, 0x00,
   0x00, 0x00, 0x00, 0x00, 0x00, 0x00, 0x00, 0x00, 0x00, 0x00, 0x00, 0x01, 0x00, 0x00, 0x10, 0x00,
   0x00, 0x00, 0x00, 0x08, 0x12, 0x00, 0x00, 0x01, 0x00, 0x6d, 0x61, 0x69, 0x6e, 0x00, 0x00, 0x00,
   0x00, 0x00, 0x00, 0x00, 0x00, 0x00, 0x00, 0x00, 0x00, 0x00, 0x00, 0x00, 0x00, 0x00, 0x00, 0x00,
   0x00, 0x00, 0x00, 0x00, 0x00, 0x00, 0x00, 0x00, 0x00, 0x00, 0x00, 0x00, 0x00, 0x00, 0x00, 0x00,
   0x00, 0x00, 0x00, 0x00, 0x00, 0x00, 0x00, 0x00, 0x00, 0x00, 0x00, 0x00, 0x00, 0x00, 0x00, 0x01,
   0x00, 0x00, 0x00, 0x06, 0x00, 0x00, 0x10, 0x00, 0x00, 0x00, 0x00, 0x34, 0x00, 0x00, 0x00, 0x08,
   0x00, 0x00, 0x00, 0x00, 0x00, 0x00, 0x00, 0x00, 0x00, 0x00, 0x00, 0x02, 0x00, 0x00, 0x00, 0x00,
   0x00, 0x00, 0x00, 0x00, 0x00, 0x00, 0x00, 0x04, 0x00, 0x00, 0x00, 0x00, 0x00, 0x00, 0x00, 0x00,
   0x00, 0x00, 0x00, 0x3c, 0x00, 0x00, 0x00, 0x0c, 0x00, 0x00, 0x00, 0x03, 0x00, 0x00, 0x00, 0x01,
   0x00, 0x00, 0x00, 0x00, 0x00, 0x00, 0x00, 0x0c, 0x00, 0x00, 0x00, 0x00, 0x00, 0x00, 0x00, 0x02,
   0x00, 0x00, 0x00, 0x00, 0x00, 0x00, 0x00, 0x00, 0x00, 0x00, 0x00, 0x48, 0x00, 0x00, 0x00, 0x20,
   0x00, 0x00, 0x00, 0x04, 0x00, 0x00, 0x00, 0x01, 0x00, 0x00, 0x00, 0x00, 0x00, 0x00, 0x00, 0x10,
   0x00, 0x00, 0x00, 0x00, 0x00, 0x00, 0x00, 0x03, 0x00, 0x00, 0x00, 0x00, 0x00, 0x00, 0x00, 0x00,
   0x00, 0x00, 0x00, 0x68, 0x00, 0x00, 0x00, 0x08, 0x00, 0x00, 0x00, 0x00, 0x00, 0x00, 0x00, 0x00,
   0x00, 0x00, 0x00, 0x00, 0x00, 0x00, 0x00, 0x00]

/-- The header values of `elfText1000`. -/
def hdrText1000 : Ehdr :=
  { entryPoint := 0x1000, shoff := 112, shentsize := 40, shnum := 5, shstrndx := 4 }

/-- The classification of `elfText1000`: section 1 is text, covering addresses
0x1000 to 0x1008. -/
def clsText1000 : Classes :=
  { sectionType := [0, 1, 0, 0, 0]
    textStart := 0x1000, textEnd := 0x1008
    dataStart := 0xFFFFFFFF, dataEnd := 0
    bssStart := 0xFFFFFFFF, bssEnd := 0 }

end Elf2x68k

namespace HudsonBridge

/-! ## State of the bridge -/

/-- The value of `RSP_BUFSIZE`. -/
def RSP_BUFSIZE : Nat := 4096

/-- One entry of `bpTable`. -/
structure BpSlot where
  addr : Nat
  active : Bool
deriving DecidableEq

/-- The global variables of the bridge and the two byte streams it talks to:
`gdbIn` holds the bytes the client sends that have not been read yet, `gdbOut`
the buffers of the `write` calls on `gdbFd` so far (one list per call), and
likewise `targetIn` and `targetOut` for `targetFd`. -/
structure Bridge where
  gdbIn : List Nat
  gdbOut : List (List Nat)
  targetIn : List Nat
  targetOut : List (List Nat)
  regs : List Nat
  regsValid : Bool
  bpTable : List BpSlot
  promptChar : Nat
deriving DecidableEq

/-- The globals at their initial values when `main` enters `dispatchLoop` for
a client that is going to send `gdbIn`, before any register fetch or
breakpoint. -/
def initialBridge (gdbIn : List Nat) : Bridge :=
  { gdbIn := gdbIn, gdbOut := [], targetIn := [], targetOut := [],
    regs := List.replicate 18 0, regsValid := false,
    bpTable := List.replicate 10 ⟨0, false⟩, promptChar := 0x2d }

/-! ## Hex helpers -/

/-- The function `hexVal`; a `char` is its byte value. -/
def hexVal (c : Nat) : Int :=
  if c ≥ 0x30 ∧ c ≤ 0x39 then (c : Int) - 0x30
  else if c ≥ 0x61 ∧ c ≤ 0x66 then (c : Int) - 0x61 + 10
  else if c ≥ 0x41 ∧ c ≤ 0x46 then (c : Int) - 0x41 + 10
  else -1

/-- The characters of `"0123456789abcdef"`, the digits that `%x` prints. -/
def hexDigits : List Nat :=
  [0x30, 0x31, 0x32, 0x33, 0x34, 0x35, 0x36, 0x37, 0x38, 0x39,
   0x61, 0x62, 0x63, 0x64, 0x65, 0x66]

/-- The 32-bit two's complement pattern of an `int`. -/
def intBits (x : Int) : Nat := (x % 4294967296).toNat

/-- The value of `rxCsum`: `(hexVal(c0) << 4) | hexVal(c1)` computed on `int`
(a left shift of -1 gives -16, as gcc and clang define it) and converted to
`uint8_t`. -/
def rxCsumOf (c0 c1 : Nat) : Nat :=
  (((intBits (hexVal c0) <<< 4) % 4294967296) ||| intBits (hexVal c1)) % 256

/-! ## GDB RSP framing -/

/-- How the first loop of `rspGetPacket` ends. -/
inductive Start where
  | eof
  | packet (rest : List Nat)
  | interrupt (rest : List Nat)
deriving DecidableEq

/-- The first loop of `rspGetPacket` on the bytes still to come from the
client: it reads until `$` or 0x03, and ends with `eof` when `read` gives no
byte. -/
def waitStart : List Nat → Start
  | [] => .eof
  | c :: rest =>
    if c = 0x24 then .packet rest
    else if c = 0x03 then .interrupt rest
    else waitStart rest

/-- The payload loop of `rspGetPacket` (`while (pos < bufSize - 1)`) on the
bytes still to come: `pos`, `csum` and the characters stored in `buf` are the
loop variables.  The result is `none` when `read` gives no byte, else the
variables after the loop and the bytes not yet read. -/
def readPayload (bufSize : Nat) :
    List Nat → Nat → Nat → List Nat → Option (Nat × Nat × List Nat × List Nat)
  | [], pos, csum, buf =>
    if pos + 1 < bufSize then none else some (pos, csum, buf, [])
  | c :: rest, pos, csum, buf =>
    if pos + 1 < bufSize then
      if c = 0x23 then some (pos, csum, buf, rest)
      else readPayload bufSize rest (pos + 1) ((csum + c) % 256) (buf ++ [c])
    else some (pos, csum, buf, c :: rest)

/-- The function `rspGetPacket`: the returned `int`, the characters stored in
`buf` before the terminating NUL, and the state after the call. -/
def rspGetPacket (bufSize : Nat) (s : Bridge) : Int × List Nat × Bridge :=
  match waitStart s.gdbIn with
  | .eof => (-1, [], { s with gdbIn := [] })
  | .interrupt rest => (1, [0x03], { s with gdbIn := rest })
  | .packet rest =>
    match readPayload bufSize rest 0 0 [] with
    | none => (-1, [], { s with gdbIn := [] })
    | some (pos, csum, buf, rest2) =>
      match rest2 with
      | [] => (-1, buf, { s with gdbIn := [] })
      | [_] => (-1, buf, { s with gdbIn := [] })
      | c0 :: c1 :: rest3 =>
        if rxCsumOf c0 c1 ≠ csum then
          (-1, buf, { s with gdbIn := rest3, gdbOut := s.gdbOut ++ [[0x2d]] })
        else
          ((pos : Int), buf, { s with gdbIn := rest3, gdbOut := s.gdbOut ++ [[0x2b]] })

/-- The characters of the C string that starts at the first byte of `mem`:
the bytes before the first NUL. -/
def cstring (mem : List Nat) : List Nat := mem.takeWhile (fun b => b != 0)

/-- The checksum loop of `rspPutPacket`: `csum += (uint8_t)data[i]`. -/
def checksum (data : List Nat) : Nat :=
  data.foldl (fun csum c => (csum + c % 256) % 256) 0

/-- The function `rspPutPacket` on the bytes at `data`: the state after the
one `write` of `plen` bytes of `pkt`, or `none` when `plen` exceeds
`sizeof(pkt)` and the `write` reads past the array.  Both `strlen` and `%s`
stop at the first NUL; `snprintf` stores at most `sizeof(pkt) - 1` characters
and a NUL and returns the untruncated length. -/
def rspPutPacket (data : List Nat) (s : Bridge) : Option Bridge :=
  let str := cstring data
  let csum := checksum str
  let text := [0x24] ++ str ++ [0x23, hexDigits.getD (csum / 16) 0, hexDigits.getD (csum % 16) 0]
  let pkt := text.take (RSP_BUFSIZE + 4 - 1) ++ [0]
  let plen := text.length
  if plen ≤ RSP_BUFSIZE + 4 then
    some { s with gdbOut := s.gdbOut ++ [pkt.take plen] }
  else none

/-! ## Main dispatch loop -/

/-- How a run of `dispatchLoop` ends: it returns, or it reaches an undefined
`write`, or the model runs out of fuel. -/
inductive LoopResult where
  | returned (s : Bridge)
  | undefined
  | outOfFuel
deriving DecidableEq

/-- The function `dispatchLoop`.  The `switch` on `cmd` is the argument
`handlers`: it receives `cmd`, the string `data` and the state, and gives the
state after the handler and whether the `case` ends with `return`; `none` is
an undefined run.  For an empty packet `cmd` is NUL, which takes the `default`
case, where `data` is not read.  Each turn of `for (;;)` takes one unit of
`fuel`. -/
def dispatchLoop (handlers : Nat → List Nat → Bridge → Option (Bridge × Bool)) :
    Nat → Bridge → LoopResult
  | 0, _ => .outOfFuel
  | fuel + 1, s =>
    match rspGetPacket RSP_BUFSIZE s with
    | (len, pkt, s1) =>
      if len < 0 then .returned s1
      else if len = 1 ∧ pkt.headD 0 = 0x03 then
        match rspPutPacket [0x53, 0x30, 0x35] s1 with
        | some s2 => dispatchLoop handlers fuel s2
        | none => .undefined
      else
        match handlers (pkt.headD 0) (cstring (pkt.drop 1)) s1 with
        | some (s2, true) => .returned s2
        | some (s2, false) => dispatchLoop handlers fuel s2
        | none => .undefined

/-! ## Constants and register names -/

/-- The value of `NUM_REGS`. -/
def NUM_REGS : Nat := 18

/-- The value of `TARGET_BUFSIZE`. -/
def TARGET_BUFSIZE : Nat := 4096

/-- The value of `MAX_BREAKPOINTS`. -/
def MAX_BREAKPOINTS : Nat := 10

/-- The array `regNames`: d0 to d7, a0 to a7, sr, pc. -/
def regNames : List (List Nat) :=
  [[0x64, 0x30], [0x64, 0x31], [0x64, 0x32], [0x64, 0x33],
   [0x64, 0x34], [0x64, 0x35], [0x64, 0x36], [0x64, 0x37],
   [0x61, 0x30], [0x61, 0x31], [0x61, 0x32], [0x61, 0x33],
   [0x61, 0x34], [0x61, 0x35], [0x61, 0x36], [0x61, 0x37],
   [0x73, 0x72], [0x70, 0x63]]

/-! ## Hex conversion -/

/-- The function `hexEncode`: the characters stored at `dst` before the NUL,
two of `0123456789abcdef` for each of the bytes of `src`. -/
def hexEncode : List Nat → List Nat
  | [] => []
  | b :: src =>
    hexDigits.getD ((b % 256) >>> 4) 0 :: hexDigits.getD ((b % 256) &&& 0x0f) 0 :: hexEncode src

/-- The function `hexDecode` on the characters of the string at `src`: the
bytes stored at `dst`, whose number is the result.  The loop ends at the end
of the string, when one character is left, at a character that is no hex
digit, or after `maxLen` bytes. -/
def hexDecode : List Nat → Nat → List Nat
  | c0 :: c1 :: src, maxLen + 1 =>
    if c0 = 0 ∨ c1 = 0 then []
    else if hexVal c0 < 0 ∨ hexVal c1 < 0 then []
    else ((((hexVal c0).toNat <<< 4) ||| (hexVal c1).toNat) % 256) :: hexDecode src maxLen
  | _, _ => []

/-- The loop of `hexToU32` with the value so far: `val = (val << 4) | h` on
`uint32_t`, until a character that is no hex digit (the NUL included). -/
def hexToU32Loop : List Nat → Nat → Nat
  | [], val => val
  | c :: s, val =>
    if hexVal c < 0 then val
    else hexToU32Loop s (((val <<< 4) % 4294967296) ||| (hexVal c).toNat)

/-- The function `hexToU32` on the characters of the string at `s`. -/
def hexToU32 (s : List Nat) : Nat := hexToU32Loop s 0

/-- The `uint32_t` that the handlers build from four decoded bytes:
`(bytes[0] << 24) | (bytes[1] << 16) | (bytes[2] << 8) | bytes[3]`. -/
def u32OfBytes (bytes : List Nat) : Nat :=
  ((bytes.getD 0 0 % 256) <<< 24) ||| ((bytes.getD 1 0 % 256) <<< 16) |||
    ((bytes.getD 2 0 % 256) <<< 8) ||| (bytes.getD 3 0 % 256)

/-- The four bytes that the register handlers take from a register value:
`(v >> 24) & 0xff`, `(v >> 16) & 0xff`, `(v >> 8) & 0xff`, `v & 0xff`. -/
def bytesOfU32 (v : Nat) : List Nat :=
  [(v >>> 24) &&& 0xff, (v >>> 16) &&& 0xff, (v >>> 8) &&& 0xff, v &&& 0xff]

/-! ## Formatting of the target commands

The conversions of `vsnprintf` that the bridge uses.  Every command it formats
is far shorter than the 512 bytes of the buffer of `targetSend`, so none is
truncated. -/

/-- The digits of `v` most significant first, in front of `acc`; `fuel` bounds
the number of digits. -/
def fmtDigits (base : Nat) : Nat → Nat → List Nat → List Nat
  | 0, _, acc => acc
  | fuel + 1, v, acc =>
    if v < base then hexDigits.getD v 0 :: acc
    else fmtDigits base fuel (v / base) (hexDigits.getD (v % base) 0 :: acc)

/-- The characters of `%x` for an `unsigned int`: lowercase hex without
leading zeros, at most 8 digits. -/
def fmtHex (v : Nat) : List Nat := fmtDigits 16 8 (v % 4294967296) []

/-- The characters of `%02x`, `%04x` and `%08x`: the digits of `%x`, filled up
with `0` on the left to `width` characters. -/
def fmtHexPad (width v : Nat) : List Nat :=
  List.replicate (width - (fmtHex v).length) 0x30 ++ fmtHex v

/-- The characters of `%d` for an `int` that is not negative. -/
def fmtDec (v : Nat) : List Nat := fmtDigits 10 10 (v % 2147483648) []

/-! ## Target I/O -/

/-- The function `targetSend` on the formatted text: the loop writes all of
it, in one `write` that takes every byte. -/
def targetSend (text : List Nat) (s : Bridge) : Bridge :=
  if text = [] then s else { s with targetOut := s.targetOut ++ [text] }

/-- The loop of `targetWaitPrompt` on the bytes still to come from the target,
with the loop variables `pos`, `atLineStart` and the characters stored in
`buf`: the result of the function, the characters stored, and the bytes not
yet read.  When `read` gives no byte the result is -1. -/
def waitPromptLoop (bufSize prompt : Nat) :
    List Nat → Nat → Bool → List Nat → Int × List Nat × List Nat
  | [], pos, _, buf => if pos + 1 < bufSize then (-1, buf, []) else ((pos : Int), buf, [])
  | c :: rest, pos, atLineStart, buf =>
    if pos + 1 < bufSize then
      if c = prompt ∧ atLineStart = true then ((pos : Int), buf, rest)
      else waitPromptLoop bufSize prompt rest (pos + 1) (c == 0x0a) (buf ++ [c])
    else ((pos : Int), buf, c :: rest)

/-- The function `targetWaitPrompt`: its result, the characters stored in
`buf` before the NUL, and the state after the call. -/
def targetWaitPrompt (bufSize : Nat) (s : Bridge) : Int × List Nat × Bridge :=
  match waitPromptLoop bufSize s.promptChar s.targetIn 0 true [] with
  | (len, buf, rest) => (len, buf, { s with targetIn := rest })

/-- The loop of `targetWaitDelim`, as `waitPromptLoop`. -/
def waitDelimLoop (bufSize delim : Nat) :
    List Nat → Nat → List Nat → Int × List Nat × List Nat
  | [], pos, buf => if pos + 1 < bufSize then (-1, buf, []) else ((pos : Int), buf, [])
  | c :: rest, pos, buf =>
    if pos + 1 < bufSize then
      if c = delim then ((pos : Int), buf, rest)
      else waitDelimLoop bufSize delim rest (pos + 1) (buf ++ [c])
    else ((pos : Int), buf, c :: rest)

/-- The function `targetWaitDelim`. -/
def targetWaitDelim (bufSize delim : Nat) (s : Bridge) : Int × List Nat × Bridge :=
  match waitDelimLoop bufSize delim s.targetIn 0 [] with
  | (len, buf, rest) => (len, buf, { s with targetIn := rest })

/-! ## String helpers of the C library -/

/-- The tokens of the rest of a string, where `cur` holds the characters of
the token that has been begun. -/
def tokensFrom (delims : List Nat) : List Nat → List Nat → List (List Nat)
  | [], cur => if cur.isEmpty then [] else [cur]
  | c :: str, cur =>
    if c ∈ delims then
      if cur.isEmpty then tokensFrom delims str [] else cur :: tokensFrom delims str []
    else tokensFrom delims str (cur ++ [c])

/-- The tokens that the successive calls of `strtok` or `strtok_r` return for
a string and a set of delimiters: the maximal runs of characters that are no
delimiters, in order. -/
def tokens (delims str : List Nat) : List (List Nat) := tokensFrom delims str []

/-- The string after the first occurrence of `c`, that is `strchr(str, c) + 1`,
or `none` when `strchr` returns `NULL`. -/
def afterChar (c : Nat) (str : List Nat) : Option (List Nat) :=
  match str.dropWhile (fun b => b != c) with
  | [] => none
  | _ :: rest => some rest

/-! ## HudsonBug commands -/

/-- The token loop of `hudsonFetchRegs` on the tokens still to come.  The
second argument is `some (base, i)` while the `for` loop of a `D` row
(`base` 0) or an `A` row (`base` 8) is about to take its token number `i`,
and `none` in the outer loop. -/
def parseRegs : List (List Nat) → Option (Nat × Nat) → List Nat → List Nat
  | [], _, regs => regs
  | p :: rest, some (base, i), regs =>
    parseRegs rest (if i + 1 < 8 then some (base, i + 1) else none)
      (regs.set (base + i) (hexToU32 p))
  | p :: rest, none, regs =>
    if p.take 3 = [0x50, 0x43, 0x3a] ∨ p.take 3 = [0x50, 0x43, 0x3d] then
      parseRegs rest none (regs.set 17 (hexToU32 (p.drop 3)))
    else if p.take 3 = [0x53, 0x52, 0x3a] ∨ p.take 3 = [0x53, 0x52, 0x3d] then
      parseRegs rest none (regs.set 16 (hexToU32 (p.drop 3)))
    else if p.getD 0 0 = 0x44 ∧ (p.getD 1 0 = 0x20 ∨ p.getD 1 0 = 0) then
      parseRegs rest (some (0, 0)) regs
    else if p.getD 0 0 = 0x41 ∧ (p.getD 1 0 = 0x20 ∨ p.getD 1 0 = 0) then
      parseRegs rest (some (8, 0)) regs
    else parseRegs rest none regs

/-- The function `hudsonFetchRegs`: it sends `x` and a carriage return, waits
for the prompt and parses the dump. -/
def hudsonFetchRegs (s : Bridge) : Int × Bridge :=
  match targetWaitPrompt TARGET_BUFSIZE (targetSend [0x78, 0x0d] s) with
  | (len, buf, s2) =>
    if len < 0 then (-1, s2)
    else (0, { s2 with
      regs := parseRegs (tokens [0x20, 0x0d, 0x0a] (cstring buf)) none s2.regs,
      regsValid := true })

/-- The function `hudsonStoreReg`: `x NAME`, wait for `=`, the value as `%x`,
wait for the prompt; the results of the waits are not looked at. -/
def hudsonStoreReg (regNum val : Nat) (s : Bridge) : Bridge :=
  let s1 := targetSend ([0x78, 0x20] ++ regNames.getD regNum [] ++ [0x0d]) s
  let s2 := (targetWaitDelim TARGET_BUFSIZE 0x3d s1).2.2
  let s3 := targetSend (fmtHex val ++ [0x0d]) s2
  let s4 := (targetWaitPrompt TARGET_BUFSIZE s3).2.2
  { s4 with regs := s4.regs.set regNum val }

/-- The word loop of `hudsonReadMem` on the tokens of a line still to come;
`acc` holds the bytes stored in `data`, so `pos` is its length. -/
def parseWords (len : Nat) : List (List Nat) → List Nat → List Nat
  | [], acc => acc
  | wp :: rest, acc =>
    if acc.length < len then
      if wp.all (fun c => decide (0 ≤ hexVal c)) ∧ wp.length = 4 then
        if acc.length + 1 < len then
          parseWords len rest
            (acc ++ [(hexToU32 wp >>> 8) &&& 0xff, hexToU32 wp &&& 0xff])
        else parseWords len rest (acc ++ [(hexToU32 wp >>> 8) &&& 0xff])
      else if ¬ (wp.all (fun c => decide (0 ≤ hexVal c)) = true) then acc
      else parseWords len rest acc
    else acc

/-- The part of a dump line that the word loop of `hudsonReadMem` tokenises:
the line without its leading spaces and without the run of hex digits that
follows them when that run has 6 characters or more. -/
def skipAddress (line : List Nat) : List Nat :=
  let lp := line.dropWhile (fun c => c == 0x20)
  let addrLen := (lp.takeWhile (fun c => decide (0 ≤ hexVal c))).length
  if addrLen ≥ 6 then lp.drop addrLen else lp

/-- The line loop of `hudsonReadMem` on the lines still to come. -/
def parseLines (len : Nat) : List (List Nat) → List Nat → List Nat
  | [], acc => acc
  | line :: rest, acc =>
    if acc.length < len then
      if line.getD 0 0 = 0x64 ∧ (line.getD 1 0 = 0x20 ∨ line.getD 1 0 = 0x09) then
        parseLines len rest acc
      else parseLines len rest (parseWords len (tokens [0x20, 0x09] (skipAddress line)) acc)
    else acc

/-- The function `hudsonReadMem`: its result, the bytes stored in `data`, and
the state after the call. -/
def hudsonReadMem (addr len : Nat) (s : Bridge) : Int × List Nat × Bridge :=
  if len = 0 then (0, [], s)
  else
    let endAddr := (addr + len + 4294967296 - 1) % 4294967296
    match targetWaitPrompt TARGET_BUFSIZE
      (targetSend ([0x64, 0x20] ++ fmtHex addr ++ [0x20] ++ fmtHex endAddr ++ [0x0d]) s) with
    | (n, buf, s2) =>
      if n < 0 then (-1, [], s2)
      else
        let data := parseLines len (tokens [0x0d, 0x0a] (cstring buf)) []
        ((data.length : Int), data, s2)

/-- One memory edit command of `hudsonWriteMem` followed by the wait for the
prompt: `mes`, `mew` or `mel` (the letter is `size`), the address as `%x` and
the value as `%02x`, `%04x` or `%08x`. -/
def memEdit (size : Nat) (addr width val : Nat) (s : Bridge) : Bridge :=
  (targetWaitPrompt TARGET_BUFSIZE
    (targetSend ([0x6d, 0x65, size, 0x20] ++ fmtHex addr ++ [0x20] ++ fmtHexPad width val ++
      [0x0d]) s)).2.2

/-- The longword loop of `hudsonWriteMem` (`while (pos + 3 < len)`); each turn
takes one unit of `fuel`.  The result is `pos` and the state after the loop. -/
def melLoop (addr : Nat) (data : List Nat) (len : Nat) : Nat → Nat → Bridge → Nat × Bridge
  | 0, pos, s => (pos, s)
  | fuel + 1, pos, s =>
    if pos + 3 < len then
      melLoop addr data len fuel (pos + 4)
        (memEdit 0x6c ((addr + pos) % 4294967296) 8
          (((data.getD pos 0 % 256) <<< 24) ||| ((data.getD (pos + 1) 0 % 256) <<< 16) |||
            ((data.getD (pos + 2) 0 % 256) <<< 8) ||| (data.getD (pos + 3) 0 % 256)) s)
    else (pos, s)

/-- The function `hudsonWriteMem` on the first `len` bytes of `data`; the loop
takes at most `len` turns. -/
def hudsonWriteMem (addr : Nat) (data : List Nat) (len : Nat) (s : Bridge) : Bridge :=
  if len = 0 then s
  else
    let (pos1, s1) :=
      if addr &&& 1 ≠ 0 ∧ 0 < len then
        (1, memEdit 0x73 (addr % 4294967296) 2 (data.getD 0 0 % 256) s)
      else (0, s)
    let (pos2, s2) :=
      if ((addr + pos1) % 4294967296) &&& 2 ≠ 0 ∧ pos1 + 1 < len then
        (pos1 + 2, memEdit 0x77 ((addr + pos1) % 4294967296) 4
          (((data.getD pos1 0 % 256) <<< 8) ||| (data.getD (pos1 + 1) 0 % 256)) s1)
      else (pos1, s1)
    let (pos3, s3) := melLoop addr data len len pos2 s2
    let (pos4, s4) :=
      if pos3 + 1 < len then
        (pos3 + 2, memEdit 0x77 ((addr + pos3) % 4294967296) 4
          (((data.getD pos3 0 % 256) <<< 8) ||| (data.getD (pos3 + 1) 0 % 256)) s3)
      else (pos3, s3)
    if pos4 < len then
      memEdit 0x73 ((addr + pos4) % 4294967296) 2 (data.getD pos4 0 % 256) s4
    else s4

/-- The function `hudsonContinue`. -/
def hudsonContinue (addr : Nat) (s : Bridge) : Bridge :=
  (targetWaitPrompt TARGET_BUFSIZE
    (targetSend ([0x67, 0x3d] ++ fmtHex addr ++ [0x0d]) { s with regsValid := false })).2.2

/-- The function `hudsonStep`. -/
def hudsonStep (addr : Nat) (s : Bridge) : Bridge :=
  (targetWaitPrompt TARGET_BUFSIZE
    (targetSend ([0x74, 0x3d] ++ fmtHex addr ++ [0x0d]) { s with regsValid := false })).2.2

/-- The slot `bpTable[i]`. -/
def slotAt (s : Bridge) (i : Nat) : BpSlot := s.bpTable.getD i ⟨0, false⟩

/-- The function `hudsonSetBreakpoint`: its result and the state after the
call.  The first loop finds the lowest slot that is not active. -/
def hudsonSetBreakpoint (addr : Nat) (s : Bridge) : Int × Bridge :=
  match (List.range MAX_BREAKPOINTS).find? (fun i => !(slotAt s i).active) with
  | none => (-1, s)
  | some slot =>
    let s2 := (targetWaitPrompt TARGET_BUFSIZE
      (targetSend ([0x62] ++ fmtDec slot ++ [0x20] ++ fmtHex addr ++ [0x0d]) s)).2.2
    (0, { s2 with bpTable := s2.bpTable.set slot ⟨addr, true⟩ })

/-- The function `hudsonClearBreakpoint`: its result and the state after the
call.  The loop returns at the lowest active slot that holds `addr`. -/
def hudsonClearBreakpoint (addr : Nat) (s : Bridge) : Int × Bridge :=
  match (List.range MAX_BREAKPOINTS).find?
      (fun i => (slotAt s i).active && (slotAt s i).addr == addr) with
  | none => (-1, s)
  | some i =>
    let s2 := (targetWaitPrompt TARGET_BUFSIZE
      (targetSend ([0x62, 0x63, 0x20] ++ fmtDec i ++ [0x0d]) s)).2.2
    (0, { s2 with bpTable := s2.bpTable.set i ⟨(slotAt s2 i).addr, false⟩ })

/-- The loop of `hudsonClearAllBreakpoints` on the slot numbers still to
come. -/
def clearAllLoop : List Nat → Bridge → Bridge
  | [], s => s
  | i :: rest, s =>
    if (slotAt s i).active then
      let s2 := (targetWaitPrompt TARGET_BUFSIZE
        (targetSend ([0x62, 0x63, 0x20] ++ fmtDec i ++ [0x0d]) s)).2.2
      clearAllLoop rest { s2 with bpTable := s2.bpTable.set i ⟨(slotAt s2 i).addr, false⟩ }
    else clearAllLoop rest s

/-- The function `hudsonClearAllBreakpoints`. -/
def hudsonClearAllBreakpoints (s : Bridge) : Bridge :=
  clearAllLoop (List.range MAX_BREAKPOINTS) s

/-! ## RSP packet handlers

Each handler gives the state after the call; the result is `none` when the
handler reads bytes that the packet does not define (a register or memory
value with too few hex digits leaves part of its byte array unset) or when
`rspPutPacket` is undefined. -/

/-- The start of the register handlers: `if (!regsValid) hudsonFetchRegs();`. -/
def ensureRegs (s : Bridge) : Bridge :=
  if s.regsValid then s else (hudsonFetchRegs s).2

/-- The function `handleReadRegs`. -/
def handleReadRegs (s : Bridge) : Option Bridge :=
  let s1 := ensureRegs s
  rspPutPacket
    ((List.range NUM_REGS).map (fun i => hexEncode (bytesOfU32 (s1.regs.getD i 0)))).flatten s1

/-- The loop of `handleWriteRegs` on the register numbers still to come. -/
def writeRegsLoop (data : List Nat) : List Nat → Bridge → Option Bridge
  | [], s => some s
  | i :: rest, s =>
    if (hexDecode (data.drop (i * 8)) 4).length < 4 then none
    else
      let val := u32OfBytes (hexDecode (data.drop (i * 8)) 4)
      writeRegsLoop data rest (if val ≠ s.regs.getD i 0 then hudsonStoreReg i val s else s)

/-- The function `handleWriteRegs`. -/
def handleWriteRegs (data : List Nat) (s : Bridge) : Option Bridge :=
  (writeRegsLoop data (List.range NUM_REGS) (ensureRegs s)).bind
    (rspPutPacket [0x4f, 0x4b])

/-- The function `handleReadReg`. -/
def handleReadReg (data : List Nat) (s : Bridge) : Option Bridge :=
  if hexToU32 data ≥ NUM_REGS then
    rspPutPacket [0x30, 0x30, 0x30, 0x30, 0x30, 0x30, 0x30, 0x30] s
  else
    let s1 := ensureRegs s
    rspPutPacket (hexEncode (bytesOfU32 (s1.regs.getD (hexToU32 data) 0))) s1

/-- The function `handleWriteReg`. -/
def handleWriteReg (data : List Nat) (s : Bridge) : Option Bridge :=
  match afterChar 0x3d data with
  | none => rspPutPacket [0x45, 0x30, 0x31] s
  | some value =>
    let regNum := hexToU32 (data.takeWhile (fun b => b != 0x3d))
    if regNum ≥ NUM_REGS then rspPutPacket [0x45, 0x30, 0x31] s
    else if (hexDecode value 4).length < 4 then none
    else rspPutPacket [0x4f, 0x4b] (hudsonStoreReg regNum (u32OfBytes (hexDecode value 4)) s)

/-- The function `handleReadMem`. -/
def handleReadMem (data : List Nat) (s : Bridge) : Option Bridge :=
  match afterChar 0x2c data with
  | none => rspPutPacket [0x45, 0x30, 0x31] s
  | some lenText =>
    let addr := hexToU32 data
    let len0 := hexToU32 lenText
    let len1 := if len0 > (RSP_BUFSIZE - 1) / 2 then (RSP_BUFSIZE - 1) / 2 else len0
    let len := if len1 > 2048 then 2048 else len1
    match hudsonReadMem addr len s with
    | (got, memBuf, s1) =>
      if got < 0 then rspPutPacket [0x45, 0x30, 0x31] s1
      else rspPutPacket (hexEncode memBuf) s1

/-- The function `handleWriteMem`. -/
def handleWriteMem (data : List Nat) (s : Bridge) : Option Bridge :=
  match afterChar 0x2c data, afterChar 0x3a data with
  | some lenText, some bytesText =>
    let addr := hexToU32 data
    let len0 := hexToU32 lenText
    let len := if len0 > 2048 then 2048 else len0
    if (hexDecode bytesText len).length < len then none
    else rspPutPacket [0x4f, 0x4b] (hudsonWriteMem addr (hexDecode bytesText len) len s)
  | _, _ => rspPutPacket [0x45, 0x30, 0x31] s

/-- The address that `handleContinue` and `handleStep` use, and the state
after it has been determined. -/
def resumeAddr (data : List Nat) (s : Bridge) : Nat × Bridge :=
  if data.getD 0 0 ≠ 0 then (hexToU32 data, s)
  else ((ensureRegs s).regs.getD 17 0, ensureRegs s)

/-- The function `handleContinue`. -/
def handleContinue (data : List Nat) (s : Bridge) : Option Bridge :=
  rspPutPacket [0x53, 0x30, 0x35] (hudsonContinue (resumeAddr data s).1 (resumeAddr data s).2)

/-- The function `handleStep`. -/
def handleStep (data : List Nat) (s : Bridge) : Option Bridge :=
  rspPutPacket [0x53, 0x30, 0x35] (hudsonStep (resumeAddr data s).1 (resumeAddr data s).2)

/-- The function `handleSetBreakpoint`. -/
def handleSetBreakpoint (data : List Nat) (s : Bridge) : Option Bridge :=
  if data.getD 0 0 ≠ 0x30 then rspPutPacket [] s
  else
    match afterChar 0x2c data with
    | none => rspPutPacket [0x45, 0x30, 0x31] s
    | some addrText => rspPutPacket [0x4f, 0x4b] (hudsonSetBreakpoint (hexToU32 addrText) s).2

/-- The function `handleClearBreakpoint`. -/
def handleClearBreakpoint (data : List Nat) (s : Bridge) : Option Bridge :=
  if data.getD 0 0 ≠ 0x30 then rspPutPacket [] s
  else
    match afterChar 0x2c data with
    | none => rspPutPacket [0x45, 0x30, 0x31] s
    | some addrText => rspPutPacket [0x4f, 0x4b] (hudsonClearBreakpoint (hexToU32 addrText) s).2

/-- The function `handleHaltReason`. -/
def handleHaltReason (s : Bridge) : Option Bridge := rspPutPacket [0x53, 0x30, 0x35] s

/-- The function `handleQuery`; the strings compared are `Supported`,
`Attached`, `fThreadInfo`, `sThreadInfo`, `C` and `Offsets`. -/
def handleQuery (data : List Nat) (s : Bridge) : Option Bridge :=
  if data.take 9 = [0x53, 0x75, 0x70, 0x70, 0x6f, 0x72, 0x74, 0x65, 0x64] then
    rspPutPacket [0x50, 0x61, 0x63, 0x6b, 0x65, 0x74, 0x53, 0x69, 0x7a, 0x65, 0x3d,
      0x34, 0x30, 0x39, 0x36] s
  else if data = [0x41, 0x74, 0x74, 0x61, 0x63, 0x68, 0x65, 0x64] then rspPutPacket [0x31] s
  else if data = [0x66, 0x54, 0x68, 0x72, 0x65, 0x61, 0x64, 0x49, 0x6e, 0x66, 0x6f] then
    rspPutPacket [0x6d, 0x31] s
  else if data = [0x73, 0x54, 0x68, 0x72, 0x65, 0x61, 0x64, 0x49, 0x6e, 0x66, 0x6f] then
    rspPutPacket [0x6c] s
  else if data = [0x43] then rspPutPacket [0x51, 0x43, 0x31] s
  else if data.take 7 = [0x4f, 0x66, 0x66, 0x73, 0x65, 0x74, 0x73] then
    rspPutPacket [0x54, 0x65, 0x78, 0x74, 0x3d, 0x30, 0x3b, 0x44, 0x61, 0x74, 0x61, 0x3d,
      0x30, 0x3b, 0x42, 0x73, 0x73, 0x3d, 0x30] s
  else rspPutPacket [] s

/-- The function `handleSetThread`. -/
def handleSetThread (_data : List Nat) (s : Bridge) : Option Bridge :=
  rspPutPacket [0x4f, 0x4b] s

/-- The function `handleKill`. -/
def handleKill (s : Bridge) : Option Bridge := some (hudsonClearAllBreakpoints s)

/-- The function `handleDetach`. -/
def handleDetach (s : Bridge) : Option Bridge :=
  rspPutPacket [0x4f, 0x4b] (hudsonClearAllBreakpoints s)

/-- The `switch` of `dispatchLoop` on `cmd`: the state after the handler, and
whether the `case` ends with `return` (`k` and `D`) and not with `break`. -/
def handlePacket (cmd : Nat) (data : List Nat) (s : Bridge) : Option (Bridge × Bool) :=
  if cmd = 0x67 then (handleReadRegs s).map (fun t => (t, false))
  else if cmd = 0x47 then (handleWriteRegs data s).map (fun t => (t, false))
  else if cmd = 0x70 then (handleReadReg data s).map (fun t => (t, false))
  else if cmd = 0x50 then (handleWriteReg data s).map (fun t => (t, false))
  else if cmd = 0x6d then (handleReadMem data s).map (fun t => (t, false))
  else if cmd = 0x4d then (handleWriteMem data s).map (fun t => (t, false))
  else if cmd = 0x63 then (handleContinue data s).map (fun t => (t, false))
  else if cmd = 0x73 then (handleStep data s).map (fun t => (t, false))
  else if cmd = 0x5a then (handleSetBreakpoint data s).map (fun t => (t, false))
  else if cmd = 0x7a then (handleClearBreakpoint data s).map (fun t => (t, false))
  else if cmd = 0x3f then (handleHaltReason s).map (fun t => (t, false))
  else if cmd = 0x71 then (handleQuery data s).map (fun t => (t, false))
  else if cmd = 0x48 then (handleSetThread data s).map (fun t => (t, false))
  else if cmd = 0x6b then (handleKill s).map (fun t => (t, true))
  else if cmd = 0x44 then (handleDetach s).map (fun t => (t, true))
  else (rspPutPacket [] s).map (fun t => (t, false))

/-- The body of the accept loop of `main` for one client that is going to send
`gdbIn`: `regsValid = 0; dispatchLoop();`, after which the client socket is
closed.  The other globals are as the last client left them. -/
def serveClient (fuel : Nat) (gdbIn : List Nat) (s : Bridge) : LoopResult :=
  dispatchLoop handlePacket fuel { s with gdbIn := gdbIn, gdbOut := [], regsValid := false }

/-! ## Vocabulary for the statements about the bridge -/

/-- The state after the reply packet with this payload has been written to
the client: one more buffer on `gdbOut`, holding `$`, the payload, `#` and the
two checksum digits; nothing else differs. -/
def replied (payload : List Nat) (s : Bridge) : Bridge :=
  { s with gdbOut := s.gdbOut ++
      [0x24 :: (payload ++ [0x23, hexDigits.getD (payload.sum % 256 / 16) 0,
        hexDigits.getD (payload.sum % 256 % 16) 0])] }

/-- The state after a command has been sent to the target and the prompt has
been waited for. -/
def commanded (text : List Nat) (s : Bridge) : Bridge :=
  (targetWaitPrompt TARGET_BUFSIZE (targetSend text s)).2.2

/-- The number that a string of hex digits denotes. -/
def hexNumber (digits : List Nat) : Nat :=
  digits.foldl (fun acc c => 16 * acc + (hexVal c).toNat) 0

/-- The eight lowercase hex digits of a 32-bit value, most significant
first. -/
def hex8 (v : Nat) : List Nat :=
  [hexDigits.getD (v / 268435456 % 16) 0, hexDigits.getD (v / 16777216 % 16) 0,
   hexDigits.getD (v / 1048576 % 16) 0, hexDigits.getD (v / 65536 % 16) 0,
   hexDigits.getD (v / 4096 % 16) 0, hexDigits.getD (v / 256 % 16) 0,
   hexDigits.getD (v / 16 % 16) 0, hexDigits.getD (v % 16) 0]

/-- No two active slots of the table hold the same address. -/
def UniqueActive (s : Bridge) : Prop :=
  ∀ i, i < MAX_BREAKPOINTS → ∀ j, j < MAX_BREAKPOINTS →
    (slotAt s i).active = true → (slotAt s j).active = true →
    (slotAt s i).addr = (slotAt s j).addr → i = j

instance (s : Bridge) : Decidable (UniqueActive s) := by
  unfold UniqueActive
  infer_instance

/-- The states that are reached from a table of ten free slots by `Z0`, `z0`,
`k` and `D` packets, where no `Z0` packet names an address that an active slot
holds when the packet arrives. -/
inductive FreshReachable : Bridge → Prop where
  | start (s : Bridge) : s.bpTable.length = MAX_BREAKPOINTS →
      (∀ i, i < MAX_BREAKPOINTS → (slotAt s i).active = false) → FreshReachable s
  | setBp (s t : Bridge) (data : List Nat) (fin : Bool) : FreshReachable s →
      data.getD 0 0 = 0x30 →
      (∀ addrText, afterChar 0x2c data = some addrText → ∀ i, i < MAX_BREAKPOINTS →
        (slotAt s i).active = true → (slotAt s i).addr ≠ hexToU32 addrText) →
      handlePacket 0x5a data s = some (t, fin) → FreshReachable t
  | clearBp (s t : Bridge) (data : List Nat) (fin : Bool) : FreshReachable s →
      data.getD 0 0 = 0x30 → handlePacket 0x7a data s = some (t, fin) → FreshReachable t
  | kill (s t : Bridge) (data : List Nat) (fin : Bool) : FreshReachable s →
      handlePacket 0x6b data s = some (t, fin) → FreshReachable t
  | detach (s t : Bridge) (data : List Nat) (fin : Bool) : FreshReachable s →
      handlePacket 0x44 data s = some (t, fin) → FreshReachable t

/-! ## Scenarios -/

/-- A bridge with its globals at their initial values whose client is going to
send `gdbIn` and whose target is going to send `targetIn`. -/
def bridgeWith (gdbIn targetIn : List Nat) : Bridge :=
  { initialBridge gdbIn with targetIn := targetIn }

/-- What the target sends when it answers four commands with nothing but a
line end and the prompt `-`. -/
def fourPrompts : List Nat :=
  [0x0d, 0x0a, 0x2d, 0x0d, 0x0a, 0x2d, 0x0d, 0x0a, 0x2d, 0x0d, 0x0a, 0x2d]

/-- Scenario S6 as a client stream: `$Z0,1000,2#d5`, `$Z0,2000,2#d6`,
`$z0,1000,2#f5`, `$Z0,3000,2#d7`, each followed by the `+` with which the
client acknowledges the reply, and then the end of the connection. -/
def streamS6 : List Nat :=
  [0x24, 0x5a, 0x30, 0x2c, 0x31, 0x30, 0x30, 0x30, 0x2c, 0x32, 0x23, 0x64, 0x35, 0x2b,
   0x24, 0x5a, 0x30, 0x2c, 0x32, 0x30, 0x30, 0x30, 0x2c, 0x32, 0x23, 0x64, 0x36, 0x2b,
   0x24, 0x7a, 0x30, 0x2c, 0x31, 0x30, 0x30, 0x30, 0x2c, 0x32, 0x23, 0x66, 0x35, 0x2b,
   0x24, 0x5a, 0x30, 0x2c, 0x33, 0x30, 0x30, 0x30, 0x2c, 0x32, 0x23, 0x64, 0x37, 0x2b]

/-- The state in which scenario S6 leaves the bridge: slot 0 holds 0x3000,
slot 1 holds 0x2000, the target has received `b0 1000`, `b1 2000`, `bc 0` and
`b0 3000`, and the client an acknowledgement and `$OK#9a` for each packet. -/
def afterS6 : Bridge :=
  { gdbIn := []
    gdbOut := [[0x2b], [0x24, 0x4f, 0x4b, 0x23, 0x39, 0x61],
               [0x2b], [0x24, 0x4f, 0x4b, 0x23, 0x39, 0x61],
               [0x2b], [0x24, 0x4f, 0x4b, 0x23, 0x39, 0x61],
               [0x2b], [0x24, 0x4f, 0x4b, 0x23, 0x39, 0x61]]
    targetIn := []
    targetOut := [[0x62, 0x30, 0x20, 0x31, 0x30, 0x30, 0x30, 0x0d],
                  [0x62, 0x31, 0x20, 0x32, 0x30, 0x30, 0x30, 0x0d],
                  [0x62, 0x63, 0x20, 0x30, 0x0d],
                  [0x62, 0x30, 0x20, 0x33, 0x30, 0x30, 0x30, 0x0d]]
    regs := List.replicate 18 0
    regsValid := false
    bpTable := [⟨0x3000, true⟩, ⟨0x2000, true⟩] ++ List.replicate 8 ⟨0, false⟩
    promptChar := 0x2d }

/-- A `Z0` packet for the address 0x1000: the string after the `Z`. -/
def dataZ0at1000 : List Nat := [0x30, 0x2c, 0x31, 0x30, 0x30, 0x30, 0x2c, 0x32]

/-- The state after one `Z0,1000,2` packet on the initial bridge: slot 0
holds 0x1000. -/
def afterOneSet : Bridge :=
  { gdbIn := []
    gdbOut := [[0x24, 0x4f, 0x4b, 0x23, 0x39, 0x61]]
    targetIn := [0x0d, 0x0a, 0x2d, 0x0d, 0x0a, 0x2d, 0x0d, 0x0a, 0x2d]
    targetOut := [[0x62, 0x30, 0x20, 0x31, 0x30, 0x30, 0x30, 0x0d]]
    regs := List.replicate 18 0
    regsValid := false
    bpTable := [⟨0x1000, true⟩] ++ List.replicate 9 ⟨0, false⟩
    promptChar := 0x2d }

/-- The state after a second `Z0,1000,2` packet: slots 0 and 1 both hold
0x1000. -/
def afterTwoSets : Bridge :=
  { gdbIn := []
    gdbOut := [[0x24, 0x4f, 0x4b, 0x23, 0x39, 0x61], [0x24, 0x4f, 0x4b, 0x23, 0x39, 0x61]]
    targetIn := [0x0d, 0x0a, 0x2d, 0x0d, 0x0a, 0x2d]
    targetOut := [[0x62, 0x30, 0x20, 0x31, 0x30, 0x30, 0x30, 0x0d],
                  [0x62, 0x31, 0x20, 0x31, 0x30, 0x30, 0x30, 0x0d]]
    regs := List.replicate 18 0
    regsValid := false
    bpTable := [⟨0x1000, true⟩, ⟨0x1000, true⟩] ++ List.replicate 8 ⟨0, false⟩
    promptChar := 0x2d }

/-- A bridge whose ten slots are all active, with the addresses 0x1000,
0x1002 and so on. -/
def fullBridge : Bridge :=
  { bridgeWith [] fourPrompts with
    bpTable := [⟨0x1000, true⟩, ⟨0x1002, true⟩, ⟨0x1004, true⟩, ⟨0x1006, true⟩,
      ⟨0x1008, true⟩, ⟨0x100a, true⟩, ⟨0x100c, true⟩, ⟨0x100e, true⟩, ⟨0x1010, true⟩,
      ⟨0x1012, true⟩] }

/-- A client that sends `$Z0,1000,2#d5`, acknowledges the reply and closes the
connection. -/
def streamSetThenEof : List Nat :=
  [0x24, 0x5a, 0x30, 0x2c, 0x31, 0x30, 0x30, 0x30, 0x2c, 0x32, 0x23, 0x64, 0x35, 0x2b]

/-- A client that sends `$Z0,1000,2#d5`, acknowledges the reply and sends
`$k#6b`. -/
def streamSetThenKill : List Nat :=
  [0x24, 0x5a, 0x30, 0x2c, 0x31, 0x30, 0x30, 0x30, 0x2c, 0x32, 0x23, 0x64, 0x35, 0x2b,
   0x24, 0x6b, 0x23, 0x36, 0x62]

/-- The state in which the session `streamSetThenEof` ends: slot 0 is still
active, and the target has received `b0 1000` and nothing else. -/
def afterSetThenEof : Bridge :=
  { gdbIn := []
    gdbOut := [[0x2b], [0x24, 0x4f, 0x4b, 0x23, 0x39, 0x61]]
    targetIn := [0x0d, 0x0a, 0x2d, 0x0d, 0x0a, 0x2d, 0x0d, 0x0a, 0x2d]
    targetOut := [[0x62, 0x30, 0x20, 0x31, 0x30, 0x30, 0x30, 0x0d]]
    regs := List.replicate 18 0
    regsValid := false
    bpTable := [⟨0x1000, true⟩] ++ List.replicate 9 ⟨0, false⟩
    promptChar := 0x2d }

/-- The state in which the session `streamSetThenKill` ends: slot 0 is free
again, and the target has received `b0 1000` and `bc 0`. -/
def afterSetThenKill : Bridge :=
  { gdbIn := []
    gdbOut := [[0x2b], [0x24, 0x4f, 0x4b, 0x23, 0x39, 0x61], [0x2b]]
    targetIn := [0x0d, 0x0a, 0x2d, 0x0d, 0x0a, 0x2d]
    targetOut := [[0x62, 0x30, 0x20, 0x31, 0x30, 0x30, 0x30, 0x0d],
                  [0x62, 0x63, 0x20, 0x30, 0x0d]]
    regs := List.replicate 18 0
    regsValid := false
    bpTable := [⟨0x1000, false⟩] ++ List.replicate 9 ⟨0, false⟩
    promptChar := 0x2d }

/-- What the target sends in answer to `x`: the echo, the register dump of the
comment above `hudsonFetchRegs`, and the prompt.
```
PC=00FF0D3C USP=00000000 SSP=00001FFC SR=2000 X:0  N:0  Z:0  V:0  C:0
D  00000000 FFFF9470 00000007 00000009  00000001 00001206 00FF00E0 00004AB9
A  00000CB0 00000000 00FF00E1 000012AD  00001120 00001206 00001000 00001FFC
``` -/
def dumpAnswer : List Nat :=
  [
   0x78, 0x0d, 0x0a, 0x50, 0x43, 0x3d, 0x30, 0x30, 0x46, 0x46, 0x30, 0x44, 0x33, 0x43, 0x20, 0x55,
   0x53, 0x50, 0x3d, 0x30, 0x30, 0x30, 0x30, 0x30, 0x30, 0x30, 0x30, 0x20, 0x53, 0x53, 0x50, 0x3d,
   0x30, 0x30, 0x30, 0x30, 0x31, 0x46, 0x46, 0x43, 0x20, 0x53, 0x52, 0x3d, 0x32, 0x30, 0x30, 0x30,
   0x20, 0x58, 0x3a, 0x30, 0x20, 0x20, 0x4e, 0x3a, 0x30, 0x20, 0x20, 0x5a, 0x3a, 0x30, 0x20, 0x20,
   0x56, 0x3a, 0x30, 0x20, 0x20, 0x43, 0x3a, 0x30, 0x0d, 0x0a, 0x44, 0x20, 0x20, 0x30, 0x30, 0x30,
   0x30, 0x30, 0x30, 0x30, 0x30, 0x20, 0x46, 0x46, 0x46, 0x46, 0x39, 0x34, 0x37, 0x30, 0x20, 0x30,
   0x30, 0x30, 0x30, 0x30, 0x30, 0x30, 0x37, 0x20, 0x30, 0x30, 0x30, 0x30, 0x30, 0x30, 0x30, 0x39,
   0x20, 0x20, 0x30, 0x30, 0x30, 0x30, 0x30, 0x30, 0x30, 0x31, 0x20, 0x30, 0x30, 0x30, 0x30, 0x31,
   0x32, 0x30, 0x36, 0x20, 0x30, 0x30, 0x46, 0x46, 0x30, 0x30, 0x45, 0x30, 0x20, 0x30, 0x30, 0x30,
   0x30, 0x34, 0x41, 0x42, 0x39, 0x0d, 0x0a, 0x41, 0x20, 0x20, 0x30, 0x30, 0x30, 0x30, 0x30, 0x43,
   0x42, 0x30, 0x20, 0x30, 0x30, 0x30, 0x30, 0x30, 0x30, 0x30, 0x30, 0x20, 0x30, 0x30, 0x46, 0x46,
   0x30, 0x30, 0x45, 0x31, 0x20, 0x30, 0x30, 0x30, 0x30, 0x31, 0x32, 0x41, 0x44, 0x20, 0x20, 0x30,
   0x30, 0x30, 0x30, 0x31, 0x31, 0x32, 0x30, 0x20, 0x30, 0x30, 0x30, 0x30, 0x31, 0x32, 0x30, 0x36,
   0x20, 0x30, 0x30, 0x30, 0x30, 0x31, 0x30, 0x30, 0x30, 0x20, 0x30, 0x30, 0x30, 0x30, 0x31, 0x46,
   0x46, 0x43, 0x0d, 0x0a, 0x2d]

/-- The register values of `dumpAnswer`: d0 to d7, a0 to a7, sr, pc. -/
def dumpRegs : List Nat :=
  [0x00000000, 0xFFFF9470, 0x00000007, 0x00000009, 0x00000001, 0x00001206, 0x00FF00E0, 0x00004AB9, 0x00000CB0, 0x00000000, 0x00FF00E1, 0x000012AD, 0x00001120, 0x00001206, 0x00001000, 0x00001FFC, 0x00002000, 0x00FF0D3C]

/-- A bridge whose register cache is valid and holds `dumpRegs`, and whose
target is going to send `targetIn`. -/
def cachedBridge (targetIn : List Nat) : Bridge :=
  { bridgeWith [] targetIn with regs := dumpRegs, regsValid := true }

/-- The string after the `P` of the packet `Pf=12345678` of scenario S5. -/
def dataS5 : List Nat := [0x66, 0x3d, 0x31, 0x32, 0x33, 0x34, 0x35, 0x36, 0x37, 0x38]

/-- What the target sends in scenario S5: the echo of `x a7`, the text `a7=`,
then the echo of the value and the prompt. -/
def storeAnswer : List Nat :=
  [0x78, 0x20, 0x61, 0x37, 0x0d, 0x0a, 0x61, 0x37, 0x3d,
   0x31, 0x32, 0x33, 0x34, 0x35, 0x36, 0x37, 0x38, 0x0d, 0x0a, 0x2d]

/-- The state after scenario S5 on a valid cache that held `dumpRegs`: the
target has received `x a7` and `12345678`, register 15 holds 0x12345678, and
the client has received `$OK#9a`. -/
def afterS5 : Bridge :=
  { gdbIn := []
    gdbOut := [[0x24, 0x4f, 0x4b, 0x23, 0x39, 0x61]]
    targetIn := []
    targetOut := [[0x78, 0x20, 0x61, 0x37, 0x0d],
                  [0x31, 0x32, 0x33, 0x34, 0x35, 0x36, 0x37, 0x38, 0x0d]]
    regs := dumpRegs.set 15 0x12345678
    regsValid := true
    bpTable := List.replicate 10 ⟨0, false⟩
    promptChar := 0x2d }

/-- What the target sends in answer to `x` after scenario S5: the dump of
`dumpAnswer` with 12345678 as the last value of the `A` row. -/
def dumpAfterStore : List Nat :=
  [
   0x78, 0x0d, 0x0a, 0x50, 0x43, 0x3d, 0x30, 0x30, 0x46, 0x46, 0x30, 0x44, 0x33, 0x43, 0x20, 0x55,
   0x53, 0x50, 0x3d, 0x30, 0x30, 0x30, 0x30, 0x30, 0x30, 0x30, 0x30, 0x20, 0x53, 0x53, 0x50, 0x3d,
   0x30, 0x30, 0x30, 0x30, 0x31, 0x46, 0x46, 0x43, 0x20, 0x53, 0x52, 0x3d, 0x32, 0x30, 0x30, 0x30,
   0x20, 0x58, 0x3a, 0x30, 0x20, 0x20, 0x4e, 0x3a, 0x30, 0x20, 0x20, 0x5a, 0x3a, 0x30, 0x20, 0x20,
   0x56, 0x3a, 0x30, 0x20, 0x20, 0x43, 0x3a, 0x30, 0x0d, 0x0a, 0x44, 0x20, 0x20, 0x30, 0x30, 0x30,
   0x30, 0x30, 0x30, 0x30, 0x30, 0x20, 0x46, 0x46, 0x46, 0x46, 0x39, 0x34, 0x37, 0x30, 0x20, 0x30,
   0x30, 0x30, 0x30, 0x30, 0x30, 0x30, 0x37, 0x20, 0x30, 0x30, 0x30, 0x30, 0x30, 0x30, 0x30, 0x39,
   0x20, 0x20, 0x30, 0x30, 0x30, 0x30, 0x30, 0x30, 0x30, 0x31, 0x20, 0x30, 0x30, 0x30, 0x30, 0x31,
   0x32, 0x30, 0x36, 0x20, 0x30, 0x30, 0x46, 0x46, 0x30, 0x30, 0x45, 0x30, 0x20, 0x30, 0x30, 0x30,
   0x30, 0x34, 0x41, 0x42, 0x39, 0x0d, 0x0a, 0x41, 0x20, 0x20, 0x30, 0x30, 0x30, 0x30, 0x30, 0x43,
   0x42, 0x30, 0x20, 0x30, 0x30, 0x30, 0x30, 0x30, 0x30, 0x30, 0x30, 0x20, 0x30, 0x30, 0x46, 0x46,
   0x30, 0x30, 0x45, 0x31, 0x20, 0x30, 0x30, 0x30, 0x30, 0x31, 0x32, 0x41, 0x44, 0x20, 0x20, 0x30,
   0x30, 0x30, 0x30, 0x31, 0x31, 0x32, 0x30, 0x20, 0x30, 0x30, 0x30, 0x30, 0x31, 0x32, 0x30, 0x36,
   0x20, 0x30, 0x30, 0x30, 0x30, 0x31, 0x30, 0x30, 0x30, 0x20, 0x31, 0x32, 0x33, 0x34, 0x35, 0x36,
   0x37, 0x38, 0x0d, 0x0a, 0x2d]

/-- The string after the `m` of the packet `m100,4` of scenario S4. -/
def dataS4 : List Nat := [0x31, 0x30, 0x30, 0x2c, 0x34]

/-- What the target sends in scenario S4: the echo of `d 100 103`, the line
`00000100  DEAD BEEF  ....`, and the prompt. -/
def dumpS4 : List Nat :=
  [
   0x64, 0x20, 0x31, 0x30, 0x30, 0x20, 0x31, 0x30, 0x33, 0x0d, 0x0a, 0x30, 0x30, 0x30, 0x30, 0x30,
   0x31, 0x30, 0x30, 0x20, 0x20, 0x44, 0x45, 0x41, 0x44, 0x20, 0x42, 0x45, 0x45, 0x46, 0x20, 0x20,
   0x2e, 0x2e, 0x2e, 0x2e, 0x0d, 0x0a, 0x2d]

/-- The state after scenario S4: the target has received `d 100 103`, and the
client `$deadbeef#20`. -/
def afterS4 : Bridge :=
  { gdbIn := []
    gdbOut := [[0x24, 0x64, 0x65, 0x61, 0x64, 0x62, 0x65, 0x65, 0x66, 0x23, 0x32, 0x30]]
    targetIn := []
    targetOut := [[0x64, 0x20, 0x31, 0x30, 0x30, 0x20, 0x31, 0x30, 0x33, 0x0d]]
    regs := List.replicate 18 0
    regsValid := false
    bpTable := List.replicate 10 ⟨0, false⟩
    promptChar := 0x2d }

/-! ## Start-up: the argument loop of `main`

An argument is the list of the characters of `argv[i]` without its NUL. -/

/-- The function `isspace` of the C library in the C locale. -/
def isspace (c : Nat) : Bool := c == 0x20 || (0x09 ≤ c && c ≤ 0x0d)

/-- The value of the decimal digits at the start of a string, after the
value `acc` of the digits before them. -/
def atoiDigits : List Nat → Nat → Nat
  | [], acc => acc
  | c :: rest, acc =>
    if 0x30 ≤ c ∧ c ≤ 0x39 then atoiDigits rest (10 * acc + (c - 0x30)) else acc

/-- The function `atoi` of the C library: white space, an optional sign, and
decimal digits; `none` when the value does not fit an `int`, which is
undefined. -/
def atoi (str : List Nat) : Option Int :=
  let t := str.dropWhile isspace
  if t.headD 0 = 0x2d then
    if atoiDigits t.tail 0 ≤ 2147483648 then some (-(atoiDigits t.tail 0 : Int)) else none
  else if t.headD 0 = 0x2b then
    if atoiDigits t.tail 0 ≤ 2147483647 then some (atoiDigits t.tail 0 : Int) else none
  else if atoiDigits t 0 ≤ 2147483647 then some (atoiDigits t 0 : Int) else none

/-- The variables that the argument loop of `main` sets: the locals `gdbPort`,
`targetListenPort` and `target` (`none` is `NULL`), and the globals
`promptChar` and `verbose`. -/
structure Settings where
  gdbPort : Int
  targetListenPort : Int
  target : Option (List Nat)
  promptChar : Nat
  verbose : Bool
deriving DecidableEq

/-- The values of the variables before the loop. -/
def Settings.init : Settings :=
  { gdbPort := 2345, targetListenPort := 0, target := none, promptChar := 0x2d, verbose := false }

/-- How the start of `main` ends: with a call of `usage` and `return status`,
or past the argument checking with the variables set, or undefined. -/
inductive Startup where
  | usageExit (status : Nat)
  | proceeds (o : Settings)
  | undefined
deriving DecidableEq

/-- The branches of the loop body that are left when none of `-l`, `-p` and
`-P` with a following argument applies: `-v`, `-h` or `--help`, a positional
target, and an unknown option. -/
def plainArgument (a : List Nat) (o : Settings) : Startup ⊕ Settings :=
  if a = [0x2d, 0x76] then .inr { o with verbose := true }
  else if a = [0x2d, 0x68] ∨ a = [0x2d, 0x2d, 0x68, 0x65, 0x6c, 0x70] then .inl (.usageExit 0)
  else if a.headD 0 ≠ 0x2d then .inr { o with target := some a }
  else .inl (.usageExit 1)

/-- The argument loop of `main` on the arguments from `argv[i]` on, and the
check `if (!target && !targetListenPort)` after it. -/
def argLoop : List (List Nat) → Settings → Startup
  | [], o =>
    if o.target = none ∧ o.targetListenPort = 0 then .usageExit 1 else .proceeds o
  | [a], o =>
    match plainArgument a o with
    | .inl r => r
    | .inr o2 => argLoop [] o2
  | a :: p :: rest, o =>
    if a = [0x2d, 0x6c] then
      match atoi p with
      | some v => argLoop rest { o with targetListenPort := v }
      | none => .undefined
    else if a = [0x2d, 0x70] then
      match atoi p with
      | some v => argLoop rest { o with gdbPort := v }
      | none => .undefined
    else if a = [0x2d, 0x50] then argLoop rest { o with promptChar := p.headD 0 }
    else
      match plainArgument a o with
      | .inl r => r
      | .inr o2 => argLoop (p :: rest) o2

/-- The start of `main` up to the end of the argument checking, for the
argument vector `argv` with the program name first. -/
def mainStartup (argv : List (List Nat)) : Startup := argLoop argv.tail Settings.init

/-- How `main` connects to the target after the argument checking. -/
inductive Connect where
  | listen (port : Int)
  | openTarget (target : List Nat)
deriving DecidableEq

/-- The choice `if (targetListenPort) ... else ...` of `main` after the
argument checking. -/
def connectChoice (o : Settings) : Option Connect :=
  if o.targetListenPort ≠ 0 then some (.listen o.targetListenPort)
  else o.target.map .openTarget

/-- The positional targets that an argument list supplies, in order: the
arguments that do not start with `-` and are not the value of a `-l`, `-p`
or `-P` before them. -/
def suppliedTargets : List (List Nat) → List (List Nat)
  | [] => []
  | [a] => if a.headD 0 ≠ 0x2d then [a] else []
  | a :: p :: rest =>
    if a = [0x2d, 0x6c] ∨ a = [0x2d, 0x70] ∨ a = [0x2d, 0x50] then suppliedTargets rest
    else (if a.headD 0 ≠ 0x2d then [a] else []) ++ suppliedTargets (p :: rest)

/-- The `PORT` values that an argument list supplies with `-l`, in order. -/
def suppliedListenPorts : List (List Nat) → List (List Nat)
  | [] => []
  | [_] => []
  | a :: p :: rest =>
    if a = [0x2d, 0x6c] then p :: suppliedListenPorts rest
    else if a = [0x2d, 0x70] ∨ a = [0x2d, 0x50] then suppliedListenPorts rest
    else suppliedListenPorts (p :: rest)

/-- What an outcome `r` of the argument checking tells when the arguments
still to come were `args` and the variables were `o`.  When it proceeds, a
target or a listen port is set, the target is the one set before or a
positional target of `args`, and the listen port is the one set before or the
value of a `-l` of `args`.  When it ends with usage, the status is 1, or 0
with `-h` or `--help` among `args`.  It is undefined only when `atoi` is
undefined for one of `args`. -/
def StartupWithin (args : List (List Nat)) (o : Settings) (r : Startup) : Prop :=
  (∀ o2, r = .proceeds o2 →
    (o2.target ≠ none ∨ o2.targetListenPort ≠ 0) ∧
    (o2.target = o.target ∨ ∃ t ∈ suppliedTargets args, o2.target = some t) ∧
    (o2.targetListenPort = o.targetListenPort ∨
      ∃ p ∈ suppliedListenPorts args, atoi p = some o2.targetListenPort)) ∧
  (∀ st, r = .usageExit st →
    st = 1 ∨ (st = 0 ∧ ([0x2d, 0x68] ∈ args ∨ [0x2d, 0x2d, 0x68, 0x65, 0x6c, 0x70] ∈ args))) ∧
  (r = .undefined → ∃ p ∈ args, atoi p = none)

/-- The argument vector `hudson-bridge -l 1234 localhost:1234`. -/
def argvBoth : List (List Nat) :=
  [[0x68, 0x75, 0x64, 0x73, 0x6f, 0x6e, 0x2d, 0x62, 0x72, 0x69, 0x64, 0x67, 0x65],
   [0x2d, 0x6c], [0x31, 0x32, 0x33, 0x34],
   [0x6c, 0x6f, 0x63, 0x61, 0x6c, 0x68, 0x6f, 0x73, 0x74, 0x3a, 0x31, 0x32, 0x33, 0x34]]

/-- The argument vector `hudson-bridge -h`. -/
def argvHelp : List (List Nat) :=
  [[0x68, 0x75, 0x64, 0x73, 0x6f, 0x6e, 0x2d, 0x62, 0x72, 0x69, 0x64, 0x67, 0x65],
   [0x2d, 0x68]]

/-- The argument vector `hudson-bridge -v -p 2345`. -/
def argvNeither : List (List Nat) :=
  [[0x68, 0x75, 0x64, 0x73, 0x6f, 0x6e, 0x2d, 0x62, 0x72, 0x69, 0x64, 0x67, 0x65],
   [0x2d, 0x76], [0x2d, 0x70], [0x32, 0x33, 0x34, 0x35]]

/-- The string after the `G` of a packet that carries the values of `dumpRegs`
with 1 for d0 and 0x12345678 for a7: 144 hex digits. -/
def dataGTwoChanged : List Nat :=
  (((dumpRegs.set 0 1).set 15 0x12345678).map hex8).flatten

/-- The state after a sequence of commands, each sent to the target and
followed by a wait for the prompt. -/
def commandedAll (texts : List (List Nat)) (s : Bridge) : Bridge :=
  texts.foldl (fun t text => commanded text t) s

/-- The number that the `width` bytes of `data` from index `pos` denote when
the first of them is the most significant. -/
def bigEndian (data : List Nat) (pos width : Nat) : Nat :=
  ((List.range width).map (fun k => data.getD (pos + k) 0 % 256)).foldl
    (fun acc b => 256 * acc + b) 0

/-- The memory edit command that writes the `width` bytes (1, 2 or 4) of
`data` from index `pos` to the 32-bit address `addr + pos`: `mes`, `mew` or
`mel`, the address in hex, and the big-endian value of the bytes as 2, 4 or 8
hex digits, ended by a carriage return. -/
def editCommand (addr : Nat) (data : List Nat) (pos width : Nat) : List Nat :=
  [0x6d, 0x65, if width = 1 then 0x73 else if width = 2 then 0x77 else 0x6c, 0x20] ++
    fmtHex ((addr + pos) % 4294967296) ++ [0x20] ++
    fmtHexPad (2 * width) (bigEndian data pos width) ++ [0x0d]

/-- The memory edit commands for pieces of the given widths that follow one
another in `data` from index `pos` on. -/
def editCommands (addr : Nat) (data : List Nat) : Nat → List Nat → List (List Nat)
  | _, [] => []
  | pos, w :: ws => editCommand addr data pos w :: editCommands addr data (pos + w) ws

/-- Eight bytes to write in the examples of memory writes. -/
def dataEight : List Nat := [0x11, 0x22, 0x33, 0x44, 0x55, 0x66, 0x77, 0x88]

/-- A token of a register dump that the token loop of `hudsonFetchRegs`
passes over: it does not start with `PC:`, `PC=`, `SR:` or `SR=`, and it is
neither `D` nor `A`. -/
def PlainToken (p : List Nat) : Prop :=
  ¬(p.take 3 = [0x50, 0x43, 0x3a] ∨ p.take 3 = [0x50, 0x43, 0x3d]) ∧
  ¬(p.take 3 = [0x53, 0x52, 0x3a] ∨ p.take 3 = [0x53, 0x52, 0x3d]) ∧
  ¬(p.getD 0 0 = 0x44 ∧ (p.getD 1 0 = 0x20 ∨ p.getD 1 0 = 0)) ∧
  ¬(p.getD 0 0 = 0x41 ∧ (p.getD 1 0 = 0x20 ∨ p.getD 1 0 = 0))

instance (p : List Nat) : Decidable (PlainToken p) := by
  unfold PlainToken
  infer_instance

/-- The answer `dumpAnswer` with the labels of DB.X 3.00, `PC:` and `SR:`. -/
def dumpAnswerColon : List Nat :=
  [
   0x78, 0x0d, 0x0a, 0x50, 0x43, 0x3a, 0x30, 0x30, 0x46, 0x46, 0x30, 0x44, 0x33, 0x43, 0x20, 0x55,
   0x53, 0x50, 0x3d, 0x30, 0x30, 0x30, 0x30, 0x30, 0x30, 0x30, 0x30, 0x20, 0x53, 0x53, 0x50, 0x3d,
   0x30, 0x30, 0x30, 0x30, 0x31, 0x46, 0x46, 0x43, 0x20, 0x53, 0x52, 0x3a, 0x32, 0x30, 0x30, 0x30,
   0x20, 0x58, 0x3a, 0x30, 0x20, 0x20, 0x4e, 0x3a, 0x30, 0x20, 0x20, 0x5a, 0x3a, 0x30, 0x20, 0x20,
   0x56, 0x3a, 0x30, 0x20, 0x20, 0x43, 0x3a, 0x30, 0x0d, 0x0a, 0x44, 0x20, 0x20, 0x30, 0x30, 0x30,
   0x30, 0x30, 0x30, 0x30, 0x30, 0x20, 0x46, 0x46, 0x46, 0x46, 0x39, 0x34, 0x37, 0x30, 0x20, 0x30,
   0x30, 0x30, 0x30, 0x30, 0x30, 0x30, 0x37, 0x20, 0x30, 0x30, 0x30, 0x30, 0x30, 0x30, 0x30, 0x39,
   0x20, 0x20, 0x30, 0x30, 0x30, 0x30, 0x30, 0x30, 0x30, 0x31, 0x20, 0x30, 0x30, 0x30, 0x30, 0x31,
   0x32, 0x30, 0x36, 0x20, 0x30, 0x30, 0x46, 0x46, 0x30, 0x30, 0x45, 0x30, 0x20, 0x30, 0x30, 0x30,
   0x30, 0x34, 0x41, 0x42, 0x39, 0x0d, 0x0a, 0x41, 0x20, 0x20, 0x30, 0x30, 0x30, 0x30, 0x30, 0x43,
   0x42, 0x30, 0x20, 0x30, 0x30, 0x30, 0x30, 0x30, 0x30, 0x30, 0x30, 0x20, 0x30, 0x30, 0x46, 0x46,
   0x30, 0x30, 0x45, 0x31, 0x20, 0x30, 0x30, 0x30, 0x30, 0x31, 0x32, 0x41, 0x44, 0x20, 0x20, 0x30,
   0x30, 0x30, 0x30, 0x31, 0x31, 0x32, 0x30, 0x20, 0x30, 0x30, 0x30, 0x30, 0x31, 0x32, 0x30, 0x36,
   0x20, 0x30, 0x30, 0x30, 0x30, 0x31, 0x30, 0x30, 0x30, 0x20, 0x30, 0x30, 0x30, 0x30, 0x31, 0x46,
   0x46, 0x43, 0x0d, 0x0a, 0x2d]

/-- The tokens of the dump of `dumpAnswer`, the echo `x` first. -/
def dumpTokens : List (List Nat) := tokens [0x20, 0x0d, 0x0a] dumpAnswer.dropLast

/-- The tokens of the dump of `dumpAnswerColon`. -/
def dumpTokensColon : List (List Nat) := tokens [0x20, 0x0d, 0x0a] dumpAnswerColon.dropLast

/-- What the target sends in answer to `d 100 113` when the 16 bytes at 0x100
are the text `abcd 1234 ` followed by six NUL bytes, and the four bytes at
0x110 are 01 02 03 04: the echo, two dump lines, and the prompt.
```
d 100 113
00000100  6162 6364 2031 3233 3420 0000 0000 0000  abcd 1234 ......
00000110  0102 0304  ....
``` -/
def dumpHexText : List Nat :=
  [
   0x64, 0x20, 0x31, 0x30, 0x30, 0x20, 0x31, 0x31, 0x33, 0x0d, 0x0a, 0x30, 0x30, 0x30, 0x30, 0x30,
   0x31, 0x30, 0x30, 0x20, 0x20, 0x36, 0x31, 0x36, 0x32, 0x20, 0x36, 0x33, 0x36, 0x34, 0x20, 0x32,
   0x30, 0x33, 0x31, 0x20, 0x33, 0x32, 0x33, 0x33, 0x20, 0x33, 0x34, 0x32, 0x30, 0x20, 0x30, 0x30,
   0x30, 0x30, 0x20, 0x30, 0x30, 0x30, 0x30, 0x20, 0x30, 0x30, 0x30, 0x30, 0x20, 0x20, 0x61, 0x62,
   0x63, 0x64, 0x20, 0x31, 0x32, 0x33, 0x34, 0x20, 0x2e, 0x2e, 0x2e, 0x2e, 0x2e, 0x2e, 0x0d, 0x0a,
   0x30, 0x30, 0x30, 0x30, 0x30, 0x31, 0x31, 0x30, 0x20, 0x20, 0x30, 0x31, 0x30, 0x32, 0x20, 0x30,
   0x33, 0x30, 0x34, 0x20, 0x20, 0x2e, 0x2e, 0x2e, 0x2e, 0x0d, 0x0a, 0x2d]

/-- The two bytes that a dump word of four hex digits denotes, the most
significant first. -/
def wordBytes (w : List Nat) : List Nat := [hexNumber w / 256, hexNumber w % 256]

/-- A data line of a memory dump in the documented shape: the address, two
blanks, the words with a blank after each, one more blank, and the ASCII
column. -/
def dumpLine (addr : List Nat) (ws : List (List Nat)) (ascii : List Nat) : List Nat :=
  addr ++ [0x20, 0x20] ++ (ws.map (fun w => w ++ [0x20])).flatten ++ [0x20] ++ ascii

/-- A data line whose parts are as documented: an address of eight hex digits,
words of four hex digits, and an ASCII column whose first token, if it has
one, holds a character that is no hex digit. -/
def PlainDumpLine (addr : List Nat) (ws : List (List Nat)) (ascii : List Nat) : Prop :=
  addr.length = 8 ∧ (∀ c ∈ addr, 0 ≤ hexVal c) ∧
  (∀ w ∈ ws, w.length = 4 ∧ ∀ c ∈ w, 0 ≤ hexVal c) ∧
  (∀ t ∈ (tokens [0x20, 0x09] ascii).head?,
    ¬(t.all (fun c => decide (0 ≤ hexVal c)) = true))

instance (addr : List Nat) (ws : List (List Nat)) (ascii : List Nat) :
    Decidable (PlainDumpLine addr ws ascii) := by
  unfold PlainDumpLine
  infer_instance

/-- The bytes that the words of a list of data lines denote, in order. -/
def dumpBytes (lines : List (List Nat × List (List Nat) × List Nat)) : List Nat :=
  (lines.map (fun l => (l.2.1.map wordBytes).flatten)).flatten

/-- A `Z0` packet for the address 0x2000: the string after the `Z`. -/
def dataZ0at2000 : List Nat := [0x30, 0x2c, 0x32, 0x30, 0x30, 0x30, 0x2c, 0x32]

/-- The state after `Z0,1000,2` and then `Z0,2000,2` on the initial bridge:
slot 0 holds 0x1000 and slot 1 holds 0x2000. -/
def afterFreshSets : Bridge :=
  { gdbIn := []
    gdbOut := [[0x24, 0x4f, 0x4b, 0x23, 0x39, 0x61], [0x24, 0x4f, 0x4b, 0x23, 0x39, 0x61]]
    targetIn := [0x0d, 0x0a, 0x2d, 0x0d, 0x0a, 0x2d]
    targetOut := [[0x62, 0x30, 0x20, 0x31, 0x30, 0x30, 0x30, 0x0d],
                  [0x62, 0x31, 0x20, 0x32, 0x30, 0x30, 0x30, 0x0d]]
    regs := List.replicate 18 0
    regsValid := false
    bpTable := [⟨0x1000, true⟩, ⟨0x2000, true⟩] ++ List.replicate 8 ⟨0, false⟩
    promptChar := 0x2d }

end HudsonBridge

/-! ## Theorems -/

namespace Elf2x68k

theorem be16_eq (v : Nat) (h : v < 65536) : be16 v = [v / 256, v % 256] := by
  simp only [be16, Nat.shiftRight_eq_div_pow]
  congr 1
  omega

theorem be32_eq (v : Nat) (h : v < 4294967296) :
    be32 v = [v / 16777216, v / 65536 % 256, v / 256 % 256, v % 256] := by
  simp only [be32, Nat.shiftRight_eq_div_pow]
  congr 1
  omega

theorem sub32_of_le (a b : Nat) (h : b ≤ a) (ha : a < 4294967296) : sub32 a b = a - b := by
  unfold sub32; omega

theorem encodeLoop_append (l : List Nat) : ∀ (i last : Nat) (buf : List Nat),
    encodeLoop l i last buf = buf ++ encodeLoop l i last [] := by
  induction l with
  | nil => intro i last buf; simp [encodeLoop]
  | cons o rest ih =>
    intro i last buf
    simp only [encodeLoop]
    split
    · exact ih _ _ _
    · split
      · rw [ih _ _ (buf ++ _ ++ _), ih _ _ ([] ++ _ ++ _)]; simp
      · rw [ih _ _ (buf ++ _), ih _ _ ([] ++ _)]; simp

theorem decodeFrom_cons_cons (prev b0 b1 : Nat) (rest : List Nat) :
    decodeFrom prev (b0 :: b1 :: rest) =
      if (b0 * 256 + b1) % 2 = 0 then
        (prev + (b0 * 256 + b1)) :: decodeFrom (prev + (b0 * 256 + b1)) rest
      else
        match rest with
        | c0 :: c1 :: c2 :: c3 :: rest2 =>
          (c0 * 16777216 + c1 * 65536 + c2 * 256 + c3) ::
            decodeFrom (c0 * 16777216 + c1 * 65536 + c2 * 256 + c3) rest2
        | _ => [] := by
  rcases rest with _ | ⟨c0, _ | ⟨c1, _ | ⟨c2, _ | ⟨c3, rest2⟩⟩⟩⟩ <;> simp [decodeFrom]

theorem decodeFrom_short (prev d : Nat) (tail : List Nat) (hd : d < 65536) (he : d % 2 = 0) :
    decodeFrom prev (be16 d ++ tail) = (prev + d) :: decodeFrom (prev + d) tail := by
  have hw : d / 256 * 256 + d % 256 = d := by omega
  rw [be16_eq d hd]
  show decodeFrom prev (d / 256 :: d % 256 :: tail) = _
  rw [decodeFrom_cons_cons]
  simp only [hw, he, if_true]

theorem decodeFrom_long (prev o : Nat) (tail : List Nat) (ho : o < 4294967296) :
    decodeFrom prev (be16 0x0001 ++ be32 o ++ tail) = o :: decodeFrom o tail := by
  have hw : o / 16777216 * 16777216 + o / 65536 % 256 * 65536 + o / 256 % 256 * 256 + o % 256 = o := by
    omega
  rw [be32_eq o ho]
  simp [be16, decodeFrom_cons_cons, hw]

theorem decode_encodeLoop (l : List Nat) : ∀ (i last : Nat),
    l.Sorted (· ≤ ·) → (∀ o ∈ l, o % 2 = 0 ∧ o < 4294967296) → last % 2 = 0 →
    (i = 0 → last = 0) → (∀ o ∈ l, last ≤ o) →
    (decodeFrom last (encodeLoop l i last [])).Sorted (· < ·) ∧
      ∀ x, x ∈ decodeFrom last (encodeLoop l i last []) ↔ x ∈ l ∧ (0 < i → x ≠ last) := by
  induction l with
  | nil =>
    intro i last _ _ _ _ _
    simp [encodeLoop, decodeFrom]
  | cons o rest ih =>
    intro i last hs hw hlast hi hle
    have ho := hw o (List.mem_cons_self _ _)
    have hlo : last ≤ o := hle o (List.mem_cons_self _ _)
    have hrest : ∀ x ∈ rest, o ≤ x := fun x hx => List.rel_of_sorted_cons hs x hx
    have hsr : rest.Sorted (· ≤ ·) := hs.of_cons
    have hwr : ∀ x ∈ rest, x % 2 = 0 ∧ x < 4294967296 :=
      fun x hx => hw x (List.mem_cons_of_mem _ hx)
    have hdelta : sub32 o last = o - last := sub32_of_le o last hlo ho.2
    simp only [encodeLoop, hdelta]
    by_cases hskip : o - last = 0 ∧ i > 0
    · -- duplicate of the previous offset: nothing is emitted
      rw [if_pos hskip]
      have heq : o = last := by omega
      subst heq
      obtain ⟨h1, h2⟩ := ih (i + 1) o hsr hwr hlast (by omega) hrest
      refine ⟨h1, fun x => ?_⟩
      rw [h2 x]
      constructor
      · rintro ⟨hx, hne⟩
        exact ⟨List.mem_cons_of_mem _ hx, fun _ => hne (by omega)⟩
      · rintro ⟨hx, hne⟩
        have hne2 := hne hskip.2
        rcases List.mem_cons.1 hx with h | h
        · exact absurd h hne2
        · exact ⟨h, fun _ => hne2⟩
    · rw [if_neg hskip]
      obtain ⟨h1, h2⟩ := ih (i + 1) o hsr hwr ho.1 (by omega) hrest
      have hdec : ∀ buf, decodeFrom last (encodeLoop rest (i + 1) o buf) =
          o :: decodeFrom o (encodeLoop rest (i + 1) o []) →
          (decodeFrom last (encodeLoop rest (i + 1) o buf)).Sorted (· < ·) ∧
          ∀ x, x ∈ decodeFrom last (encodeLoop rest (i + 1) o buf) ↔
            x ∈ o :: rest ∧ (0 < i → x ≠ last) := by
        intro buf hb
        rw [hb]
        refine ⟨List.sorted_cons.2 ⟨fun x hx => ?_, h1⟩, fun x => ?_⟩
        · have := (h2 x).1 hx
          have h3 := hrest x this.1
          have h4 := this.2 (by omega)
          omega
        · rw [List.mem_cons, h2 x, List.mem_cons]
          constructor
          · rintro (h | ⟨hx, hne⟩)
            · subst h
              exact ⟨Or.inl rfl, fun hi0 => by omega⟩
            · refine ⟨Or.inr hx, fun _ => ?_⟩
              have := hrest x hx
              have := hne (by omega)
              omega
          · rintro ⟨hx, _⟩
            by_cases hxo : x = o
            · exact Or.inl hxo
            · rcases hx with h | h
              · exact absurd h hxo
              · exact Or.inr ⟨h, fun _ => hxo⟩
      by_cases hlong : o - last > 0xFFFF ∨ ((o - last) &&& 0x10000) ≠ 0
      · rw [if_pos hlong]
        apply hdec
        rw [encodeLoop_append, List.nil_append, decodeFrom_long _ _ _ ho.2]
      · rw [if_neg hlong]
        apply hdec
        have hd : o - last < 65536 := by omega
        rw [encodeLoop_append, List.nil_append, Nat.mod_eq_of_lt hd,
          decodeFrom_short _ _ _ hd (by omega)]
        have : last + (o - last) = o := by omega
        rw [this]

theorem relocLe_iff (a b : Nat) : relocLe a b ↔ a ≤ b := by
  unfold relocLe relocCmp
  split
  · simp; omega
  · split
    · simp; omega
    · simp; omega

theorem relocLe_total : IsTotal Nat relocLe :=
  ⟨fun a b => by rw [relocLe_iff, relocLe_iff]; exact Nat.le_total a b⟩

theorem relocLe_trans : IsTrans Nat relocLe :=
  ⟨fun a b c => by rw [relocLe_iff, relocLe_iff, relocLe_iff]; exact Nat.le_trans⟩

theorem qsortRelocs_sorted (relocs : List Nat) : (qsortRelocs relocs).Sorted (· ≤ ·) :=
  (@List.sorted_insertionSort Nat relocLe _ relocLe_total relocLe_trans relocs).imp
    (fun h => (relocLe_iff _ _).1 h)

theorem qsortRelocs_perm (relocs : List Nat) : (qsortRelocs relocs).Perm relocs :=
  List.perm_insertionSort relocLe relocs

theorem mem_qsortRelocs (relocs : List Nat) (x : Nat) : x ∈ qsortRelocs relocs ↔ x ∈ relocs :=
  (qsortRelocs_perm relocs).mem_iff

/-- The bytes that the encoder loop stores for a strictly ascending list of
even 32-bit offsets decode to the list.  Whether the stores stay inside
`relBuf` is not looked at here: that is `buildRelBuf`. -/
theorem encodeRelocs_round_trip (relocs : List Nat)
    (hasc : relocs.Sorted (· < ·))
    (heven : ∀ o ∈ relocs, o % 2 = 0)
    (h32 : ∀ o ∈ relocs, o < 4294967296) :
    decodeRelocs (encodeRelocs relocs) = relocs := by
  have hle : relocs.Sorted (· ≤ ·) := hasc.imp (fun h => Nat.le_of_lt h)
  obtain ⟨h1, h2⟩ := decode_encodeLoop relocs 0 0 hle
    (fun o ho => ⟨heven o ho, h32 o ho⟩) rfl (fun _ => rfl) (fun o _ => Nat.zero_le o)
  have hperm : (decodeFrom 0 (encodeLoop relocs 0 0 [])).Perm relocs :=
    (List.perm_ext_iff_of_nodup h1.nodup hasc.nodup).2
      (fun x => by rw [h2 x]; simp)
  exact List.eq_of_perm_of_sorted hperm h1 hasc

/-- The bytes that the encoder loop stores for a sorted list of even 32-bit
offsets, given in any order and with repetitions, decode to a strictly
ascending list holding exactly the offsets of the input, each once.  Whether
the stores stay inside `relBuf` is not looked at here: that is
`buildRelBuf`. -/
theorem encodeRelocs_sorted_stream (relocs : List Nat)
    (heven : ∀ o ∈ relocs, o % 2 = 0)
    (h32 : ∀ o ∈ relocs, o < 4294967296) :
    (decodeRelocs (encodeRelocs (qsortRelocs relocs))).Sorted (· < ·) ∧
    (∀ x, x ∈ decodeRelocs (encodeRelocs (qsortRelocs relocs)) ↔ x ∈ relocs) ∧
    (∀ x ∈ relocs, (decodeRelocs (encodeRelocs (qsortRelocs relocs))).count x = 1) := by
  obtain ⟨h1, h2⟩ := decode_encodeLoop (qsortRelocs relocs) 0 0 (qsortRelocs_sorted relocs)
    (fun o ho => ⟨heven o ((mem_qsortRelocs relocs o).1 ho), h32 o ((mem_qsortRelocs relocs o).1 ho)⟩)
    rfl (fun _ => rfl) (fun o _ => Nat.zero_le o)
  have hmem : ∀ x, x ∈ decodeRelocs (encodeRelocs (qsortRelocs relocs)) ↔ x ∈ relocs := by
    intro x
    show x ∈ decodeFrom 0 (encodeLoop (qsortRelocs relocs) 0 0 []) ↔ _
    rw [h2 x, mem_qsortRelocs]
    simp
  exact ⟨h1, hmem, fun x hx => List.count_eq_one_of_mem h1.nodup ((hmem x).2 hx)⟩

/-- C2 (failing input): for the single offset 0xFFFF the delta is 0xFFFF, and
the encoder emits the short word FF FF, not the marker 00 01 followed by the
absolute offset; `elfDeltaFFFF` is an input file that leads `main` there, and
its output ends with the relocation table FF FF. -/
theorem short_form_at_delta_ffff :
    encodeRelocs [0xFFFF] = be16 0xFFFF ∧
    encodeRelocs [0xFFFF] ≠ be16 0x0001 ++ be32 0xFFFF ∧
    harvest elfDeltaFFFF hdrS1 clsS1 = Run.ok [0xFFFF] ∧
    main false elfDeltaFFFF =
      Run.ok (xHeader 0 8 0 0 2 0 ++ [0x4e, 0x71, 0x4e, 0x71, 0, 0, 0, 0] ++ [0xFF, 0xFF]) := by
  decide!

/-! ## Sequencing lemmas -/

@[simp] theorem Run.pure_eq {α : Type} (a : α) : (pure a : Run α) = Run.ok a := rfl

@[simp] theorem Run.ok_bind {α β : Type} (a : α) (f : α → Run β) : (Run.ok a >>= f) = f a := rfl

@[simp] theorem Run.exit1_bind {α β : Type} (d : Diag) (f : α → Run β) :
    (Run.exit1 d >>= f) = Run.exit1 d := rfl

@[simp] theorem Run.undefined_bind {α β : Type} (f : α → Run β) :
    ((Run.undefined : Run α) >>= f) = Run.undefined := rfl

theorem Run.bind_eq_ok {α β : Type} (x : Run α) (f : α → Run β) (b : β) :
    (x >>= f) = Run.ok b ↔ ∃ a, x = Run.ok a ∧ f a = Run.ok b := by
  cases x <;> simp

theorem failIf_eq_ok (c : Bool) (d : Diag) (u : Unit) : failIf c d = Run.ok u ↔ c = false := by
  unfold failIf; cases c <;> simp

/-! ## Image assembler -/

theorem memcpy_spec (dst : List Nat) (pos : Nat) (src : List Nat) (start n : Nat) (r : List Nat)
    (h : memcpy dst pos src start n = Run.ok r) :
    pos + n ≤ dst.length ∧ start + n ≤ src.length ∧ r.length = dst.length ∧
    ∀ k, r[k]? = if pos ≤ k ∧ k < pos + n then src[start + (k - pos)]? else dst[k]? := by
  unfold memcpy at h
  split at h
  · rename_i hb
    obtain ⟨hb1, hb2⟩ := hb
    have hr : r = dst.take pos ++ (src.drop start).take n ++ dst.drop (pos + n) := by
      injection h with h; exact h.symm
    subst hr
    refine ⟨hb1, hb2, ?_, fun k => ?_⟩
    · simp; omega
    · have hl1 : (dst.take pos).length = pos := by simp; omega
      have hl2 : ((src.drop start).take n).length = n := by simp; omega
      by_cases h1 : k < pos
      · rw [if_neg (by omega), List.append_assoc, List.getElem?_append_left (by omega),
          List.getElem?_take_of_lt h1]
      · by_cases h2 : k < pos + n
        · rw [if_pos ⟨by omega, h2⟩, List.getElem?_append_left (by simp; omega),
            List.getElem?_append_right (by omega), hl1,
            List.getElem?_take_of_lt (by omega), List.getElem?_drop]
        · rw [if_neg (by omega), List.getElem?_append_right (by simp; omega)]
          simp only [List.length_append, hl1, hl2, List.getElem?_drop]
          congr 1
          omega
  · exact absurd h (by simp)

theorem imageLoop_frame (elf : List Nat) (h : Ehdr) (c : Classes) (todo : List Nat) :
    ∀ (image image2 : List Nat), imageLoop elf h c todo image = Run.ok image2 →
    image2.length = image.length ∧
    ∀ p, (∀ k ∈ todo, ∀ o2 f2 n2, placement elf h c k = Run.ok (some (o2, f2, n2)) →
        ¬(o2 ≤ p ∧ p < o2 + n2)) → image2[p]? = image[p]? := by
  induction todo with
  | nil =>
    intro image image2 hrun
    simp only [imageLoop, Run.ok.injEq] at hrun
    subst hrun
    exact ⟨rfl, fun _ _ => rfl⟩
  | cons i todo ih =>
    intro image image2 hrun
    simp only [imageLoop] at hrun
    obtain ⟨p, hp, hrun⟩ := (Run.bind_eq_ok _ _ _).1 hrun
    rcases p with _ | ⟨o, f, n⟩
    · obtain ⟨h1, h2⟩ := ih image image2 hrun
      exact ⟨h1, fun q hq => h2 q (fun k hk => hq k (List.mem_cons_of_mem _ hk))⟩
    · simp only at hrun
      split at hrun
      · exact absurd hrun (by simp)
      · obtain ⟨img, hm, hrun⟩ := (Run.bind_eq_ok _ _ _).1 hrun
        obtain ⟨_, _, hlen, hget⟩ := memcpy_spec _ _ _ _ _ _ hm
        obtain ⟨h1, h2⟩ := ih img image2 hrun
        refine ⟨h1.trans hlen, fun q hq => ?_⟩
        rw [h2 q (fun k hk => hq k (List.mem_cons_of_mem _ hk)), hget q,
          if_neg (hq i (List.mem_cons_self _ _) o f n hp)]

theorem imageLoop_copied (elf : List Nat) (h : Ehdr) (c : Classes) (todo : List Nat) :
    ∀ (image image2 : List Nat), imageLoop elf h c todo image = Run.ok image2 →
    todo.Sorted (· < ·) →
    ∀ i ∈ todo, ∀ imgOffset offset size,
      placement elf h c i = Run.ok (some (imgOffset, offset, size)) →
      (∀ k ∈ todo, i < k → ∀ o2 f2 n2, placement elf h c k = Run.ok (some (o2, f2, n2)) →
        o2 + n2 ≤ imgOffset ∨ imgOffset + size ≤ o2) →
      ∀ k < size, image2[imgOffset + k]? = elf[offset + k]? ∧ offset + k < elf.length ∧
        imgOffset + k < image2.length := by
  induction todo with
  | nil => intro _ _ _ _ i hi; exact absurd hi (List.not_mem_nil i)
  | cons j todo ih =>
    intro image image2 hrun hsorted i hi imgOffset offset size hpl hlater k hk
    have hjlt : ∀ x ∈ todo, j < x := fun x hx => List.rel_of_sorted_cons hsorted x hx
    simp only [imageLoop] at hrun
    obtain ⟨p, hp, hrun⟩ := (Run.bind_eq_ok _ _ _).1 hrun
    rcases List.mem_cons.1 hi with hij | hmem
    · subst hij
      rw [hpl] at hp
      injection hp with hp
      subst hp
      simp only at hrun
      split at hrun
      · exact absurd hrun (by simp)
      · obtain ⟨img, hm, hrun⟩ := (Run.bind_eq_ok _ _ _).1 hrun
        obtain ⟨hb1, hb2, hlen, hget⟩ := memcpy_spec _ _ _ _ _ _ hm
        obtain ⟨h1, h2⟩ := imageLoop_frame elf h c todo img image2 hrun
        have hfr := h2 (imgOffset + k) (fun x hx o2 f2 n2 hx2 => by
          have := hlater x (List.mem_cons_of_mem _ hx) (hjlt x hx) o2 f2 n2 hx2
          omega)
        rw [hfr, hget, if_pos ⟨by omega, by omega⟩]
        refine ⟨?_, by omega, by omega⟩
        congr 1
        omega
    · have hl2 : ∀ x ∈ todo, i < x → ∀ o2 f2 n2,
          placement elf h c x = Run.ok (some (o2, f2, n2)) →
          o2 + n2 ≤ imgOffset ∨ imgOffset + size ≤ o2 :=
        fun x hx => hlater x (List.mem_cons_of_mem _ hx)
      rcases p with _ | ⟨o, f, n⟩
      · exact ih image image2 hrun hsorted.of_cons i hmem imgOffset offset size hpl hl2 k hk
      · simp only at hrun
        split at hrun
        · exact absurd hrun (by simp)
        · obtain ⟨img, hm, hrun⟩ := (Run.bind_eq_ok _ _ _).1 hrun
          exact ih img image2 hrun hsorted.of_cons i hmem imgOffset offset size hpl hl2 k hk

/-- C4 (counterexample): `elfOverlap` converts successfully and its section 1 is
a contributing text section of 4 bytes placed at image offset 0 from file
offset 52, yet the image holds the bytes of section 2 there, not the bytes
AA AA AA AA of section 1. -/
theorem image_layout_fails_on_overlap :
    validateHeader elfOverlap = Run.ok hdrOverlap ∧
    classify elfOverlap hdrOverlap = Run.ok clsOverlap ∧
    placement elfOverlap hdrOverlap clsOverlap 1 = Run.ok (some (0, 52, 4)) ∧
    buildImage elfOverlap hdrOverlap clsOverlap = Run.ok [0xBB, 0xBB, 0xBB, 0xBB] ∧
    main false elfOverlap = Run.ok (xHeader 0 4 0 0 0 0 ++ [0xBB, 0xBB, 0xBB, 0xBB]) ∧
    (elfOverlap.drop 52).take 4 = [0xAA, 0xAA, 0xAA, 0xAA] := by
  decide!

/-- C4 (amended): when the image is built, every contributing section `i`
(placed at `imgOffset`, which is `vaddr - textStart` for text and
`textSize + (vaddr - dataStart)` otherwise, in 32-bit arithmetic) whose image
range is not overlapped by the range of a contributing section with a larger
index has its `size` bytes in the image equal to the `size` file bytes at
`sh_offset`. -/
theorem image_layout_without_later_overlap (elf : List Nat) (h : Ehdr) (c : Classes)
    (image : List Nat) (hbuild : buildImage elf h c = Run.ok image)
    (i : Nat) (hi : i < h.shnum) (imgOffset offset size : Nat)
    (hplace : placement elf h c i = Run.ok (some (imgOffset, offset, size)))
    (hlater : ∀ k, i < k → k < h.shnum → ∀ o2 f2 n2,
      placement elf h c k = Run.ok (some (o2, f2, n2)) →
      o2 + n2 ≤ imgOffset ∨ imgOffset + size ≤ o2) :
    (∃ type vaddr, shField elf h i 4 = Run.ok type ∧ type ≠ SHT_NOBITS ∧
      c.sectionType.getD i 0 ≠ 0 ∧
      shField elf h i 12 = Run.ok vaddr ∧ shField elf h i 16 = Run.ok offset ∧
      shField elf h i 20 = Run.ok size ∧
      imgOffset = if c.sectionType.getD i 0 = 1 then sub32 vaddr c.textStart
        else add32 c.textSize (sub32 vaddr c.dataStart)) ∧
    ∀ k < size, image[imgOffset + k]? = elf[offset + k]? ∧ offset + k < elf.length ∧
      imgOffset + k < image.length := by
  constructor
  · unfold placement at hplace
    obtain ⟨type, ht, hplace⟩ := (Run.bind_eq_ok _ _ _).1 hplace
    split at hplace
    · exact absurd hplace (by simp)
    · rename_i hcond
      obtain ⟨addr, ha, hplace⟩ := (Run.bind_eq_ok _ _ _).1 hplace
      obtain ⟨off, ho, hplace⟩ := (Run.bind_eq_ok _ _ _).1 hplace
      obtain ⟨sz, hs, hplace⟩ := (Run.bind_eq_ok _ _ _).1 hplace
      simp only [Run.pure_eq, Run.ok.injEq, Option.some.injEq, Prod.mk.injEq] at hplace
      obtain ⟨h1, h2, h3⟩ := hplace
      subst h2 h3
      exact ⟨type, addr, ht, fun hh => hcond (Or.inr hh), fun hh => hcond (Or.inl hh),
        ha, ho, hs, h1.symm⟩
  · exact imageLoop_copied elf h c (List.range h.shnum) _ image hbuild
      (List.sorted_lt_range h.shnum) i (List.mem_range.2 hi) imgOffset offset size hplace
      (fun k hk hik => hlater k hik (List.mem_range.1 hk))

/-- C4 (amended) applied to section 1 of `elfS1`: its 8 bytes at file offset
52 are the 8 image bytes at offset 0. -/
theorem image_layout_without_later_overlap_witness :
    (∃ type vaddr, shField elfS1 hdrS1 1 4 = Run.ok type ∧ type ≠ SHT_NOBITS ∧
      clsS1.sectionType.getD 1 0 ≠ 0 ∧
      shField elfS1 hdrS1 1 12 = Run.ok vaddr ∧ shField elfS1 hdrS1 1 16 = Run.ok 52 ∧
      shField elfS1 hdrS1 1 20 = Run.ok 8 ∧
      0 = if clsS1.sectionType.getD 1 0 = 1 then sub32 vaddr clsS1.textStart
        else add32 clsS1.textSize (sub32 vaddr clsS1.dataStart)) ∧
    ∀ k < 8, [0x4e, 0x71, 0x4e, 0x71, 0, 0, 0, 0][0 + k]? = elfS1[52 + k]? ∧
      52 + k < elfS1.length ∧ 0 + k < [0x4e, 0x71, 0x4e, 0x71, 0, 0, 0, 0].length :=
  image_layout_without_later_overlap elfS1 hdrS1 clsS1 [0x4e, 0x71, 0x4e, 0x71, 0, 0, 0, 0]
    (by decide!) 1 (by decide) 0 52 8 (by decide!)
    (fun k h1 h2 => by
      have hk : k = 2 ∨ k = 3 ∨ k = 4 := by
        simp only [hdrS1] at h2
        omega
      have hnone : placement elfS1 hdrS1 clsS1 k = Run.ok none := by
        rcases hk with hk | hk | hk <;> subst hk <;> decide!
      intro o2 f2 n2 hp
      rw [hnone] at hp
      exact absurd hp (by simp))

/-! ## Section classifier -/

theorem classifyStep_sectionType (c : Classes) (i flags type addr size : Nat) :
    (classifyStep c i flags type addr size).sectionType =
      if flags &&& SHF_ALLOC = 0 ∨ size = 0 then c.sectionType
      else c.sectionType.set i
        (if type = SHT_NOBITS then 3 else if flags &&& SHF_EXECINSTR ≠ 0 then 1 else 2) := by
  unfold classifyStep
  by_cases h1 : flags &&& SHF_ALLOC = 0
  · simp [h1]
  · by_cases h2 : size = 0
    · simp [h1, h2]
    · by_cases h3 : type = SHT_NOBITS
      · simp [h1, h2, h3]
      · by_cases h4 : flags &&& SHF_EXECINSTR = 0 <;> simp [h1, h2, h3, h4]

theorem classifyStep_textStart (c : Classes) (i flags type addr size : Nat) :
    (classifyStep c i flags type addr size).textStart = c.textStart ∨
    (¬(flags &&& SHF_ALLOC = 0 ∨ size = 0) ∧ type ≠ SHT_NOBITS ∧ flags &&& SHF_EXECINSTR ≠ 0) := by
  unfold classifyStep
  by_cases h1 : flags &&& SHF_ALLOC = 0
  · simp [h1]
  · by_cases h2 : size = 0
    · simp [h1, h2]
    · by_cases h3 : type = SHT_NOBITS
      · simp [h1, h2, h3]
      · by_cases h4 : flags &&& SHF_EXECINSTR = 0
        · simp [h1, h2, h3, h4]
        · exact Or.inr ⟨by simp [h1, h2], h3, h4⟩

theorem getD_set_self (l : List Nat) (i v : Nat) (hi : i < l.length) : (l.set i v).getD i 0 = v := by
  simp [List.getD_eq_getElem?_getD, List.getElem?_set, hi]

theorem getD_set_other (l : List Nat) (i j v : Nat) (hij : i ≠ j) :
    (l.set i v).getD j 0 = l.getD j 0 := by
  simp [List.getD_eq_getElem?_getD, List.getElem?_set, hij]

theorem classifyLoop_spec (elf : List Nat) (h : Ehdr) (todo : List Nat) :
    ∀ (c c2 : Classes), classifyLoop elf h todo c = Run.ok c2 → todo.Nodup →
    (∀ i ∈ todo, i < c.sectionType.length) →
    c2.sectionType.length = c.sectionType.length ∧
    (∀ i, i ∉ todo → c2.sectionType.getD i 0 = c.sectionType.getD i 0) ∧
    (∀ i ∈ todo, ∃ flags type size, shField elf h i 8 = Run.ok flags ∧
      shField elf h i 4 = Run.ok type ∧ shField elf h i 20 = Run.ok size ∧
      c2.sectionType.getD i 0 =
        if flags &&& SHF_ALLOC = 0 ∨ size = 0 then c.sectionType.getD i 0
        else if type = SHT_NOBITS then 3 else if flags &&& SHF_EXECINSTR ≠ 0 then 1 else 2) ∧
    (c2.textStart = c.textStart ∨ ∃ i ∈ todo, c2.sectionType.getD i 0 = 1) := by
  induction todo with
  | nil =>
    intro c c2 hrun _ _
    simp only [classifyLoop, Run.ok.injEq] at hrun
    subst hrun
    simp
  | cons i todo ih =>
    intro c c2 hrun hnd hlt
    simp only [classifyLoop] at hrun
    obtain ⟨flags, hf, hrun⟩ := (Run.bind_eq_ok _ _ _).1 hrun
    obtain ⟨type, ht, hrun⟩ := (Run.bind_eq_ok _ _ _).1 hrun
    obtain ⟨addr, _, hrun⟩ := (Run.bind_eq_ok _ _ _).1 hrun
    obtain ⟨size, hs, hrun⟩ := (Run.bind_eq_ok _ _ _).1 hrun
    obtain ⟨_, _, hrun⟩ := (Run.bind_eq_ok _ _ _).1 hrun
    have hi : i < c.sectionType.length := hlt i (List.mem_cons_self _ _)
    have hinot : i ∉ todo := (List.nodup_cons.1 hnd).1
    have hlen1 : (classifyStep c i flags type addr size).sectionType.length =
        c.sectionType.length := by
      rw [classifyStep_sectionType]; split <;> simp
    have hself : (classifyStep c i flags type addr size).sectionType.getD i 0 =
        if flags &&& SHF_ALLOC = 0 ∨ size = 0 then c.sectionType.getD i 0
        else if type = SHT_NOBITS then 3 else if flags &&& SHF_EXECINSTR ≠ 0 then 1 else 2 := by
      rw [classifyStep_sectionType]
      split
      · rfl
      · exact getD_set_self _ _ _ hi
    have hother : ∀ j, j ≠ i → (classifyStep c i flags type addr size).sectionType.getD j 0 =
        c.sectionType.getD j 0 := by
      intro j hj
      rw [classifyStep_sectionType]
      split
      · rfl
      · exact getD_set_other _ _ _ _ (fun hh => hj hh.symm)
    obtain ⟨h1, h2, h3, h4⟩ := ih _ c2 hrun (List.nodup_cons.1 hnd).2
      (fun j hj => by rw [hlen1]; exact hlt j (List.mem_cons_of_mem _ hj))
    refine ⟨h1.trans hlen1, ?_, ?_, ?_⟩
    · intro j hj
      have hji : j ≠ i := fun hh => hj (hh ▸ List.mem_cons_self _ _)
      rw [h2 j (fun hh => hj (List.mem_cons_of_mem _ hh)), hother j hji]
    · intro j hj
      rcases List.mem_cons.1 hj with hji | hjt
      · subst hji
        exact ⟨flags, type, size, hf, ht, hs, by rw [h2 j hinot, hself]⟩
      · obtain ⟨f2, t2, s2, e1, e2, e3, e4⟩ := h3 j hjt
        have hji : j ≠ i := fun hh => hinot (hh ▸ hjt)
        exact ⟨f2, t2, s2, e1, e2, e3, by rw [e4, hother j hji]⟩
    · rcases h4 with h4 | ⟨j, hj, h4⟩
      · rcases classifyStep_textStart c i flags type addr size with h5 | ⟨h5, h6, h7⟩
        · exact Or.inl (h4.trans h5)
        · refine Or.inr ⟨i, List.mem_cons_self _ _, ?_⟩
          rw [h2 i hinot, hself, if_neg h5, if_neg h6, if_pos h7]
      · exact Or.inr ⟨j, List.mem_cons_of_mem _ hj, h4⟩

theorem classify_spec (elf : List Nat) (h : Ehdr) (c : Classes)
    (hc : classify elf h = Run.ok c) :
    c.sectionType.length = h.shnum ∧
    (∀ i, i < h.shnum → ∃ flags type size, shField elf h i 8 = Run.ok flags ∧
      shField elf h i 4 = Run.ok type ∧ shField elf h i 20 = Run.ok size ∧
      c.sectionType.getD i 0 =
        if flags &&& SHF_ALLOC = 0 ∨ size = 0 then 0
        else if type = SHT_NOBITS then 3 else if flags &&& SHF_EXECINSTR ≠ 0 then 1 else 2) ∧
    (c.textStart = 0xFFFFFFFF ∨ ∃ i, i < h.shnum ∧ c.sectionType.getD i 0 = 1) := by
  unfold classify at hc
  obtain ⟨_, _, hc⟩ := (Run.bind_eq_ok _ _ _).1 hc
  obtain ⟨h1, _, h3, h4⟩ := classifyLoop_spec elf h (List.range h.shnum) _ c hc
    (List.nodup_range _) (fun i hi => by simpa [Classes.init] using hi)
  refine ⟨by simpa [Classes.init] using h1, fun i hi => ?_, ?_⟩
  · obtain ⟨f, t, s, e1, e2, e3, e4⟩ := h3 i (List.mem_range.2 hi)
    refine ⟨f, t, s, e1, e2, e3, ?_⟩
    rw [e4]
    simp [Classes.init, List.getD_eq_getElem?_getD]
  · rcases h4 with h4 | ⟨i, hi, h4⟩
    · exact Or.inl (by simpa [Classes.init] using h4)
    · exact Or.inr ⟨i, List.mem_range.1 hi, h4⟩

/-- C6: after the classifier has run, the class of every section `i` is none
(0) when the ALLOC flag is clear or the size is 0, and otherwise bss (3) for
type NOBITS, text (1) for other types with EXECINSTR, data (2) for the rest; so
a section has one of the classes text, data, bss exactly when it is allocated
and not empty. -/
theorem section_classification (elf : List Nat) (h : Ehdr) (c : Classes)
    (hc : classify elf h = Run.ok c) (i : Nat) (hi : i < h.shnum) :
    ∃ flags type size, shField elf h i 8 = Run.ok flags ∧
      shField elf h i 4 = Run.ok type ∧ shField elf h i 20 = Run.ok size ∧
      (flags &&& SHF_ALLOC = 0 ∨ size = 0 → c.sectionType.getD i 0 = 0) ∧
      (flags &&& SHF_ALLOC ≠ 0 → size ≠ 0 →
        (type = SHT_NOBITS → c.sectionType.getD i 0 = 3) ∧
        (type ≠ SHT_NOBITS → flags &&& SHF_EXECINSTR ≠ 0 → c.sectionType.getD i 0 = 1) ∧
        (type ≠ SHT_NOBITS → flags &&& SHF_EXECINSTR = 0 → c.sectionType.getD i 0 = 2)) ∧
      ((c.sectionType.getD i 0 = 1 ∨ c.sectionType.getD i 0 = 2 ∨ c.sectionType.getD i 0 = 3) ↔
        (flags &&& SHF_ALLOC ≠ 0 ∧ size ≠ 0)) ∧
      (c.sectionType.getD i 0 = 0 ↔ (flags &&& SHF_ALLOC = 0 ∨ size = 0)) := by
  obtain ⟨f, t, s, e1, e2, e3, e4⟩ := (classify_spec elf h c hc).2.1 i hi
  refine ⟨f, t, s, e1, e2, e3, ?_, ?_, ?_, ?_⟩
  · intro h0
    rw [e4, if_pos h0]
  · intro ha hs
    have hn : ¬(f &&& SHF_ALLOC = 0 ∨ s = 0) := by
      rintro (h0 | h0)
      · exact ha h0
      · exact hs h0
    rw [e4, if_neg hn]
    refine ⟨fun ht => by rw [if_pos ht], fun ht hx => by rw [if_neg ht, if_pos hx],
      fun ht hx => by rw [if_neg ht, if_neg (by simpa using hx)]⟩
  · rw [e4]
    by_cases h0 : f &&& SHF_ALLOC = 0 ∨ s = 0
    · rw [if_pos h0]
      constructor
      · intro hh; omega
      · rintro ⟨ha, hs⟩
        rcases h0 with h0 | h0
        · exact absurd h0 ha
        · exact absurd h0 hs
    · rw [if_neg h0]
      constructor
      · intro _
        exact ⟨fun hh => h0 (Or.inl hh), fun hh => h0 (Or.inr hh)⟩
      · intro _
        split
        · exact Or.inr (Or.inr rfl)
        · split
          · exact Or.inl rfl
          · exact Or.inr (Or.inl rfl)
  · rw [e4]
    by_cases h0 : f &&& SHF_ALLOC = 0 ∨ s = 0
    · rw [if_pos h0]
      exact ⟨fun _ => h0, fun _ => rfl⟩
    · rw [if_neg h0]
      constructor
      · intro hh
        split at hh
        · omega
        · split at hh <;> omega
      · intro hh
        exact absurd hh h0

/-- C6 applied to section 1 of `elfS1` (allocated, executable, 8 bytes). -/
theorem section_classification_witness :
    ∃ flags type size, shField elfS1 hdrS1 1 8 = Run.ok flags ∧
      shField elfS1 hdrS1 1 4 = Run.ok type ∧ shField elfS1 hdrS1 1 20 = Run.ok size ∧
      (flags &&& SHF_ALLOC = 0 ∨ size = 0 → clsS1.sectionType.getD 1 0 = 0) ∧
      (flags &&& SHF_ALLOC ≠ 0 → size ≠ 0 →
        (type = SHT_NOBITS → clsS1.sectionType.getD 1 0 = 3) ∧
        (type ≠ SHT_NOBITS → flags &&& SHF_EXECINSTR ≠ 0 → clsS1.sectionType.getD 1 0 = 1) ∧
        (type ≠ SHT_NOBITS → flags &&& SHF_EXECINSTR = 0 → clsS1.sectionType.getD 1 0 = 2)) ∧
      ((clsS1.sectionType.getD 1 0 = 1 ∨ clsS1.sectionType.getD 1 0 = 2 ∨
          clsS1.sectionType.getD 1 0 = 3) ↔ (flags &&& SHF_ALLOC ≠ 0 ∧ size ≠ 0)) ∧
      (clsS1.sectionType.getD 1 0 = 0 ↔ (flags &&& SHF_ALLOC = 0 ∨ size = 0)) :=
  section_classification elfS1 hdrS1 clsS1 (by decide!) 1 (by decide)

/-! ## Input validation -/

theorem load8_of_lt (mem : List Nat) (p : Nat) (hp : p < mem.length) :
    ∃ b, load8 mem p = Run.ok b ∧ b < 256 := by
  unfold load8
  rw [List.getElem?_eq_getElem hp]
  exact ⟨_, rfl, Nat.mod_lt _ (by decide)⟩

theorem read_be16_of_lt (mem : List Nat) (p : Nat) (hp : p + 1 < mem.length) :
    ∃ v, read_be16 mem p = Run.ok v := by
  obtain ⟨b0, h0, _⟩ := load8_of_lt mem p (by omega)
  obtain ⟨b1, h1, _⟩ := load8_of_lt mem (p + 1) hp
  exact ⟨(b0 <<< 8) ||| b1, by simp [read_be16, h0, h1]⟩

theorem read_be32_of_lt (mem : List Nat) (p : Nat) (hp : p + 3 < mem.length) :
    ∃ v, read_be32 mem p = Run.ok v := by
  obtain ⟨b0, h0, _⟩ := load8_of_lt mem p (by omega)
  obtain ⟨b1, h1, _⟩ := load8_of_lt mem (p + 1) (by omega)
  obtain ⟨b2, h2, _⟩ := load8_of_lt mem (p + 2) (by omega)
  obtain ⟨b3, h3, _⟩ := load8_of_lt mem (p + 3) hp
  exact ⟨(b0 <<< 24) ||| (b1 <<< 16) ||| (b2 <<< 8) ||| b3,
    by simp [read_be32, h0, h1, h2, h3]⟩

theorem load8_lt (mem : List Nat) (p b : Nat) (h : load8 mem p = Run.ok b) : b < 256 := by
  unfold load8 at h
  split at h
  · injection h with h
    subst h
    exact Nat.mod_lt _ (by decide)
  · exact absurd h (by simp)

theorem read_be16_lt (mem : List Nat) (p v : Nat) (h : read_be16 mem p = Run.ok v) :
    v < 65536 := by
  unfold read_be16 at h
  obtain ⟨b0, h0, h⟩ := (Run.bind_eq_ok _ _ _).1 h
  obtain ⟨b1, h1, h⟩ := (Run.bind_eq_ok _ _ _).1 h
  simp only [Run.pure_eq, Run.ok.injEq] at h
  subst h
  have hb0 := load8_lt _ _ _ h0
  have hb1 := load8_lt _ _ _ h1
  have e0 : b0 <<< 8 < 2 ^ 16 := by rw [Nat.shiftLeft_eq]; omega
  exact Nat.or_lt_two_pow e0 (by omega)

theorem read_be32_lt (mem : List Nat) (p v : Nat) (h : read_be32 mem p = Run.ok v) :
    v < 4294967296 := by
  unfold read_be32 at h
  obtain ⟨b0, h0, h⟩ := (Run.bind_eq_ok _ _ _).1 h
  obtain ⟨b1, h1, h⟩ := (Run.bind_eq_ok _ _ _).1 h
  obtain ⟨b2, h2, h⟩ := (Run.bind_eq_ok _ _ _).1 h
  obtain ⟨b3, h3, h⟩ := (Run.bind_eq_ok _ _ _).1 h
  simp only [Run.pure_eq, Run.ok.injEq] at h
  subst h
  have hb0 := load8_lt _ _ _ h0
  have hb1 := load8_lt _ _ _ h1
  have hb2 := load8_lt _ _ _ h2
  have hb3 := load8_lt _ _ _ h3
  have e0 : b0 <<< 24 < 2 ^ 32 := by rw [Nat.shiftLeft_eq]; omega
  have e1 : b1 <<< 16 < 2 ^ 32 := by rw [Nat.shiftLeft_eq]; omega
  have e2 : b2 <<< 8 < 2 ^ 32 := by rw [Nat.shiftLeft_eq]; omega
  exact Nat.or_lt_two_pow (Nat.or_lt_two_pow (Nat.or_lt_two_pow e0 e1) e2) (by omega)

theorem validateHeader_exit1 (elf : List Nat) (hlen : 52 ≤ elf.length)
    (hbad : load8 elf 0 ≠ Run.ok 0x7F ∨ load8 elf 1 ≠ Run.ok 0x45 ∨
      load8 elf 2 ≠ Run.ok 0x4C ∨ load8 elf 3 ≠ Run.ok 0x46 ∨
      load8 elf 4 ≠ Run.ok 1 ∨ load8 elf 5 ≠ Run.ok 2 ∨
      read_be16 elf 18 ≠ Run.ok 4 ∨ read_be32 elf 32 = Run.ok 0 ∨
      read_be16 elf 48 = Run.ok 0) :
    ∃ d, validateHeader elf = Run.exit1 d := by
  obtain ⟨m0, hm0, _⟩ := load8_of_lt elf 0 (by omega)
  obtain ⟨m1, hm1, _⟩ := load8_of_lt elf 1 (by omega)
  obtain ⟨m2, hm2, _⟩ := load8_of_lt elf 2 (by omega)
  obtain ⟨m3, hm3, _⟩ := load8_of_lt elf 3 (by omega)
  obtain ⟨cls, hcls, _⟩ := load8_of_lt elf 4 (by omega)
  obtain ⟨dat, hdat, _⟩ := load8_of_lt elf 5 (by omega)
  obtain ⟨machine, hmach⟩ := read_be16_of_lt elf 18 (by omega)
  obtain ⟨entry, hentry⟩ := read_be32_of_lt elf 24 (by omega)
  obtain ⟨shoff, hshoff⟩ := read_be32_of_lt elf 32 (by omega)
  obtain ⟨shentsize, hshentsize⟩ := read_be16_of_lt elf 46 (by omega)
  obtain ⟨shnum, hshnum⟩ := read_be16_of_lt elf 48 (by omega)
  obtain ⟨shstrndx, hshstrndx⟩ := read_be16_of_lt elf 50 (by omega)
  simp only [hm0, hm1, hm2, hm3, hcls, hdat, hmach, hshoff, hshnum, ne_eq, Run.ok.injEq] at hbad
  simp only [validateHeader, hm0, hm1, hm2, hm3, hcls, hdat, hmach, hentry, hshoff, hshentsize,
    hshnum, hshstrndx, Run.ok_bind, failIf, ELFMAG0, ELFMAG1, ELFMAG2, ELFMAG3, ELFCLASS32,
    ELFDATA2MSB, EM_68K]
  by_cases h0 : m0 = 0x7F
  · by_cases h1 : m1 = 0x45
    · by_cases h2 : m2 = 0x4C
      · by_cases h3 : m3 = 0x46
        · by_cases h4 : cls = 1
          · by_cases h5 : dat = 2
            · by_cases h6 : machine = 4
              · by_cases h7 : shoff = 0
                · simp [h0, h1, h2, h3, h4, h5, h6, h7]
                · by_cases h8 : shnum = 0
                  · simp [h0, h1, h2, h3, h4, h5, h6, h7, h8]
                  · exact absurd hbad (by simp [h0, h1, h2, h3, h4, h5, h6, h7, h8])
              · simp [h0, h1, h2, h3, h4, h5, h6]
            · simp [h0, h1, h2, h3, h4, h5]
          · simp [h0, h1, h2, h3, h4]
        · simp [h0, h1, h2, h3]
      · simp [h0, h1, h2]
    · simp [h0, h1]
  · simp [h0]

theorem validateHeader_ok_spec (elf : List Nat) (h : Ehdr)
    (hh : validateHeader elf = Run.ok h) :
    load8 elf 0 = Run.ok 0x7F ∧ load8 elf 1 = Run.ok 0x45 ∧ load8 elf 2 = Run.ok 0x4C ∧
    load8 elf 3 = Run.ok 0x46 ∧ load8 elf 4 = Run.ok 1 ∧ load8 elf 5 = Run.ok 2 ∧
    read_be16 elf 18 = Run.ok 4 ∧ read_be32 elf 24 = Run.ok h.entryPoint ∧
    read_be32 elf 32 = Run.ok h.shoff ∧ read_be16 elf 46 = Run.ok h.shentsize ∧
    read_be16 elf 48 = Run.ok h.shnum ∧ read_be16 elf 50 = Run.ok h.shstrndx ∧
    h.shoff ≠ 0 ∧ h.shnum ≠ 0 := by
  unfold validateHeader at hh
  obtain ⟨m0, h0, hh⟩ := (Run.bind_eq_ok _ _ _).1 hh
  obtain ⟨_, f0, hh⟩ := (Run.bind_eq_ok _ _ _).1 hh
  obtain ⟨m1, h1, hh⟩ := (Run.bind_eq_ok _ _ _).1 hh
  obtain ⟨_, f1, hh⟩ := (Run.bind_eq_ok _ _ _).1 hh
  obtain ⟨m2, h2, hh⟩ := (Run.bind_eq_ok _ _ _).1 hh
  obtain ⟨_, f2, hh⟩ := (Run.bind_eq_ok _ _ _).1 hh
  obtain ⟨m3, h3, hh⟩ := (Run.bind_eq_ok _ _ _).1 hh
  obtain ⟨_, f3, hh⟩ := (Run.bind_eq_ok _ _ _).1 hh
  obtain ⟨cls, h4, hh⟩ := (Run.bind_eq_ok _ _ _).1 hh
  obtain ⟨_, f4, hh⟩ := (Run.bind_eq_ok _ _ _).1 hh
  obtain ⟨dat, h5, hh⟩ := (Run.bind_eq_ok _ _ _).1 hh
  obtain ⟨_, f5, hh⟩ := (Run.bind_eq_ok _ _ _).1 hh
  obtain ⟨machine, h6, hh⟩ := (Run.bind_eq_ok _ _ _).1 hh
  obtain ⟨_, f6, hh⟩ := (Run.bind_eq_ok _ _ _).1 hh
  obtain ⟨entry, h7, hh⟩ := (Run.bind_eq_ok _ _ _).1 hh
  obtain ⟨shoff, h8, hh⟩ := (Run.bind_eq_ok _ _ _).1 hh
  obtain ⟨shentsize, h9, hh⟩ := (Run.bind_eq_ok _ _ _).1 hh
  obtain ⟨shnum, h10, hh⟩ := (Run.bind_eq_ok _ _ _).1 hh
  obtain ⟨shstrndx, h11, hh⟩ := (Run.bind_eq_ok _ _ _).1 hh
  obtain ⟨_, f7, hh⟩ := (Run.bind_eq_ok _ _ _).1 hh
  simp only [Run.pure_eq, Run.ok.injEq] at hh
  subst hh
  have g0 := (failIf_eq_ok _ _ _).1 f0
  have g1 := (failIf_eq_ok _ _ _).1 f1
  have g2 := (failIf_eq_ok _ _ _).1 f2
  have g3 := (failIf_eq_ok _ _ _).1 f3
  have g4 := (failIf_eq_ok _ _ _).1 f4
  have g5 := (failIf_eq_ok _ _ _).1 f5
  have g6 := (failIf_eq_ok _ _ _).1 f6
  have g7 := (failIf_eq_ok _ _ _).1 f7
  simp only [bne_eq_false_iff_eq, ELFMAG0, ELFMAG1, ELFMAG2, ELFMAG3, ELFCLASS32, ELFDATA2MSB,
    EM_68K] at g0 g1 g2 g3 g4 g5 g6
  simp only [Bool.or_eq_false_iff, beq_eq_false_iff_ne, ne_eq] at g7
  subst g0 g1 g2 g3 g4 g5 g6
  exact ⟨h0, h1, h2, h3, h4, h5, h6, h7, h8, h9, h10, h11, g7.1, g7.2⟩

theorem validateHeader_defined (elf : List Nat) (hlen : 52 ≤ elf.length) :
    validateHeader elf ≠ Run.undefined := by
  intro hu
  by_cases hbad : load8 elf 0 ≠ Run.ok 0x7F ∨ load8 elf 1 ≠ Run.ok 0x45 ∨
      load8 elf 2 ≠ Run.ok 0x4C ∨ load8 elf 3 ≠ Run.ok 0x46 ∨
      load8 elf 4 ≠ Run.ok 1 ∨ load8 elf 5 ≠ Run.ok 2 ∨
      read_be16 elf 18 ≠ Run.ok 4 ∨ read_be32 elf 32 = Run.ok 0 ∨
      read_be16 elf 48 = Run.ok 0
  · obtain ⟨d, hd⟩ := validateHeader_exit1 elf hlen hbad
    rw [hd] at hu
    exact absurd hu (by simp)
  · simp only [not_or, not_not] at hbad
    obtain ⟨b0, b1, b2, b3, b4, b5, b6, b7, b8⟩ := hbad
    obtain ⟨entry, hentry⟩ := read_be32_of_lt elf 24 (by omega)
    obtain ⟨shoff, hshoff⟩ := read_be32_of_lt elf 32 (by omega)
    obtain ⟨shentsize, hshentsize⟩ := read_be16_of_lt elf 46 (by omega)
    obtain ⟨shnum, hshnum⟩ := read_be16_of_lt elf 48 (by omega)
    obtain ⟨shstrndx, hshstrndx⟩ := read_be16_of_lt elf 50 (by omega)
    have e1 : shoff ≠ 0 := fun hz => b7 (by rw [hshoff, hz])
    have e2 : shnum ≠ 0 := fun hz => b8 (by rw [hshnum, hz])
    simp [validateHeader, b0, b1, b2, b3, b4, b5, b6, hentry, hshoff, hshentsize, hshnum,
      hshstrndx, failIf, ELFMAG0, ELFMAG1, ELFMAG2, ELFMAG3, ELFCLASS32, ELFDATA2MSB, EM_68K,
      e1, e2] at hu

/-- C9: when the header loads of `main` stay inside the file (as they do for
every file of 52 bytes or more), `main` ends with `return 1`, an outcome
without output file, whenever a magic byte, the class byte, the data-encoding
byte or the big-endian `e_machine` is wrong or `e_shoff` or `e_shnum` is 0; and
when the header is valid and the classifier gives no section the class text,
`main` ends with `return 1` after the diagnostic for a missing text section. -/
theorem input_validation (includeSymbols : Bool) (elf : List Nat)
    (hdef : validateHeader elf ≠ Run.undefined) :
    (load8 elf 0 ≠ Run.ok 0x7F ∨ load8 elf 1 ≠ Run.ok 0x45 ∨
      load8 elf 2 ≠ Run.ok 0x4C ∨ load8 elf 3 ≠ Run.ok 0x46 ∨
      load8 elf 4 ≠ Run.ok 1 ∨ load8 elf 5 ≠ Run.ok 2 ∨
      read_be16 elf 18 ≠ Run.ok 4 ∨ read_be32 elf 32 = Run.ok 0 ∨
      read_be16 elf 48 = Run.ok 0 →
      ∃ d, main includeSymbols elf = Run.exit1 d) ∧
    (∀ h c, validateHeader elf = Run.ok h → classify elf h = Run.ok c →
      (∀ i, i < h.shnum → c.sectionType.getD i 0 ≠ 1) →
      main includeSymbols elf = Run.exit1 Diag.noTextSection) ∧
    (52 ≤ elf.length → validateHeader elf ≠ Run.undefined) := by
  refine ⟨fun hbad => ?_, fun h c hh hc hnone => ?_, validateHeader_defined elf⟩
  · cases hv : validateHeader elf with
    | ok h =>
      obtain ⟨a0, a1, a2, a3, a4, a5, a6, _, a8, _, a10, _, a12, a13⟩ :=
        validateHeader_ok_spec elf h hv
      rcases hbad with b | b | b | b | b | b | b | b | b
      · exact absurd a0 b
      · exact absurd a1 b
      · exact absurd a2 b
      · exact absurd a3 b
      · exact absurd a4 b
      · exact absurd a5 b
      · exact absurd a6 b
      · rw [a8] at b
        exact absurd (Run.ok.inj b) a12
      · rw [a10] at b
        exact absurd (Run.ok.inj b) a13
    | exit1 d => exact ⟨d, by simp [main, hv]⟩
    | undefined => exact absurd hv hdef
  · have htext : c.textStart = 0xFFFFFFFF := by
      rcases (classify_spec elf h c hc).2.2 with h1 | ⟨i, hi, h1⟩
      · exact h1
      · exact absurd h1 (hnone i hi)
    simp [main, hh, hc, failIf, htext]

/-- C9 applied to a file of 52 zero bytes. -/
theorem input_validation_witness :
    (load8 (List.replicate 52 0) 0 ≠ Run.ok 0x7F ∨ load8 (List.replicate 52 0) 1 ≠ Run.ok 0x45 ∨
      load8 (List.replicate 52 0) 2 ≠ Run.ok 0x4C ∨ load8 (List.replicate 52 0) 3 ≠ Run.ok 0x46 ∨
      load8 (List.replicate 52 0) 4 ≠ Run.ok 1 ∨ load8 (List.replicate 52 0) 5 ≠ Run.ok 2 ∨
      read_be16 (List.replicate 52 0) 18 ≠ Run.ok 4 ∨
      read_be32 (List.replicate 52 0) 32 = Run.ok 0 ∨
      read_be16 (List.replicate 52 0) 48 = Run.ok 0 →
      ∃ d, main false (List.replicate 52 0) = Run.exit1 d) ∧
    (∀ h c, validateHeader (List.replicate 52 0) = Run.ok h →
      classify (List.replicate 52 0) h = Run.ok c →
      (∀ i, i < h.shnum → c.sectionType.getD i 0 ≠ 1) →
      main false (List.replicate 52 0) = Run.exit1 Diag.noTextSection) ∧
    (52 ≤ (List.replicate 52 0).length → validateHeader (List.replicate 52 0) ≠ Run.undefined) :=
  input_validation false (List.replicate 52 0) (by decide)

/-! ## Relocation harvester -/

theorem relaEntry_spec (elf : List Nat) (c : Classes) (targetType : Nat)
    (symtabSh : Option SymtabRef) (rela : Nat) (r : Option Nat)
    (h : relaEntry elf c targetType symtabSh rela = Run.ok r) :
    ∃ rInfo rOffset, read_be32 elf (rela + 4) = Run.ok rInfo ∧
      read_be32 elf rela = Run.ok rOffset ∧
      ((ELF32_R_TYPE rInfo ≠ R_68K_32 ∧ r = none) ∨
       (ELF32_R_TYPE rInfo = R_68K_32 ∧ symtabSh = none ∧
          r = some (if targetType = 1 then rOffset
            else add32 c.textSize (sub32 rOffset c.dataStart))) ∨
       (ELF32_R_TYPE rInfo = R_68K_32 ∧ ∃ st symShndx, symtabSh = some st ∧
          read_be16 elf (st.symOffset + (ELF32_R_SYM rInfo * st.symEntSize) % 4294967296 + 14) =
            Run.ok symShndx ∧
          ((symShndx = SHN_ABS ∧ r = none) ∨
           (symShndx ≠ SHN_ABS ∧ r = some (if targetType = 1 then rOffset
              else add32 c.textSize (sub32 rOffset c.dataStart)))))) := by
  unfold relaEntry at h
  obtain ⟨rInfo, hi, h⟩ := (Run.bind_eq_ok _ _ _).1 h
  obtain ⟨rOffset, ho, h⟩ := (Run.bind_eq_ok _ _ _).1 h
  refine ⟨rInfo, rOffset, hi, ho, ?_⟩
  split at h
  · rename_i hty
    simp only [Run.pure_eq, Run.ok.injEq] at h
    exact Or.inl ⟨hty, h.symm⟩
  · rename_i hty
    have hty2 : ELF32_R_TYPE rInfo = R_68K_32 := by simpa using hty
    obtain ⟨skip, hs, h⟩ := (Run.bind_eq_ok _ _ _).1 h
    rcases symtabSh with _ | st
    · simp only [Run.pure_eq, Run.ok.injEq] at hs
      subst hs
      simp only [Bool.false_eq_true, if_false, Run.pure_eq, Run.ok.injEq] at h
      exact Or.inr (Or.inl ⟨hty2, rfl, h.symm⟩)
    · simp only at hs
      obtain ⟨symShndx, hr, hs⟩ := (Run.bind_eq_ok _ _ _).1 hs
      simp only [Run.pure_eq, Run.ok.injEq] at hs
      refine Or.inr (Or.inr ⟨hty2, st, symShndx, rfl, hr, ?_⟩)
      by_cases habs : symShndx = SHN_ABS
      · have : skip = true := by rw [← hs]; simp [habs]
        subst this
        simp only [if_true, Run.pure_eq, Run.ok.injEq] at h
        exact Or.inl ⟨habs, h.symm⟩
      · have : skip = false := by rw [← hs]; simp [habs]
        subst this
        simp only [Bool.false_eq_true, if_false, Run.pure_eq, Run.ok.injEq] at h
        exact Or.inr ⟨habs, h.symm⟩

theorem relaLoop_mem (elf : List Nat) (c : Classes) (targetType : Nat)
    (symtabSh : Option SymtabRef) (relaOffset relaEntSize : Nat) (todo : List Nat) :
    ∀ (relocs out : List Nat),
    relaLoop elf c targetType symtabSh relaOffset relaEntSize todo relocs = Run.ok out →
    ∀ o, o ∈ out ↔ o ∈ relocs ∨ ∃ j ∈ todo,
      relaEntry elf c targetType symtabSh (relaOffset + (j * relaEntSize) % 4294967296) =
        Run.ok (some o) := by
  induction todo with
  | nil =>
    intro relocs out h o
    simp only [relaLoop, Run.ok.injEq] at h
    subst h
    simp
  | cons j todo ih =>
    intro relocs out h o
    simp only [relaLoop] at h
    obtain ⟨r, hr, h⟩ := (Run.bind_eq_ok _ _ _).1 h
    rcases r with _ | a
    · rw [ih relocs out h o]
      constructor
      · rintro (h1 | ⟨k, hk, h1⟩)
        · exact Or.inl h1
        · exact Or.inr ⟨k, List.mem_cons_of_mem _ hk, h1⟩
      · rintro (h1 | ⟨k, hk, h1⟩)
        · exact Or.inl h1
        · rcases List.mem_cons.1 hk with hkj | hkt
          · subst hkj
            rw [hr] at h1
            exact absurd h1 (by simp)
          · exact Or.inr ⟨k, hkt, h1⟩
    · rw [ih (relocs ++ [a]) out h o]
      constructor
      · rintro (h1 | ⟨k, hk, h1⟩)
        · rcases List.mem_append.1 h1 with h2 | h2
          · exact Or.inl h2
          · have : o = a := by simpa using h2
            subst this
            exact Or.inr ⟨j, List.mem_cons_self _ _, hr⟩
        · exact Or.inr ⟨k, List.mem_cons_of_mem _ hk, h1⟩
      · rintro (h1 | ⟨k, hk, h1⟩)
        · exact Or.inl (List.mem_append_left _ h1)
        · rcases List.mem_cons.1 hk with hkj | hkt
          · subst hkj
            rw [hr] at h1
            have : a = o := by simpa using h1
            subst this
            exact Or.inl (List.mem_append_right _ (List.mem_singleton_self _))
          · exact Or.inr ⟨k, hkt, h1⟩

theorem harvestSection_mem (elf : List Nat) (h : Ehdr) (c : Classes) (relocs : List Nat)
    (i : Nat) (out : List Nat) (hs : harvestSection elf h c relocs i = Run.ok out) :
    ∀ o, o ∈ out ↔ o ∈ relocs ∨ ∃ j, HarvestedFrom elf h c i j o := by
  intro o
  unfold harvestSection at hs
  obtain ⟨type, ht, hs⟩ := (Run.bind_eq_ok _ _ _).1 hs
  have hno : ∀ (P : Prop), ¬P → out = relocs →
      (∀ j, HarvestedFrom elf h c i j o → P) →
      (o ∈ out ↔ o ∈ relocs ∨ ∃ j, HarvestedFrom elf h c i j o) := by
    intro P hP he hall
    subst he
    exact ⟨fun hh => Or.inl hh, fun hh => hh.elim id (fun ⟨j, hj⟩ => absurd (hall j hj) hP)⟩
  split at hs
  · rename_i hty
    simp only [Run.pure_eq, Run.ok.injEq] at hs
    refine hno (type = SHT_RELA) hty hs.symm (fun j hj => ?_)
    obtain ⟨_, _, _, _, _, _, e1, _⟩ := hj
    rw [ht] at e1
    injection e1
  · rename_i hty0
    have hty : type = SHT_RELA := by simpa using hty0
    subst hty
    obtain ⟨info, hinfo, hs⟩ := (Run.bind_eq_ok _ _ _).1 hs
    split at hs
    · rename_i hge
      simp only [Run.pure_eq, Run.ok.injEq] at hs
      refine hno (info < h.shnum) (by omega) hs.symm (fun j hj => ?_)
      obtain ⟨info2, _, _, _, _, _, _, e2, e3, _⟩ := hj
      rw [hinfo] at e2
      injection e2 with e2
      subst e2
      exact e3
    · rename_i hlt
      simp only at hs
      split at hs
      · rename_i hcls
        simp only [Run.pure_eq, Run.ok.injEq] at hs
        refine hno (c.sectionType.getD info 0 = 1 ∨ c.sectionType.getD info 0 = 2)
          (by omega) hs.symm (fun j hj => ?_)
        obtain ⟨info2, _, _, _, _, _, _, e2, _, e4, _⟩ := hj
        rw [hinfo] at e2
        injection e2 with e2
        subst e2
        exact e4
      · rename_i hcls
        obtain ⟨relaOffset, h16, hs⟩ := (Run.bind_eq_ok _ _ _).1 hs
        obtain ⟨relaSize, h20, hs⟩ := (Run.bind_eq_ok _ _ _).1 hs
        obtain ⟨ent0, h36, hs⟩ := (Run.bind_eq_ok _ _ _).1 hs
        obtain ⟨symtabIdx, h24, hs⟩ := (Run.bind_eq_ok _ _ _).1 hs
        obtain ⟨symtabSh, hsym, hs⟩ := (Run.bind_eq_ok _ _ _).1 hs
        rw [relaLoop_mem _ _ _ _ _ _ _ _ _ hs o]
        constructor
        · rintro (h1 | ⟨j, hj, h1⟩)
          · exact Or.inl h1
          · exact Or.inr ⟨j, info, relaOffset, relaSize, ent0, symtabIdx, symtabSh, ht, hinfo,
              by omega, by omega, h16, h20, h36, h24, hsym, List.mem_range.1 hj, h1⟩
        · rintro (h1 | ⟨j, info2, ro2, rs2, e2, si2, st2, _, g2, _, _, g5, g6, g7, g8, g9, g10, g11⟩)
          · exact Or.inl h1
          · rw [hinfo] at g2; injection g2 with g2; subst g2
            rw [h16] at g5; injection g5 with g5; subst g5
            rw [h20] at g6; injection g6 with g6; subst g6
            rw [h36] at g7; injection g7 with g7; subst g7
            rw [h24] at g8; injection g8 with g8; subst g8
            rw [hsym] at g9; injection g9 with g9; subst g9
            exact Or.inr ⟨j, List.mem_range.2 g10, g11⟩

theorem harvestLoop_mem (elf : List Nat) (h : Ehdr) (c : Classes) (todo : List Nat) :
    ∀ (relocs out : List Nat), harvestLoop elf h c todo relocs = Run.ok out →
    ∀ o, o ∈ out ↔ o ∈ relocs ∨ ∃ i ∈ todo, ∃ j, HarvestedFrom elf h c i j o := by
  induction todo with
  | nil =>
    intro relocs out hl o
    simp only [harvestLoop, Run.ok.injEq] at hl
    subst hl
    simp
  | cons i todo ih =>
    intro relocs out hl o
    simp only [harvestLoop] at hl
    obtain ⟨relocs2, hsec, hl⟩ := (Run.bind_eq_ok _ _ _).1 hl
    rw [ih relocs2 out hl o, harvestSection_mem elf h c relocs i relocs2 hsec o]
    constructor
    · rintro ((h1 | ⟨j, hj⟩) | ⟨k, hk, j, hj⟩)
      · exact Or.inl h1
      · exact Or.inr ⟨i, List.mem_cons_self _ _, j, hj⟩
      · exact Or.inr ⟨k, List.mem_cons_of_mem _ hk, j, hj⟩
    · rintro (h1 | ⟨k, hk, j, hj⟩)
      · exact Or.inl (Or.inl h1)
      · rcases List.mem_cons.1 hk with hki | hkt
        · subst hki
          exact Or.inl (Or.inr ⟨j, hj⟩)
        · exact Or.inr ⟨k, hkt, j, hj⟩

theorem harvest_mem (elf : List Nat) (h : Ehdr) (c : Classes) (relocs : List Nat)
    (hh : harvest elf h c = Run.ok relocs) :
    ∀ o, o ∈ relocs ↔ ∃ i j, i < h.shnum ∧ HarvestedFrom elf h c i j o := by
  intro o
  rw [harvestLoop_mem elf h c _ [] relocs hh o]
  constructor
  · rintro (h1 | ⟨i, hi, j, hj⟩)
    · exact absurd h1 (List.not_mem_nil o)
    · exact ⟨i, j, List.mem_range.1 hi, hj⟩
  · rintro ⟨i, j, hi, hj⟩
    exact Or.inr ⟨i, List.mem_range.2 hi, j, hj⟩

theorem harvestSection_skip (elf : List Nat) (h : Ehdr) (c : Classes) (relocs : List Nat)
    (i : Nat) (out : List Nat) (hs : harvestSection elf h c relocs i = Run.ok out)
    (hskip : (∀ type, shField elf h i 4 = Run.ok type → type ≠ SHT_RELA) ∨
      (∀ info, shField elf h i 28 = Run.ok info →
        h.shnum ≤ info ∨ (c.sectionType.getD info 0 ≠ 1 ∧ c.sectionType.getD info 0 ≠ 2))) :
    out = relocs := by
  unfold harvestSection at hs
  obtain ⟨type, ht, hs⟩ := (Run.bind_eq_ok _ _ _).1 hs
  split at hs
  · simp only [Run.pure_eq, Run.ok.injEq] at hs
    exact hs.symm
  · rename_i hty0
    have hty : type = SHT_RELA := by simpa using hty0
    obtain ⟨info, hinfo, hs⟩ := (Run.bind_eq_ok _ _ _).1 hs
    split at hs
    · simp only [Run.pure_eq, Run.ok.injEq] at hs
      exact hs.symm
    · rename_i hlt
      simp only at hs
      split at hs
      · simp only [Run.pure_eq, Run.ok.injEq] at hs
        exact hs.symm
      · rename_i hcls
        rcases hskip with h1 | h1
        · exact absurd hty (h1 type ht)
        · rcases h1 info hinfo with h2 | h2
          · omega
          · exact absurd h2 hcls

/-- C7: every offset of the harvested list comes from an entry of a section of
type RELA whose `sh_info` is a valid section index classified text or data and
whose relocation type (low 8 bits of `r_info`) is 1, and it is `r_offset` for a
text target and `textSize + (r_offset - dataStart)` (in 32-bit arithmetic) for
a data target; an entry of another type gives no offset, and a section that is
not of type RELA or targets an invalid, none or bss section adds nothing. -/
theorem relocation_harvesting_rule (elf : List Nat) (h : Ehdr) (c : Classes)
    (relocs : List Nat) (hh : harvest elf h c = Run.ok relocs) :
    (∀ o ∈ relocs, ∃ i j info relaOffset relaEntSize0 rInfo rOffset,
      i < h.shnum ∧ shField elf h i 4 = Run.ok SHT_RELA ∧
      shField elf h i 28 = Run.ok info ∧ info < h.shnum ∧
      (c.sectionType.getD info 0 = 1 ∨ c.sectionType.getD info 0 = 2) ∧
      shField elf h i 16 = Run.ok relaOffset ∧ shField elf h i 36 = Run.ok relaEntSize0 ∧
      read_be32 elf (relaOffset +
        (j * (if relaEntSize0 = 0 then 12 else relaEntSize0)) % 4294967296 + 4) = Run.ok rInfo ∧
      read_be32 elf (relaOffset +
        (j * (if relaEntSize0 = 0 then 12 else relaEntSize0)) % 4294967296) = Run.ok rOffset ∧
      rInfo &&& 0xff = 1 ∧
      o = if c.sectionType.getD info 0 = 1 then rOffset
        else add32 c.textSize (sub32 rOffset c.dataStart)) ∧
    (∀ targetType symtabSh rela r rInfo,
      relaEntry elf c targetType symtabSh rela = Run.ok r →
      read_be32 elf (rela + 4) = Run.ok rInfo → rInfo &&& 0xff ≠ 1 → r = none) ∧
    (∀ relocs0 i out, harvestSection elf h c relocs0 i = Run.ok out →
      ((∀ type, shField elf h i 4 = Run.ok type → type ≠ SHT_RELA) ∨
        (∀ info, shField elf h i 28 = Run.ok info →
          h.shnum ≤ info ∨ (c.sectionType.getD info 0 ≠ 1 ∧ c.sectionType.getD info 0 ≠ 2))) →
      out = relocs0) := by
  refine ⟨fun o ho => ?_, ?_, fun relocs0 i out hs hskip =>
    harvestSection_skip elf h c relocs0 i out hs hskip⟩
  · obtain ⟨i, j, hi, info, relaOffset, relaSize, ent0, symtabIdx, symtabSh, e1, e2, e3, e4, e5,
      _, e7, _, _, _, e11⟩ := (harvest_mem elf h c relocs hh o).1 ho
    obtain ⟨rInfo, rOffset, r1, r2, r3⟩ := relaEntry_spec _ _ _ _ _ _ e11
    refine ⟨i, j, info, relaOffset, ent0, rInfo, rOffset, hi, e1, e2, e3, e4, e5, e7, r1, r2, ?_⟩
    rcases r3 with ⟨_, r4⟩ | ⟨r4, _, r5⟩ | ⟨r4, _, _, _, _, ⟨_, r5⟩ | ⟨_, r5⟩⟩
    · exact absurd r4 (by simp)
    · exact ⟨r4, Option.some.inj r5⟩
    · exact absurd r5 (by simp)
    · exact ⟨r4, Option.some.inj r5⟩
  · intro targetType symtabSh rela r rInfo hr hinfo hty
    obtain ⟨rInfo2, rOffset, r1, _, r3⟩ := relaEntry_spec _ _ _ _ _ _ hr
    rw [hinfo] at r1
    injection r1 with r1
    subst r1
    rcases r3 with ⟨_, r4⟩ | ⟨r4, _⟩ | ⟨r4, _⟩
    · exact r4
    · exact absurd r4 hty
    · exact absurd r4 hty

/-- C7 applied to `elfS3` and the offset 4, the one member of its harvested
list. -/
theorem relocation_harvesting_rule_witness :
    ∃ i j info relaOffset relaEntSize0 rInfo rOffset,
      i < hdrS3.shnum ∧ shField elfS3 hdrS3 i 4 = Run.ok SHT_RELA ∧
      shField elfS3 hdrS3 i 28 = Run.ok info ∧ info < hdrS3.shnum ∧
      (clsS3.sectionType.getD info 0 = 1 ∨ clsS3.sectionType.getD info 0 = 2) ∧
      shField elfS3 hdrS3 i 16 = Run.ok relaOffset ∧
      shField elfS3 hdrS3 i 36 = Run.ok relaEntSize0 ∧
      read_be32 elfS3 (relaOffset +
        (j * (if relaEntSize0 = 0 then 12 else relaEntSize0)) % 4294967296 + 4) = Run.ok rInfo ∧
      read_be32 elfS3 (relaOffset +
        (j * (if relaEntSize0 = 0 then 12 else relaEntSize0)) % 4294967296) = Run.ok rOffset ∧
      rInfo &&& 0xff = 1 ∧
      4 = if clsS3.sectionType.getD info 0 = 1 then rOffset
        else add32 clsS3.textSize (sub32 rOffset clsS3.dataStart) :=
  (relocation_harvesting_rule elfS3 hdrS3 clsS3 [4] (by decide!)).1 4 (List.mem_singleton_self 4)

/-- C8: the harvested list holds exactly the offsets that the entry loop body
returns for the entries of the RELA sections that target text or data; for an
entry of type 1 whose section has a linked symbol table, the body returns no
offset when the `st_shndx` of the symbol with index `r_info >> 8` is 0xFFF1 and
returns the entry's image offset for every other `st_shndx`; the relocation
stream is the encoding of the sorted harvested list. -/
theorem absolute_symbol_skip (elf : List Nat) (h : Ehdr) (c : Classes)
    (relocs : List Nat) (hh : harvest elf h c = Run.ok relocs) :
    (∀ o, o ∈ relocs ↔ ∃ i j, i < h.shnum ∧ HarvestedFrom elf h c i j o) ∧
    (∀ targetType st rela rInfo rOffset symShndx,
      read_be32 elf (rela + 4) = Run.ok rInfo → read_be32 elf rela = Run.ok rOffset →
      rInfo &&& 0xff = 1 →
      read_be16 elf (st.symOffset + ((rInfo >>> 8) * st.symEntSize) % 4294967296 + 14) =
        Run.ok symShndx →
      (symShndx = 0xFFF1 → relaEntry elf c targetType (some st) rela = Run.ok none) ∧
      (symShndx ≠ 0xFFF1 → relaEntry elf c targetType (some st) rela =
        Run.ok (some (if targetType = 1 then rOffset
          else add32 c.textSize (sub32 rOffset c.dataStart))))) ∧
    (∀ relBuf, buildRelBuf relocs = Run.ok relBuf →
      relBuf = encodeRelocs (qsortRelocs relocs)) := by
  refine ⟨harvest_mem elf h c relocs hh, ?_, ?_⟩
  · intro targetType st rela rInfo rOffset symShndx h1 h2 h3 h4
    have h3b : ELF32_R_TYPE rInfo = R_68K_32 := h3
    have h4b : read_be16 elf (st.symOffset + (ELF32_R_SYM rInfo * st.symEntSize) % 4294967296 + 14)
        = Run.ok symShndx := h4
    constructor
    · intro habs
      simp [relaEntry, h1, h2, h3b, h4b, habs, SHN_ABS]
    · intro habs
      simp [relaEntry, h1, h2, h3b, h4b, habs, SHN_ABS]
  · intro relBuf hb
    unfold buildRelBuf at hb
    split at hb
    · simp only at hb
      split at hb
      · injection hb with hb
        exact hb.symm
      · exact absurd hb (by simp)
    · exact absurd hb (by simp)

/-- C8 applied to `elfS3`: the harvested list is the single offset 4; the
offset 8 of the entry whose symbol has `st_shndx` 0xFFF1 is not harvested. -/
theorem absolute_symbol_skip_witness :
    (4 ∈ [4] ↔ ∃ i j, i < hdrS3.shnum ∧ HarvestedFrom elfS3 hdrS3 clsS3 i j 4) ∧
    (8 ∈ [4] ↔ ∃ i j, i < hdrS3.shnum ∧ HarvestedFrom elfS3 hdrS3 clsS3 i j 8) :=
  ⟨(absolute_symbol_skip elfS3 hdrS3 clsS3 [4] (by decide!)).1 4,
   (absolute_symbol_skip elfS3 hdrS3 clsS3 [4] (by decide!)).1 8⟩

/-! ## Writer -/

theorem fwrite_spec (buf : List Nat) (start n : Nat) (r : List Nat)
    (h : fwrite buf start n = Run.ok r) :
    r = (buf.drop start).take n ∧ r.length = n := by
  unfold fwrite at h
  split at h
  · injection h with h
    subst h
    exact ⟨rfl, by simp; omega⟩
  · exact absurd h (by simp)

theorem strlen_bound (mem : List Nat) (p n : Nat) (h : strlen mem p = Run.ok n) :
    p + n < mem.length := by
  unfold strlen at h
  split at h
  · rename_i k hk
    injection h with h
    subst h
    obtain ⟨hlt, _⟩ := List.findIdx?_eq_some_iff_getElem.1 hk
    simp only [List.length_drop] at hlt
    omega
  · exact absurd h (by simp)

theorem symRecord_length (elf : List Nat) (x : XSym) (r : List Nat)
    (h : symRecord elf x = Run.ok r) :
    ∃ nameLen, strlen elf x.name = Run.ok nameLen ∧ r.length = 6 + paddedLen nameLen := by
  unfold symRecord at h
  obtain ⟨nameLen, hn, h⟩ := (Run.bind_eq_ok _ _ _).1 h
  refine ⟨nameLen, hn, ?_⟩
  have hb := strlen_bound _ _ _ hn
  split at h
  · rename_i hg
    simp only [Run.pure_eq, Run.ok.injEq] at h
    subst h
    simp only [be32, List.length_append, List.length_cons, List.length_nil, List.length_take,
      List.length_drop, List.length_replicate]
    omega
  · exact absurd h (by simp)

theorem symSize_records (elf : List Nat) (xsyms : List XSym) :
    ∀ (acc n : Nat) (syms : List Nat), symSizeLoop elf xsyms acc = Run.ok n →
    symRecords elf xsyms = Run.ok syms → acc < 2147483648 →
    n = acc + syms.length ∧ n < 2147483648 := by
  induction xsyms with
  | nil =>
    intro acc n syms h1 h2 hacc
    simp only [symSizeLoop, Run.ok.injEq] at h1
    simp only [symRecords, Run.ok.injEq] at h2
    subst h1 h2
    exact ⟨rfl, hacc⟩
  | cons x xsyms ih =>
    intro acc n syms h1 h2 hacc
    simp only [symSizeLoop] at h1
    simp only [symRecords] at h2
    obtain ⟨nameLen, hn, h1⟩ := (Run.bind_eq_ok _ _ _).1 h1
    obtain ⟨r, hr, h2⟩ := (Run.bind_eq_ok _ _ _).1 h2
    obtain ⟨rs, hrs, h2⟩ := (Run.bind_eq_ok _ _ _).1 h2
    simp only [Run.pure_eq, Run.ok.injEq] at h2
    subst h2
    obtain ⟨nameLen2, hn2, hlen⟩ := symRecord_length elf x r hr
    rw [hn] at hn2
    injection hn2 with hn2
    subst hn2
    split at h1
    · rename_i hg
      obtain ⟨e1, e2⟩ := ih _ n rs h1 hrs hg.2
      refine ⟨?_, e2⟩
      rw [e1, List.length_append, hlen]
      omega
    · exact absurd h1 (by simp)

theorem collectSymbols_size (includeSymbols : Bool) (elf : List Nat) (h : Ehdr) (c : Classes)
    (xsyms : List XSym) (n : Nat)
    (hs : collectSymbols includeSymbols elf h c = Run.ok (xsyms, n)) :
    symSizeLoop elf xsyms 0 = Run.ok n ∧ (includeSymbols = false → xsyms = [] ∧ n = 0) := by
  unfold collectSymbols at hs
  cases includeSymbols with
  | false =>
    simp only [Bool.false_eq_true, if_false, Run.pure_eq, Run.ok.injEq, Prod.mk.injEq] at hs
    obtain ⟨h1, h2⟩ := hs
    subst h1 h2
    exact ⟨rfl, fun _ => ⟨rfl, rfl⟩⟩
  | true =>
    simp only [if_true] at hs
    obtain ⟨found, _, hs⟩ := (Run.bind_eq_ok _ _ _).1 hs
    refine ⟨?_, fun hh => absurd hh (by simp)⟩
    rcases found with _ | ⟨symtabHdr, strtab⟩
    · simp only [Run.pure_eq, Run.ok.injEq, Prod.mk.injEq] at hs
      obtain ⟨h1, h2⟩ := hs
      subst h1 h2
      rfl
    · simp only at hs
      obtain ⟨_, _, hs⟩ := (Run.bind_eq_ok _ _ _).1 hs
      obtain ⟨_, _, hs⟩ := (Run.bind_eq_ok _ _ _).1 hs
      obtain ⟨_, _, hs⟩ := (Run.bind_eq_ok _ _ _).1 hs
      obtain ⟨collected, _, hs⟩ := (Run.bind_eq_ok _ _ _).1 hs
      obtain ⟨m, hm, hs⟩ := (Run.bind_eq_ok _ _ _).1 hs
      simp only [Run.pure_eq, Run.ok.injEq, Prod.mk.injEq] at hs
      obtain ⟨h1, h2⟩ := hs
      subst h1 h2
      exact hm

theorem buildRelBuf_spec (relocs relBuf : List Nat) (h : buildRelBuf relocs = Run.ok relBuf) :
    relBuf = encodeRelocs (qsortRelocs relocs) ∧ relBuf.length < 2147483648 := by
  unfold buildRelBuf at h
  split at h
  · simp only at h
    split at h
    · injection h with h
      subst h
      exact ⟨rfl, by omega⟩
    · exact absurd h (by simp)
  · exact absurd h (by simp)

theorem main_ok (includeSymbols : Bool) (elf out : List Nat)
    (hm : main includeSymbols elf = Run.ok out) :
    ∃ h c image relocs relBuf xsyms symBufSize,
      validateHeader elf = Run.ok h ∧ classify elf h = Run.ok c ∧
      c.textStart ≠ 0xFFFFFFFF ∧ buildImage elf h c = Run.ok image ∧
      harvest elf h c = Run.ok relocs ∧ buildRelBuf relocs = Run.ok relBuf ∧
      collectSymbols includeSymbols elf h c = Run.ok (xsyms, symBufSize) ∧
      writeXFile includeSymbols elf h c image relBuf xsyms symBufSize = Run.ok out := by
  unfold main at hm
  obtain ⟨h, hh, hm⟩ := (Run.bind_eq_ok _ _ _).1 hm
  obtain ⟨c, hc, hm⟩ := (Run.bind_eq_ok _ _ _).1 hm
  obtain ⟨_, ht, hm⟩ := (Run.bind_eq_ok _ _ _).1 hm
  obtain ⟨image, hi, hm⟩ := (Run.bind_eq_ok _ _ _).1 hm
  obtain ⟨relocs, hr, hm⟩ := (Run.bind_eq_ok _ _ _).1 hm
  obtain ⟨relBuf, hb, hm⟩ := (Run.bind_eq_ok _ _ _).1 hm
  obtain ⟨⟨xsyms, n⟩, hs, hm⟩ := (Run.bind_eq_ok _ _ _).1 hm
  refine ⟨h, c, image, relocs, relBuf, xsyms, n, hh, hc, ?_, hi, hr, hb, hs, hm⟩
  have := (failIf_eq_ok _ _ _).1 ht
  simpa using this

theorem writeXFile_ok (includeSymbols : Bool) (elf : List Nat) (h : Ehdr) (c : Classes)
    (image relBuf : List Nat) (xsyms : List XSym) (symBufSize : Nat) (out : List Nat)
    (hw : writeXFile includeSymbols elf h c image relBuf xsyms symBufSize = Run.ok out) :
    ∃ syms, out = xHeader h.entryPoint c.textSize c.dataSize c.bssSize relBuf.length symBufSize ++
        image.take c.textSize ++ (image.drop c.textSize).take c.dataSize ++ relBuf ++ syms ∧
      (image.take c.textSize).length = c.textSize ∧
      ((image.drop c.textSize).take c.dataSize).length = c.dataSize ∧
      ((includeSymbols = true ∧ xsyms ≠ [] ∧ symRecords elf xsyms = Run.ok syms) ∨
        ((includeSymbols = false ∨ xsyms = []) ∧ syms = [])) := by
  unfold writeXFile at hw
  obtain ⟨text, ht, hw⟩ := (Run.bind_eq_ok _ _ _).1 hw
  obtain ⟨data, hd, hw⟩ := (Run.bind_eq_ok _ _ _).1 hw
  obtain ⟨syms, hs, hw⟩ := (Run.bind_eq_ok _ _ _).1 hw
  simp only [Run.pure_eq, Run.ok.injEq] at hw
  obtain ⟨ht1, ht2⟩ := fwrite_spec _ _ _ _ ht
  have hrel : (if relBuf.length > 0 then relBuf else []) = relBuf := by
    split
    · rfl
    · rename_i hz
      have : relBuf.length = 0 := by omega
      exact (List.length_eq_zero.1 this).symm
  have hdata : data = (image.drop c.textSize).take c.dataSize ∧ data.length = c.dataSize := by
    split at hd
    · exact fwrite_spec _ _ _ _ hd
    · rename_i hz
      simp only [Run.pure_eq, Run.ok.injEq] at hd
      have : c.dataSize = 0 := by omega
      subst hd
      simp [this]
  rw [hrel] at hw
  refine ⟨syms, ?_, ?_, ?_, ?_⟩
  · rw [← hw, ht1, hdata.1]
    simp
  · have ht3 : text = image.take c.textSize := by simpa using ht1
    rw [← ht3]
    exact ht2
  · rw [← hdata.1]
    exact hdata.2
  · split at hs
    · rename_i hcond
      exact Or.inl ⟨by simpa using hcond.1, by
        intro hx
        rw [hx] at hcond
        simp at hcond, hs⟩
    · rename_i hcond
      simp only [Run.pure_eq, Run.ok.injEq] at hs
      refine Or.inr ⟨?_, hs.symm⟩
      by_cases hi : includeSymbols = true
      · right
        have : ¬ xsyms.length > 0 := fun hx => hcond ⟨hi, hx⟩
        exact List.length_eq_zero.1 (by omega)
      · left
        simpa using hi

theorem validateHeader_entry (elf : List Nat) (h : Ehdr) (hh : validateHeader elf = Run.ok h) :
    read_be32 elf 24 = Run.ok h.entryPoint :=
  (validateHeader_ok_spec elf h hh).2.2.2.2.2.2.2.1

theorem be32_value (v : Nat) (hv : v < 4294967296) :
    (v >>> 24) % 256 * 16777216 + (v >>> 16) % 256 * 65536 + (v >>> 8) % 256 * 256 + v % 256 = v := by
  simp only [Nat.shiftRight_eq_div_pow]
  omega

theorem xHeader_layout (e t d b r s : Nat) (body : List Nat)
    (he : e < 4294967296) (ht : t < 4294967296) (hd : d < 4294967296)
    (hb : b < 4294967296) (hr : r < 4294967296) (hs : s < 4294967296) :
    (xHeader e t d b r s ++ body).take 8 = [0x48, 0x55, 0, 0, 0, 0, 0, 0] ∧
    u32At (xHeader e t d b r s ++ body) 8 = e ∧
    u32At (xHeader e t d b r s ++ body) 12 = t ∧
    u32At (xHeader e t d b r s ++ body) 16 = d ∧
    u32At (xHeader e t d b r s ++ body) 20 = b ∧
    u32At (xHeader e t d b r s ++ body) 24 = r ∧
    u32At (xHeader e t d b r s ++ body) 28 = s ∧
    ((xHeader e t d b r s ++ body).drop 32).take 32 = List.replicate 32 0 ∧
    (xHeader e t d b r s ++ body).drop 64 = body := by
  refine ⟨by simp [xHeader], ?_, ?_, ?_, ?_, ?_, ?_, by simp [xHeader, be32], by simp [xHeader, be32]⟩
  · simpa [xHeader, be32, u32At] using be32_value e he
  · simpa [xHeader, be32, u32At] using be32_value t ht
  · simpa [xHeader, be32, u32At] using be32_value d hd
  · simpa [xHeader, be32, u32At] using be32_value b hb
  · simpa [xHeader, be32, u32At] using be32_value r hr
  · simpa [xHeader, be32, u32At] using be32_value s hs

theorem sub32_lt (a b : Nat) : sub32 a b < 4294967296 := Nat.mod_lt _ (by decide)

theorem Classes.textSize_lt (c : Classes) : c.textSize < 4294967296 := sub32_lt _ _

theorem Classes.dataSize_lt (c : Classes) : c.dataSize < 4294967296 := by
  unfold Classes.dataSize
  split
  · exact sub32_lt _ _
  · decide

theorem Classes.bssSize_lt (c : Classes) : c.bssSize < 4294967296 := by
  unfold Classes.bssSize
  split
  · exact sub32_lt _ _
  · decide

theorem main_layout (includeSymbols : Bool) (elf out : List Nat)
    (hm : main includeSymbols elf = Run.ok out) :
    ∃ h c image relocs xsyms text data relBuf syms,
      validateHeader elf = Run.ok h ∧ read_be32 elf 24 = Run.ok h.entryPoint ∧
      classify elf h = Run.ok c ∧ buildImage elf h c = Run.ok image ∧
      harvest elf h c = Run.ok relocs ∧
      text = image.take c.textSize ∧ data = (image.drop c.textSize).take c.dataSize ∧
      relBuf = encodeRelocs (qsortRelocs relocs) ∧
      collectSymbols includeSymbols elf h c = Run.ok (xsyms, syms.length) ∧
      symRecords elf xsyms = Run.ok syms ∧
      out.take 8 = [0x48, 0x55, 0, 0, 0, 0, 0, 0] ∧
      u32At out 8 = h.entryPoint ∧ u32At out 12 = text.length ∧
      u32At out 16 = data.length ∧ u32At out 20 = c.bssSize ∧
      u32At out 24 = relBuf.length ∧ u32At out 28 = syms.length ∧
      (out.drop 32).take 32 = List.replicate 32 0 ∧
      out.drop 64 = text ++ data ++ relBuf ++ syms ∧
      text.length = c.textSize ∧ data.length = c.dataSize := by
  obtain ⟨h, c, image, relocs, relBuf, xsyms, n, hh, hc, _, hi, hr, hb, hs, hw⟩ :=
    main_ok includeSymbols elf out hm
  obtain ⟨syms, hout, ht, hd, hsyms⟩ := writeXFile_ok _ _ _ _ _ _ _ _ _ hw
  obtain ⟨hb1, hb2⟩ := buildRelBuf_spec relocs relBuf hb
  obtain ⟨hs1, hs2⟩ := collectSymbols_size _ _ _ _ _ _ hs
  have hrec : symRecords elf xsyms = Run.ok syms := by
    rcases hsyms with ⟨_, _, h3⟩ | ⟨h1 | h1, h2⟩
    · exact h3
    · subst h2
      rw [(hs2 h1).1]
      rfl
    · subst h1 h2
      rfl
  obtain ⟨hn, hn2⟩ := symSize_records elf xsyms 0 n syms hs1 hrec (by decide)
  have hn3 : n = syms.length := by omega
  subst hn3
  have hlay := xHeader_layout h.entryPoint c.textSize c.dataSize c.bssSize relBuf.length
    syms.length (image.take c.textSize ++ (image.drop c.textSize).take c.dataSize ++ relBuf ++ syms)
    (read_be32_lt _ _ _ (validateHeader_entry elf h hh)) c.textSize_lt c.dataSize_lt c.bssSize_lt
    (by omega) (by omega)
  have hout2 : out = xHeader h.entryPoint c.textSize c.dataSize c.bssSize relBuf.length
      syms.length ++ (image.take c.textSize ++ (image.drop c.textSize).take c.dataSize ++
        relBuf ++ syms) := by
    rw [hout]
    simp only [List.append_assoc]
  rw [← hout2] at hlay
  obtain ⟨l1, l2, l3, l4, l5, l6, l7, l8, l9⟩ := hlay
  refine ⟨h, c, image, relocs, xsyms, image.take c.textSize,
    (image.drop c.textSize).take c.dataSize, relBuf, syms, hh, validateHeader_entry elf h hh, hc,
    hi, hr, rfl, rfl, hb1, hs, hrec, l1, l2, ?_, ?_, l5, l6, l7, l8, l9, ht, hd⟩
  · rw [l3, ht]
  · rw [l4, hd]

/-- C5: the output of every successful conversion starts with the 64-byte
header (48 55, six zero bytes, the big-endian 32-bit entry point, text size,
data size, bss size, relocation table size and symbol table size at offsets 8
to 28, 32 zero bytes) and continues with the text bytes, the data bytes, the
relocation stream and the symbol records; the four sizes in the header are the
byte lengths of these parts, and the symbol size computed before writing is
the length of the records written.  For `elfS1` without `-s` the fields are
0, 8, 0, 0, 2, 0 and the relocation stream is 00 04. -/
theorem header_describes_body :
    (∀ (includeSymbols : Bool) (elf out : List Nat), main includeSymbols elf = Run.ok out →
      ∃ h c image relocs xsyms text data relBuf syms,
        validateHeader elf = Run.ok h ∧ read_be32 elf 24 = Run.ok h.entryPoint ∧
        classify elf h = Run.ok c ∧ buildImage elf h c = Run.ok image ∧
        harvest elf h c = Run.ok relocs ∧
        text = image.take c.textSize ∧ data = (image.drop c.textSize).take c.dataSize ∧
        relBuf = encodeRelocs (qsortRelocs relocs) ∧
        collectSymbols includeSymbols elf h c = Run.ok (xsyms, syms.length) ∧
        symRecords elf xsyms = Run.ok syms ∧
        out.take 8 = [0x48, 0x55, 0, 0, 0, 0, 0, 0] ∧
        u32At out 8 = h.entryPoint ∧ u32At out 12 = text.length ∧
        u32At out 16 = data.length ∧ u32At out 20 = c.bssSize ∧
        u32At out 24 = relBuf.length ∧ u32At out 28 = syms.length ∧
        (out.drop 32).take 32 = List.replicate 32 0 ∧
        out.drop 64 = text ++ data ++ relBuf ++ syms ∧
        text.length = c.textSize ∧ data.length = c.dataSize) ∧
    main false elfS1 = Run.ok
      ([0x48, 0x55, 0, 0, 0, 0, 0, 0] ++ [0, 0, 0, 0] ++ [0, 0, 0, 8] ++ [0, 0, 0, 0] ++
        [0, 0, 0, 0] ++ [0, 0, 0, 2] ++ [0, 0, 0, 0] ++ List.replicate 32 0 ++
        [0x4e, 0x71, 0x4e, 0x71, 0, 0, 0, 0] ++ [0x00, 0x04]) := by
  exact ⟨main_layout, by decide!⟩

/-- C5 applied to `elfS1` converted with `-s`, whose output has the 12 bytes of
one symbol record after the relocation stream. -/
theorem header_describes_body_witness :
    ∃ h c image relocs xsyms text data relBuf syms,
      validateHeader elfS1 = Run.ok h ∧ read_be32 elfS1 24 = Run.ok h.entryPoint ∧
      classify elfS1 h = Run.ok c ∧ buildImage elfS1 h c = Run.ok image ∧
      harvest elfS1 h c = Run.ok relocs ∧
      text = image.take c.textSize ∧ data = (image.drop c.textSize).take c.dataSize ∧
      relBuf = encodeRelocs (qsortRelocs relocs) ∧
      collectSymbols true elfS1 h c = Run.ok (xsyms, syms.length) ∧
      symRecords elfS1 xsyms = Run.ok syms ∧
      outS1Symbols.take 8 =
        [0x48, 0x55, 0, 0, 0, 0, 0, 0] ∧
      u32At outS1Symbols 8 = h.entryPoint ∧
      u32At outS1Symbols 12 = text.length ∧
      u32At outS1Symbols 16 = data.length ∧
      u32At outS1Symbols 20 = c.bssSize ∧
      u32At outS1Symbols 24 = relBuf.length ∧
      u32At outS1Symbols 28 = syms.length ∧
      (outS1Symbols.drop 32).take 32 =
        List.replicate 32 0 ∧
      outS1Symbols.drop 64 =
        text ++ data ++ relBuf ++ syms ∧
      text.length = c.textSize ∧ data.length = c.dataSize :=
  header_describes_body.1 true elfS1
    outS1Symbols (by decide!)

/-! ## Symbol transformer -/

theorem collectSym_spec (elf : List Nat) (h : Ehdr) (c : Classes) (strtab sym : Nat)
    (r : Option XSym) (hs : collectSym elf h c strtab sym = Run.ok r) :
    ∃ nameIdx value shndx info, read_be32 elf sym = Run.ok nameIdx ∧
      read_be32 elf (sym + 4) = Run.ok value ∧ read_be16 elf (sym + 14) = Run.ok shndx ∧
      load8 elf (sym + 12) = Run.ok info ∧
      ((nameIdx = 0 ∧ r = none) ∨
       (nameIdx ≠ 0 ∧ ∃ name0, load8 elf (strtab + nameIdx) = Run.ok name0 ∧
         ((name0 ≠ 0 ∧ shndx ≠ 0 ∧ shndx < h.shnum ∧ c.sectionType.getD shndx 0 ≠ 0 ∧
            ELF32_ST_TYPE info ≠ 4 ∧ ELF32_ST_TYPE info ≠ 3 ∧
            r = some { location := if ELF32_ST_BIND info = STB_GLOBAL then X_SYM_EXTERNAL
                                   else X_SYM_LOCAL
                       sect := c.sectionType.getD shndx 0 % 256
                       value := value
                       name := strtab + nameIdx }) ∨
          (¬(name0 ≠ 0 ∧ shndx ≠ 0 ∧ shndx < h.shnum ∧ c.sectionType.getD shndx 0 ≠ 0 ∧
            ELF32_ST_TYPE info ≠ 4 ∧ ELF32_ST_TYPE info ≠ 3) ∧ r = none)))) := by
  unfold collectSym at hs
  obtain ⟨nameIdx, h1, hs⟩ := (Run.bind_eq_ok _ _ _).1 hs
  obtain ⟨value, h2, hs⟩ := (Run.bind_eq_ok _ _ _).1 hs
  obtain ⟨shndx, h3, hs⟩ := (Run.bind_eq_ok _ _ _).1 hs
  obtain ⟨info, h4, hs⟩ := (Run.bind_eq_ok _ _ _).1 hs
  refine ⟨nameIdx, value, shndx, info, h1, h2, h3, h4, ?_⟩
  split at hs
  · rename_i hz
    simp only [Run.pure_eq, Run.ok.injEq] at hs
    exact Or.inl ⟨hz, hs.symm⟩
  · rename_i hz
    obtain ⟨name0, h5, hs⟩ := (Run.bind_eq_ok _ _ _).1 hs
    refine Or.inr ⟨hz, name0, h5, ?_⟩
    split at hs
    · rename_i h0
      simp only [Run.pure_eq, Run.ok.injEq] at hs
      exact Or.inr ⟨fun hh => hh.1 h0, hs.symm⟩
    · rename_i h0
      split at hs
      · rename_i hx
        simp only [Run.pure_eq, Run.ok.injEq] at hs
        refine Or.inr ⟨fun hh => ?_, hs.symm⟩
        rcases hx with hx | hx
        · exact hh.2.1 hx
        · exact absurd hh.2.2.1 (by omega)
      · rename_i hx
        simp only at hs
        split at hs
        · rename_i hcls
          simp only [Run.pure_eq, Run.ok.injEq] at hs
          exact Or.inr ⟨fun hh => hh.2.2.2.1 hcls, hs.symm⟩
        · rename_i hcls
          split at hs
          · rename_i hty
            simp only [Run.pure_eq, Run.ok.injEq] at hs
            refine Or.inr ⟨fun hh => ?_, hs.symm⟩
            rcases hty with hty | hty
            · exact hh.2.2.2.2.1 hty
            · exact hh.2.2.2.2.2 hty
          · rename_i hty
            simp only [Run.pure_eq, Run.ok.injEq] at hs
            exact Or.inl ⟨h0, fun hh => hx (Or.inl hh), by omega, hcls,
              fun hh => hty (Or.inl hh), fun hh => hty (Or.inr hh), hs.symm⟩

theorem collectLoop_spec (elf : List Nat) (h : Ehdr) (c : Classes)
    (strtab symOffset symEntSize : Nat) (todo : List Nat) :
    ∀ (xsyms out : List XSym),
    collectLoop elf h c strtab symOffset symEntSize todo xsyms = Run.ok out →
    ∃ rs, List.Forall₂ (fun i r => collectSym elf h c strtab
        (symOffset + (i * symEntSize) % 4294967296) = Run.ok r) todo rs ∧
      out = xsyms ++ rs.reduceOption := by
  induction todo with
  | nil =>
    intro xsyms out hl
    simp only [collectLoop, Run.ok.injEq] at hl
    subst hl
    exact ⟨[], List.Forall₂.nil, by simp⟩
  | cons i todo ih =>
    intro xsyms out hl
    simp only [collectLoop] at hl
    obtain ⟨r, hr, hl⟩ := (Run.bind_eq_ok _ _ _).1 hl
    rcases r with _ | x
    · obtain ⟨rs, h1, h2⟩ := ih xsyms out hl
      exact ⟨none :: rs, List.Forall₂.cons hr h1, by
        rw [h2, List.reduceOption_cons_of_none]⟩
    · obtain ⟨rs, h1, h2⟩ := ih (xsyms ++ [x]) out hl
      exact ⟨some x :: rs, List.Forall₂.cons hr h1, by
        rw [h2, List.reduceOption_cons_of_some]; simp⟩

theorem collectSymbols_spec (elf : List Nat) (h : Ehdr) (c : Classes) (xsyms : List XSym)
    (n symtabHdr strtab : Nat)
    (hs : collectSymbols true elf h c = Run.ok (xsyms, n))
    (hf : findSymtab elf h (List.range h.shnum) = Run.ok (some (symtabHdr, strtab))) :
    ∃ symOffset symSize ent0 rs, shField elf h symtabHdr 16 = Run.ok symOffset ∧
      shField elf h symtabHdr 20 = Run.ok symSize ∧ shField elf h symtabHdr 36 = Run.ok ent0 ∧
      List.Forall₂ (fun i r => collectSym elf h c strtab
          (symOffset + (i * (if ent0 = 0 then 16 else ent0)) % 4294967296) = Run.ok r)
        (List.range (entryCount symSize (if ent0 = 0 then 16 else ent0))) rs ∧
      xsyms.Perm rs.reduceOption := by
  unfold collectSymbols at hs
  simp only [if_true, hf, Run.ok_bind] at hs
  obtain ⟨symOffset, e1, hs⟩ := (Run.bind_eq_ok _ _ _).1 hs
  obtain ⟨symSize, e2, hs⟩ := (Run.bind_eq_ok _ _ _).1 hs
  obtain ⟨ent0, e3, hs⟩ := (Run.bind_eq_ok _ _ _).1 hs
  obtain ⟨collected, e4, hs⟩ := (Run.bind_eq_ok _ _ _).1 hs
  obtain ⟨m, _, hs⟩ := (Run.bind_eq_ok _ _ _).1 hs
  simp only [Run.pure_eq, Run.ok.injEq, Prod.mk.injEq] at hs
  obtain ⟨hx, _⟩ := hs
  obtain ⟨rs, r1, r2⟩ := collectLoop_spec _ _ _ _ _ _ _ _ _ e4
  refine ⟨symOffset, symSize, ent0, rs, e1, e2, e3, r1, ?_⟩
  rw [← hx, r2]
  exact List.perm_insertionSort _ _

theorem st_bind_eq (info : Nat) (hi : info < 256) : ELF32_ST_BIND info = info >>> 4 := by
  unfold ELF32_ST_BIND
  rw [Nat.shiftRight_eq_div_pow]
  omega

theorem st_type_eq (info : Nat) : ELF32_ST_TYPE info = info &&& 0xf := by
  unfold ELF32_ST_TYPE
  have : info &&& 0xf ≤ 0xf := Nat.and_le_right
  omega

theorem classify_range (elf : List Nat) (h : Ehdr) (c : Classes)
    (hc : classify elf h = Run.ok c) (i : Nat) (hi : i < h.shnum) :
    c.sectionType.getD i 0 = 0 ∨ c.sectionType.getD i 0 = 1 ∨ c.sectionType.getD i 0 = 2 ∨
      c.sectionType.getD i 0 = 3 := by
  obtain ⟨f, t, s, _, _, _, e4⟩ := (classify_spec elf h c hc).2.1 i hi
  rw [e4]
  split
  · exact Or.inl rfl
  · split
    · exact Or.inr (Or.inr (Or.inr rfl))
    · split
      · exact Or.inr (Or.inl rfl)
      · exact Or.inr (Or.inr (Or.inl rfl))

/-- C10: with `-s`, the sorted array of emitted symbols is a permutation of what
the symbol loop keeps of the entries of the symbol table, in table order; an
entry is kept exactly when its name index is not 0, its name does not start
with NUL, its section index `s` satisfies `0 < s < shnum` with a section
classified text, data or bss, and its type is neither 4 nor 3; a kept symbol
has location 0x00 when its binding is 1 (global) and 0x02 otherwise, the
section tag 1, 2 or 3 of that class, the value `st_value` and that name.
Without `-s` no symbol is collected, the symbol size is 0, the header field at
offset 28 is 0 and no byte follows the relocation stream. -/
theorem symbol_transformation (elf : List Nat) (h : Ehdr) (c : Classes)
    (hc : classify elf h = Run.ok c) :
    (∀ xsyms n symtabHdr strtab, collectSymbols true elf h c = Run.ok (xsyms, n) →
      findSymtab elf h (List.range h.shnum) = Run.ok (some (symtabHdr, strtab)) →
      ∃ symOffset symSize ent0 rs, shField elf h symtabHdr 16 = Run.ok symOffset ∧
        shField elf h symtabHdr 20 = Run.ok symSize ∧
        shField elf h symtabHdr 36 = Run.ok ent0 ∧
        List.Forall₂ (fun i r => collectSym elf h c strtab
            (symOffset + (i * (if ent0 = 0 then 16 else ent0)) % 4294967296) = Run.ok r)
          (List.range (entryCount symSize (if ent0 = 0 then 16 else ent0))) rs ∧
        xsyms.Perm rs.reduceOption) ∧
    (∀ strtab sym r, collectSym elf h c strtab sym = Run.ok r →
      ∃ nameIdx value shndx info, read_be32 elf sym = Run.ok nameIdx ∧
        read_be32 elf (sym + 4) = Run.ok value ∧ read_be16 elf (sym + 14) = Run.ok shndx ∧
        load8 elf (sym + 12) = Run.ok info ∧
        (r ≠ none ↔
          (nameIdx ≠ 0 ∧ (∃ name0, load8 elf (strtab + nameIdx) = Run.ok name0 ∧ name0 ≠ 0) ∧
            0 < shndx ∧ shndx < h.shnum ∧
            (c.sectionType.getD shndx 0 = 1 ∨ c.sectionType.getD shndx 0 = 2 ∨
              c.sectionType.getD shndx 0 = 3) ∧
            info &&& 0xf ≠ 4 ∧ info &&& 0xf ≠ 3)) ∧
        (∀ x, r = some x →
          x.location = (if info >>> 4 = 1 then 0x00 else 0x02) ∧
          x.sect = c.sectionType.getD shndx 0 ∧ (x.sect = 1 ∨ x.sect = 2 ∨ x.sect = 3) ∧
          x.value = value ∧ x.name = strtab + nameIdx)) ∧
    collectSymbols false elf h c = Run.ok ([], 0) ∧
    (∀ image relBuf out, writeXFile false elf h c image relBuf [] 0 = Run.ok out →
      u32At out 28 = 0 ∧
      out.drop 64 = image.take c.textSize ++ (image.drop c.textSize).take c.dataSize ++ relBuf) := by
  refine ⟨fun xsyms n symtabHdr strtab hs hf => collectSymbols_spec elf h c xsyms n symtabHdr
    strtab hs hf, ?_, rfl, ?_⟩
  · intro strtab sym r hs
    obtain ⟨nameIdx, value, shndx, info, h1, h2, h3, h4, hcase⟩ :=
      collectSym_spec elf h c strtab sym r hs
    have hinfo := load8_lt _ _ _ h4
    refine ⟨nameIdx, value, shndx, info, h1, h2, h3, h4, ?_, ?_⟩
    · rcases hcase with ⟨hz, hr⟩ | ⟨hz, name0, h5, ⟨k1, k2, k3, k4, k5, k6, hr⟩ | ⟨hk, hr⟩⟩
      · subst hr
        exact ⟨fun hh => absurd rfl hh, fun hh => absurd hz hh.1⟩
      · subst hr
        rw [st_type_eq] at k5 k6
        refine ⟨fun _ => ⟨hz, ⟨name0, h5, k1⟩, by omega, k3, ?_, k5, k6⟩, fun _ => by simp⟩
        rcases classify_range elf h c hc shndx k3 with e | e | e | e
        · exact absurd e k4
        · exact Or.inl e
        · exact Or.inr (Or.inl e)
        · exact Or.inr (Or.inr e)
      · subst hr
        refine ⟨fun hh => absurd rfl hh, fun hh => ?_⟩
        obtain ⟨_, ⟨n0, hn0, hn1⟩, g1, g2, g3, g4, g5⟩ := hh
        rw [h5] at hn0
        injection hn0 with hn0
        subst hn0
        refine absurd ⟨hn1, by omega, g2, by omega, ?_, ?_⟩ hk
        · rw [st_type_eq]; exact g4
        · rw [st_type_eq]; exact g5
    · intro x hx
      rcases hcase with ⟨_, hr⟩ | ⟨hz, name0, h5, ⟨k1, k2, k3, k4, k5, k6, hr⟩ | ⟨_, hr⟩⟩
      · rw [hr] at hx
        exact absurd hx (by simp)
      · rw [hr] at hx
        injection hx with hx
        subst hx
        have hcls := classify_range elf h c hc shndx k3
        have hmod : c.sectionType.getD shndx 0 % 256 = c.sectionType.getD shndx 0 := by omega
        refine ⟨?_, hmod, ?_, rfl, rfl⟩
        · show (if ELF32_ST_BIND info = STB_GLOBAL then X_SYM_EXTERNAL else X_SYM_LOCAL) = _
          rw [st_bind_eq info hinfo]
          rfl
        · show c.sectionType.getD shndx 0 % 256 = 1 ∨ c.sectionType.getD shndx 0 % 256 = 2 ∨
            c.sectionType.getD shndx 0 % 256 = 3
          omega
      · rw [hr] at hx
        exact absurd hx (by simp)
  · intro image relBuf out hw
    obtain ⟨syms, hout, _, _, hsyms⟩ := writeXFile_ok _ _ _ _ _ _ _ _ _ hw
    have hnil : syms = [] := by
      rcases hsyms with ⟨hh, _⟩ | ⟨_, hh⟩
      · exact absurd hh (by simp)
      · exact hh
    subst hnil
    rw [hout]
    constructor
    · simp [xHeader, be32, u32At]
    · simp [xHeader, be32]

/-- C10 applied to `elfS1`: with `-s` its one emitted symbol (global, in the
text section, value 0, name at file offset 105) is what the symbol loop keeps
of the two entries of the symbol table. -/
theorem symbol_transformation_witness :
    ∃ symOffset symSize ent0 rs, shField elfS1 hdrS1 3 16 = Run.ok symOffset ∧
      shField elfS1 hdrS1 3 20 = Run.ok symSize ∧
      shField elfS1 hdrS1 3 36 = Run.ok ent0 ∧
      List.Forall₂ (fun i r => collectSym elfS1 hdrS1 clsS1 104
          (symOffset + (i * (if ent0 = 0 then 16 else ent0)) % 4294967296) = Run.ok r)
        (List.range (entryCount symSize (if ent0 = 0 then 16 else ent0))) rs ∧
      [({ location := 0, sect := 1, value := 0, name := 105 } : XSym)].Perm rs.reduceOption :=
  (symbol_transformation elfS1 hdrS1 clsS1 (by decide!)).1
    [{ location := 0, sect := 1, value := 0, name := 105 }] 12 3 104 (by decide!) (by decide!)

/-! ## Symbol name padding -/

theorem land_fffffffe (x : Nat) (hx : x < 4294967296) : x &&& 0xFFFFFFFE = 2 * (x / 2) := by
  apply Nat.eq_of_testBit_eq
  intro i
  rw [Nat.testBit_and]
  cases i with
  | zero => simp [Nat.testBit_zero]
  | succ i =>
    have h1 : (0xFFFFFFFE : Nat).testBit (i + 1) = decide (i < 31) := by
      rw [Nat.testBit_succ]
      show (2 ^ 31 - 1).testBit i = _
      exact Nat.testBit_two_pow_sub_one 31 i
    have h2 : (2 * (x / 2)).testBit (i + 1) = x.testBit (i + 1) := by
      rw [Nat.testBit_succ, Nat.testBit_succ]
      congr 1
      omega
    rw [h1, h2]
    by_cases hi : i < 31
    · simp [hi]
    · have : x.testBit (i + 1) = false := by
        apply Nat.testBit_lt_two_pow
        calc x < 2 ^ 32 := hx
          _ ≤ 2 ^ (i + 1) := Nat.pow_le_pow_right (by decide) (by omega)
      simp [this, hi]

theorem paddedLen_eq (n : Nat) (hn : n + 2 < 2147483648) : paddedLen n = 2 * ((n + 2) / 2) := by
  unfold paddedLen
  exact land_fffffffe (n + 2) (by omega)

/-- C12: for every name length `n` (an `int` whose `n + 2` does not overflow),
`(n + 2) & ~1` is even, greater than `n` and the least such number, so the
padding `paddedLen n - n` is 1 or 2; the record written for a symbol whose name
has length `n` is location, section, the big-endian 32-bit value, the `n` name
bytes and that many NUL bytes, `6 + paddedLen n` bytes in all, the name field
taking `paddedLen n` of them. -/
theorem symbol_name_padding (n : Nat) (hn : n + 2 < 2147483648) :
    paddedLen n % 2 = 0 ∧ n < paddedLen n ∧
    (∀ m, m % 2 = 0 → n < m → paddedLen n ≤ m) ∧
    (paddedLen n - n = 1 ∨ paddedLen n - n = 2) ∧
    (∀ (elf : List Nat) (x : XSym), strlen elf x.name = Run.ok n →
      symRecord elf x = Run.ok ([x.location, x.sect] ++ be32 x.value ++
        ((elf.drop x.name).take n ++ List.replicate (paddedLen n - n) 0)) ∧
      ((elf.drop x.name).take n ++ List.replicate (paddedLen n - n) 0).length = paddedLen n ∧
      ([x.location, x.sect] ++ be32 x.value ++
        ((elf.drop x.name).take n ++ List.replicate (paddedLen n - n) 0)).length =
        6 + paddedLen n) := by
  have hp := paddedLen_eq n hn
  refine ⟨by omega, by omega, fun m hm hlt => by omega, by omega, fun elf x hs => ?_⟩
  have hb := strlen_bound elf x.name n hs
  have hlen : ((elf.drop x.name).take n ++ List.replicate (paddedLen n - n) 0).length =
      paddedLen n := by
    simp only [List.length_append, List.length_take, List.length_drop, List.length_replicate]
    omega
  refine ⟨?_, hlen, ?_⟩
  · have hg : n + 2 < 2147483648 ∧ n ≤ paddedLen n ∧ paddedLen n - n ≤ 2 := ⟨hn, by omega, by omega⟩
    simp only [symRecord, hs, Run.ok_bind, if_pos hg, Run.pure_eq, List.append_assoc]
  · rw [List.length_append, hlen]
    simp [be32]

/-- C12 applied to the name length 4 (padded to 6 by two NUL bytes). -/
theorem symbol_name_padding_witness :
    paddedLen 4 % 2 = 0 ∧ 4 < paddedLen 4 ∧
    (∀ m, m % 2 = 0 → 4 < m → paddedLen 4 ≤ m) ∧
    (paddedLen 4 - 4 = 1 ∨ paddedLen 4 - 4 = 2) ∧
    (∀ (elf : List Nat) (x : XSym), strlen elf x.name = Run.ok 4 →
      symRecord elf x = Run.ok ([x.location, x.sect] ++ be32 x.value ++
        ((elf.drop x.name).take 4 ++ List.replicate (paddedLen 4 - 4) 0)) ∧
      ((elf.drop x.name).take 4 ++ List.replicate (paddedLen 4 - 4) 0).length = paddedLen 4 ∧
      ([x.location, x.sect] ++ be32 x.value ++
        ((elf.drop x.name).take 4 ++ List.replicate (paddedLen 4 - 4) 0)).length =
        6 + paddedLen 4) :=
  symbol_name_padding 4 (by decide)

/-! ## Symbol ordering -/

theorem xsymLe_iff (a b : XSym) :
    xsymLe a b ↔ a.sect < b.sect ∨ (a.sect = b.sect ∧ a.value ≤ b.value) := by
  unfold xsymLe xsymCmp
  by_cases h1 : a.sect = b.sect
  · simp only [h1, ne_eq, not_true_eq_false, if_false, lt_self_iff_false, true_and, false_or]
    by_cases h2 : a.value < b.value
    · simp [h2]; omega
    · by_cases h3 : a.value > b.value
      · simp [h2, h3]
      · simp [h2, h3]; omega
  · simp only [ne_eq, h1, not_false_eq_true, if_true, false_and, or_false]
    omega

theorem xsymLe_total : IsTotal XSym xsymLe :=
  ⟨fun a b => by rw [xsymLe_iff, xsymLe_iff]; omega⟩

theorem xsymLe_trans : IsTrans XSym xsymLe :=
  ⟨fun a b c => by rw [xsymLe_iff, xsymLe_iff, xsymLe_iff]; omega⟩

theorem qsortXSyms_sorted (xsyms : List XSym) :
    (qsortXSyms xsyms).Sorted
      (fun a b => a.sect < b.sect ∨ (a.sect = b.sect ∧ a.value ≤ b.value)) :=
  (@List.sorted_insertionSort XSym xsymLe _ xsymLe_total xsymLe_trans xsyms).imp
    (fun h => (xsymLe_iff _ _).1 h)

theorem collectSymbols_sorted (includeSymbols : Bool) (elf : List Nat) (h : Ehdr) (c : Classes)
    (xsyms : List XSym) (n : Nat)
    (hs : collectSymbols includeSymbols elf h c = Run.ok (xsyms, n)) :
    ∃ collected, xsyms = qsortXSyms collected ∧
      ∀ symtabHdr strtab, includeSymbols = true →
        findSymtab elf h (List.range h.shnum) = Run.ok (some (symtabHdr, strtab)) →
        ∃ symOffset symSize ent0, shField elf h symtabHdr 16 = Run.ok symOffset ∧
          shField elf h symtabHdr 20 = Run.ok symSize ∧
          shField elf h symtabHdr 36 = Run.ok ent0 ∧
          collectLoop elf h c strtab symOffset (if ent0 = 0 then 16 else ent0)
            (List.range (entryCount symSize (if ent0 = 0 then 16 else ent0))) [] =
            Run.ok collected := by
  unfold collectSymbols at hs
  cases includeSymbols with
  | false =>
    simp only [Bool.false_eq_true, if_false, Run.pure_eq, Run.ok.injEq, Prod.mk.injEq] at hs
    exact ⟨[], hs.1.symm, fun _ _ hh => absurd hh (by simp)⟩
  | true =>
    simp only [if_true] at hs
    obtain ⟨found, hf, hs⟩ := (Run.bind_eq_ok _ _ _).1 hs
    rcases found with _ | ⟨symtabHdr, strtab⟩
    · simp only [Run.pure_eq, Run.ok.injEq, Prod.mk.injEq] at hs
      refine ⟨[], hs.1.symm, fun a b _ hf2 => ?_⟩
      rw [hf] at hf2
      exact absurd hf2 (by simp)
    · simp only at hs
      obtain ⟨symOffset, e1, hs⟩ := (Run.bind_eq_ok _ _ _).1 hs
      obtain ⟨symSize, e2, hs⟩ := (Run.bind_eq_ok _ _ _).1 hs
      obtain ⟨ent0, e3, hs⟩ := (Run.bind_eq_ok _ _ _).1 hs
      obtain ⟨collected, e4, hs⟩ := (Run.bind_eq_ok _ _ _).1 hs
      obtain ⟨m, _, hs⟩ := (Run.bind_eq_ok _ _ _).1 hs
      simp only [Run.pure_eq, Run.ok.injEq, Prod.mk.injEq] at hs
      refine ⟨collected, hs.1.symm, fun a b _ hf2 => ?_⟩
      rw [hf] at hf2
      simp only [Run.ok.injEq, Option.some.injEq, Prod.mk.injEq] at hf2
      obtain ⟨ha, hb⟩ := hf2
      subst ha hb
      exact ⟨symOffset, symSize, ent0, e1, e2, e3, e4⟩

theorem symRecords_spec (elf : List Nat) (xsyms : List XSym) :
    ∀ syms, symRecords elf xsyms = Run.ok syms →
    ∃ recs, List.Forall₂ (fun x r => symRecord elf x = Run.ok r) xsyms recs ∧
      syms = recs.flatten := by
  induction xsyms with
  | nil =>
    intro syms hs
    simp only [symRecords, Run.ok.injEq] at hs
    exact ⟨[], List.Forall₂.nil, by simp [← hs]⟩
  | cons x xsyms ih =>
    intro syms hs
    simp only [symRecords] at hs
    obtain ⟨r, hr, hs⟩ := (Run.bind_eq_ok _ _ _).1 hs
    obtain ⟨rs, hrs, hs⟩ := (Run.bind_eq_ok _ _ _).1 hs
    simp only [Run.pure_eq, Run.ok.injEq] at hs
    obtain ⟨recs, h1, h2⟩ := ih rs hrs
    exact ⟨r :: recs, List.Forall₂.cons hr h1, by simp [← hs, h2]⟩

/-- C11: with `-s`, the array of symbols after `qsort` is a permutation of the
symbols the symbol loop collected and is sorted by section tag, then by value
(both compared as natural numbers); the writer emits one record per element
of the array, in the order of the array. -/
theorem symbol_ordering (elf : List Nat) (h : Ehdr) (c : Classes) (xsyms : List XSym) (n : Nat)
    (hs : collectSymbols true elf h c = Run.ok (xsyms, n)) :
    xsyms.Sorted (fun a b => a.sect < b.sect ∨ (a.sect = b.sect ∧ a.value ≤ b.value)) ∧
    (∀ symtabHdr strtab,
      findSymtab elf h (List.range h.shnum) = Run.ok (some (symtabHdr, strtab)) →
      ∃ symOffset symSize ent0 collected, shField elf h symtabHdr 16 = Run.ok symOffset ∧
        shField elf h symtabHdr 20 = Run.ok symSize ∧
        shField elf h symtabHdr 36 = Run.ok ent0 ∧
        collectLoop elf h c strtab symOffset (if ent0 = 0 then 16 else ent0)
          (List.range (entryCount symSize (if ent0 = 0 then 16 else ent0))) [] =
          Run.ok collected ∧
        xsyms.Perm collected) ∧
    (∀ syms, symRecords elf xsyms = Run.ok syms →
      ∃ recs, List.Forall₂ (fun x r => symRecord elf x = Run.ok r) xsyms recs ∧
        syms = recs.flatten) := by
  obtain ⟨collected, hx, hfound⟩ := collectSymbols_sorted true elf h c xsyms n hs
  refine ⟨?_, fun symtabHdr strtab hf => ?_, symRecords_spec elf xsyms⟩
  · rw [hx]
    exact qsortXSyms_sorted collected
  · obtain ⟨symOffset, symSize, ent0, e1, e2, e3, e4⟩ := hfound symtabHdr strtab rfl hf
    refine ⟨symOffset, symSize, ent0, collected, e1, e2, e3, e4, ?_⟩
    rw [hx]
    exact List.perm_insertionSort _ _

set_option maxRecDepth 4000 in
/-- C11 applied to `elfSyms`, whose symbol table lists the symbols in the order
data, bss, text at 4, text at 0: the array after `qsort` is `sortedSyms`. -/
theorem symbol_ordering_witness :
    collectSymbols true elfSyms hdrSyms clsSyms = Run.ok (sortedSyms, 36) ∧
    qsortXSyms collectedSyms = sortedSyms ∧
    sortedSyms.Sorted (fun a b => a.sect < b.sect ∨ (a.sect = b.sect ∧ a.value ≤ b.value)) := by
  have hs : collectSymbols true elfSyms hdrSyms clsSyms = Run.ok (sortedSyms, 36) := by decide!
  exact ⟨hs, by decide!, (symbol_ordering elfSyms hdrSyms clsSyms sortedSyms 36 hs).1⟩

/-! ## Scenario S2 and the parity of the harvested offsets -/

theorem qsortRelocs_eq_of_perm (l1 l2 : List Nat) (hp : l1.Perm l2) :
    qsortRelocs l1 = qsortRelocs l2 :=
  List.eq_of_perm_of_sorted
    (((qsortRelocs_perm l1).trans hp).trans (qsortRelocs_perm l2).symm)
    (qsortRelocs_sorted l1) (qsortRelocs_sorted l2)

/-- C13 (counterexample): for the harvested offsets 0 and 0x20000 the relocation
stream is 00 00 00 01 00 02 00 00, which is 8 bytes and not 6; `elfS2` is an
input with these two relocations. -/
theorem scenario_s2_stream_has_eight_bytes :
    harvest elfS2 hdrS2 clsS1 = Run.ok [0x20000, 0] ∧
    buildRelBuf [0x20000, 0] = Run.ok [0, 0, 0, 1, 0, 2, 0, 0] ∧
    (encodeRelocs (qsortRelocs [0x20000, 0])).length = 8 ∧
    (encodeRelocs (qsortRelocs [0x20000, 0])).length ≠ 6 := by
  decide!

/-- C13 (amended): whenever the harvested relocations of a successful conversion
are the offsets 0 and 0x20000 (in either order), the relocation stream of the
output is 00 00 00 01 00 02 00 00, the 8 bytes after the text and data bytes,
and the relocation size in the header is 8. -/
theorem scenario_s2 (includeSymbols : Bool) (elf out : List Nat) (h : Ehdr) (c : Classes)
    (relocs : List Nat) (hm : main includeSymbols elf = Run.ok out)
    (hh : validateHeader elf = Run.ok h) (hc : classify elf h = Run.ok c)
    (hr : harvest elf h c = Run.ok relocs) (hp : relocs.Perm [0x00000000, 0x00020000]) :
    encodeRelocs (qsortRelocs relocs) = [0, 0, 0, 1, 0, 2, 0, 0] ∧
    u32At out 24 = 8 ∧
    ((out.drop (64 + c.textSize + c.dataSize)).take 8 = [0, 0, 0, 1, 0, 2, 0, 0]) := by
  have henc : encodeRelocs (qsortRelocs relocs) = [0, 0, 0, 1, 0, 2, 0, 0] := by
    rw [qsortRelocs_eq_of_perm relocs _ hp]
    decide
  obtain ⟨h2, c2, image, relocs2, xsyms, text, data, relBuf, syms, e1, _, e3, _, e5, _, _, e8,
    _, _, _, _, _, _, _, l6, _, _, l9, lt, ld⟩ := main_layout includeSymbols elf out hm
  rw [hh] at e1
  injection e1 with e1
  subst e1
  rw [hc] at e3
  injection e3 with e3
  subst e3
  rw [hr] at e5
  injection e5 with e5
  subst e5
  rw [henc] at e8
  subst e8
  refine ⟨henc, by rw [l6]; rfl, ?_⟩
  have hd : out.drop (64 + c.textSize + c.dataSize) = (out.drop 64).drop (c.textSize + c.dataSize) := by
    rw [List.drop_drop]
    congr 1
    omega
  rw [hd, l9, List.append_assoc, List.append_assoc, ← List.append_assoc text data,
    List.drop_left' (by rw [List.length_append, lt, ld])]
  simp

/-- C13 (amended) applied to `elfS2`. -/
theorem scenario_s2_witness :
    encodeRelocs (qsortRelocs [0x20000, 0]) = [0, 0, 0, 1, 0, 2, 0, 0] ∧
    u32At (xHeader 0 8 0 0 8 0 ++ [0x4e, 0x71, 0x4e, 0x71, 0, 0, 0, 0] ++
      [0, 0, 0, 1, 0, 2, 0, 0]) 24 = 8 ∧
    (((xHeader 0 8 0 0 8 0 ++ [0x4e, 0x71, 0x4e, 0x71, 0, 0, 0, 0] ++
      [0, 0, 0, 1, 0, 2, 0, 0]).drop (64 + clsS1.textSize + clsS1.dataSize)).take 8 =
      [0, 0, 0, 1, 0, 2, 0, 0]) :=
  scenario_s2 false elfS2 _ hdrS2 clsS1 [0x20000, 0] (by decide!) (by decide!) (by decide!)
    (by decide!) (List.Perm.swap _ _ _)

theorem harvest_provenance (elf : List Nat) (h : Ehdr) (c : Classes) (relocs : List Nat)
    (hh : harvest elf h c = Run.ok relocs) (o : Nat) (ho : o ∈ relocs) :
    ∃ i j info relaOffset relaSize relaEntSize0 rInfo rOffset,
      i < h.shnum ∧ shField elf h i 4 = Run.ok SHT_RELA ∧
      shField elf h i 28 = Run.ok info ∧ info < h.shnum ∧
      (c.sectionType.getD info 0 = 1 ∨ c.sectionType.getD info 0 = 2) ∧
      shField elf h i 16 = Run.ok relaOffset ∧ shField elf h i 20 = Run.ok relaSize ∧
      shField elf h i 36 = Run.ok relaEntSize0 ∧
      j < entryCount relaSize (if relaEntSize0 = 0 then 12 else relaEntSize0) ∧
      read_be32 elf (relaOffset +
        (j * (if relaEntSize0 = 0 then 12 else relaEntSize0)) % 4294967296 + 4) = Run.ok rInfo ∧
      read_be32 elf (relaOffset +
        (j * (if relaEntSize0 = 0 then 12 else relaEntSize0)) % 4294967296) = Run.ok rOffset ∧
      rInfo &&& 0xff = 1 ∧
      o = if c.sectionType.getD info 0 = 1 then rOffset
        else add32 c.textSize (sub32 rOffset c.dataStart) := by
  obtain ⟨i, j, hi, info, relaOffset, relaSize, ent0, symtabIdx, symtabSh, e1, e2, e3, e4, e5,
    e6, e7, _, _, e10, e11⟩ := (harvest_mem elf h c relocs hh o).1 ho
  obtain ⟨rInfo, rOffset, r1, r2, r3⟩ := relaEntry_spec _ _ _ _ _ _ e11
  refine ⟨i, j, info, relaOffset, relaSize, ent0, rInfo, rOffset, hi, e1, e2, e3, e4, e5, e6, e7,
    e10, r1, r2, ?_⟩
  rcases r3 with ⟨_, r4⟩ | ⟨r4, _, r5⟩ | ⟨r4, _, _, _, _, ⟨_, r5⟩ | ⟨_, r5⟩⟩
  · exact absurd r4 (by simp)
  · exact ⟨r4, Option.some.inj r5⟩
  · exact absurd r5 (by simp)
  · exact ⟨r4, Option.some.inj r5⟩

/-- C14 (counterexample): `elfDeltaFFFF` passes the validation, and the one
offset its harvester collects is 0xFFFF, which is odd. -/
theorem harvested_offset_can_be_odd :
    validateHeader elfDeltaFFFF = Run.ok hdrS1 ∧
    classify elfDeltaFFFF hdrS1 = Run.ok clsS1 ∧
    harvest elfDeltaFFFF hdrS1 clsS1 = Run.ok [0xFFFF] ∧
    0xFFFF % 2 = 1 := by
  decide!

/-- C14 (amended): when every RELA entry of type 1 in a section that targets
text or data has an even `r_offset` and, unless no section is classified data,
`textSize` and `dataStart` are even, every offset the harvester collects is
even. -/
theorem harvested_offsets_even (elf : List Nat) (h : Ehdr) (c : Classes) (relocs : List Nat)
    (hh : harvest elf h c = Run.ok relocs)
    (heven : ∀ i j info relaOffset relaSize relaEntSize0 rInfo rOffset,
      i < h.shnum → shField elf h i 4 = Run.ok SHT_RELA →
      shField elf h i 28 = Run.ok info → info < h.shnum →
      (c.sectionType.getD info 0 = 1 ∨ c.sectionType.getD info 0 = 2) →
      shField elf h i 16 = Run.ok relaOffset → shField elf h i 20 = Run.ok relaSize →
      shField elf h i 36 = Run.ok relaEntSize0 →
      j < entryCount relaSize (if relaEntSize0 = 0 then 12 else relaEntSize0) →
      read_be32 elf (relaOffset +
        (j * (if relaEntSize0 = 0 then 12 else relaEntSize0)) % 4294967296 + 4) = Run.ok rInfo →
      read_be32 elf (relaOffset +
        (j * (if relaEntSize0 = 0 then 12 else relaEntSize0)) % 4294967296) = Run.ok rOffset →
      rInfo &&& 0xff = 1 → rOffset % 2 = 0)
    (hdata : (∀ i, i < h.shnum → c.sectionType.getD i 0 ≠ 2) ∨
      (c.textSize % 2 = 0 ∧ c.dataStart % 2 = 0)) :
    ∀ o ∈ relocs, o % 2 = 0 := by
  intro o ho
  obtain ⟨i, j, info, relaOffset, relaSize, ent0, rInfo, rOffset, hi, e1, e2, e3, e4, e5, e6, e7,
    e8, e9, e10, e11, e12⟩ := harvest_provenance elf h c relocs hh o ho
  have hro := heven i j info relaOffset relaSize ent0 rInfo rOffset hi e1 e2 e3 e4 e5 e6 e7 e8
    e9 e10 e11
  rw [e12]
  split
  · exact hro
  · rename_i hne
    rcases hdata with hd | ⟨hd1, hd2⟩
    · rcases e4 with e4 | e4
      · exact absurd e4 hne
      · exact absurd e4 (hd info e3)
    · unfold add32 sub32
      omega

/-- C14 (amended) applied to `elfS1`, whose one RELA entry has `r_offset` 4. -/
theorem harvested_offsets_even_witness : 4 % 2 = 0 :=
  harvested_offsets_even elfS1 hdrS1 clsS1 [4] (by decide!)
    (fun i j info relaOffset relaSize ent0 rInfo rOffset hi e1 e2 _ _ e5 e6 e7 e8 _ e10 _ => by
      have hi2 : i = 2 := by
        have hi5 : i < 5 := hi
        have h0 : shField elfS1 hdrS1 0 4 ≠ Run.ok SHT_RELA := by decide!
        have h1 : shField elfS1 hdrS1 1 4 ≠ Run.ok SHT_RELA := by decide!
        have h3 : shField elfS1 hdrS1 3 4 ≠ Run.ok SHT_RELA := by decide!
        have h4 : shField elfS1 hdrS1 4 4 ≠ Run.ok SHT_RELA := by decide!
        rcases Nat.lt_or_ge i 1 with g | g
        · have : i = 0 := by omega
          subst this
          exact absurd e1 h0
        · rcases Nat.lt_or_ge i 2 with g2 | g2
          · have : i = 1 := by omega
            subst this
            exact absurd e1 h1
          · rcases Nat.lt_or_ge i 3 with g3 | g3
            · omega
            · rcases Nat.lt_or_ge i 4 with g4 | g4
              · have : i = 3 := by omega
                subst this
                exact absurd e1 h3
              · have : i = 4 := by omega
                subst this
                exact absurd e1 h4
      subst hi2
      have a5 : shField elfS1 hdrS1 2 16 = Run.ok 60 := by decide!
      have a6 : shField elfS1 hdrS1 2 20 = Run.ok 12 := by decide!
      have a7 : shField elfS1 hdrS1 2 36 = Run.ok 12 := by decide!
      rw [a5] at e5
      rw [a6] at e6
      rw [a7] at e7
      have b5 := Run.ok.inj e5
      have b6 := Run.ok.inj e6
      have b7 := Run.ok.inj e7
      subst b5 b6 b7
      have hj : j = 0 := by
        have : entryCount 12 (if 12 = 0 then 12 else 12) = 1 := by decide
        rw [this] at e8
        omega
      subst hj
      have a10 : read_be32 elfS1 (60 + (0 * (if 12 = 0 then 12 else 12)) % 4294967296) =
        Run.ok 4 := by decide!
      rw [a10] at e10
      have b10 := Run.ok.inj e10
      rw [← b10])
    (Or.inl (by decide)) 4 (List.mem_singleton_self 4)

/-! ## Class ranges -/

theorem shField_lt (elf : List Nat) (h : Ehdr) (i field v : Nat)
    (hv : shField elf h i field = Run.ok v) : v < 4294967296 := by
  unfold shField at hv
  split at hv
  · exact read_be32_lt _ _ _ hv
  · exact absurd hv (by simp)

theorem classifyStep_ranges (c : Classes) (i flags type addr size k : Nat)
    (hk : k = 1 ∨ k = 2 ∨ k = 3) :
    (classifyStep c i flags type addr size).startOf k =
      (if classOf flags type size = k then
        (if addr < c.startOf k then addr else c.startOf k) else c.startOf k) ∧
    (classifyStep c i flags type addr size).endOf k =
      (if classOf flags type size = k then
        (if add32 addr size > c.endOf k then add32 addr size else c.endOf k)
        else c.endOf k) := by
  unfold classifyStep classOf Classes.startOf Classes.endOf
  by_cases h1 : flags &&& SHF_ALLOC = 0
  · rcases hk with hk | hk | hk <;> subst hk <;> simp [h1]
  · by_cases h2 : size = 0
    · rcases hk with hk | hk | hk <;> subst hk <;> simp [h1, h2]
    · by_cases h3 : type = SHT_NOBITS
      · rcases hk with hk | hk | hk <;> subst hk <;> simp [h1, h2, h3]
      · by_cases h4 : flags &&& SHF_EXECINSTR = 0
        · rcases hk with hk | hk | hk <;> subst hk <;> simp [h1, h2, h3, h4]
        · rcases hk with hk | hk | hk <;> subst hk <;> simp [h1, h2, h3, h4]

theorem classifyLoop_ranges (elf : List Nat) (h : Ehdr) (k : Nat)
    (hk : k = 1 ∨ k = 2 ∨ k = 3) (todo : List Nat) :
    ∀ (c c2 : Classes), classifyLoop elf h todo c = Run.ok c2 →
    (c2.startOf k ≤ c.startOf k ∧ c.endOf k ≤ c2.endOf k) ∧
    (∀ i ∈ todo, ∀ f t a s, SectionAttrs elf h i f t a s → classOf f t s = k →
      c2.startOf k ≤ a ∧ add32 a s ≤ c2.endOf k) ∧
    (c2.startOf k = c.startOf k ∨ ∃ i ∈ todo, ∃ f t a s, SectionAttrs elf h i f t a s ∧
      classOf f t s = k ∧ a = c2.startOf k) ∧
    (c2.endOf k = c.endOf k ∨ ∃ i ∈ todo, ∃ f t a s, SectionAttrs elf h i f t a s ∧
      classOf f t s = k ∧ add32 a s = c2.endOf k) := by
  induction todo with
  | nil =>
    intro c c2 hrun
    simp only [classifyLoop, Run.ok.injEq] at hrun
    subst hrun
    simp
  | cons i todo ih =>
    intro c c2 hrun
    simp only [classifyLoop] at hrun
    obtain ⟨flags, hf, hrun⟩ := (Run.bind_eq_ok _ _ _).1 hrun
    obtain ⟨type, ht, hrun⟩ := (Run.bind_eq_ok _ _ _).1 hrun
    obtain ⟨addr, ha, hrun⟩ := (Run.bind_eq_ok _ _ _).1 hrun
    obtain ⟨size, hs, hrun⟩ := (Run.bind_eq_ok _ _ _).1 hrun
    obtain ⟨_, _, hrun⟩ := (Run.bind_eq_ok _ _ _).1 hrun
    obtain ⟨⟨a1, a2⟩, b, c3, d⟩ := ih _ c2 hrun
    obtain ⟨s1, s2⟩ := classifyStep_ranges c i flags type addr size k hk
    have hattrs : SectionAttrs elf h i flags type addr size := ⟨hf, ht, ha, hs⟩
    have hs1 : (classifyStep c i flags type addr size).startOf k ≤ c.startOf k := by
      rw [s1]; split
      · split <;> omega
      · exact Nat.le_refl _
    have hs2 : c.endOf k ≤ (classifyStep c i flags type addr size).endOf k := by
      rw [s2]; split
      · split <;> omega
      · exact Nat.le_refl _
    refine ⟨⟨Nat.le_trans a1 hs1, Nat.le_trans hs2 a2⟩, ?_, ?_, ?_⟩
    · intro j hj f t a s hattr hcls
      rcases List.mem_cons.1 hj with hji | hjt
      · subst hji
        obtain ⟨g1, g2, g3, g4⟩ := hattr
        rw [hf] at g1; rw [ht] at g2; rw [ha] at g3; rw [hs] at g4
        have e1 := Run.ok.inj g1
        have e2 := Run.ok.inj g2
        have e3 := Run.ok.inj g3
        have e4 := Run.ok.inj g4
        subst e1 e2 e3 e4
        rw [if_pos hcls] at s1 s2
        constructor
        · have : (classifyStep c j flags type addr size).startOf k ≤ addr := by
            rw [s1]; split <;> omega
          exact Nat.le_trans a1 this
        · have : add32 addr size ≤ (classifyStep c j flags type addr size).endOf k := by
            rw [s2]; split <;> omega
          exact Nat.le_trans this a2
      · exact b j hjt f t a s hattr hcls
    · rcases c3 with c3 | ⟨j, hj, f, t, a, s, g1, g2, g3⟩
      · by_cases hcls : classOf flags type size = k
        · rw [if_pos hcls] at s1
          by_cases hlt : addr < c.startOf k
          · rw [if_pos hlt] at s1
            exact Or.inr ⟨i, List.mem_cons_self _ _, flags, type, addr, size, hattrs, hcls,
              by rw [c3, s1]⟩
          · rw [if_neg hlt] at s1
            exact Or.inl (by rw [c3, s1])
        · rw [if_neg hcls] at s1
          exact Or.inl (by rw [c3, s1])
      · exact Or.inr ⟨j, List.mem_cons_of_mem _ hj, f, t, a, s, g1, g2, g3⟩
    · rcases d with d | ⟨j, hj, f, t, a, s, g1, g2, g3⟩
      · by_cases hcls : classOf flags type size = k
        · rw [if_pos hcls] at s2
          by_cases hlt : add32 addr size > c.endOf k
          · rw [if_pos hlt] at s2
            exact Or.inr ⟨i, List.mem_cons_self _ _, flags, type, addr, size, hattrs, hcls,
              by rw [d, s2]⟩
          · rw [if_neg hlt] at s2
            exact Or.inl (by rw [d, s2])
        · rw [if_neg hcls] at s2
          exact Or.inl (by rw [d, s2])
      · exact Or.inr ⟨j, List.mem_cons_of_mem _ hj, f, t, a, s, g1, g2, g3⟩

theorem classify_ranges (elf : List Nat) (h : Ehdr) (c : Classes)
    (hc : classify elf h = Run.ok c) (k : Nat) (hk : k = 1 ∨ k = 2 ∨ k = 3) :
    (∀ i, i < h.shnum → ∀ f t a s, SectionAttrs elf h i f t a s → classOf f t s = k →
      c.startOf k ≤ a ∧ add32 a s ≤ c.endOf k) ∧
    (c.startOf k = 0xFFFFFFFF ∨ ∃ i, i < h.shnum ∧ ∃ f t a s, SectionAttrs elf h i f t a s ∧
      classOf f t s = k ∧ a = c.startOf k) ∧
    (c.endOf k = 0 ∨ ∃ i, i < h.shnum ∧ ∃ f t a s, SectionAttrs elf h i f t a s ∧
      classOf f t s = k ∧ add32 a s = c.endOf k) ∧
    c.startOf k ≤ 0xFFFFFFFF := by
  unfold classify at hc
  obtain ⟨_, _, hc⟩ := (Run.bind_eq_ok _ _ _).1 hc
  obtain ⟨⟨a1, _⟩, b, c3, d⟩ := classifyLoop_ranges elf h k hk (List.range h.shnum) _ c hc
  have hinit1 : (Classes.init h.shnum).startOf k = 0xFFFFFFFF := by
    rcases hk with hk | hk | hk <;> subst hk <;> rfl
  have hinit2 : (Classes.init h.shnum).endOf k = 0 := by
    rcases hk with hk | hk | hk <;> subst hk <;> rfl
  rw [hinit1] at a1 c3
  rw [hinit2] at d
  refine ⟨fun i hi => b i (List.mem_range.2 hi), ?_, ?_, a1⟩
  · rcases c3 with c3 | ⟨i, hi, rest⟩
    · exact Or.inl c3
    · exact Or.inr ⟨i, List.mem_range.1 hi, rest⟩
  · rcases d with d | ⟨i, hi, rest⟩
    · exact Or.inl d
    · exact Or.inr ⟨i, List.mem_range.1 hi, rest⟩

theorem classifyLoop_attrs (elf : List Nat) (h : Ehdr) (todo : List Nat) :
    ∀ (c c2 : Classes), classifyLoop elf h todo c = Run.ok c2 →
    ∀ i ∈ todo, ∃ f t a s, SectionAttrs elf h i f t a s := by
  induction todo with
  | nil => intro _ _ _ i hi; exact absurd hi (List.not_mem_nil i)
  | cons j todo ih =>
    intro c c2 hrun i hi
    simp only [classifyLoop] at hrun
    obtain ⟨flags, hf, hrun⟩ := (Run.bind_eq_ok _ _ _).1 hrun
    obtain ⟨type, ht, hrun⟩ := (Run.bind_eq_ok _ _ _).1 hrun
    obtain ⟨addr, ha, hrun⟩ := (Run.bind_eq_ok _ _ _).1 hrun
    obtain ⟨size, hs, hrun⟩ := (Run.bind_eq_ok _ _ _).1 hrun
    obtain ⟨_, _, hrun⟩ := (Run.bind_eq_ok _ _ _).1 hrun
    rcases List.mem_cons.1 hi with hij | hit
    · subst hij
      exact ⟨flags, type, addr, size, hf, ht, ha, hs⟩
    · exact ih _ c2 hrun i hit

theorem classify_attrs (elf : List Nat) (h : Ehdr) (c : Classes)
    (hc : classify elf h = Run.ok c) (i : Nat) (hi : i < h.shnum) :
    ∃ f t a s, SectionAttrs elf h i f t a s ∧ c.sectionType.getD i 0 = classOf f t s := by
  obtain ⟨f2, t2, s2, e1, e2, e3, e4⟩ := (classify_spec elf h c hc).2.1 i hi
  unfold classify at hc
  obtain ⟨_, _, hc⟩ := (Run.bind_eq_ok _ _ _).1 hc
  obtain ⟨f, t, a, s, g1, g2, g3, g4⟩ :=
    classifyLoop_attrs elf h (List.range h.shnum) _ c hc i (List.mem_range.2 hi)
  rw [g1] at e1; rw [g2] at e2; rw [g4] at e3
  have d1 := Run.ok.inj e1
  have d2 := Run.ok.inj e2
  have d3 := Run.ok.inj e3
  subst d1 d2 d3
  exact ⟨f, t, a, s, ⟨g1, g2, g3, g4⟩, e4⟩

theorem SectionAttrs_unique (elf : List Nat) (h : Ehdr) (i f t a s f2 t2 a2 s2 : Nat)
    (h1 : SectionAttrs elf h i f t a s) (h2 : SectionAttrs elf h i f2 t2 a2 s2) :
    f = f2 ∧ t = t2 ∧ a = a2 ∧ s = s2 := by
  obtain ⟨g1, g2, g3, g4⟩ := h1
  obtain ⟨k1, k2, k3, k4⟩ := h2
  rw [g1] at k1; rw [g2] at k2; rw [g3] at k3; rw [g4] at k4
  exact ⟨Run.ok.inj k1, Run.ok.inj k2, Run.ok.inj k3, Run.ok.inj k4⟩

theorem classify_ranges_le (elf1 elf2 : List Nat) (h1 h2 : Ehdr) (c1 c2 : Classes)
    (hc1 : classify elf1 h1 = Run.ok c1) (hc2 : classify elf2 h2 = Run.ok c2)
    (f : Nat → Nat) (hf : ∀ i, i < h1.shnum → f i < h2.shnum)
    (hattr : ∀ i, i < h1.shnum → ∀ fl t a s, SectionAttrs elf1 h1 i fl t a s →
      SectionAttrs elf2 h2 (f i) fl t a s)
    (k : Nat) (hk : k = 1 ∨ k = 2 ∨ k = 3) :
    c2.startOf k ≤ c1.startOf k ∧ c1.endOf k ≤ c2.endOf k := by
  obtain ⟨_, att1, att1e, _⟩ := classify_ranges elf1 h1 c1 hc1 k hk
  obtain ⟨lb2, _, _, le2⟩ := classify_ranges elf2 h2 c2 hc2 k hk
  constructor
  · rcases att1 with e | ⟨i, hi, fl, t, a, s, g1, g2, g3⟩
    · rw [e]; exact le2
    · rw [← g3]
      exact (lb2 (f i) (hf i hi) fl t a s (hattr i hi fl t a s g1) g2).1
  · rcases att1e with e | ⟨i, hi, fl, t, a, s, g1, g2, g3⟩
    · rw [e]; exact Nat.zero_le _
    · rw [← g3]
      exact (lb2 (f i) (hf i hi) fl t a s (hattr i hi fl t a s g1) g2).2

/-- C15: after the classifier has run, the start of each class (text 1, data 2,
bss 3) is a lower bound of the `sh_addr` and its end an upper bound of the
32-bit sums `sh_addr + sh_size` of the sections of the class; when the class has
a section both bounds are attained (minimum and maximum), and when it has none
they are 0xFFFFFFFF and 0.  Hence a second file whose section headers are the
headers of the first in another order gives the same starts, ends, `textSize`,
`dataSize` and `bssSize`. -/
theorem class_ranges_merged_by_address (elf1 : List Nat) (h1 : Ehdr) (c1 : Classes)
    (hc1 : classify elf1 h1 = Run.ok c1) :
    (∀ k, (k = 1 ∨ k = 2 ∨ k = 3) →
      (∀ i, i < h1.shnum → ∀ f t a s, SectionAttrs elf1 h1 i f t a s → classOf f t s = k →
        c1.sectionType.getD i 0 = k ∧ c1.startOf k ≤ a ∧ add32 a s ≤ c1.endOf k) ∧
      ((∃ i, i < h1.shnum ∧ ∃ f t a s, SectionAttrs elf1 h1 i f t a s ∧ classOf f t s = k) →
        (∃ i, i < h1.shnum ∧ ∃ f t a s, SectionAttrs elf1 h1 i f t a s ∧ classOf f t s = k ∧
          a = c1.startOf k) ∧
        (∃ i, i < h1.shnum ∧ ∃ f t a s, SectionAttrs elf1 h1 i f t a s ∧ classOf f t s = k ∧
          add32 a s = c1.endOf k)) ∧
      ((∀ i, i < h1.shnum → ∀ f t a s, SectionAttrs elf1 h1 i f t a s → classOf f t s ≠ k) →
        c1.startOf k = 0xFFFFFFFF ∧ c1.endOf k = 0)) ∧
    (∀ (elf2 : List Nat) (h2 : Ehdr) (c2 : Classes) (p : Nat → Nat),
      classify elf2 h2 = Run.ok c2 → h2.shnum = h1.shnum →
      (∀ i, i < h1.shnum → p i < h1.shnum) →
      (∀ j, j < h1.shnum → ∃ i, i < h1.shnum ∧ p i = j) →
      (∀ i, i < h1.shnum → ∀ f t a s, SectionAttrs elf1 h1 (p i) f t a s →
        SectionAttrs elf2 h2 i f t a s) →
      c2.textStart = c1.textStart ∧ c2.textEnd = c1.textEnd ∧
      c2.dataStart = c1.dataStart ∧ c2.dataEnd = c1.dataEnd ∧
      c2.bssStart = c1.bssStart ∧ c2.bssEnd = c1.bssEnd ∧
      c2.textSize = c1.textSize ∧ c2.dataSize = c1.dataSize ∧ c2.bssSize = c1.bssSize) := by
  constructor
  · intro k hk
    obtain ⟨lb, att, atte, _⟩ := classify_ranges elf1 h1 c1 hc1 k hk
    refine ⟨fun i hi f t a s hattr hcls => ?_, ?_, ?_⟩
    · obtain ⟨f2, t2, a2, s2, g, gcls⟩ := classify_attrs elf1 h1 c1 hc1 i hi
      obtain ⟨u1, u2, _, u4⟩ := SectionAttrs_unique _ _ _ _ _ _ _ _ _ _ _ hattr g
      subst u1 u2 u4
      exact ⟨by rw [gcls, hcls], lb i hi f t a s hattr hcls⟩
    · rintro ⟨i, hi, f, t, a, s, hattr, hcls⟩
      obtain ⟨b1, b2⟩ := lb i hi f t a s hattr hcls
      have ha := shField_lt _ _ _ _ _ hattr.2.2.1
      constructor
      · rcases att with e | hatt
        · exact ⟨i, hi, f, t, a, s, hattr, hcls, by omega⟩
        · exact hatt
      · rcases atte with e | hatt
        · exact ⟨i, hi, f, t, a, s, hattr, hcls, by omega⟩
        · exact hatt
    · intro hnone
      constructor
      · rcases att with e | ⟨i, hi, f, t, a, s, g1, g2, _⟩
        · exact e
        · exact absurd g2 (hnone i hi f t a s g1)
      · rcases atte with e | ⟨i, hi, f, t, a, s, g1, g2, _⟩
        · exact e
        · exact absurd g2 (hnone i hi f t a s g1)
  · intro elf2 h2 c2 p hc2 hn hp hsurj hattr
    have key : ∀ k, (k = 1 ∨ k = 2 ∨ k = 3) →
        c2.startOf k = c1.startOf k ∧ c2.endOf k = c1.endOf k := by
      intro k hk
      -- every section of the second file is a section of the first
      have h21 : ∀ i, i < h2.shnum → ∀ f t a s, SectionAttrs elf2 h2 i f t a s →
          SectionAttrs elf1 h1 (p i) f t a s := by
        intro i hi f t a s g
        rw [hn] at hi
        obtain ⟨f1, t1, a1, s1, g1, _⟩ := classify_attrs elf1 h1 c1 hc1 (p i) (hp i hi)
        have g2 := hattr i hi f1 t1 a1 s1 g1
        obtain ⟨u1, u2, u3, u4⟩ := SectionAttrs_unique _ _ _ _ _ _ _ _ _ _ _ g g2
        subst u1 u2 u3 u4
        exact g1
      obtain ⟨x1, x2⟩ := classify_ranges_le elf2 elf1 h2 h1 c2 c1 hc2 hc1 p
        (fun i hi => hp i (hn ▸ hi)) h21 k hk
      -- every section of the first file is a section of the second
      have hq : ∀ j, j < h1.shnum → ∃ i, i < h2.shnum ∧ ∀ f t a s,
          SectionAttrs elf1 h1 j f t a s → SectionAttrs elf2 h2 i f t a s := by
        intro j hj
        obtain ⟨i, hi, hpi⟩ := hsurj j hj
        exact ⟨i, hn ▸ hi, fun f t a s g => hattr i hi f t a s (hpi ▸ g)⟩
      obtain ⟨_, att1, att1e, le1⟩ := classify_ranges elf1 h1 c1 hc1 k hk
      obtain ⟨lb2, _, _, le2⟩ := classify_ranges elf2 h2 c2 hc2 k hk
      have y1 : c2.startOf k ≤ c1.startOf k := by
        rcases att1 with e | ⟨j, hj, f, t, a, s, g1, g2, g3⟩
        · rw [e]; exact le2
        · obtain ⟨i, hi, hi2⟩ := hq j hj
          rw [← g3]
          exact (lb2 i hi f t a s (hi2 f t a s g1) g2).1
      have y2 : c1.endOf k ≤ c2.endOf k := by
        rcases att1e with e | ⟨j, hj, f, t, a, s, g1, g2, g3⟩
        · rw [e]; exact Nat.zero_le _
        · obtain ⟨i, hi, hi2⟩ := hq j hj
          rw [← g3]
          exact (lb2 i hi f t a s (hi2 f t a s g1) g2).2
      exact ⟨by omega, by omega⟩
    obtain ⟨t1, t2⟩ := key 1 (Or.inl rfl)
    obtain ⟨d1, d2⟩ := key 2 (Or.inr (Or.inl rfl))
    obtain ⟨b1, b2⟩ := key 3 (Or.inr (Or.inr rfl))
    have t1b : c2.textStart = c1.textStart := t1
    have t2b : c2.textEnd = c1.textEnd := t2
    have d1b : c2.dataStart = c1.dataStart := d1
    have d2b : c2.dataEnd = c1.dataEnd := d2
    have b1b : c2.bssStart = c1.bssStart := b1
    have b2b : c2.bssEnd = c1.bssEnd := b2
    refine ⟨t1b, t2b, d1b, d2b, b1b, b2b, ?_, ?_, ?_⟩
    · unfold Classes.textSize; rw [t1b, t2b]
    · unfold Classes.dataSize; rw [d1b, d2b]
    · unfold Classes.bssSize; rw [b1b, b2b]

theorem SectionAttrs_transfer (elf1 elf2 : List Nat) (h1 h2 : Ehdr) (i j : Nat)
    (e8 : shField elf1 h1 i 8 = shField elf2 h2 j 8)
    (e4 : shField elf1 h1 i 4 = shField elf2 h2 j 4)
    (e12 : shField elf1 h1 i 12 = shField elf2 h2 j 12)
    (e20 : shField elf1 h1 i 20 = shField elf2 h2 j 20)
    (f t a s : Nat) (hattr : SectionAttrs elf1 h1 i f t a s) :
    SectionAttrs elf2 h2 j f t a s := by
  obtain ⟨g1, g2, g3, g4⟩ := hattr
  exact ⟨e8 ▸ g1, e4 ▸ g2, e12 ▸ g3, e20 ▸ g4⟩

theorem load8_congr (m1 m2 : List Nat) (p q k : Nat) (hk : k < 4)
    (h : (m1.drop p).take 4 = (m2.drop q).take 4) : load8 m1 (p + k) = load8 m2 (q + k) := by
  have e1 : m1[p + k]? = ((m1.drop p).take 4)[k]? := by
    rw [List.getElem?_take_of_lt hk, List.getElem?_drop]
  have e2 : m2[q + k]? = ((m2.drop q).take 4)[k]? := by
    rw [List.getElem?_take_of_lt hk, List.getElem?_drop]
  unfold load8
  rw [e1, e2, h]

theorem read_be32_congr (m1 m2 : List Nat) (p q : Nat)
    (h : (m1.drop p).take 4 = (m2.drop q).take 4) : read_be32 m1 p = read_be32 m2 q := by
  have h0 := load8_congr m1 m2 p q 0 (by decide) h
  have h1 := load8_congr m1 m2 p q 1 (by decide) h
  have h2 := load8_congr m1 m2 p q 2 (by decide) h
  have h3 := load8_congr m1 m2 p q 3 (by decide) h
  simp only [Nat.add_zero] at h0
  unfold read_be32
  rw [h0, h1, h2, h3]

/-- Two section header fields are read alike when their four bytes are the
same. -/
theorem shField_congr (elf1 elf2 : List Nat) (h : Ehdr) (i j field : Nat)
    (hb : (elf1.drop (h.shoff + i * h.shentsize + field)).take 4 =
      (elf2.drop (h.shoff + j * h.shentsize + field)).take 4)
    (hi : i * h.shentsize < 2147483648) (hj : j * h.shentsize < 2147483648) :
    shField elf1 h i field = shField elf2 h j field := by
  unfold shField
  rw [if_pos hi, if_pos hj]
  exact read_be32_congr _ _ _ _ hb

/-- C15 applied to `elfSyms` and the file with its section headers 1 and 2
exchanged: both give the same ranges and sizes. -/
theorem class_ranges_merged_by_address_witness :
    clsSymsSwapped.textStart = clsSyms.textStart ∧ clsSymsSwapped.textEnd = clsSyms.textEnd ∧
    clsSymsSwapped.dataStart = clsSyms.dataStart ∧ clsSymsSwapped.dataEnd = clsSyms.dataEnd ∧
    clsSymsSwapped.bssStart = clsSyms.bssStart ∧ clsSymsSwapped.bssEnd = clsSyms.bssEnd ∧
    clsSymsSwapped.textSize = clsSyms.textSize ∧ clsSymsSwapped.dataSize = clsSyms.dataSize ∧
    clsSymsSwapped.bssSize = clsSyms.bssSize :=
  (class_ranges_merged_by_address elfSyms hdrSyms clsSyms (by decide!)).2
    elfSymsSwapped hdrSyms clsSymsSwapped swap12 (by decide!) rfl
    (fun i hi => by
      have hi6 : i < 6 := hi
      show swap12 i < 6
      unfold swap12
      split
      · omega
      · split <;> omega)
    (fun j hj => by
      have hj6 : j < 6 := hj
      refine ⟨swap12 j, ?_, ?_⟩
      · show swap12 j < 6
        unfold swap12
        split
        · omega
        · split <;> omega
      · unfold swap12
        by_cases h1 : j = 1
        · subst h1; rfl
        · by_cases h2 : j = 2
          · subst h2; rfl
          · simp [h1, h2])
    (fun i hi => by
      have hi6 : i < 6 := hi
      have hcases : i = 0 ∨ i = 1 ∨ i = 2 ∨ i = 3 ∨ i = 4 ∨ i = 5 := by omega
      rcases hcases with h | h | h | h | h | h <;> subst h <;>
        exact SectionAttrs_transfer _ _ _ _ _ _
          (shField_congr _ _ _ _ _ _ (by decide!) (by decide) (by decide))
          (shField_congr _ _ _ _ _ _ (by decide!) (by decide) (by decide))
          (shField_congr _ _ _ _ _ _ (by decide!) (by decide) (by decide))
          (shField_congr _ _ _ _ _ _ (by decide!) (by decide) (by decide)))

/-! ## Image size and gaps -/

theorem imageLoop_placements (elf : List Nat) (h : Ehdr) (c : Classes) (todo : List Nat) :
    ∀ (image image2 : List Nat), imageLoop elf h c todo image = Run.ok image2 →
    ∀ i ∈ todo, ∃ p, placement elf h c i = Run.ok p ∧
      ∀ o f n, p = some (o, f, n) → o + n ≤ image.length := by
  induction todo with
  | nil => intro _ _ _ i hi; exact absurd hi (List.not_mem_nil i)
  | cons j todo ih =>
    intro image image2 hrun i hi
    simp only [imageLoop] at hrun
    obtain ⟨p, hp, hrun⟩ := (Run.bind_eq_ok _ _ _).1 hrun
    rcases p with _ | ⟨o, f, n⟩
    · rcases List.mem_cons.1 hi with hij | hit
      · subst hij
        exact ⟨none, hp, fun _ _ _ hh => absurd hh (by simp)⟩
      · exact ih image image2 hrun i hit
    · simp only at hrun
      split at hrun
      · exact absurd hrun (by simp)
      · obtain ⟨img, hm, hrun⟩ := (Run.bind_eq_ok _ _ _).1 hrun
        obtain ⟨hb1, _, hlen, _⟩ := memcpy_spec _ _ _ _ _ _ hm
        rcases List.mem_cons.1 hi with hij | hit
        · subst hij
          refine ⟨some (o, f, n), hp, fun o2 f2 n2 hh => ?_⟩
          simp only [Option.some.injEq, Prod.mk.injEq] at hh
          obtain ⟨e1, _, e3⟩ := hh
          subst e1 e3
          exact hb1
        · obtain ⟨p2, g1, g2⟩ := ih img image2 hrun i hit
          exact ⟨p2, g1, fun o2 f2 n2 hh => by rw [← hlen]; exact g2 o2 f2 n2 hh⟩

theorem placement_of_attrs (elf : List Nat) (h : Ehdr) (c : Classes) (i f t a s : Nat)
    (p : Option (Nat × Nat × Nat)) (hp : placement elf h c i = Run.ok p)
    (hattr : SectionAttrs elf h i f t a s) (hcls : c.sectionType.getD i 0 = classOf f t s)
    (hk : classOf f t s = 1 ∨ classOf f t s = 2) :
    ∃ off, p = some ((if classOf f t s = 1 then sub32 a c.textStart
      else add32 c.textSize (sub32 a c.dataStart)), off, s) ∧ s ≠ 0 := by
  obtain ⟨g1, g2, g3, g4⟩ := hattr
  have hty : t ≠ SHT_NOBITS ∧ s ≠ 0 := by
    unfold classOf at hk
    by_cases h0 : f &&& SHF_ALLOC = 0 ∨ s = 0
    · rw [if_pos h0] at hk; omega
    · rw [if_neg h0] at hk
      by_cases h1 : t = SHT_NOBITS
      · rw [if_pos h1] at hk; omega
      · exact ⟨h1, fun hh => h0 (Or.inr hh)⟩
  unfold placement at hp
  simp only [g2, Run.ok_bind] at hp
  have hcond : ¬(c.sectionType.getD i 0 = 0 ∨ t = SHT_NOBITS) := by
    rw [hcls]
    rintro (hh | hh)
    · omega
    · exact hty.1 hh
  rw [if_neg hcond] at hp
  simp only [g3, g4, Run.ok_bind] at hp
  obtain ⟨off, hoff, hp⟩ := (Run.bind_eq_ok _ _ _).1 hp
  simp only [Run.pure_eq, Run.ok.injEq] at hp
  refine ⟨off, ?_, hty.2⟩
  rw [← hp, hcls]

/-- C16: when the classifier has found a text section and the image is
assembled, the image has `textSize + dataSize` bytes, where `textSize` is
`textEnd - textStart` and `dataSize` is `dataEnd - dataStart` (32-bit
differences) when a section is classified data and 0 when none is; every image
byte outside the ranges at which the contributing sections are placed is 0. -/
theorem image_size_and_zero_gaps (elf : List Nat) (h : Ehdr) (c : Classes) (image : List Nat)
    (hc : classify elf h = Run.ok c) (htext : c.textStart ≠ 0xFFFFFFFF)
    (hb : buildImage elf h c = Run.ok image) :
    image.length = c.textSize + c.dataSize ∧
    c.textSize = sub32 c.textEnd c.textStart ∧
    ((∃ i, i < h.shnum ∧ c.sectionType.getD i 0 = 2) →
      c.dataSize = sub32 c.dataEnd c.dataStart) ∧
    ((∀ i, i < h.shnum → c.sectionType.getD i 0 ≠ 2) → c.dataSize = 0) ∧
    (∀ p, p < image.length →
      (∀ i, i < h.shnum → ∀ o f n, placement elf h c i = Run.ok (some (o, f, n)) →
        ¬(o ≤ p ∧ p < o + n)) →
      image[p]? = some 0) := by
  obtain ⟨hlen, hframe⟩ := imageLoop_frame elf h c (List.range h.shnum) _ image hb
  have hlen2 : image.length = c.imageSize := by simpa using hlen
  have hpl := imageLoop_placements elf h c (List.range h.shnum) _ image hb
  -- a section of class `k` is placed inside the image
  have hplaced : ∀ i, i < h.shnum → ∀ f t a s, SectionAttrs elf h i f t a s →
      (classOf f t s = 1 ∨ classOf f t s = 2) →
      (if classOf f t s = 1 then sub32 a c.textStart
        else add32 c.textSize (sub32 a c.dataStart)) + s ≤ c.imageSize ∧ s ≠ 0 := by
    intro i hi f t a s hattr hk
    obtain ⟨p, hp, hp2⟩ := hpl i (List.mem_range.2 hi)
    obtain ⟨f2, t2, a2, s2, g, gcls⟩ := classify_attrs elf h c hc i hi
    obtain ⟨u1, u2, u3, u4⟩ := SectionAttrs_unique _ _ _ _ _ _ _ _ _ _ _ hattr g
    subst u1 u2 u3 u4
    obtain ⟨off, hsome, hs0⟩ := placement_of_attrs elf h c i f t a s p hp hattr gcls hk
    have := hp2 _ _ _ hsome
    simp only [List.length_replicate] at this
    exact ⟨this, hs0⟩
  -- the text range does not wrap
  obtain ⟨lb1, att1, atte1, _⟩ := classify_ranges elf h c hc 1 (Or.inl rfl)
  have hatt : ∃ i, i < h.shnum ∧ ∃ f t a s, SectionAttrs elf h i f t a s ∧ classOf f t s = 1 ∧
      add32 a s = c.textEnd := by
    rcases att1 with e | ⟨i, hi, f, t, a, s, g1, g2, _⟩
    · exact absurd e htext
    · rcases atte1 with e | hatt
      · have := (lb1 i hi f t a s g1 g2).2
        exact ⟨i, hi, f, t, a, s, g1, g2, by
          have e2 : c.textEnd = 0 := e
          have : add32 a s ≤ c.textEnd := this
          omega⟩
      · exact hatt
  obtain ⟨i, hi, f, t, a, s, g1, g2, g3⟩ := hatt
  have hin := (hplaced i hi f t a s g1 (Or.inl g2)).1
  rw [if_pos g2] at hin
  have hlb : c.textStart ≤ a := (lb1 i hi f t a s g1 g2).1
  have ha := shField_lt _ _ _ _ _ g1.2.2.1
  have hds := c.dataSize_lt
  have hnowrap : c.imageSize = c.textSize + c.dataSize := by
    have e1 : c.textSize = sub32 (add32 a s) c.textStart := by
      unfold Classes.textSize; rw [g3]
    unfold Classes.imageSize add32 at hin ⊢
    unfold sub32 add32 at e1
    unfold sub32 at hin
    omega
  refine ⟨by rw [hlen2, hnowrap], rfl, ?_, ?_, ?_⟩
  · rintro ⟨j, hj, hcls⟩
    obtain ⟨f2, t2, a2, s2, g, gcls⟩ := classify_attrs elf h c hc j hj
    rw [hcls] at gcls
    have hin2 := hplaced j hj f2 t2 a2 s2 g (Or.inr gcls.symm)
    rw [if_neg (by omega)] at hin2
    obtain ⟨lb2, _, _, _⟩ := classify_ranges elf h c hc 2 (Or.inr (Or.inl rfl))
    have hlb2 : c.dataStart ≤ a2 := (lb2 j hj f2 t2 a2 s2 g gcls.symm).1
    have ha2 := shField_lt _ _ _ _ _ g.2.2.1
    have hts := c.textSize_lt
    unfold Classes.dataSize
    split
    · rfl
    · rename_i hsent
      have hsent2 : c.dataStart = 0xFFFFFFFF := by simpa using hsent
      have hd0 : c.dataSize = 0 := by
        unfold Classes.dataSize
        rw [if_neg hsent]
      exfalso
      obtain ⟨hin3, hs0⟩ := hin2
      rw [hnowrap, hd0] at hin3
      unfold add32 sub32 at hin3
      omega
  · intro hnone
    obtain ⟨_, att2, _, _⟩ := classify_ranges elf h c hc 2 (Or.inr (Or.inl rfl))
    unfold Classes.dataSize
    rcases att2 with e | ⟨j, hj, f2, t2, a2, s2, g, gcls, _⟩
    · have e2 : c.dataStart = 0xFFFFFFFF := e
      rw [if_neg (by simp [e2])]
    · obtain ⟨f3, t3, a3, s3, g3', gcls3⟩ := classify_attrs elf h c hc j hj
      obtain ⟨u1, u2, u3, u4⟩ := SectionAttrs_unique _ _ _ _ _ _ _ _ _ _ _ g g3'
      subst u1 u2 u3 u4
      exact absurd (gcls3.trans gcls) (hnone j hj)
  · intro p hp hout
    rw [hframe p (fun k hk o f n hpl2 => hout k (List.mem_range.1 hk) o f n hpl2)]
    rw [hlen2] at hp
    simp [List.getElem?_replicate, hp]

/-- C16 applied to `elfSyms`: its image is the 8 text bytes followed by the 4
data bytes. -/
theorem image_size_and_zero_gaps_witness :
    [0x4e, 0x71, 0x4e, 0x71, 0x4e, 0x75, 0x4e, 0x71, 0x11, 0x22, 0x33, 0x44].length =
      clsSyms.textSize + clsSyms.dataSize ∧
    clsSyms.textSize = sub32 clsSyms.textEnd clsSyms.textStart ∧
    ((∃ i, i < hdrSyms.shnum ∧ clsSyms.sectionType.getD i 0 = 2) →
      clsSyms.dataSize = sub32 clsSyms.dataEnd clsSyms.dataStart) ∧
    ((∀ i, i < hdrSyms.shnum → clsSyms.sectionType.getD i 0 ≠ 2) → clsSyms.dataSize = 0) ∧
    (∀ p, p < [0x4e, 0x71, 0x4e, 0x71, 0x4e, 0x75, 0x4e, 0x71, 0x11, 0x22, 0x33, 0x44].length →
      (∀ i, i < hdrSyms.shnum → ∀ o f n,
        placement elfSyms hdrSyms clsSyms i = Run.ok (some (o, f, n)) → ¬(o ≤ p ∧ p < o + n)) →
      [0x4e, 0x71, 0x4e, 0x71, 0x4e, 0x75, 0x4e, 0x71, 0x11, 0x22, 0x33, 0x44][p]? = some 0) :=
  image_size_and_zero_gaps elfSyms hdrSyms clsSyms
    [0x4e, 0x71, 0x4e, 0x71, 0x4e, 0x75, 0x4e, 0x71, 0x11, 0x22, 0x33, 0x44]
    (by decide!) (by decide) (by decide!)

/-! ## The size of the relocation buffer -/

theorem encodeLoop_length_le (relocs : List Nat) :
    ∀ (i lastOffset : Nat) (relBuf : List Nat),
      (encodeLoop relocs i lastOffset relBuf).length ≤ relBuf.length + 6 * relocs.length := by
  induction relocs with
  | nil =>
    intro i lastOffset relBuf
    simp [encodeLoop]
  | cons off rest ih =>
    intro i lastOffset relBuf
    unfold encodeLoop
    simp only []
    split
    · have := ih (i + 1) lastOffset relBuf
      simp only [List.length_cons]
      omega
    · split
      · have := ih (i + 1) off (relBuf ++ be16 0x0001 ++ be32 off)
        simp only [List.length_append, be16, be32, List.length_cons, List.length_nil] at this ⊢
        omega
      · have := ih (i + 1) off (relBuf ++ be16 (sub32 off lastOffset % 65536))
        simp only [List.length_append, be16, List.length_cons, List.length_nil] at this ⊢
        omega

/-- C38: the relocation stream can outgrow the buffer of `4 * n + 4` bytes.
The comment at the `malloc` counts 4 bytes for a relocation in long form, but
the encoder stores 6: the marker 00 01 and the 32-bit offset.  The three
sorted offsets 0x20000, 0x40000 and 0x60000 give a stream of 18 bytes for a
buffer of 16, so that the last store of the encoder is outside `relBuf`.  For
every list the stream has at most 6 bytes for each offset. -/
theorem relocation_stream_outgrows_buffer :
    qsortRelocs [0x20000, 0x40000, 0x60000] = [0x20000, 0x40000, 0x60000] ∧
    encodeRelocs [0x20000, 0x40000, 0x60000] =
      [0x00, 0x01, 0x00, 0x02, 0x00, 0x00, 0x00, 0x01, 0x00, 0x04, 0x00, 0x00,
       0x00, 0x01, 0x00, 0x06, 0x00, 0x00] ∧
    (encodeRelocs [0x20000, 0x40000, 0x60000]).length = 18 ∧
    4 * [0x20000, 0x40000, 0x60000].length + 4 = 16 ∧
    buildRelBuf [0x20000, 0x40000, 0x60000] = Run.undefined ∧
    (∀ relocs : List Nat, (encodeRelocs relocs).length ≤ 6 * relocs.length) := by
  refine ⟨by decide, by decide, by decide, by decide, by decide, fun relocs => ?_⟩
  have h := encodeLoop_length_le relocs 0 0 []
  simpa [encodeRelocs] using h

/-! ## The bounds check of the image assembler -/

theorem Run.bind_ne_exit1 {α β : Type} (x : Run α) (f : α → Run β) (d : Diag)
    (hx : x ≠ Run.exit1 d) (hf : ∀ a, f a ≠ Run.exit1 d) : (x >>= f) ≠ Run.exit1 d := by
  cases x with
  | ok a => exact hf a
  | exit1 e =>
    intro h
    rw [Run.exit1_bind] at h
    injection h with h
    exact hx (by rw [h])
  | undefined =>
    intro h
    cases h

theorem load8_ne_exit1 (mem : List Nat) (p : Nat) (d : Diag) : load8 mem p ≠ Run.exit1 d := by
  unfold load8
  split <;> simp

theorem read_be32_ne_exit1 (mem : List Nat) (p : Nat) (d : Diag) :
    read_be32 mem p ≠ Run.exit1 d := by
  unfold read_be32
  refine Run.bind_ne_exit1 _ _ d (load8_ne_exit1 _ _ d) (fun b0 => ?_)
  refine Run.bind_ne_exit1 _ _ d (load8_ne_exit1 _ _ d) (fun b1 => ?_)
  refine Run.bind_ne_exit1 _ _ d (load8_ne_exit1 _ _ d) (fun b2 => ?_)
  refine Run.bind_ne_exit1 _ _ d (load8_ne_exit1 _ _ d) (fun b3 => ?_)
  simp

theorem shField_ne_exit1 (elf : List Nat) (h : Ehdr) (i field : Nat) (d : Diag) :
    shField elf h i field ≠ Run.exit1 d := by
  unfold shField
  split
  · exact read_be32_ne_exit1 _ _ d
  · simp

theorem placement_ne_exit1 (elf : List Nat) (h : Ehdr) (c : Classes) (i : Nat) (d : Diag) :
    placement elf h c i ≠ Run.exit1 d := by
  unfold placement
  refine Run.bind_ne_exit1 _ _ d (shField_ne_exit1 _ _ _ _ d) (fun t => ?_)
  split
  · simp
  · refine Run.bind_ne_exit1 _ _ d (shField_ne_exit1 _ _ _ _ d) (fun a => ?_)
    refine Run.bind_ne_exit1 _ _ d (shField_ne_exit1 _ _ _ _ d) (fun o => ?_)
    refine Run.bind_ne_exit1 _ _ d (shField_ne_exit1 _ _ _ _ d) (fun s => ?_)
    simp

theorem memcpy_ne_exit1 (dst : List Nat) (pos : Nat) (src : List Nat) (start n : Nat) (d : Diag) :
    memcpy dst pos src start n ≠ Run.exit1 d := by
  unfold memcpy
  split <;> simp

/-- The image loop does not take the error branch when every section it
places ends inside the image. -/
theorem imageLoop_ne_exit1 (elf : List Nat) (h : Ehdr) (c : Classes) (todo : List Nat) :
    ∀ image : List Nat,
      (∀ i ∈ todo, ∀ o f n, placement elf h c i = Run.ok (some (o, f, n)) →
        add32 o n ≤ c.imageSize) →
      ∀ d, imageLoop elf h c todo image ≠ Run.exit1 d := by
  induction todo with
  | nil =>
    intro image _ d
    simp [imageLoop]
  | cons j todo ih =>
    intro image hb d
    have ht : ∀ i ∈ todo, ∀ o f n, placement elf h c i = Run.ok (some (o, f, n)) →
        add32 o n ≤ c.imageSize := fun i hi => hb i (List.mem_cons_of_mem _ hi)
    unfold imageLoop
    rcases hp : placement elf h c j with p | e | _
    · rcases p with _ | ⟨o, f, n⟩
      · simp only [Run.ok_bind]
        exact ih image ht d
      · simp only [Run.ok_bind]
        have hle := hb j (List.mem_cons_self _ _) o f n hp
        rw [if_neg (by omega)]
        exact Run.bind_ne_exit1 _ _ d (memcpy_ne_exit1 _ _ _ _ _ d) (fun img => ih img ht d)
    · exact absurd hp (placement_ne_exit1 elf h c j e)
    · simp

/-- C39 (counterexample): in `elfWrapEnd` the sums of address and size are
0x1008 and 2^32, so none exceeds 2^32, and `textSize + dataSize` is 8; the
32-bit end of section 2 is 0, the text range stays 0x1000 to 0x1008, section 2
is placed at image offset 0xFFFFEFF8, and the assembler takes the error
branch. -/
theorem section_overflow_at_address_space_end :
    validateHeader elfWrapEnd = Run.ok hdrWrapEnd ∧
    classify elfWrapEnd hdrWrapEnd = Run.ok clsWrapEnd ∧
    shField elfWrapEnd hdrWrapEnd 1 12 = Run.ok 0x1000 ∧
    shField elfWrapEnd hdrWrapEnd 1 20 = Run.ok 8 ∧
    shField elfWrapEnd hdrWrapEnd 2 12 = Run.ok 0xFFFFFFF8 ∧
    shField elfWrapEnd hdrWrapEnd 2 20 = Run.ok 8 ∧
    0x1000 + 8 ≤ 4294967296 ∧ 0xFFFFFFF8 + 8 ≤ 4294967296 ∧
    clsWrapEnd.textSize + clsWrapEnd.dataSize = 8 ∧ clsWrapEnd.imageSize = 8 ∧
    placement elfWrapEnd hdrWrapEnd clsWrapEnd 2 = Run.ok (some (0xFFFFEFF8, 60, 8)) ∧
    buildImage elfWrapEnd hdrWrapEnd clsWrapEnd = Run.exit1 .sectionExceedsImage ∧
    main false elfWrapEnd = Run.exit1 .sectionExceedsImage := by
  decide!

/-- C39 (amended): when the sum of address and size is below 2^32 for every
classified section, and `textSize + dataSize` is below 2^32, every section
that the image assembler places lies inside the image
(`imgOffset + size ≤ imageSize`, without wrap), and the assembler returns no
diagnostic: the error branch is not taken. -/
theorem section_overflow_unreachable (elf : List Nat) (h : Ehdr) (c : Classes)
    (hc : classify elf h = Run.ok c)
    (hsum : ∀ i, i < h.shnum → ∀ f t a s, SectionAttrs elf h i f t a s →
      classOf f t s ≠ 0 → a + s < 4294967296)
    (hsize : c.textSize + c.dataSize < 4294967296) :
    (∀ i, i < h.shnum → ∀ o f n, placement elf h c i = Run.ok (some (o, f, n)) →
      o + n ≤ c.imageSize ∧ add32 o n = o + n) ∧
    c.imageSize = c.textSize + c.dataSize ∧
    ∀ d, buildImage elf h c ≠ Run.exit1 d := by
  have himg : c.imageSize = c.textSize + c.dataSize := by
    unfold Classes.imageSize add32
    exact Nat.mod_eq_of_lt hsize
  have key : ∀ i, i < h.shnum → ∀ o f n, placement elf h c i = Run.ok (some (o, f, n)) →
      o + n ≤ c.imageSize ∧ add32 o n = o + n := by
    intro i hi o f n hp
    obtain ⟨fl, t, a, s, hattr, hcls⟩ := classify_attrs elf h c hc i hi
    have hk : classOf fl t s = 1 ∨ classOf fl t s = 2 := by
      have hp2 := hp
      unfold placement at hp2
      simp only [hattr.2.1, Run.ok_bind] at hp2
      by_cases hcond : c.sectionType.getD i 0 = 0 ∨ t = SHT_NOBITS
      · rw [if_pos hcond] at hp2
        simp at hp2
      · rw [hcls] at hcond
        unfold classOf at hcond ⊢
        by_cases h0 : fl &&& SHF_ALLOC = 0 ∨ s = 0
        · rw [if_pos h0] at hcond
          exact absurd (Or.inl rfl) hcond
        · rw [if_neg h0]
          by_cases h1 : t = SHT_NOBITS
          · exact absurd (Or.inr h1) hcond
          · rw [if_neg h1]
            by_cases h2 : fl &&& SHF_EXECINSTR ≠ 0
            · rw [if_pos h2]
              exact Or.inl rfl
            · rw [if_neg h2]
              exact Or.inr rfl
    obtain ⟨off, hpe, hs0⟩ := placement_of_attrs elf h c i fl t a s _ hp hattr hcls hk
    simp only [Option.some.injEq, Prod.mk.injEq] at hpe
    obtain ⟨eo, _, en⟩ := hpe
    have hnw := hsum i hi fl t a s hattr (by omega)
    have ha32 : add32 a s = a + s := by
      unfold add32
      exact Nat.mod_eq_of_lt hnw
    rcases hk with hk | hk
    · obtain ⟨lb, _, att, _⟩ := classify_ranges elf h c hc 1 (Or.inl rfl)
      obtain ⟨l1, l2⟩ := lb i hi fl t a s hattr hk
      have e1 : c.startOf 1 = c.textStart := rfl
      have e2 : c.endOf 1 = c.textEnd := rfl
      rw [e1] at l1
      rw [e2, ha32] at l2
      have hend : c.textEnd < 4294967296 := by
        rcases att with z | ⟨_, _, _, _, a2, s2, _, _, e⟩
        · rw [e2] at z
          omega
        · rw [e2] at e
          rw [← e]
          unfold add32
          exact Nat.mod_lt _ (by decide)
      rw [if_pos hk] at eo
      have hts : c.textSize = c.textEnd - c.textStart := by
        unfold Classes.textSize sub32
        omega
      have hso : sub32 a c.textStart = a - c.textStart := by
        unfold sub32
        omega
      rw [eo, en, hso, himg]
      refine ⟨by omega, ?_⟩
      unfold add32
      exact Nat.mod_eq_of_lt (by omega)
    · obtain ⟨lb, _, att, _⟩ := classify_ranges elf h c hc 2 (Or.inr (Or.inl rfl))
      obtain ⟨l1, l2⟩ := lb i hi fl t a s hattr hk
      have e1 : c.startOf 2 = c.dataStart := rfl
      have e2 : c.endOf 2 = c.dataEnd := rfl
      rw [e1] at l1
      rw [e2, ha32] at l2
      have hend : c.dataEnd < 4294967296 := by
        rcases att with z | ⟨_, _, _, _, a2, s2, _, _, e⟩
        · rw [e2] at z
          omega
        · rw [e2] at e
          rw [← e]
          unfold add32
          exact Nat.mod_lt _ (by decide)
      rw [if_neg (by omega)] at eo
      have hds : c.dataSize = c.dataEnd - c.dataStart := by
        unfold Classes.dataSize sub32
        rw [if_pos (by omega)]
        omega
      have hso : sub32 a c.dataStart = a - c.dataStart := by
        unfold sub32
        omega
      have hao : add32 c.textSize (a - c.dataStart) = c.textSize + (a - c.dataStart) := by
        unfold add32
        exact Nat.mod_eq_of_lt (by omega)
      rw [eo, en, hso, hao, himg]
      refine ⟨by omega, ?_⟩
      unfold add32
      exact Nat.mod_eq_of_lt (by omega)
  refine ⟨key, himg, fun d => ?_⟩
  unfold buildImage
  exact imageLoop_ne_exit1 elf h c _ _ (fun i hi o f n hp => by
    have := key i (List.mem_range.1 hi) o f n hp
    omega) d

/-- C39 applied to `elfOverlap`, whose two text sections cover addresses 0 to
4: the assembler does not take the error branch. -/
theorem section_overflow_unreachable_witness :
    clsOverlap.imageSize = clsOverlap.textSize + clsOverlap.dataSize ∧
    buildImage elfOverlap hdrOverlap clsOverlap ≠ Run.exit1 .sectionExceedsImage := by
  have h := section_overflow_unreachable elfOverlap hdrOverlap clsOverlap (by decide!)
    (by
      intro i hi f t a s hattr _
      have ha := shField_lt _ _ _ _ _ hattr.2.2.1
      have hs : shField elfOverlap hdrOverlap i 20 = Run.ok s := hattr.2.2.2
      have hi3 : i < 3 := hi
      have h0 : shField elfOverlap hdrOverlap 0 20 = Run.ok 0 := by decide!
      have h1 : shField elfOverlap hdrOverlap 1 20 = Run.ok 4 := by decide!
      have h2 : shField elfOverlap hdrOverlap 2 20 = Run.ok 4 := by decide!
      have ha1 : shField elfOverlap hdrOverlap 1 12 = Run.ok 0 := by decide!
      have ha2 : shField elfOverlap hdrOverlap 2 12 = Run.ok 0 := by decide!
      interval_cases i
      · rw [h0] at hs
        have := Run.ok.inj hs
        omega
      · rw [h1] at hs
        have e := Run.ok.inj hs
        have e2 := Run.ok.inj (ha1.symm.trans hattr.2.2.1)
        omega
      · rw [h2] at hs
        have e := Run.ok.inj hs
        have e2 := Run.ok.inj (ha2.symm.trans hattr.2.2.1)
        omega)
    (by decide)
  exact ⟨h.2.1, h.2.2 .sectionExceedsImage⟩

/-! ## Harvested offsets and image placement -/

/-- C40: the harvester does not rebase text addresses.  In `elfText1000` the
text section is linked at 0x1000, so the assembler places the byte of address
0x1004 at image offset 4 (`addr - textStart`), where the image holds the
longword 00 00 10 00 to relocate; the harvester reads `r_offset` 0x1004 and
collects 0x1004 itself, so that the relocation table built from it, `10 04`,
names an offset outside the image of 8 bytes.  For every entry that the
harvester keeps, the offset collected is `r_offset` when the target is text,
which is `r_offset - textStart` only when `textStart` is 0 (for an address at
or above `textStart`), and `textSize + (r_offset - dataStart)` when the
target is data, as the assembler places it. -/
theorem text_offsets_not_rebased :
    validateHeader elfText1000 = Run.ok hdrText1000 ∧
    classify elfText1000 hdrText1000 = Run.ok clsText1000 ∧
    placement elfText1000 hdrText1000 clsText1000 1 = Run.ok (some (0, 52, 8)) ∧
    buildImage elfText1000 hdrText1000 clsText1000 =
      Run.ok [0x4e, 0x71, 0x4e, 0x71, 0x00, 0x00, 0x10, 0x00] ∧
    read_be32 elfText1000 60 = Run.ok 0x1004 ∧
    sub32 0x1004 clsText1000.textStart = 4 ∧
    harvest elfText1000 hdrText1000 clsText1000 = Run.ok [0x1004] ∧
    buildRelBuf [0x1004] = Run.ok [0x10, 0x04] ∧
    (∀ (elf : List Nat) (c : Classes) (targetType : Nat) (symtabSh : Option SymtabRef)
      (rela o : Nat), relaEntry elf c targetType symtabSh rela = Run.ok (some o) →
      ∃ rOffset, read_be32 elf rela = Run.ok rOffset ∧
        (targetType = 1 → o = rOffset ∧
          (c.textStart ≤ rOffset → (o = sub32 rOffset c.textStart ↔ c.textStart = 0))) ∧
        (targetType ≠ 1 → o = add32 c.textSize (sub32 rOffset c.dataStart))) := by
  refine ⟨by decide!, by decide!, by decide!, by decide!, by decide!, by decide, by decide!,
    by decide, ?_⟩
  intro elf c targetType symtabSh rela o hr
  obtain ⟨rInfo, rOffset, _, r2, r3⟩ := relaEntry_spec _ _ _ _ _ _ hr
  have ho : o = if targetType = 1 then rOffset
      else add32 c.textSize (sub32 rOffset c.dataStart) := by
    rcases r3 with ⟨_, r4⟩ | ⟨_, _, r5⟩ | ⟨_, _, _, _, _, ⟨_, r5⟩ | ⟨_, r5⟩⟩
    · exact absurd r4 (by simp)
    · exact Option.some.inj r5
    · exact absurd r5 (by simp)
    · exact Option.some.inj r5
  have hlt := read_be32_lt _ _ _ r2
  refine ⟨rOffset, r2, fun h1 => ?_, fun h1 => ?_⟩
  · rw [if_pos h1] at ho
    refine ⟨ho, fun hle => ?_⟩
    rw [ho]
    unfold sub32
    constructor
    · intro e
      omega
    · intro e
      omega
  · rw [if_neg h1] at ho
    exact ho

/-! ## The round trip and the relocation buffer -/

/-- The relocation table is built when the product for `malloc` fits an `int`
and the bytes of the encoder fit the buffer. -/
theorem buildRelBuf_fits (relocs : List Nat) (hn : relocs.length * 4 + 4 < 2147483648)
    (hfit : (encodeRelocs (qsortRelocs relocs)).length ≤ relocs.length * 4 + 4) :
    buildRelBuf relocs = Run.ok (encodeRelocs (qsortRelocs relocs)) := by
  unfold buildRelBuf
  rw [if_pos hn]
  simp only
  rw [if_pos hfit]

theorem qsortRelocs_of_sorted (relocs : List Nat) (h : relocs.Sorted (· < ·)) :
    qsortRelocs relocs = relocs := by
  unfold qsortRelocs
  exact List.Sorted.insertionSort_eq (h.imp (fun {a b} hab => (relocLe_iff a b).2 (Nat.le_of_lt hab)))

/-- A relocation table that was built inside its buffer from a strictly
ascending list of even 32-bit offsets decodes to the list. -/
theorem buildRelBuf_round_trip (relocs relBuf : List Nat) (hasc : relocs.Sorted (· < ·))
    (heven : ∀ o ∈ relocs, o % 2 = 0) (h32 : ∀ o ∈ relocs, o < 4294967296)
    (hb : buildRelBuf relocs = Run.ok relBuf) : decodeRelocs relBuf = relocs := by
  rw [(buildRelBuf_spec relocs relBuf hb).1, qsortRelocs_of_sorted relocs hasc]
  exact encodeRelocs_round_trip relocs hasc heven h32

/-- A relocation table that was built inside its buffer from even 32-bit
offsets decodes to a strictly ascending list that holds exactly the offsets
of the input, each once. -/
theorem buildRelBuf_sorted_stream (relocs relBuf : List Nat)
    (heven : ∀ o ∈ relocs, o % 2 = 0) (h32 : ∀ o ∈ relocs, o < 4294967296)
    (hb : buildRelBuf relocs = Run.ok relBuf) :
    (decodeRelocs relBuf).Sorted (· < ·) ∧ (∀ x, x ∈ decodeRelocs relBuf ↔ x ∈ relocs) ∧
    (∀ x ∈ relocs, (decodeRelocs relBuf).count x = 1) := by
  rw [(buildRelBuf_spec relocs relBuf hb).1]
  exact encodeRelocs_sorted_stream relocs heven h32

/-- C1: the round trip fails where the encoder outgrows its buffer.  The
offsets 0x10000, 0x30000 and 0x50000 are strictly ascending, even and below
2^32; every delta takes the long form of 6 bytes, so the encoder stores 18
bytes into the buffer of `3 * 4 + 4 = 16` and the run is undefined: there is
no stream to decode.  For every strictly ascending list of even 32-bit
offsets whose table is built inside the buffer, the loader's decoder returns
the list from it, and the table is built whenever the bytes of the encoder
fit the buffer; the offsets 0, 4 and 0x20004 are an example. -/
theorem round_trip_outgrows_buffer :
    [0x10000, 0x30000, 0x50000].Sorted (· < ·) ∧
    (∀ o ∈ [0x10000, 0x30000, 0x50000], o % 2 = 0 ∧ o < 4294967296) ∧
    encodeRelocs [0x10000, 0x30000, 0x50000] =
      [0x00, 0x01, 0x00, 0x01, 0x00, 0x00, 0x00, 0x01, 0x00, 0x03, 0x00, 0x00,
       0x00, 0x01, 0x00, 0x05, 0x00, 0x00] ∧
    (encodeRelocs [0x10000, 0x30000, 0x50000]).length = 18 ∧
    [0x10000, 0x30000, 0x50000].length * 4 + 4 = 16 ∧
    buildRelBuf [0x10000, 0x30000, 0x50000] = Run.undefined ∧
    (∀ relocs relBuf : List Nat, relocs.Sorted (· < ·) → (∀ o ∈ relocs, o % 2 = 0) →
      (∀ o ∈ relocs, o < 4294967296) → buildRelBuf relocs = Run.ok relBuf →
      decodeRelocs relBuf = relocs) ∧
    (∀ relocs : List Nat, relocs.length * 4 + 4 < 2147483648 →
      (encodeRelocs (qsortRelocs relocs)).length ≤ relocs.length * 4 + 4 →
      buildRelBuf relocs = Run.ok (encodeRelocs (qsortRelocs relocs))) ∧
    buildRelBuf [0, 4, 0x20004] =
      Run.ok [0x00, 0x00, 0x00, 0x04, 0x00, 0x01, 0x00, 0x02, 0x00, 0x04] ∧
    decodeRelocs [0x00, 0x00, 0x00, 0x04, 0x00, 0x01, 0x00, 0x02, 0x00, 0x04] =
      [0, 4, 0x20004] := by
  refine ⟨by decide, by decide, by decide, by decide, by decide, by decide,
    buildRelBuf_round_trip, buildRelBuf_fits, by decide, by decide⟩

/-- C3: the sorted stream fails where the encoder outgrows its buffer.  The
even offsets 0x90000, 0x30000 and 0x60000 are sorted to 0x30000, 0x60000 and
0x90000; every delta takes the long form of 6 bytes, so the encoder stores 18
bytes into the buffer of 16 and the run is undefined.  For every list of even
32-bit offsets, in any order and with repetitions, whose table is built inside
the buffer, the table decodes to a strictly ascending list that holds exactly
the offsets of the input, each once; the list 0x20004, 4, 0, 4, 0x20004 is an
example. -/
theorem sorted_stream_outgrows_buffer :
    (∀ o ∈ [0x90000, 0x30000, 0x60000], o % 2 = 0 ∧ o < 4294967296) ∧
    qsortRelocs [0x90000, 0x30000, 0x60000] = [0x30000, 0x60000, 0x90000] ∧
    encodeRelocs (qsortRelocs [0x90000, 0x30000, 0x60000]) =
      [0x00, 0x01, 0x00, 0x03, 0x00, 0x00, 0x00, 0x01, 0x00, 0x06, 0x00, 0x00,
       0x00, 0x01, 0x00, 0x09, 0x00, 0x00] ∧
    (encodeRelocs (qsortRelocs [0x90000, 0x30000, 0x60000])).length = 18 ∧
    [0x90000, 0x30000, 0x60000].length * 4 + 4 = 16 ∧
    buildRelBuf [0x90000, 0x30000, 0x60000] = Run.undefined ∧
    (∀ relocs relBuf : List Nat, (∀ o ∈ relocs, o % 2 = 0) →
      (∀ o ∈ relocs, o < 4294967296) → buildRelBuf relocs = Run.ok relBuf →
      (decodeRelocs relBuf).Sorted (· < ·) ∧ (∀ x, x ∈ decodeRelocs relBuf ↔ x ∈ relocs) ∧
      (∀ x ∈ relocs, (decodeRelocs relBuf).count x = 1)) ∧
    buildRelBuf [0x20004, 4, 0, 4, 0x20004] =
      Run.ok [0x00, 0x00, 0x00, 0x04, 0x00, 0x01, 0x00, 0x02, 0x00, 0x04] ∧
    decodeRelocs [0x00, 0x00, 0x00, 0x04, 0x00, 0x01, 0x00, 0x02, 0x00, 0x04] =
      [0, 4, 0x20004] := by
  refine ⟨by decide, by decide, by decide, by decide, by decide, by decide,
    buildRelBuf_sorted_stream, by decide, by decide⟩

end Elf2x68k

namespace HudsonBridge

/-! ## GDB RSP framing -/

theorem cstring_of_no_nul (data : List Nat) (h : 0 ∉ data) : cstring data = data := by
  induction data with
  | nil => rfl
  | cons b t ih =>
    have hb : b ≠ 0 := fun e => h (by simp [e])
    have ht : 0 ∉ t := fun e => h (List.mem_cons_of_mem _ e)
    have ih1 := ih ht
    unfold cstring at ih1 ⊢
    simp [List.takeWhile_cons, hb, ih1]

theorem checksum_foldl (data : List Nat) (a : Nat) (ha : a < 256) :
    data.foldl (fun csum c => (csum + c % 256) % 256) a = (a + data.sum) % 256 := by
  induction data generalizing a with
  | nil => simp; omega
  | cons b t ih =>
    simp only [List.foldl_cons, List.sum_cons]
    rw [ih _ (Nat.mod_lt _ (by decide))]
    omega

theorem checksum_eq (data : List Nat) : checksum data = data.sum % 256 := by
  unfold checksum
  rw [checksum_foldl data 0 (by decide)]
  simp

theorem readPayload_frame (bufSize : Nat) (p rest : List Nat) (pos csum : Nat) (buf : List Nat)
    (hc : csum < 256) (hp : 0x23 ∉ p) (hlen : pos + p.length + 1 < bufSize) :
    readPayload bufSize (p ++ 0x23 :: rest) pos csum buf
      = some (pos + p.length, (csum + p.sum) % 256, buf ++ p, rest) := by
  induction p generalizing pos csum buf with
  | nil =>
    simp at hlen
    simp [readPayload, hlen, Nat.mod_eq_of_lt hc]
  | cons b t ih =>
    have hb : b ≠ 0x23 := fun e => hp (by simp [e])
    have ht : 0x23 ∉ t := fun e => hp (List.mem_cons_of_mem _ e)
    simp only [List.length_cons] at hlen
    have h1 : pos + 1 < bufSize := by omega
    rw [List.cons_append, readPayload]
    simp only [h1, if_true, hb, if_false]
    rw [ih (pos + 1) _ (buf ++ [b]) (Nat.mod_lt _ (by decide)) ht (by omega)]
    simp only [List.length_cons, List.sum_cons, List.append_assoc, List.singleton_append]
    congr 2
    · omega
    · congr 1
      omega

theorem readPayload_full (bufSize : Nat) (p tail : List Nat) (pos csum : Nat) (buf : List Nat)
    (hc : csum < 256) (hp : 0x23 ∉ p) (hlen : pos + p.length + 1 = bufSize) :
    readPayload bufSize (p ++ tail) pos csum buf
      = some (pos + p.length, (csum + p.sum) % 256, buf ++ p, tail) := by
  induction p generalizing pos csum buf with
  | nil =>
    simp at hlen
    have h1 : ¬ pos + 1 < bufSize := by omega
    cases tail <;> simp [readPayload, h1, Nat.mod_eq_of_lt hc]
  | cons b t ih =>
    have hb : b ≠ 0x23 := fun e => hp (by simp [e])
    have ht : 0x23 ∉ t := fun e => hp (List.mem_cons_of_mem _ e)
    simp only [List.length_cons] at hlen
    have h1 : pos + 1 < bufSize := by omega
    rw [List.cons_append, readPayload]
    simp only [h1, if_true, hb, if_false]
    rw [ih (pos + 1) _ (buf ++ [b]) (Nat.mod_lt _ (by decide)) ht (by omega)]
    simp only [List.length_cons, List.sum_cons, List.append_assoc, List.singleton_append]
    congr 2
    · omega
    · congr 1
      omega

theorem hexVal_hexDigits : ∀ d, d < 16 → hexVal (hexDigits.getD d 0) = (d : Int) := by
  decide

theorem rxCsumOf_hexDigits :
    ∀ a, a < 16 → ∀ b, b < 16 →
      rxCsumOf (hexDigits.getD a 0) (hexDigits.getD b 0) = 16 * a + b := by
  decide!

theorem hexDigits_mem : ∀ d, d < 16 → hexDigits.getD d 0 ∈ hexDigits := by
  decide

/-- The call of `rspGetPacket` on a frame whose payload fits the buffer. -/
theorem rspGetPacket_frame (bufSize : Nat) (s : Bridge) (payload rest : List Nat) (c1 c2 : Nat)
    (hlen : payload.length + 2 ≤ bufSize) (hp : 0x23 ∉ payload)
    (hs : s.gdbIn = 0x24 :: (payload ++ 0x23 :: c1 :: c2 :: rest)) :
    rspGetPacket bufSize s =
      if rxCsumOf c1 c2 ≠ payload.sum % 256 then
        (-1, payload, { s with gdbIn := rest, gdbOut := s.gdbOut ++ [[0x2d]] })
      else
        ((payload.length : Int), payload,
          { s with gdbIn := rest, gdbOut := s.gdbOut ++ [[0x2b]] }) := by
  unfold rspGetPacket
  rw [hs]
  simp only [waitStart, if_true]
  rw [readPayload_frame bufSize payload _ 0 0 [] (by decide) hp (by omega)]
  simp

/-- The call of `rspGetPacket` on a `$` followed by `bufSize - 1` bytes without
a `#`: the payload loop stops when the buffer is full, and the next two bytes
are taken as the checksum characters. -/
theorem rspGetPacket_full (bufSize : Nat) (s : Bridge) (p rest : List Nat) (c0 c1 : Nat)
    (hlen : p.length + 1 = bufSize) (hp : 0x23 ∉ p)
    (hs : s.gdbIn = 0x24 :: (p ++ c0 :: c1 :: rest)) :
    rspGetPacket bufSize s =
      if rxCsumOf c0 c1 ≠ p.sum % 256 then
        (-1, p, { s with gdbIn := rest, gdbOut := s.gdbOut ++ [[0x2d]] })
      else
        ((p.length : Int), p, { s with gdbIn := rest, gdbOut := s.gdbOut ++ [[0x2b]] }) := by
  unfold rspGetPacket
  rw [hs]
  simp only [waitStart, if_true]
  rw [readPayload_full bufSize p _ 0 0 [] (by decide) hp (by omega)]
  simp

/-- The call of `rspPutPacket` on a string that fits the packet buffer. -/
theorem rspPutPacket_fits (data : List Nat) (s : Bridge) (h0 : 0 ∉ data)
    (hlen : data.length ≤ 4095) :
    rspPutPacket data s = some { s with gdbOut := s.gdbOut ++
      [0x24 :: (data ++ [0x23, hexDigits.getD (data.sum % 256 / 16) 0,
        hexDigits.getD (data.sum % 256 % 16) 0])] } := by
  unfold rspPutPacket
  simp only [cstring_of_no_nul data h0, checksum_eq, RSP_BUFSIZE]
  generalize htext : [0x24] ++ data ++ [0x23, hexDigits.getD (data.sum % 256 / 16) 0,
    hexDigits.getD (data.sum % 256 % 16) 0] = text
  have hl : text.length ≤ 4099 := by
    rw [← htext]
    simp
    omega
  have h1 : text.take (4096 + 4 - 1) = text := List.take_of_length_le (by omega)
  have h2 : (text ++ [0]).take text.length = text := List.take_left' rfl
  have h3 : text.length ≤ 4096 + 4 := by omega
  rw [h1, h2, if_pos h3, ← htext]
  simp

/-- The value of `rxCsum` for two hex digits of either case. -/
theorem rxCsumOf_hex (c1 c2 : Nat) (h1 : 0 ≤ hexVal c1) (h2 : 0 ≤ hexVal c2) :
    (rxCsumOf c1 c2 : Int) = 16 * hexVal c1 + hexVal c2 := by
  have key : ∀ c, c < 0x67 → 0 ≤ hexVal c → ∀ d, d < 0x67 → 0 ≤ hexVal d →
      (rxCsumOf c d : Int) = 16 * hexVal c + hexVal d := by
    decide!
  have hlt : ∀ c, 0 ≤ hexVal c → c < 0x67 := by
    intro c hc
    by_contra hge
    unfold hexVal at hc
    have e1 : ¬ (c ≥ 0x30 ∧ c ≤ 0x39) := by omega
    have e2 : ¬ (c ≥ 0x61 ∧ c ≤ 0x66) := by omega
    have e3 : ¬ (c ≥ 0x41 ∧ c ≤ 0x46) := by omega
    simp only [e1, e2, e3, if_false] at hc
    omega
  exact key c1 (hlt c1 h1) h1 c2 (hlt c2 h2) h2

/-- C20: for a payload string of at most 4095 bytes, `rspPutPacket` performs one
`write` on the client socket, of `$`, the payload bytes, `#` and two
characters of `0123456789abcdef` whose value as a two-digit hex number is the
sum of the payload bytes modulo 256. -/
theorem reply_packet_format (data : List Nat) (s : Bridge) (h0 : 0 ∉ data)
    (hlen : data.length ≤ 4095) :
    ∃ d1 d2, rspPutPacket data s =
        some { s with gdbOut := s.gdbOut ++ [[0x24] ++ data ++ [0x23, d1, d2]] } ∧
      d1 ∈ hexDigits ∧ d2 ∈ hexDigits ∧
      16 * hexVal d1 + hexVal d2 = ((data.sum % 256 : Nat) : Int) := by
  have hdiv : data.sum % 256 / 16 < 16 := by omega
  have hmod : data.sum % 256 % 16 < 16 := by omega
  refine ⟨hexDigits.getD (data.sum % 256 / 16) 0, hexDigits.getD (data.sum % 256 % 16) 0,
    ?_, hexDigits_mem _ hdiv, hexDigits_mem _ hmod, ?_⟩
  · rw [rspPutPacket_fits data s h0 hlen]
    simp
  · rw [hexVal_hexDigits _ hdiv, hexVal_hexDigits _ hmod]
    omega

/-- C20 applied to the reply `OK`: the bridge writes `$OK#9a`. -/
theorem reply_packet_format_witness :
    ∃ d1 d2, rspPutPacket [0x4f, 0x4b] (initialBridge []) =
        some { initialBridge [] with gdbOut := (initialBridge []).gdbOut ++
          [[0x24] ++ [0x4f, 0x4b] ++ [0x23, d1, d2]] } ∧
      d1 ∈ hexDigits ∧ d2 ∈ hexDigits ∧
      16 * hexVal d1 + hexVal d2 = (((([0x4f, 0x4b] : List Nat).sum % 256 : Nat)) : Int) :=
  reply_packet_format [0x4f, 0x4b] (initialBridge []) (by decide) (by decide)

/-- C17 (counterexample): the payload `#` is sent as `$##23` and the payload of
4095 letters `a` as `$aaa...a#9f`; fed back into `rspGetPacket` with a buffer
of 4096 bytes, either frame is answered with `-` and the result -1, and one
byte of the frame is left unread. -/
theorem framing_round_trip_fails :
    (rspPutPacket [0x23] (initialBridge []) =
        some { initialBridge [] with gdbOut := [[0x24, 0x23, 0x23, 0x32, 0x33]] } ∧
      rspGetPacket RSP_BUFSIZE (initialBridge [0x24, 0x23, 0x23, 0x32, 0x33]) =
        (-1, [], { initialBridge [0x33] with gdbOut := [[0x2d]] })) ∧
    (rspPutPacket (List.replicate 4095 0x61) (initialBridge []) =
        some { initialBridge [] with
          gdbOut := [0x24 :: (List.replicate 4095 0x61 ++ [0x23, 0x39, 0x66])] } ∧
      rspGetPacket RSP_BUFSIZE
          (initialBridge (0x24 :: (List.replicate 4095 0x61 ++ [0x23, 0x39, 0x66]))) =
        (-1, List.replicate 4095 0x61, { initialBridge [0x66] with gdbOut := [[0x2d]] })) := by
  have hsum : (List.replicate 4095 0x61).sum = 397215 := by
    rw [List.sum_replicate]
    rfl
  have h0 : 0 ∉ List.replicate 4095 0x61 :=
    fun h => absurd (List.eq_of_mem_replicate h) (by decide)
  have hp : 0x23 ∉ List.replicate 4095 0x61 :=
    fun h => absurd (List.eq_of_mem_replicate h) (by decide)
  have hl : (List.replicate 4095 0x61).length = 4095 := List.length_replicate _ _
  refine ⟨⟨by decide!, by decide!⟩, ?_, ?_⟩
  · rw [rspPutPacket_fits _ _ h0 (le_of_eq hl), hsum]
    rfl
  · rw [rspGetPacket_full RSP_BUFSIZE _ (List.replicate 4095 0x61) [0x66] 0x23 0x39
      (by rw [hl]; rfl) hp rfl, hsum]
    rfl

/-- C17 (amended): for every payload string of at most 4094 bytes that contains
no `#`, `rspPutPacket` sends one buffer, and `rspGetPacket` with a buffer of
4096 bytes on these bytes (followed by any further input) stores the payload,
returns its length and writes `+`. -/
theorem framing_round_trip (payload : List Nat) (s r : Bridge) (rest : List Nat)
    (h0 : 0 ∉ payload) (hp : 0x23 ∉ payload) (hlen : payload.length ≤ 4094) :
    ∃ sent, rspPutPacket payload s = some { s with gdbOut := s.gdbOut ++ [sent] } ∧
      rspGetPacket RSP_BUFSIZE { r with gdbIn := sent ++ rest } =
        ((payload.length : Int), payload,
          { r with gdbIn := rest, gdbOut := r.gdbOut ++ [[0x2b]] }) := by
  have hdiv : payload.sum % 256 / 16 < 16 := by omega
  have hmod : payload.sum % 256 % 16 < 16 := by omega
  refine ⟨_, rspPutPacket_fits payload s h0 (by omega), ?_⟩
  rw [rspGetPacket_frame RSP_BUFSIZE _ payload rest
    (hexDigits.getD (payload.sum % 256 / 16) 0) (hexDigits.getD (payload.sum % 256 % 16) 0)
    (by unfold RSP_BUFSIZE; omega) hp (by simp)]
  rw [rxCsumOf_hexDigits _ hdiv _ hmod]
  have e : 16 * (payload.sum % 256 / 16) + payload.sum % 256 % 16 = payload.sum % 256 := by
    omega
  simp [e]

/-- C17 (amended) applied to the reply `S05`: the bytes `$S05#b8`, followed by a
further byte, are read back as `S05` with result 3. -/
theorem framing_round_trip_witness :
    ∃ sent, rspPutPacket [0x53, 0x30, 0x35] (initialBridge []) =
        some { initialBridge [] with gdbOut := (initialBridge []).gdbOut ++ [sent] } ∧
      rspGetPacket RSP_BUFSIZE { initialBridge [] with gdbIn := sent ++ [0x2b] } =
        ((([0x53, 0x30, 0x35] : List Nat).length : Int), [0x53, 0x30, 0x35],
          { initialBridge [] with gdbIn := [0x2b],
                                  gdbOut := (initialBridge []).gdbOut ++ [[0x2b]] }) :=
  framing_round_trip [0x53, 0x30, 0x35] (initialBridge []) (initialBridge []) [0x2b]
    (by decide) (by decide) (by decide)

/-! ## Checksum acknowledgement -/

/-- C18 (counterexample): the frame `$j#6a` is accepted, and so is `$j#6A`,
where the second checksum character has been replaced; `$QRR#f5` is accepted,
and so is `$QRR#g5`; and the frame of 4095 letters `a` with its correct
checksum `9f` is answered with `-`. -/
theorem checksum_acknowledgement_fails :
    (rspGetPacket RSP_BUFSIZE (initialBridge [0x24, 0x6a, 0x23, 0x36, 0x61]) =
        (1, [0x6a], { initialBridge [] with gdbOut := [[0x2b]] }) ∧
      rspGetPacket RSP_BUFSIZE (initialBridge [0x24, 0x6a, 0x23, 0x36, 0x41]) =
        (1, [0x6a], { initialBridge [] with gdbOut := [[0x2b]] })) ∧
    (rspGetPacket RSP_BUFSIZE (initialBridge [0x24, 0x51, 0x52, 0x52, 0x23, 0x66, 0x35]) =
        (3, [0x51, 0x52, 0x52], { initialBridge [] with gdbOut := [[0x2b]] }) ∧
      rspGetPacket RSP_BUFSIZE (initialBridge [0x24, 0x51, 0x52, 0x52, 0x23, 0x67, 0x35]) =
        (3, [0x51, 0x52, 0x52], { initialBridge [] with gdbOut := [[0x2b]] })) ∧
    ((List.replicate 4095 0x61).sum % 256 = 0x9f ∧
      rspGetPacket RSP_BUFSIZE
          (initialBridge (0x24 :: (List.replicate 4095 0x61 ++ [0x23, 0x39, 0x66]))) =
        (-1, List.replicate 4095 0x61, { initialBridge [0x66] with gdbOut := [[0x2d]] })) := by
  have hsum : (List.replicate 4095 0x61).sum = 397215 := by
    rw [List.sum_replicate]
    rfl
  have hp : 0x23 ∉ List.replicate 4095 0x61 :=
    fun h => absurd (List.eq_of_mem_replicate h) (by decide)
  have hl : (List.replicate 4095 0x61).length = 4095 := List.length_replicate _ _
  refine ⟨⟨by decide!, by decide!⟩, ⟨by decide!, by decide!⟩, ?_, ?_⟩
  · rw [hsum]
  · rw [rspGetPacket_full RSP_BUFSIZE _ (List.replicate 4095 0x61) [0x66] 0x23 0x39
      (by rw [hl]; rfl) hp rfl, hsum]
    rfl

/-- C18 (amended): for a frame `$payload#c1c2` whose payload has at most 4094
bytes and whose `c1` and `c2` are hex digits of either case, `rspGetPacket`
stores the payload, returns its length and writes `+` when the two-digit hex
number `c1 c2` is the sum of the payload bytes modulo 256, and returns -1 and
writes `-` when it is not.  So a correct frame in which one checksum character
is replaced by a hex digit of another value is answered with `-`. -/
theorem checksum_acknowledgement (s : Bridge) (payload rest : List Nat) (c1 c2 : Nat)
    (hlen : payload.length ≤ 4094) (hp : 0x23 ∉ payload)
    (h1 : 0 ≤ hexVal c1) (h2 : 0 ≤ hexVal c2) :
    (16 * hexVal c1 + hexVal c2 = ((payload.sum % 256 : Nat) : Int) →
      rspGetPacket RSP_BUFSIZE
          { s with gdbIn := 0x24 :: (payload ++ 0x23 :: c1 :: c2 :: rest) } =
        ((payload.length : Int), payload,
          { s with gdbIn := rest, gdbOut := s.gdbOut ++ [[0x2b]] })) ∧
    (16 * hexVal c1 + hexVal c2 ≠ ((payload.sum % 256 : Nat) : Int) →
      rspGetPacket RSP_BUFSIZE
          { s with gdbIn := 0x24 :: (payload ++ 0x23 :: c1 :: c2 :: rest) } =
        (-1, payload, { s with gdbIn := rest, gdbOut := s.gdbOut ++ [[0x2d]] })) ∧
    (16 * hexVal c1 + hexVal c2 = ((payload.sum % 256 : Nat) : Int) →
      ∀ d, 0 ≤ hexVal d →
        (hexVal d ≠ hexVal c1 →
          rspGetPacket RSP_BUFSIZE
              { s with gdbIn := 0x24 :: (payload ++ 0x23 :: d :: c2 :: rest) } =
            (-1, payload, { s with gdbIn := rest, gdbOut := s.gdbOut ++ [[0x2d]] })) ∧
        (hexVal d ≠ hexVal c2 →
          rspGetPacket RSP_BUFSIZE
              { s with gdbIn := 0x24 :: (payload ++ 0x23 :: c1 :: d :: rest) } =
            (-1, payload, { s with gdbIn := rest, gdbOut := s.gdbOut ++ [[0x2d]] }))) := by
  have hb : payload.length + 2 ≤ RSP_BUFSIZE := by
    unfold RSP_BUFSIZE
    omega
  have key : ∀ a b, 0 ≤ hexVal a → 0 ≤ hexVal b →
      rspGetPacket RSP_BUFSIZE
          { s with gdbIn := 0x24 :: (payload ++ 0x23 :: a :: b :: rest) } =
        if 16 * hexVal a + hexVal b ≠ ((payload.sum % 256 : Nat) : Int) then
          (-1, payload, { s with gdbIn := rest, gdbOut := s.gdbOut ++ [[0x2d]] })
        else
          ((payload.length : Int), payload,
            { s with gdbIn := rest, gdbOut := s.gdbOut ++ [[0x2b]] }) := by
    intro a b ha hb2
    rw [rspGetPacket_frame RSP_BUFSIZE _ payload rest a b hb hp rfl]
    have e := rxCsumOf_hex a b ha hb2
    by_cases hc : rxCsumOf a b = payload.sum % 256
    · have hc2 : 16 * hexVal a + hexVal b = ((payload.sum % 256 : Nat) : Int) := by
        rw [← e, hc]
      rw [if_neg (not_not.2 hc), if_neg (not_not.2 hc2)]
    · have hc2 : 16 * hexVal a + hexVal b ≠ ((payload.sum % 256 : Nat) : Int) := by
        rw [← e]
        exact fun h => hc (Int.ofNat.inj h)
      rw [if_pos hc, if_pos hc2]
  refine ⟨fun h => ?_, fun h => ?_, fun h d hd => ⟨fun hne => ?_, fun hne => ?_⟩⟩
  · rw [key c1 c2 h1 h2, if_neg (not_not.2 h)]
  · rw [key c1 c2 h1 h2, if_pos h]
  · rw [key d c2 hd h2, if_pos]
    intro h3
    apply hne
    omega
  · rw [key c1 d h1 hd, if_pos]
    intro h3
    apply hne
    omega

/-- C18 (amended) applied to the frame `$j#6A`: it is accepted, as the value
of `6A` is 0x6a, the one payload byte. -/
theorem checksum_acknowledgement_witness :
    rspGetPacket RSP_BUFSIZE
        { initialBridge [] with gdbIn := 0x24 :: ([0x6a] ++ 0x23 :: 0x36 :: 0x41 :: []) } =
      ((([0x6a] : List Nat).length : Int), [0x6a],
        { initialBridge [] with gdbIn := [],
                                gdbOut := (initialBridge []).gdbOut ++ [[0x2b]] }) :=
  (checksum_acknowledgement (initialBridge []) [0x6a] [] 0x36 0x41 (by decide) (by decide)
    (by decide) (by decide)).1 (by decide)

/-! ## Main dispatch loop -/

/-- The run of `dispatchLoop` on a frame with a wrong checksum: it returns in
its first turn, whatever the handlers are. -/
theorem dispatchLoop_wrong_checksum (handlers : Nat → List Nat → Bridge → Option (Bridge × Bool))
    (fuel : Nat) (s : Bridge) (payload rest : List Nat) (c1 c2 : Nat)
    (hlen : payload.length ≤ 4094) (hp : 0x23 ∉ payload)
    (hs : s.gdbIn = 0x24 :: (payload ++ 0x23 :: c1 :: c2 :: rest))
    (hbad : rxCsumOf c1 c2 ≠ payload.sum % 256) :
    dispatchLoop handlers (fuel + 1) s =
      .returned { s with gdbIn := rest, gdbOut := s.gdbOut ++ [[0x2d]] } := by
  unfold dispatchLoop
  rw [rspGetPacket_frame RSP_BUFSIZE s payload rest c1 c2 (by unfold RSP_BUFSIZE; omega) hp hs,
    if_pos hbad]
  simp

/-- C19: the client sends `$g#00` (the checksum of `g` is 67) and then `$?#3f`.
Whatever the handlers are and however many turns the loop may take,
`dispatchLoop` writes `-` and returns in its first turn: the second packet is
still unread and nothing else has been written to the client. -/
theorem wrong_checksum_ends_dispatch_loop :
    ∀ (handlers : Nat → List Nat → Bridge → Option (Bridge × Bool)) (fuel : Nat),
      dispatchLoop handlers (fuel + 1)
          (initialBridge [0x24, 0x67, 0x23, 0x30, 0x30, 0x24, 0x3f, 0x23, 0x33, 0x66]) =
        .returned { initialBridge [0x24, 0x3f, 0x23, 0x33, 0x66] with gdbOut := [[0x2d]] } := by
  intro handlers fuel
  rw [dispatchLoop_wrong_checksum handlers fuel _ [0x67] [0x24, 0x3f, 0x23, 0x33, 0x66] 0x30 0x30
    (by decide) (by decide) rfl (by decide)]
  rfl

/-! ## Replies and target commands -/

theorem rspPutPacket_replied (payload : List Nat) (s : Bridge) (h0 : 0 ∉ payload)
    (hlen : payload.length ≤ 4095) : rspPutPacket payload s = some (replied payload s) :=
  rspPutPacket_fits payload s h0 hlen

theorem replied_fields (payload : List Nat) (s : Bridge) :
    (replied payload s).targetOut = s.targetOut ∧ (replied payload s).targetIn = s.targetIn ∧
    (replied payload s).regs = s.regs ∧ (replied payload s).regsValid = s.regsValid ∧
    (replied payload s).bpTable = s.bpTable ∧ (replied payload s).gdbIn = s.gdbIn ∧
    (replied payload s).promptChar = s.promptChar :=
  ⟨rfl, rfl, rfl, rfl, rfl, rfl, rfl⟩

theorem targetSend_of_ne_nil (text : List Nat) (s : Bridge) (h : text ≠ []) :
    targetSend text s = { s with targetOut := s.targetOut ++ [text] } := by
  unfold targetSend
  rw [if_neg h]

theorem targetWaitPrompt_fields (n : Nat) (s : Bridge) :
    (targetWaitPrompt n s).2.2.targetOut = s.targetOut ∧
    (targetWaitPrompt n s).2.2.gdbIn = s.gdbIn ∧ (targetWaitPrompt n s).2.2.gdbOut = s.gdbOut ∧
    (targetWaitPrompt n s).2.2.regs = s.regs ∧
    (targetWaitPrompt n s).2.2.regsValid = s.regsValid ∧
    (targetWaitPrompt n s).2.2.bpTable = s.bpTable ∧
    (targetWaitPrompt n s).2.2.promptChar = s.promptChar :=
  ⟨rfl, rfl, rfl, rfl, rfl, rfl, rfl⟩

theorem targetWaitDelim_fields (n d : Nat) (s : Bridge) :
    (targetWaitDelim n d s).2.2.targetOut = s.targetOut ∧
    (targetWaitDelim n d s).2.2.gdbIn = s.gdbIn ∧ (targetWaitDelim n d s).2.2.gdbOut = s.gdbOut ∧
    (targetWaitDelim n d s).2.2.regs = s.regs ∧
    (targetWaitDelim n d s).2.2.regsValid = s.regsValid ∧
    (targetWaitDelim n d s).2.2.bpTable = s.bpTable ∧
    (targetWaitDelim n d s).2.2.promptChar = s.promptChar :=
  ⟨rfl, rfl, rfl, rfl, rfl, rfl, rfl⟩

/-- A command changes the target streams only: the text is one more write,
and the wait takes bytes from the input. -/
theorem commanded_fields (text : List Nat) (s : Bridge) (h : text ≠ []) :
    (commanded text s).targetOut = s.targetOut ++ [text] ∧
    (commanded text s).gdbIn = s.gdbIn ∧ (commanded text s).gdbOut = s.gdbOut ∧
    (commanded text s).regs = s.regs ∧ (commanded text s).regsValid = s.regsValid ∧
    (commanded text s).bpTable = s.bpTable ∧ (commanded text s).promptChar = s.promptChar := by
  unfold commanded
  rw [targetSend_of_ne_nil text s h]
  exact ⟨rfl, rfl, rfl, rfl, rfl, rfl, rfl⟩

theorem fmtDec_digit : ∀ i, i < 10 → fmtDec i = [0x30 + i] := by
  decide

/-! ## Breakpoint slots -/

theorem getD_set_slot (bp : List BpSlot) (i j : Nat) (x d : BpSlot) (hi : i < bp.length) :
    (bp.set i x).getD j d = if i = j then x else bp.getD j d := by
  simp only [List.getD_eq_getElem?_getD, List.getElem?_set]
  by_cases h : i = j
  · subst h
    simp [hi]
  · simp [h]

theorem slotAt_set (s t : Bridge) (i j : Nat) (x : BpSlot) (hi : i < s.bpTable.length)
    (ht : t.bpTable = s.bpTable.set i x) :
    slotAt t j = if i = j then x else slotAt s j := by
  unfold slotAt
  rw [ht]
  exact getD_set_slot _ _ _ _ _ hi

theorem slotAt_congr (s t : Bridge) (h : t.bpTable = s.bpTable) (j : Nat) :
    slotAt t j = slotAt s j := by
  unfold slotAt
  rw [h]

/-- The run of `hudsonSetBreakpoint` when slot `i` is the lowest free slot. -/
theorem hudsonSetBreakpoint_free (a : Nat) (s : Bridge) (i : Nat) (hi : i < MAX_BREAKPOINTS)
    (hfree : (slotAt s i).active = false)
    (hlow : ∀ j, j < i → (slotAt s j).active = true) :
    hudsonSetBreakpoint a s =
      (0, { commanded ([0x62, 0x30 + i, 0x20] ++ fmtHex a ++ [0x0d]) s with
        bpTable := s.bpTable.set i ⟨a, true⟩ }) := by
  have hfind : (List.range MAX_BREAKPOINTS).find? (fun i => !(slotAt s i).active) = some i := by
    rw [List.find?_range_eq_some]
    refine ⟨by simp [hfree], List.mem_range.2 hi, fun j hj => by simp [hlow j hj]⟩
  have hd : fmtDec i = [0x30 + i] := fmtDec_digit i hi
  unfold hudsonSetBreakpoint
  rw [hfind]
  simp only [hd]
  rfl

/-- The run of `hudsonSetBreakpoint` when every slot is active. -/
theorem hudsonSetBreakpoint_full (a : Nat) (s : Bridge)
    (hfull : ∀ j, j < MAX_BREAKPOINTS → (slotAt s j).active = true) :
    hudsonSetBreakpoint a s = (-1, s) := by
  have hfind : (List.range MAX_BREAKPOINTS).find? (fun i => !(slotAt s i).active) = none := by
    rw [List.find?_range_eq_none]
    intro j hj
    simp [hfull j hj]
  unfold hudsonSetBreakpoint
  rw [hfind]

/-- The run of `hudsonClearBreakpoint` when slot `i` is the lowest active slot
that holds the address. -/
theorem hudsonClearBreakpoint_bound (a : Nat) (s : Bridge) (i : Nat)
    (hi : i < MAX_BREAKPOINTS) (hact : (slotAt s i).active = true)
    (haddr : (slotAt s i).addr = a)
    (hlow : ∀ j, j < i → ¬((slotAt s j).active = true ∧ (slotAt s j).addr = a)) :
    hudsonClearBreakpoint a s =
      (0, { commanded ([0x62, 0x63, 0x20, 0x30 + i, 0x0d]) s with
        bpTable := s.bpTable.set i ⟨a, false⟩ }) := by
  have hfind : (List.range MAX_BREAKPOINTS).find?
      (fun i => (slotAt s i).active && (slotAt s i).addr == a) = some i := by
    rw [List.find?_range_eq_some]
    refine ⟨by simp [hact, haddr], List.mem_range.2 hi, fun j hj => ?_⟩
    have := hlow j hj
    by_cases h1 : (slotAt s j).active = true
    · have h2 : (slotAt s j).addr ≠ a := fun e => this ⟨h1, e⟩
      simp [h1, h2]
    · simp [h1]
  have hd : fmtDec i = [0x30 + i] := fmtDec_digit i hi
  unfold hudsonClearBreakpoint
  rw [hfind]
  simp only [hd]
  have hs : slotAt (targetWaitPrompt TARGET_BUFSIZE
      (targetSend ([0x62, 0x63, 0x20] ++ [0x30 + i] ++ [0x0d]) s)).2.2 i = slotAt s i := rfl
  rw [hs]
  have hx : (⟨(slotAt s i).addr, false⟩ : BpSlot) = ⟨a, false⟩ := by rw [haddr]
  rw [hx]
  rfl

/-- The run of `hudsonClearBreakpoint` when no active slot holds the
address. -/
theorem hudsonClearBreakpoint_unbound (a : Nat) (s : Bridge)
    (hnone : ∀ j, j < MAX_BREAKPOINTS →
      ¬((slotAt s j).active = true ∧ (slotAt s j).addr = a)) :
    hudsonClearBreakpoint a s = (-1, s) := by
  have hfind : (List.range MAX_BREAKPOINTS).find?
      (fun i => (slotAt s i).active && (slotAt s i).addr == a) = none := by
    rw [List.find?_range_eq_none]
    intro j hj
    have := hnone j hj
    by_cases h1 : (slotAt s j).active = true
    · have h2 : (slotAt s j).addr ≠ a := fun e => this ⟨h1, e⟩
      simp [h1, h2]
    · simp [h1]
  unfold hudsonClearBreakpoint
  rw [hfind]

/-! ## The dispatch loop and its fuel -/

/-- More fuel does not change a run that returns. -/
theorem dispatchLoop_mono (handlers : Nat → List Nat → Bridge → Option (Bridge × Bool))
    (fuel k : Nat) (s t : Bridge) (h : dispatchLoop handlers fuel s = .returned t) :
    dispatchLoop handlers (fuel + k) s = .returned t := by
  induction fuel generalizing s with
  | zero => simp [dispatchLoop] at h
  | succ n ih =>
    rw [Nat.add_right_comm]
    rcases h1 : rspGetPacket RSP_BUFSIZE s with ⟨len, pkt, s1⟩
    simp only [dispatchLoop, h1] at h ⊢
    by_cases hneg : len < 0
    · rw [if_pos hneg] at h ⊢
      exact h
    · rw [if_neg hneg] at h ⊢
      by_cases hbrk : len = 1 ∧ pkt.headD 0 = 0x03
      · rw [if_pos hbrk] at h ⊢
        rcases h2 : rspPutPacket [0x53, 0x30, 0x35] s1 with _ | s2
        · rw [h2] at h
          exact absurd h (by simp)
        · rw [h2] at h
          exact ih s2 h
      · rw [if_neg hbrk] at h ⊢
        rcases h2 : handlers (pkt.headD 0) (cstring (pkt.drop 1)) s1 with _ | ⟨s2, fin⟩
        · rw [h2] at h
          exact absurd h (by simp)
        · rw [h2] at h
          cases fin
          · exact ih s2 h
          · exact h

theorem handlePacket_Z (data : List Nat) (s : Bridge) :
    handlePacket 0x5a data s = (handleSetBreakpoint data s).map (fun t => (t, false)) := rfl

theorem handlePacket_z (data : List Nat) (s : Bridge) :
    handlePacket 0x7a data s = (handleClearBreakpoint data s).map (fun t => (t, false)) := rfl

/-! ## Breakpoint packets -/

theorem OK_fits : (0 : Nat) ∉ [0x4f, 0x4b] ∧ ([0x4f, 0x4b] : List Nat).length ≤ 4095 := by
  decide

/-- The handler of a `Z0` packet with an address. -/
theorem handleSetBreakpoint_eq (s : Bridge) (data addrText : List Nat)
    (h0 : data.getD 0 0 = 0x30) (hc : afterChar 0x2c data = some addrText) :
    handlePacket 0x5a data s =
      some (replied [0x4f, 0x4b] (hudsonSetBreakpoint (hexToU32 addrText) s).2, false) := by
  rw [handlePacket_Z]
  unfold handleSetBreakpoint
  rw [if_neg (not_not.2 h0), hc]
  simp only [rspPutPacket_replied _ _ OK_fits.1 OK_fits.2, Option.map_some']

/-- The handler of a `z0` packet with an address. -/
theorem handleClearBreakpoint_eq (s : Bridge) (data addrText : List Nat)
    (h0 : data.getD 0 0 = 0x30) (hc : afterChar 0x2c data = some addrText) :
    handlePacket 0x7a data s =
      some (replied [0x4f, 0x4b] (hudsonClearBreakpoint (hexToU32 addrText) s).2, false) := by
  rw [handlePacket_z]
  unfold handleClearBreakpoint
  rw [if_neg (not_not.2 h0), hc]
  simp only [rspPutPacket_replied _ _ OK_fits.1 OK_fits.2, Option.map_some']

/-- C22: a `Z0` packet with address `a` that finds slot `i` free and every
lower slot active sends `b`, the digit `i`, a blank, `a` as `%x` and a
carriage return to the target, waits for the prompt, stores `a` in slot `i`
and marks it active, and replies `OK`; a `z0` packet for `a` that finds slot
`i` active with address `a`, and no lower slot so, sends `bc`, a blank, the
digit `i` and a carriage return, waits, marks slot `i` free, and replies `OK`.
In both cases every other slot is as before.  For the client stream of S6 the
target receives `b0 1000`, `b1 2000`, `bc 0`, `b0 3000` and the table ends
with 0x3000 in slot 0 and 0x2000 in slot 1. -/
theorem breakpoint_slot_allocation :
    (∀ (s : Bridge) (data addrText : List Nat) (i : Nat),
      s.bpTable.length = MAX_BREAKPOINTS →
      data.getD 0 0 = 0x30 → afterChar 0x2c data = some addrText →
      i < MAX_BREAKPOINTS → (slotAt s i).active = false →
      (∀ j, j < i → (slotAt s j).active = true) →
      ∃ t, handlePacket 0x5a data s = some (replied [0x4f, 0x4b] t, false) ∧
        t = { commanded ([0x62, 0x30 + i, 0x20] ++ fmtHex (hexToU32 addrText) ++ [0x0d]) s with
          bpTable := s.bpTable.set i ⟨hexToU32 addrText, true⟩ } ∧
        t.targetOut = s.targetOut ++
          [[0x62, 0x30 + i, 0x20] ++ fmtHex (hexToU32 addrText) ++ [0x0d]] ∧
        slotAt t i = ⟨hexToU32 addrText, true⟩ ∧
        (∀ j, j ≠ i → slotAt t j = slotAt s j)) ∧
    (∀ (s : Bridge) (data addrText : List Nat) (i : Nat),
      s.bpTable.length = MAX_BREAKPOINTS →
      data.getD 0 0 = 0x30 → afterChar 0x2c data = some addrText →
      i < MAX_BREAKPOINTS → (slotAt s i).active = true →
      (slotAt s i).addr = hexToU32 addrText →
      (∀ j, j < i → ¬((slotAt s j).active = true ∧ (slotAt s j).addr = hexToU32 addrText)) →
      ∃ t, handlePacket 0x7a data s = some (replied [0x4f, 0x4b] t, false) ∧
        t = { commanded [0x62, 0x63, 0x20, 0x30 + i, 0x0d] s with
          bpTable := s.bpTable.set i ⟨hexToU32 addrText, false⟩ } ∧
        t.targetOut = s.targetOut ++ [[0x62, 0x63, 0x20, 0x30 + i, 0x0d]] ∧
        (slotAt t i).active = false ∧
        (∀ j, j ≠ i → slotAt t j = slotAt s j)) ∧
    (∀ fuel, serveClient (fuel + 5) streamS6 (bridgeWith [] fourPrompts) = .returned afterS6) := by
  refine ⟨fun s data addrText i hlen h0 hc hi hfree hlow => ?_,
    fun s data addrText i hlen h0 hc hi hact haddr hlow => ?_, fun fuel => ?_⟩
  · refine ⟨_, ?_, rfl, ?_, ?_, ?_⟩
    · rw [handleSetBreakpoint_eq s data addrText h0 hc,
        hudsonSetBreakpoint_free _ s i hi hfree hlow]
    · exact (commanded_fields _ s (by simp)).1
    · rw [slotAt_set s _ i i _ (by rw [hlen]; exact hi) rfl, if_pos rfl]
    · intro j hj
      rw [slotAt_set s _ i j _ (by rw [hlen]; exact hi) rfl, if_neg (Ne.symm hj)]
  · refine ⟨_, ?_, rfl, ?_, ?_, ?_⟩
    · rw [handleClearBreakpoint_eq s data addrText h0 hc,
        hudsonClearBreakpoint_bound _ s i hi hact haddr hlow]
    · exact (commanded_fields _ s (by simp)).1
    · rw [slotAt_set s _ i i _ (by rw [hlen]; exact hi) rfl, if_pos rfl]
    · intro j hj
      rw [slotAt_set s _ i j _ (by rw [hlen]; exact hi) rfl, if_neg (Ne.symm hj)]
  · have h5 : serveClient 5 streamS6 (bridgeWith [] fourPrompts) = .returned afterS6 := by
      decide!
    rw [Nat.add_comm]
    exact dispatchLoop_mono handlePacket 5 fuel _ _ h5

/-- C22 applied to a `Z0,1000,2` packet on the initial table: slot 0 is the
lowest free slot, and the target receives `b0 1000`. -/
theorem breakpoint_slot_allocation_witness :
    ∃ t, handlePacket 0x5a [0x30, 0x2c, 0x31, 0x30, 0x30, 0x30, 0x2c, 0x32]
        (bridgeWith [] fourPrompts) = some (replied [0x4f, 0x4b] t, false) ∧
      t = { commanded ([0x62, 0x30 + 0, 0x20] ++
            fmtHex (hexToU32 [0x31, 0x30, 0x30, 0x30, 0x2c, 0x32]) ++ [0x0d])
            (bridgeWith [] fourPrompts) with
        bpTable := (bridgeWith [] fourPrompts).bpTable.set 0
          ⟨hexToU32 [0x31, 0x30, 0x30, 0x30, 0x2c, 0x32], true⟩ } ∧
      t.targetOut = (bridgeWith [] fourPrompts).targetOut ++
        [[0x62, 0x30 + 0, 0x20] ++ fmtHex (hexToU32 [0x31, 0x30, 0x30, 0x30, 0x2c, 0x32]) ++
          [0x0d]] ∧
      slotAt t 0 = ⟨hexToU32 [0x31, 0x30, 0x30, 0x30, 0x2c, 0x32], true⟩ ∧
      (∀ j, j ≠ 0 → slotAt t j = slotAt (bridgeWith [] fourPrompts) j) :=
  breakpoint_slot_allocation.1 (bridgeWith [] fourPrompts)
    [0x30, 0x2c, 0x31, 0x30, 0x30, 0x30, 0x2c, 0x32] [0x31, 0x30, 0x30, 0x30, 0x2c, 0x32] 0
    (by decide) (by decide) (by decide) (by decide) (by decide) (by decide)

/-- C30: when all ten slots are active, a `Z0` packet with an address is
answered with `OK` and nothing else changes: no command is sent to the target
and the table is as before; the same holds for a `z0` packet whose address no
active slot holds. -/
theorem no_free_breakpoint_slot (s : Bridge) (data addrText : List Nat)
    (h0 : data.getD 0 0 = 0x30) (hc : afterChar 0x2c data = some addrText) :
    ((∀ j, j < MAX_BREAKPOINTS → (slotAt s j).active = true) →
      handlePacket 0x5a data s = some (replied [0x4f, 0x4b] s, false)) ∧
    ((∀ j, j < MAX_BREAKPOINTS →
        ¬((slotAt s j).active = true ∧ (slotAt s j).addr = hexToU32 addrText)) →
      handlePacket 0x7a data s = some (replied [0x4f, 0x4b] s, false)) ∧
    (replied [0x4f, 0x4b] s).targetOut = s.targetOut ∧
    (replied [0x4f, 0x4b] s).bpTable = s.bpTable ∧
    (replied [0x4f, 0x4b] s).gdbOut = s.gdbOut ++ [[0x24, 0x4f, 0x4b, 0x23, 0x39, 0x61]] := by
  refine ⟨fun hfull => ?_, fun hnone => ?_, rfl, rfl, rfl⟩
  · rw [handleSetBreakpoint_eq s data addrText h0 hc, hudsonSetBreakpoint_full _ s hfull]
  · rw [handleClearBreakpoint_eq s data addrText h0 hc, hudsonClearBreakpoint_unbound _ s hnone]

/-- C30 applied to a `Z0` packet for 0x3000 on a table whose ten slots are
active. -/
theorem no_free_breakpoint_slot_witness :
    handlePacket 0x5a [0x30, 0x2c, 0x33, 0x30, 0x30, 0x30, 0x2c, 0x32] fullBridge =
      some (replied [0x4f, 0x4b] fullBridge, false) :=
  (no_free_breakpoint_slot fullBridge [0x30, 0x2c, 0x33, 0x30, 0x30, 0x30, 0x2c, 0x32]
    [0x33, 0x30, 0x30, 0x30, 0x2c, 0x32] (by decide) (by decide)).1 (by decide)

/-! ## Uniqueness of the active addresses -/

theorem getD_set_any (bp : List BpSlot) (i j : Nat) (x d : BpSlot) :
    (bp.set i x).getD j d = if i = j ∧ i < bp.length then x else bp.getD j d := by
  simp only [List.getD_eq_getElem?_getD, List.getElem?_set]
  by_cases h : i = j
  · subst h
    by_cases hi : i < bp.length
    · simp [hi]
    · have : bp[i]? = none := List.getElem?_eq_none (by omega)
      simp [hi, this]
  · simp [h]

/-- A table in which every active slot is an active slot of a table with
unique active addresses, unchanged, has unique active addresses. -/
theorem UniqueActive_of_subset (s t : Bridge) (hs : UniqueActive s)
    (h : ∀ j, j < MAX_BREAKPOINTS → (slotAt t j).active = true → slotAt t j = slotAt s j) :
    UniqueActive t := by
  intro i hi j hj ai aj e
  have ei := h i hi ai
  have ej := h j hj aj
  rw [ei] at ai e
  rw [ej] at aj e
  exact hs i hi j hj ai aj e

/-- Every slot that is active after the loop of `hudsonClearAllBreakpoints` is
as it was before. -/
theorem clearAllLoop_active (todo : List Nat) (s : Bridge) :
    (clearAllLoop todo s).bpTable.length = s.bpTable.length ∧
    ∀ j, (slotAt (clearAllLoop todo s) j).active = true →
      slotAt (clearAllLoop todo s) j = slotAt s j := by
  induction todo generalizing s with
  | nil => exact ⟨rfl, fun _ _ => rfl⟩
  | cons i rest ih =>
    unfold clearAllLoop
    split
    · rename_i hact
      obtain ⟨hl, hrec⟩ := ih { (targetWaitPrompt TARGET_BUFSIZE
          (targetSend ([0x62, 0x63, 0x20] ++ fmtDec i ++ [0x0d]) s)).2.2 with
        bpTable := (targetWaitPrompt TARGET_BUFSIZE
          (targetSend ([0x62, 0x63, 0x20] ++ fmtDec i ++ [0x0d]) s)).2.2.bpTable.set i
            ⟨(slotAt (targetWaitPrompt TARGET_BUFSIZE
              (targetSend ([0x62, 0x63, 0x20] ++ fmtDec i ++ [0x0d]) s)).2.2 i).addr, false⟩ }
      have hb : (targetWaitPrompt TARGET_BUFSIZE
          (targetSend ([0x62, 0x63, 0x20] ++ fmtDec i ++ [0x0d]) s)).2.2.bpTable = s.bpTable :=
        (commanded_fields _ s (by simp)).2.2.2.2.2.1
      refine ⟨by rw [hl]; simp only [List.length_set]; rw [hb], fun j hj => ?_⟩
      have h1 := hrec j hj
      rw [h1] at hj ⊢
      unfold slotAt at hj ⊢
      simp only [getD_set_any] at hj ⊢
      split at hj
      · exact absurd hj (by simp)
      · rename_i hne
        rw [if_neg hne, hb]
    · exact ih s

theorem handlePacket_k (data : List Nat) (s : Bridge) :
    handlePacket 0x6b data s = some (hudsonClearAllBreakpoints s, true) := rfl

theorem handlePacket_D (data : List Nat) (s : Bridge) :
    handlePacket 0x44 data s =
      some (replied [0x4f, 0x4b] (hudsonClearAllBreakpoints s), true) := by
  have h : handlePacket 0x44 data s = (handleDetach s).map (fun t => (t, true)) := rfl
  rw [h]
  unfold handleDetach
  rw [rspPutPacket_replied _ _ OK_fits.1 OK_fits.2]
  rfl

/-- The table after `hudsonSetBreakpoint`: as before, or with the address in a
slot that was free. -/
theorem hudsonSetBreakpoint_table (a : Nat) (s : Bridge) :
    (hudsonSetBreakpoint a s).2.bpTable = s.bpTable ∨
    ∃ i, i < MAX_BREAKPOINTS ∧ (slotAt s i).active = false ∧
      (hudsonSetBreakpoint a s).2.bpTable = s.bpTable.set i ⟨a, true⟩ := by
  unfold hudsonSetBreakpoint
  rcases hf : (List.range MAX_BREAKPOINTS).find? (fun i => !(slotAt s i).active) with _ | i
  · exact Or.inl rfl
  · rw [List.find?_range_eq_some] at hf
    obtain ⟨h1, h2, _⟩ := hf
    refine Or.inr ⟨i, List.mem_range.1 h2, by simpa using h1, ?_⟩
    simp only
    rw [(targetWaitPrompt_fields _ _).2.2.2.2.2.1]
    unfold targetSend
    split <;> rfl

/-- The table after `hudsonClearBreakpoint`: as before, or with one slot
marked free. -/
theorem hudsonClearBreakpoint_table (a : Nat) (s : Bridge) :
    (hudsonClearBreakpoint a s).2.bpTable = s.bpTable ∨
    ∃ i, (hudsonClearBreakpoint a s).2.bpTable = s.bpTable.set i ⟨(slotAt s i).addr, false⟩ := by
  unfold hudsonClearBreakpoint
  rcases hf : (List.range MAX_BREAKPOINTS).find?
      (fun i => (slotAt s i).active && (slotAt s i).addr == a) with _ | i
  · exact Or.inl rfl
  · refine Or.inr ⟨i, ?_⟩
    simp only
    have hb : (targetWaitPrompt TARGET_BUFSIZE
        (targetSend ([0x62, 0x63, 0x20] ++ fmtDec i ++ [0x0d]) s)).2.2.bpTable = s.bpTable :=
      (commanded_fields _ s (by simp)).2.2.2.2.2.1
    unfold slotAt
    rw [hb]

/-- The invariant behind C21: the table keeps its ten slots and the active
addresses stay distinct. -/
theorem FreshReachable_invariant (s : Bridge) (h : FreshReachable s) :
    s.bpTable.length = MAX_BREAKPOINTS ∧ UniqueActive s := by
  induction h with
  | start s hlen hfree =>
    refine ⟨hlen, fun i hi j _ ai _ _ => ?_⟩
    rw [hfree i hi] at ai
    exact absurd ai (by simp)
  | setBp s t data fin _ h0 hfresh hstep ih =>
    obtain ⟨hlen, huniq⟩ := ih
    rw [handlePacket_Z] at hstep
    unfold handleSetBreakpoint at hstep
    rw [if_neg (not_not.2 h0)] at hstep
    rcases hc : afterChar 0x2c data with _ | addrText
    · rw [hc] at hstep
      simp only at hstep
      rw [rspPutPacket_replied _ _ (by decide) (by decide)] at hstep
      simp only [Option.map_some', Option.some.injEq, Prod.mk.injEq] at hstep
      rw [← hstep.1]
      exact ⟨hlen, UniqueActive_of_subset s _ huniq (fun _ _ _ => rfl)⟩
    · rw [hc] at hstep
      simp only at hstep
      rw [rspPutPacket_replied _ _ OK_fits.1 OK_fits.2] at hstep
      simp only [Option.map_some', Option.some.injEq, Prod.mk.injEq] at hstep
      rw [← hstep.1]
      rcases hudsonSetBreakpoint_table (hexToU32 addrText) s with ht | ⟨i, hi, hfree, ht⟩
      · refine ⟨by show (hudsonSetBreakpoint (hexToU32 addrText) s).2.bpTable.length = _
                   rw [ht, hlen], ?_⟩
        exact UniqueActive_of_subset s _ huniq
          (fun j _ _ => slotAt_congr s _ ht j)
      · have hil : i < s.bpTable.length := by rw [hlen]; exact hi
        have hslot : ∀ j, slotAt (replied [0x4f, 0x4b]
            (hudsonSetBreakpoint (hexToU32 addrText) s).2) j =
            if i = j then ⟨hexToU32 addrText, true⟩ else slotAt s j :=
          fun j => slotAt_set s _ i j _ hil ht
        refine ⟨by show (hudsonSetBreakpoint (hexToU32 addrText) s).2.bpTable.length = _
                   rw [ht, List.length_set, hlen], ?_⟩
        intro j hj k hk aj ak e
        rw [hslot j] at aj e
        rw [hslot k] at ak e
        by_cases hij : i = j
        · by_cases hik : i = k
          · rw [← hij, ← hik]
          · rw [if_pos hij, if_neg hik] at e
            rw [if_neg hik] at ak
            exact absurd e.symm (hfresh addrText hc k hk ak)
        · by_cases hik : i = k
          · rw [if_neg hij, if_pos hik] at e
            rw [if_neg hij] at aj
            exact absurd e (hfresh addrText hc j hj aj)
          · rw [if_neg hij] at aj e
            rw [if_neg hik] at ak e
            exact huniq j hj k hk aj ak e
  | clearBp s t data fin _ h0 hstep ih =>
    obtain ⟨hlen, huniq⟩ := ih
    rw [handlePacket_z] at hstep
    unfold handleClearBreakpoint at hstep
    rw [if_neg (not_not.2 h0)] at hstep
    rcases hc : afterChar 0x2c data with _ | addrText
    · rw [hc] at hstep
      simp only at hstep
      rw [rspPutPacket_replied _ _ (by decide) (by decide)] at hstep
      simp only [Option.map_some', Option.some.injEq, Prod.mk.injEq] at hstep
      rw [← hstep.1]
      exact ⟨hlen, UniqueActive_of_subset s _ huniq (fun _ _ _ => rfl)⟩
    · rw [hc] at hstep
      simp only at hstep
      rw [rspPutPacket_replied _ _ OK_fits.1 OK_fits.2] at hstep
      simp only [Option.map_some', Option.some.injEq, Prod.mk.injEq] at hstep
      rw [← hstep.1]
      rcases hudsonClearBreakpoint_table (hexToU32 addrText) s with ht | ⟨i, ht⟩
      · refine ⟨by show (hudsonClearBreakpoint (hexToU32 addrText) s).2.bpTable.length = _
                   rw [ht, hlen], ?_⟩
        exact UniqueActive_of_subset s _ huniq
          (fun j _ _ => slotAt_congr s _ ht j)
      · refine ⟨by show (hudsonClearBreakpoint (hexToU32 addrText) s).2.bpTable.length = _
                   rw [ht, List.length_set, hlen], ?_⟩
        refine UniqueActive_of_subset s _ huniq (fun j _ aj => ?_)
        have hj : slotAt (replied [0x4f, 0x4b]
            (hudsonClearBreakpoint (hexToU32 addrText) s).2) j =
            (s.bpTable.set i ⟨(slotAt s i).addr, false⟩).getD j ⟨0, false⟩ := by
          show (hudsonClearBreakpoint (hexToU32 addrText) s).2.bpTable.getD j _ = _
          rw [ht]
        rw [hj, getD_set_any] at aj ⊢
        split at aj
        · exact absurd aj (by simp)
        · rename_i hne
          rw [if_neg hne]
          rfl
  | kill s t data fin _ hstep ih =>
    obtain ⟨hlen, huniq⟩ := ih
    rw [handlePacket_k] at hstep
    simp only [Option.some.injEq, Prod.mk.injEq] at hstep
    rw [← hstep.1]
    obtain ⟨hl, hact⟩ := clearAllLoop_active (List.range MAX_BREAKPOINTS) s
    exact ⟨by show (clearAllLoop _ s).bpTable.length = _
              rw [hl, hlen],
      UniqueActive_of_subset s _ huniq (fun j _ aj => hact j aj)⟩
  | detach s t data fin _ hstep ih =>
    obtain ⟨hlen, huniq⟩ := ih
    rw [handlePacket_D] at hstep
    simp only [Option.some.injEq, Prod.mk.injEq] at hstep
    rw [← hstep.1]
    obtain ⟨hl, hact⟩ := clearAllLoop_active (List.range MAX_BREAKPOINTS) s
    exact ⟨by show (clearAllLoop _ s).bpTable.length = _
              rw [hl, hlen],
      UniqueActive_of_subset s _ huniq (fun j _ aj => hact j aj)⟩

/-- C21 (counterexample): two `Z0,1000,2` packets on the initial table, whose
slots are all free, are both answered with `OK` and leave the address 0x1000
in the active slots 0 and 1. -/
theorem duplicate_breakpoint_takes_two_slots :
    (∀ i, i < MAX_BREAKPOINTS → (slotAt (bridgeWith [] fourPrompts) i).active = false) ∧
    handlePacket 0x5a dataZ0at1000 (bridgeWith [] fourPrompts) = some (afterOneSet, false) ∧
    handlePacket 0x5a dataZ0at1000 afterOneSet = some (afterTwoSets, false) ∧
    slotAt afterTwoSets 0 = ⟨0x1000, true⟩ ∧ slotAt afterTwoSets 1 = ⟨0x1000, true⟩ ∧
    ¬ UniqueActive afterTwoSets := by
  decide!

/-- C21 (amended): in every state that is reached from a table of ten free
slots by `Z0`, `z0`, `k` and `D` packets, none of the `Z0` packets naming an
address that an active slot holds at that moment, no two active slots hold the
same address. -/
theorem breakpoint_slot_uniqueness (s : Bridge) (h : FreshReachable s) : UniqueActive s :=
  (FreshReachable_invariant s h).2

/-- C21 (amended) applied to the state after `Z0,1000,2` and `Z0,2000,2` on
the initial table: the second packet names an address that the active slot 0
does not hold, and afterwards the slots 0 and 1 are both active and hold the
different addresses 0x1000 and 0x2000. -/
theorem breakpoint_slot_uniqueness_witness :
    UniqueActive afterFreshSets ∧ slotAt afterFreshSets 0 = ⟨0x1000, true⟩ ∧
    slotAt afterFreshSets 1 = ⟨0x2000, true⟩ ∧
    handlePacket 0x5a dataZ0at2000 afterOneSet = some (afterFreshSets, false) :=
  ⟨breakpoint_slot_uniqueness afterFreshSets
    (FreshReachable.setBp afterOneSet afterFreshSets dataZ0at2000 false
      (FreshReachable.setBp (bridgeWith [] fourPrompts) afterOneSet dataZ0at1000 false
        (FreshReachable.start _ (by decide) (by decide)) (by decide)
        (fun addrText _ i hi hact => by
          have h : ∀ i, i < MAX_BREAKPOINTS →
              (slotAt (bridgeWith [] fourPrompts) i).active = false := by decide
          rw [h i hi] at hact
          exact absurd hact (by simp))
        (by decide!))
      (by decide)
      (fun addrText hc i hi hact => by
        have e : afterChar 0x2c dataZ0at2000 = some [0x32, 0x30, 0x30, 0x30, 0x2c, 0x32] := by
          decide
        rw [e] at hc
        have ha := Option.some.inj hc
        subst ha
        have hall : ∀ i, i < MAX_BREAKPOINTS → (slotAt afterOneSet i).active = true →
            (slotAt afterOneSet i).addr ≠ hexToU32 [0x32, 0x30, 0x30, 0x30, 0x2c, 0x32] := by
          decide
        exact hall i hi hact)
      (by decide!)),
    by decide, by decide, by decide!⟩

/-! ## The end of a session -/

/-- C23: a client sets a breakpoint at 0x1000 and closes the connection.  The
dispatch loop returns on the failed `read` with slot 0 still active, and no
`bc 0` has been sent, so this is the table that the next client finds; had the
client sent `k` before closing, slot 0 would be free and the target would have
received `bc 0`. -/
theorem slots_survive_client_eof :
    (∀ fuel, serveClient (fuel + 2) streamSetThenEof (bridgeWith [] fourPrompts) =
      .returned afterSetThenEof) ∧
    slotAt afterSetThenEof 0 = ⟨0x1000, true⟩ ∧
    afterSetThenEof.targetOut = [[0x62, 0x30, 0x20, 0x31, 0x30, 0x30, 0x30, 0x0d]] ∧
    (∀ fuel, serveClient (fuel + 2) streamSetThenKill (bridgeWith [] fourPrompts) =
      .returned afterSetThenKill) ∧
    (∀ i, i < MAX_BREAKPOINTS → (slotAt afterSetThenKill i).active = false) := by
  have h1 : serveClient 2 streamSetThenEof (bridgeWith [] fourPrompts) =
      .returned afterSetThenEof := by decide!
  have h2 : serveClient 2 streamSetThenKill (bridgeWith [] fourPrompts) =
      .returned afterSetThenKill := by decide!
  refine ⟨fun fuel => ?_, by decide, by decide, fun fuel => ?_, by decide⟩
  · rw [Nat.add_comm]
    exact dispatchLoop_mono handlePacket 2 fuel _ _ h1
  · rw [Nat.add_comm]
    exact dispatchLoop_mono handlePacket 2 fuel _ _ h2

/-! ## Hex numerals -/

theorem and_ff (x : Nat) : x &&& 0xff = x % 256 := Nat.and_pow_two_sub_one_eq_mod x 8

theorem and_0f (x : Nat) : x &&& 0x0f = x % 16 := Nat.and_pow_two_sub_one_eq_mod x 4

theorem hexVal_lt : ∀ c, 0 ≤ hexVal c → (hexVal c).toNat < 16 := by
  intro c hc
  unfold hexVal at hc ⊢
  split
  · omega
  · split
    · omega
    · split
      · omega
      · rename_i h1 h2 h3
        simp only [h1, h2, h3, if_false] at hc
        omega

theorem hexVal_zero_of_nonneg (c : Nat) (hc : 0 ≤ hexVal c) : c ≠ 0 := by
  intro h
  subst h
  exact absurd hc (by decide)

/-- The byte that `hexDecode` stores for two hex digits. -/
theorem nibbles_value (a b : Nat) (ha : a < 16) (hb : b < 16) :
    ((a <<< 4) ||| b) % 256 = 16 * a + b := by
  have h : a <<< 4 ||| b = 2 ^ 4 * a + b := by
    rw [Nat.mul_add_lt_is_or (by omega) a, Nat.shiftLeft_eq, Nat.mul_comm]
  rw [h]
  omega

/-- The value that the handlers build from four bytes. -/
theorem u32OfBytes_value (b0 b1 b2 b3 : Nat) (h0 : b0 < 256) (h1 : b1 < 256) (h2 : b2 < 256)
    (h3 : b3 < 256) :
    u32OfBytes [b0, b1, b2, b3] = 16777216 * b0 + 65536 * b1 + 256 * b2 + b3 := by
  unfold u32OfBytes
  simp only [List.getD_cons_zero, List.getD_cons_succ, Nat.mod_eq_of_lt h0, Nat.mod_eq_of_lt h1,
    Nat.mod_eq_of_lt h2, Nat.mod_eq_of_lt h3, Nat.shiftLeft_eq]
  have e1 : b2 * 2 ^ 8 ||| b3 = 256 * b2 + b3 := by
    rw [Nat.mul_comm, ← Nat.mul_add_lt_is_or (by omega) b2]
  have e2 : b1 * 2 ^ 16 ||| (256 * b2 + b3) = 65536 * b1 + (256 * b2 + b3) := by
    rw [Nat.mul_comm, ← Nat.mul_add_lt_is_or (by omega) b1]
  have e3 : b0 * 2 ^ 24 ||| (65536 * b1 + (256 * b2 + b3)) =
      16777216 * b0 + (65536 * b1 + (256 * b2 + b3)) := by
    rw [Nat.mul_comm, ← Nat.mul_add_lt_is_or (by omega) b0]
  rw [Nat.lor_assoc, Nat.lor_assoc, e1, e2, e3]
  omega

/-- The reply digits of one register: `hexEncode` of the four bytes is the
eight hex digits of the value. -/
theorem hexEncode_bytesOfU32 (v : Nat) : hexEncode (bytesOfU32 v) = hex8 v := by
  unfold bytesOfU32 hex8
  simp only [hexEncode, and_ff, and_0f, Nat.shiftRight_eq_div_pow]
  have e1 : v / 2 ^ 24 % 256 % 256 / 2 ^ 4 = v / 268435456 % 16 := by omega
  have e2 : v / 2 ^ 24 % 256 % 256 % 16 = v / 16777216 % 16 := by omega
  have e3 : v / 2 ^ 16 % 256 % 256 / 2 ^ 4 = v / 1048576 % 16 := by omega
  have e4 : v / 2 ^ 16 % 256 % 256 % 16 = v / 65536 % 16 := by omega
  have e5 : v / 2 ^ 8 % 256 % 256 / 2 ^ 4 = v / 4096 % 16 := by omega
  have e6 : v / 2 ^ 8 % 256 % 256 % 16 = v / 256 % 16 := by omega
  have e7 : v % 256 % 256 / 2 ^ 4 = v / 16 % 16 := by omega
  have e8 : v % 256 % 256 % 16 = v % 16 := by omega
  rw [e1, e2, e3, e4, e5, e6, e7, e8]

theorem zero_not_mem_hexDigits : (0 : Nat) ∉ hexDigits := by decide

theorem hex8_spec (v : Nat) :
    (hex8 v).length = 8 ∧ (∀ c ∈ hex8 v, c ∈ hexDigits) ∧ (0 : Nat) ∉ hex8 v ∧
    hexNumber (hex8 v) = v % 4294967296 := by
  have hm : ∀ c ∈ hex8 v, c ∈ hexDigits := by
    intro c hc
    unfold hex8 at hc
    simp only [List.mem_cons, List.mem_singleton, List.not_mem_nil, or_false] at hc
    rcases hc with h | h | h | h | h | h | h | h <;> rw [h] <;>
      exact hexDigits_mem _ (Nat.mod_lt _ (by decide))
  refine ⟨rfl, hm, fun h0 => zero_not_mem_hexDigits (hm 0 h0), ?_⟩
  unfold hex8 hexNumber
  simp only [List.foldl_cons, List.foldl_nil]
  rw [hexVal_hexDigits _ (Nat.mod_lt _ (by decide)), hexVal_hexDigits _ (Nat.mod_lt _ (by decide)),
    hexVal_hexDigits _ (Nat.mod_lt _ (by decide)), hexVal_hexDigits _ (Nat.mod_lt _ (by decide)),
    hexVal_hexDigits _ (Nat.mod_lt _ (by decide)), hexVal_hexDigits _ (Nat.mod_lt _ (by decide)),
    hexVal_hexDigits _ (Nat.mod_lt _ (by decide)), hexVal_hexDigits _ (Nat.mod_lt _ (by decide))]
  simp only [Int.toNat_ofNat]
  omega

theorem hexDecode_pair (c0 c1 : Nat) (src : List Nat) (n : Nat) (h0 : 0 ≤ hexVal c0)
    (h1 : 0 ≤ hexVal c1) :
    hexDecode (c0 :: c1 :: src) (n + 1) =
      (16 * (hexVal c0).toNat + (hexVal c1).toNat) :: hexDecode src n := by
  have z0 := hexVal_zero_of_nonneg c0 h0
  have z1 := hexVal_zero_of_nonneg c1 h1
  have e : ¬(hexVal c0 < 0 ∨ hexVal c1 < 0) := by omega
  rw [hexDecode]
  rw [if_neg (by simp [z0, z1]), if_neg e,
    nibbles_value _ _ (hexVal_lt c0 h0) (hexVal_lt c1 h1)]

/-- The value that `handleWriteReg` and `handleWriteRegs` decode from eight hex
digits is the number the digits denote. -/
theorem u32OfBytes_hexDecode (value : List Nat) (hlen : 8 ≤ value.length)
    (hhex : ∀ c ∈ value.take 8, 0 ≤ hexVal c) :
    (hexDecode value 4).length = 4 ∧
    u32OfBytes (hexDecode value 4) = hexNumber (value.take 8) ∧
    hexNumber (value.take 8) < 4294967296 := by
  match value, hlen, hhex with
  | c0 :: c1 :: c2 :: c3 :: c4 :: c5 :: c6 :: c7 :: rest, _, hhex =>
    simp only [List.take_succ_cons, List.take_zero, List.mem_cons, List.mem_singleton,
      List.not_mem_nil, or_false, forall_eq_or_imp, forall_eq] at hhex
    obtain ⟨g0, g1, g2, g3, g4, g5, g6, g7⟩ := hhex
    have l0 := hexVal_lt c0 g0
    have l1 := hexVal_lt c1 g1
    have l2 := hexVal_lt c2 g2
    have l3 := hexVal_lt c3 g3
    have l4 := hexVal_lt c4 g4
    have l5 := hexVal_lt c5 g5
    have l6 := hexVal_lt c6 g6
    have l7 := hexVal_lt c7 g7
    have hd : hexDecode (c0 :: c1 :: c2 :: c3 :: c4 :: c5 :: c6 :: c7 :: rest) 4 =
        [16 * (hexVal c0).toNat + (hexVal c1).toNat, 16 * (hexVal c2).toNat + (hexVal c3).toNat,
         16 * (hexVal c4).toNat + (hexVal c5).toNat,
         16 * (hexVal c6).toNat + (hexVal c7).toNat] := by
      rw [hexDecode_pair c0 c1 _ 3 g0 g1, hexDecode_pair c2 c3 _ 2 g2 g3,
        hexDecode_pair c4 c5 _ 1 g4 g5, hexDecode_pair c6 c7 _ 0 g6 g7]
      cases rest with
      | nil => rfl
      | cons a t => cases t <;> rfl
    rw [hd, u32OfBytes_value _ _ _ _ (by omega) (by omega) (by omega) (by omega)]
    simp only [hexNumber, List.take_succ_cons, List.take_zero, List.foldl_cons, List.foldl_nil]
    refine ⟨rfl, by omega, by omega⟩

/-- On a string of at most eight hex digits the loop of `hexToU32` computes
the number that the digits denote. -/
theorem hexToU32Loop_eq (digits : List Nat) (hhex : ∀ c ∈ digits, 0 ≤ hexVal c) :
    ∀ (k val : Nat), digits.length + k ≤ 8 → val < 16 ^ k →
      hexToU32Loop digits val = digits.foldl (fun acc c => 16 * acc + (hexVal c).toNat) val ∧
      hexToU32Loop digits val < 16 ^ (digits.length + k) := by
  induction digits with
  | nil =>
    intro k val _ hv
    exact ⟨rfl, by simpa using hv⟩
  | cons c rest ih =>
    intro k val hk hv
    have hc : 0 ≤ hexVal c := hhex c (List.mem_cons_self _ _)
    have hl := hexVal_lt c hc
    have hk7 : k ≤ 7 := by
      simp only [List.length_cons] at hk
      omega
    have hv28 : val < 268435456 :=
      lt_of_lt_of_le hv (le_trans (Nat.pow_le_pow_right (by decide) hk7) (by decide))
    have hstep : ((val <<< 4) % 4294967296) ||| (hexVal c).toNat = 16 * val + (hexVal c).toNat := by
      rw [Nat.shiftLeft_eq, Nat.mod_eq_of_lt (by omega), Nat.mul_comm,
        ← Nat.mul_add_lt_is_or (by omega) val]
    have hnext : 16 * val + (hexVal c).toNat < 16 ^ (k + 1) := by
      rw [Nat.pow_succ]
      omega
    unfold hexToU32Loop
    rw [if_neg (by omega), hstep]
    obtain ⟨e1, e2⟩ := ih (fun d hd => hhex d (List.mem_cons_of_mem _ hd)) (k + 1) _
      (by simp only [List.length_cons] at hk; omega) hnext
    refine ⟨by rw [e1]; rfl, ?_⟩
    have : rest.length + (k + 1) = (c :: rest).length + k := by
      simp only [List.length_cons]
      omega
    rw [← this]
    exact e2

theorem hexToU32_eq_hexNumber (digits : List Nat) (hhex : ∀ c ∈ digits, 0 ≤ hexVal c)
    (hlen : digits.length ≤ 8) : hexToU32 digits = hexNumber digits :=
  (hexToU32Loop_eq digits hhex 0 0 (by omega) (by decide)).1

/-- The loop of `hexToU32` stops at the first character that is no hex
digit. -/
theorem hexToU32Loop_append (digits rest : List Nat) (c : Nat)
    (hhex : ∀ d ∈ digits, 0 ≤ hexVal d) (hc : hexVal c < 0) (val : Nat) :
    hexToU32Loop (digits ++ c :: rest) val = hexToU32Loop digits val := by
  induction digits generalizing val with
  | nil =>
    simp only [List.nil_append, hexToU32Loop]
    rw [if_pos hc]
  | cons d ds ih =>
    have hd : 0 ≤ hexVal d := hhex d (List.mem_cons_self _ _)
    simp only [List.cons_append, hexToU32Loop]
    rw [if_neg (by omega), if_neg (by omega)]
    exact ih (fun e he => hhex e (List.mem_cons_of_mem _ he)) _

/-! ## The conversion `%x` -/

theorem hexDigit_zero_iff : ∀ d, d < 16 → (hexDigits.getD d 0 = 0x30 ↔ d = 0) := by
  decide

theorem fmtDigits_value (fuel : Nat) :
    ∀ (v : Nat) (acc : List Nat), v < 16 ^ fuel →
      (fmtDigits 16 fuel v acc).foldl (fun a c => 16 * a + (hexVal c).toNat) 0 =
        acc.foldl (fun a c => 16 * a + (hexVal c).toNat) v := by
  induction fuel with
  | zero =>
    intro v acc hv
    have : v = 0 := by simpa using hv
    subst this
    rfl
  | succ n ih =>
    intro v acc hv
    unfold fmtDigits
    split
    · rename_i hlt
      simp only [List.foldl_cons, hexVal_hexDigits v hlt]
      simp
    · rename_i hge
      have hq : v / 16 < 16 ^ n := by
        rw [Nat.pow_succ] at hv
        omega
      rw [ih (v / 16) _ hq]
      simp only [List.foldl_cons, hexVal_hexDigits _ (Nat.mod_lt v (by decide))]
      have e : 16 * (v / 16) + (v % 16 : Nat) = v := by omega
      simp only [Int.toNat_ofNat, e]

theorem fmtDigits_shape (fuel : Nat) :
    ∀ (v : Nat) (acc : List Nat), v < 16 ^ fuel →
      ∃ ds, fmtDigits 16 fuel v acc = ds ++ acc ∧ ds.length ≤ fuel ∧
        (∀ c ∈ ds, c ∈ hexDigits) ∧ (0 < fuel → ds ≠ []) ∧
        (v ≠ 0 → ds.head? ≠ some 0x30) := by
  induction fuel with
  | zero =>
    intro v acc hv
    have : v = 0 := by simpa using hv
    subst this
    exact ⟨[], rfl, by simp, by simp, by simp, by simp⟩
  | succ n ih =>
    intro v acc hv
    unfold fmtDigits
    split
    · rename_i hlt
      refine ⟨[hexDigits.getD v 0], rfl, by simp, ?_, by simp, ?_⟩
      · intro c hc
        rw [List.mem_singleton.1 hc]
        exact hexDigits_mem v hlt
      · intro hv0 hh
        simp only [List.head?_cons, Option.some.injEq] at hh
        exact hv0 ((hexDigit_zero_iff v hlt).1 hh)
    · rename_i hge
      have hq : v / 16 < 16 ^ n := by
        rw [Nat.pow_succ] at hv
        omega
      have hq0 : v / 16 ≠ 0 := by omega
      have hn : 0 < n := by
        rcases Nat.eq_zero_or_pos n with h | h
        · subst h
          simp at hq
          omega
        · exact h
      obtain ⟨ds, e, hl, hm, hne, hh⟩ := ih (v / 16) (hexDigits.getD (v % 16) 0 :: acc) hq
      refine ⟨ds ++ [hexDigits.getD (v % 16) 0], by rw [e]; simp, by simp; omega, ?_, by simp,
        ?_⟩
      · intro c hc
        rcases List.mem_append.1 hc with h | h
        · exact hm c h
        · rw [List.mem_singleton.1 h]
          exact hexDigits_mem _ (Nat.mod_lt v (by decide))
      · intro _
        have hds := hne hn
        cases ds with
        | nil => exact absurd rfl hds
        | cons d t => simpa using hh hq0

/-- The characters of `%x`: at least one and at most eight lowercase hex
digits, without a leading zero unless the value is 0, that denote the value. -/
theorem fmtHex_spec (v : Nat) :
    hexNumber (fmtHex v) = v % 4294967296 ∧ fmtHex v ≠ [] ∧ (fmtHex v).length ≤ 8 ∧
    (∀ c ∈ fmtHex v, c ∈ hexDigits) ∧ (0 : Nat) ∉ fmtHex v ∧
    (v % 4294967296 ≠ 0 → (fmtHex v).head? ≠ some 0x30) := by
  have hv : v % 4294967296 < 16 ^ 8 := Nat.mod_lt _ (by decide)
  obtain ⟨ds, e, hl, hm, hne, hh⟩ := fmtDigits_shape 8 (v % 4294967296) [] hv
  have e2 : fmtHex v = ds := by
    unfold fmtHex
    rw [e, List.append_nil]
  refine ⟨?_, ?_, ?_, ?_, ?_, ?_⟩
  · unfold hexNumber fmtHex
    rw [fmtDigits_value 8 _ [] hv]
    rfl
  · rw [e2]
    exact hne (by decide)
  · rw [e2]
    exact hl
  · rw [e2]
    exact hm
  · rw [e2]
    exact fun h0 => zero_not_mem_hexDigits (hm 0 h0)
  · rw [e2]
    exact hh

/-! ## Register packets -/

/-- The payload of the reply to `g` for a list of register values: the eight
hex digits of each of the 18 registers, in order. -/
theorem regsReply_eq (regs : List Nat) :
    ((List.range NUM_REGS).map (fun i => hexEncode (bytesOfU32 (regs.getD i 0)))).flatten =
      ((List.range NUM_REGS).map (fun i => hex8 (regs.getD i 0))).flatten := by
  simp only [hexEncode_bytesOfU32]

theorem regsReply_spec (f : Nat → Nat) :
    (((List.range NUM_REGS).map (fun i => hex8 (f i))).flatten).length = 144 ∧
    (∀ c ∈ ((List.range NUM_REGS).map (fun i => hex8 (f i))).flatten, c ∈ hexDigits) ∧
    (0 : Nat) ∉ ((List.range NUM_REGS).map (fun i => hex8 (f i))).flatten := by
  have hm : ∀ c ∈ ((List.range NUM_REGS).map (fun i => hex8 (f i))).flatten, c ∈ hexDigits := by
    intro c hc
    rw [List.mem_flatten] at hc
    obtain ⟨l, hl, hcl⟩ := hc
    rw [List.mem_map] at hl
    obtain ⟨i, _, rfl⟩ := hl
    exact (hex8_spec (f i)).2.1 c hcl
  refine ⟨?_, hm, fun h0 => zero_not_mem_hexDigits (hm 0 h0)⟩
  have hr : List.range NUM_REGS =
      [0, 1, 2, 3, 4, 5, 6, 7, 8, 9, 10, 11, 12, 13, 14, 15, 16, 17] := by decide
  rw [hr]
  simp [hex8]

theorem ensureRegs_valid (s : Bridge) (h : s.regsValid = true) : ensureRegs s = s := by
  unfold ensureRegs
  rw [if_pos h]

theorem ensureRegs_invalid (s : Bridge) (h : s.regsValid = false) :
    ensureRegs s = (hudsonFetchRegs s).2 := by
  unfold ensureRegs
  rw [if_neg (by simp [h])]

theorem parseRegs_length (toks : List (List Nat)) :
    ∀ (mode : Option (Nat × Nat)) (regs : List Nat),
      (parseRegs toks mode regs).length = regs.length := by
  induction toks with
  | nil =>
    intro mode regs
    cases mode <;> rfl
  | cons p rest ih =>
    intro mode regs
    cases mode with
    | some m =>
      obtain ⟨base, i⟩ := m
      simp only [parseRegs]
      rw [ih, List.length_set]
    | none =>
      simp only [parseRegs]
      split
      · rw [ih, List.length_set]
      · split
        · rw [ih, List.length_set]
        · split
          · rw [ih]
          · split <;> rw [ih]

/-- The fetch sends `x` and a carriage return once, and leaves everything but
the target streams and the register cache as it was. -/
theorem hudsonFetchRegs_fields (s : Bridge) :
    (hudsonFetchRegs s).2.targetOut = s.targetOut ++ [[0x78, 0x0d]] ∧
    (hudsonFetchRegs s).2.gdbIn = s.gdbIn ∧ (hudsonFetchRegs s).2.gdbOut = s.gdbOut ∧
    (hudsonFetchRegs s).2.bpTable = s.bpTable ∧
    (hudsonFetchRegs s).2.promptChar = s.promptChar ∧
    (hudsonFetchRegs s).2.regs.length = s.regs.length ∧
    (0 ≤ (hudsonFetchRegs s).1 → (hudsonFetchRegs s).2.regsValid = true) ∧
    ((hudsonFetchRegs s).1 < 0 → (hudsonFetchRegs s).2.regsValid = s.regsValid ∧
      (hudsonFetchRegs s).2.regs = s.regs) := by
  unfold hudsonFetchRegs
  rw [targetSend_of_ne_nil _ s (by simp)]
  rcases hw : targetWaitPrompt TARGET_BUFSIZE
      { s with targetOut := s.targetOut ++ [[0x78, 0x0d]] } with ⟨len, buf, s2⟩
  have hf := targetWaitPrompt_fields TARGET_BUFSIZE
    { s with targetOut := s.targetOut ++ [[0x78, 0x0d]] }
  rw [hw] at hf
  simp only at hf
  obtain ⟨f1, f2, f3, f4, f5, f6, f7⟩ := hf
  simp only
  by_cases hneg : len < 0
  · rw [if_pos hneg]
    exact ⟨f1, f2, f3, f6, f7, by rw [f4], fun h => absurd h (by simp),
      fun _ => ⟨f5, f4⟩⟩
  · rw [if_neg hneg]
    exact ⟨f1, f2, f3, f6, f7, by simp only [parseRegs_length]; rw [f4], fun _ => rfl,
      fun h => absurd h (by simp)⟩

theorem handlePacket_g (data : List Nat) (s : Bridge) :
    handlePacket 0x67 data s = (handleReadRegs s).map (fun t => (t, false)) := rfl

theorem handlePacket_p (data : List Nat) (s : Bridge) :
    handlePacket 0x70 data s = (handleReadReg data s).map (fun t => (t, false)) := rfl

/-- The reply to `g` from a state whose cache is valid. -/
theorem handleReadRegs_valid (data : List Nat) (s : Bridge) (h : s.regsValid = true) :
    handlePacket 0x67 data s =
      some (replied ((List.range NUM_REGS).map (fun i => hex8 (s.regs.getD i 0))).flatten s,
        false) := by
  rw [handlePacket_g]
  unfold handleReadRegs
  simp only [ensureRegs_valid s h, regsReply_eq]
  rw [rspPutPacket_replied _ _ (regsReply_spec _).2.2 (by rw [(regsReply_spec _).1]; decide)]
  rfl

/-- The reply to `p` with an index below 18 from a state whose cache is
valid. -/
theorem handleReadReg_valid (data : List Nat) (s : Bridge) (h : s.regsValid = true)
    (hn : hexToU32 data < NUM_REGS) :
    handlePacket 0x70 data s =
      some (replied (hex8 (s.regs.getD (hexToU32 data) 0)) s, false) := by
  rw [handlePacket_p]
  unfold handleReadReg
  rw [if_neg (by omega)]
  simp only [ensureRegs_valid s h, hexEncode_bytesOfU32]
  rw [rspPutPacket_replied _ _ (hex8_spec _).2.2.1 (by rw [(hex8_spec _).1]; decide)]
  rfl

/-- C25: with a valid cache the reply to `g` is the concatenation of the eight
hex digits of registers 0 to 17 (144 characters of `0123456789abcdef`), and the
reply to `p` with an index `n` below 18 is the eight hex digits of register
`n`; nothing is sent to the target.  With an invalid cache the bridge first
runs `hudsonFetchRegs`, which sends `x` and a carriage return once, and the
replies are made in the same way from the registers after the fetch.  The
eight digits denote the register value, most significant digit first. -/
theorem register_read_replies (s : Bridge) (data : List Nat) :
    (s.regsValid = true →
      handlePacket 0x67 data s =
        some (replied ((List.range NUM_REGS).map (fun i => hex8 (s.regs.getD i 0))).flatten s,
          false) ∧
      (hexToU32 data < NUM_REGS →
        handlePacket 0x70 data s =
          some (replied (hex8 (s.regs.getD (hexToU32 data) 0)) s, false))) ∧
    (s.regsValid = false →
      (hudsonFetchRegs s).2.targetOut = s.targetOut ++ [[0x78, 0x0d]] ∧
      handlePacket 0x67 data s =
        some (replied ((List.range NUM_REGS).map
          (fun i => hex8 ((hudsonFetchRegs s).2.regs.getD i 0))).flatten (hudsonFetchRegs s).2,
          false) ∧
      (hexToU32 data < NUM_REGS →
        handlePacket 0x70 data s =
          some (replied (hex8 ((hudsonFetchRegs s).2.regs.getD (hexToU32 data) 0))
            (hudsonFetchRegs s).2, false))) ∧
    (∀ f : Nat → Nat,
      (((List.range NUM_REGS).map (fun i => hex8 (f i))).flatten).length = 144 ∧
      ∀ c ∈ ((List.range NUM_REGS).map (fun i => hex8 (f i))).flatten, c ∈ hexDigits) ∧
    (∀ v, (hex8 v).length = 8 ∧ hexNumber (hex8 v) = v % 4294967296) := by
  refine ⟨fun hv => ⟨handleReadRegs_valid data s hv, handleReadReg_valid data s hv⟩,
    fun hi => ⟨(hudsonFetchRegs_fields s).1, ?_, fun hn => ?_⟩,
    fun f => ⟨(regsReply_spec f).1, (regsReply_spec f).2.1⟩,
    fun v => ⟨(hex8_spec v).1, (hex8_spec v).2.2.2⟩⟩
  · rw [handlePacket_g]
    unfold handleReadRegs
    simp only [ensureRegs_invalid s hi, regsReply_eq]
    rw [rspPutPacket_replied _ _ (regsReply_spec _).2.2 (by rw [(regsReply_spec _).1]; decide)]
    rfl
  · rw [handlePacket_p]
    unfold handleReadReg
    rw [if_neg (by omega)]
    simp only [ensureRegs_invalid s hi, hexEncode_bytesOfU32]
    rw [rspPutPacket_replied _ _ (hex8_spec _).2.2.1 (by rw [(hex8_spec _).1]; decide)]
    rfl

/-- C25 applied to a `pf` packet (register 15, a7) on a cache that holds the
registers of `dumpAnswer`: the reply is `00001ffc`. -/
theorem register_read_replies_witness :
    handlePacket 0x70 [0x66] (cachedBridge []) =
      some (replied [0x30, 0x30, 0x30, 0x30, 0x31, 0x66, 0x66, 0x63] (cachedBridge []), false) :=
  ((register_read_replies (cachedBridge []) [0x66]).1 (by decide)).2 (by decide)

/-- The dialog of `hudsonStoreReg`: two commands, the cache entry, and nothing
else but the target input changes. -/
theorem hudsonStoreReg_fields (n v : Nat) (s : Bridge) :
    hudsonStoreReg n v s =
      { commanded (fmtHex v ++ [0x0d])
          (targetWaitDelim TARGET_BUFSIZE 0x3d
            (targetSend ([0x78, 0x20] ++ regNames.getD n [] ++ [0x0d]) s)).2.2 with
        regs := s.regs.set n v } ∧
    (hudsonStoreReg n v s).targetOut =
      s.targetOut ++ [[0x78, 0x20] ++ regNames.getD n [] ++ [0x0d], fmtHex v ++ [0x0d]] ∧
    (hudsonStoreReg n v s).regs = s.regs.set n v ∧
    (hudsonStoreReg n v s).regsValid = s.regsValid ∧
    (hudsonStoreReg n v s).bpTable = s.bpTable ∧
    (hudsonStoreReg n v s).gdbOut = s.gdbOut ∧ (hudsonStoreReg n v s).gdbIn = s.gdbIn := by
  have h1 : targetSend ([0x78, 0x20] ++ regNames.getD n [] ++ [0x0d]) s =
      { s with targetOut := s.targetOut ++ [[0x78, 0x20] ++ regNames.getD n [] ++ [0x0d]] } :=
    targetSend_of_ne_nil _ s (by simp)
  have h2 := commanded_fields (fmtHex v ++ [0x0d])
    (targetWaitDelim TARGET_BUFSIZE 0x3d
      (targetSend ([0x78, 0x20] ++ regNames.getD n [] ++ [0x0d]) s)).2.2 (by simp)
  obtain ⟨f1, f2, f3, f4, f5, f6, _⟩ := h2
  have g := targetWaitDelim_fields TARGET_BUFSIZE 0x3d
    (targetSend ([0x78, 0x20] ++ regNames.getD n [] ++ [0x0d]) s)
  obtain ⟨g1, g2, g3, g4, g5, g6, _⟩ := g
  rw [h1] at g1 g2 g3 g4 g5 g6
  simp only at g1 g2 g3 g4 g5 g6
  have hregs : (commanded (fmtHex v ++ [0x0d])
      (targetWaitDelim TARGET_BUFSIZE 0x3d
        (targetSend ([0x78, 0x20] ++ regNames.getD n [] ++ [0x0d]) s)).2.2).regs = s.regs := by
    rw [f4, h1]
    exact g4
  have hdef : hudsonStoreReg n v s =
      { commanded (fmtHex v ++ [0x0d])
          (targetWaitDelim TARGET_BUFSIZE 0x3d
            (targetSend ([0x78, 0x20] ++ regNames.getD n [] ++ [0x0d]) s)).2.2 with
        regs := (commanded (fmtHex v ++ [0x0d])
          (targetWaitDelim TARGET_BUFSIZE 0x3d
            (targetSend ([0x78, 0x20] ++ regNames.getD n [] ++ [0x0d]) s)).2.2).regs.set n v } :=
    rfl
  rw [hregs] at hdef
  refine ⟨hdef, ?_, ?_, ?_, ?_, ?_, ?_⟩
  · rw [hdef]
    show (commanded _ _).targetOut = _
    rw [f1, h1, g1]
    simp
  · rw [hdef]
  · rw [hdef]
    show (commanded _ _).regsValid = _
    rw [f5, h1, g5]
  · rw [hdef]
    show (commanded _ _).bpTable = _
    rw [f6, h1, g6]
  · rw [hdef]
    show (commanded _ _).gdbOut = _
    rw [f3, h1, g3]
  · rw [hdef]
    show (commanded _ _).gdbIn = _
    rw [f2, h1, g2]

theorem handlePacket_P (data : List Nat) (s : Bridge) :
    handlePacket 0x50 data s = (handleWriteReg data s).map (fun t => (t, false)) := rfl

theorem E01_fits : (0 : Nat) ∉ [0x45, 0x30, 0x31] ∧ ([0x45, 0x30, 0x31] : List Nat).length ≤ 4095 := by
  decide

/-- The handler of a `P` packet with `=`, an index below 18 and a value of
eight hex digits. -/
theorem handleWriteReg_eq (s : Bridge) (data value : List Nat)
    (heq : afterChar 0x3d data = some value)
    (hn : hexToU32 (data.takeWhile (fun b => b != 0x3d)) < NUM_REGS)
    (hlen : 8 ≤ value.length) (hhex : ∀ c ∈ value.take 8, 0 ≤ hexVal c) :
    handlePacket 0x50 data s =
      some (replied [0x4f, 0x4b]
        (hudsonStoreReg (hexToU32 (data.takeWhile (fun b => b != 0x3d)))
          (hexNumber (value.take 8)) s), false) := by
  obtain ⟨d1, d2, _⟩ := u32OfBytes_hexDecode value hlen hhex
  rw [handlePacket_P]
  unfold handleWriteReg
  rw [heq]
  simp only
  rw [if_neg (by omega), if_neg (by omega), d2,
    rspPutPacket_replied _ _ OK_fits.1 OK_fits.2]
  rfl

/-- C27: a `P` packet with `=`, an index `n` below 18 before it and eight hex
digits that denote `v` after it makes the bridge send `x`, a blank, the name of
register `n` and a carriage return, wait for `=`, send `v` as `%x` and a
carriage return, wait for the prompt, store `v` in cache entry `n` and reply
`OK`.  Without `=`, or with an index of 18 or more, the reply is `E01` and
nothing else changes.  The text of `%x` is `v` in lowercase hex digits without
leading zeros.  For S5 the target receives `x a7` and `12345678`. -/
theorem single_register_write :
    (∀ (s : Bridge) (data value : List Nat), afterChar 0x3d data = some value →
      hexToU32 (data.takeWhile (fun b => b != 0x3d)) < NUM_REGS →
      8 ≤ value.length → (∀ c ∈ value.take 8, 0 ≤ hexVal c) →
      ∃ t, handlePacket 0x50 data s = some (replied [0x4f, 0x4b] t, false) ∧
        t = { commanded (fmtHex (hexNumber (value.take 8)) ++ [0x0d])
            (targetWaitDelim TARGET_BUFSIZE 0x3d
              (targetSend ([0x78, 0x20] ++
                regNames.getD (hexToU32 (data.takeWhile (fun b => b != 0x3d))) [] ++ [0x0d])
                s)).2.2 with
          regs := s.regs.set (hexToU32 (data.takeWhile (fun b => b != 0x3d)))
            (hexNumber (value.take 8)) } ∧
        t.targetOut = s.targetOut ++
          [[0x78, 0x20] ++ regNames.getD (hexToU32 (data.takeWhile (fun b => b != 0x3d))) [] ++
            [0x0d], fmtHex (hexNumber (value.take 8)) ++ [0x0d]] ∧
        t.regsValid = s.regsValid ∧ t.bpTable = s.bpTable ∧
        (s.regs.length = NUM_REGS →
          t.regs.getD (hexToU32 (data.takeWhile (fun b => b != 0x3d))) 0 =
            hexNumber (value.take 8))) ∧
    (∀ (s : Bridge) (data : List Nat), afterChar 0x3d data = none →
      handlePacket 0x50 data s = some (replied [0x45, 0x30, 0x31] s, false)) ∧
    (∀ (s : Bridge) (data value : List Nat), afterChar 0x3d data = some value →
      NUM_REGS ≤ hexToU32 (data.takeWhile (fun b => b != 0x3d)) →
      handlePacket 0x50 data s = some (replied [0x45, 0x30, 0x31] s, false)) ∧
    (∀ v, v < 4294967296 → hexNumber (fmtHex v) = v ∧ (∀ c ∈ fmtHex v, c ∈ hexDigits) ∧
      fmtHex v ≠ [] ∧ (v ≠ 0 → (fmtHex v).head? ≠ some 0x30)) ∧
    handlePacket 0x50 dataS5 (cachedBridge storeAnswer) = some (afterS5, false) := by
  refine ⟨fun s data value heq hn hlen hhex => ?_, fun s data heq => ?_,
    fun s data value heq hn => ?_, fun v hv => ?_, by decide!⟩
  · obtain ⟨e1, e2, e3, e4, e5, _, _⟩ := hudsonStoreReg_fields
      (hexToU32 (data.takeWhile (fun b => b != 0x3d))) (hexNumber (value.take 8)) s
    refine ⟨_, handleWriteReg_eq s data value heq hn hlen hhex, e1, e2, e4, e5, fun hl => ?_⟩
    rw [e3, List.getD_eq_getElem?_getD, List.getElem?_set]
    simp [hl, hn]
  · rw [handlePacket_P]
    unfold handleWriteReg
    rw [heq]
    simp only
    rw [rspPutPacket_replied _ _ E01_fits.1 E01_fits.2]
    rfl
  · rw [handlePacket_P]
    unfold handleWriteReg
    rw [heq]
    simp only
    rw [if_pos hn, rspPutPacket_replied _ _ E01_fits.1 E01_fits.2]
    rfl
  · obtain ⟨a1, a2, _, a4, _, a6⟩ := fmtHex_spec v
    rw [Nat.mod_eq_of_lt hv] at a1 a6
    exact ⟨a1, a4, a2, a6⟩

/-- C27 applied to the packet `Pf=12345678` of scenario S5. -/
theorem single_register_write_witness :
    ∃ t, handlePacket 0x50 dataS5 (cachedBridge storeAnswer) =
        some (replied [0x4f, 0x4b] t, false) ∧
      t = { commanded (fmtHex (hexNumber ((dataS5.drop 2).take 8)) ++ [0x0d])
          (targetWaitDelim TARGET_BUFSIZE 0x3d
            (targetSend ([0x78, 0x20] ++
              regNames.getD (hexToU32 (dataS5.takeWhile (fun b => b != 0x3d))) [] ++ [0x0d])
              (cachedBridge storeAnswer))).2.2 with
        regs := (cachedBridge storeAnswer).regs.set
          (hexToU32 (dataS5.takeWhile (fun b => b != 0x3d)))
          (hexNumber ((dataS5.drop 2).take 8)) } ∧
      t.targetOut = (cachedBridge storeAnswer).targetOut ++
        [[0x78, 0x20] ++ regNames.getD (hexToU32 (dataS5.takeWhile (fun b => b != 0x3d))) [] ++
          [0x0d], fmtHex (hexNumber ((dataS5.drop 2).take 8)) ++ [0x0d]] ∧
      t.regsValid = (cachedBridge storeAnswer).regsValid ∧
      t.bpTable = (cachedBridge storeAnswer).bpTable ∧
      ((cachedBridge storeAnswer).regs.length = NUM_REGS →
        t.regs.getD (hexToU32 (dataS5.takeWhile (fun b => b != 0x3d))) 0 =
          hexNumber ((dataS5.drop 2).take 8)) :=
  single_register_write.1 (cachedBridge storeAnswer) dataS5 (dataS5.drop 2) (by decide)
    (by decide) (by decide) (by decide)

/-! ## Register cache coherence -/

theorem mem_take_drop_of_take (data : List Nat) (k n m : Nat) (hk : k + n ≤ m) (c : Nat)
    (hc : c ∈ (data.drop k).take n) : c ∈ data.take m := by
  rw [List.take_drop] at hc
  have h1 : c ∈ data.take (k + n) := List.mem_of_mem_drop hc
  have h2 : data.take (k + n) = (data.take m).take (k + n) := by
    rw [List.take_take, Nat.min_eq_left hk]
  rw [h2] at h1
  exact List.mem_of_mem_take h1

/-- One turn of the loop of `handleWriteRegs`: afterwards cache entry `i`
holds the value, whether the dialog with the target was run or not. -/
theorem writeReg_step (i val : Nat) (s : Bridge) :
    (if val ≠ s.regs.getD i 0 then hudsonStoreReg i val s else s).regsValid = s.regsValid ∧
    (if val ≠ s.regs.getD i 0 then hudsonStoreReg i val s else s).regs.length =
      s.regs.length ∧
    (i < s.regs.length →
      (if val ≠ s.regs.getD i 0 then hudsonStoreReg i val s else s).regs.getD i 0 = val) ∧
    (∀ j, j ≠ i →
      (if val ≠ s.regs.getD i 0 then hudsonStoreReg i val s else s).regs.getD j 0 =
        s.regs.getD j 0) := by
  by_cases h : val ≠ s.regs.getD i 0
  · rw [if_pos h]
    obtain ⟨_, _, e3, e4, _, _, _⟩ := hudsonStoreReg_fields i val s
    refine ⟨e4, by rw [e3, List.length_set], fun hi => ?_, fun j hj => ?_⟩
    · rw [e3, List.getD_eq_getElem?_getD, List.getElem?_set]
      simp [hi]
    · rw [e3, List.getD_eq_getElem?_getD, List.getD_eq_getElem?_getD, List.getElem?_set]
      simp [Ne.symm hj]
  · rw [if_neg h]
    exact ⟨rfl, rfl, fun _ => (not_not.1 h).symm, fun _ _ => rfl⟩

/-- The loop of `handleWriteRegs` on a packet that holds eight hex digits for
each register of `todo`. -/
theorem writeRegsLoop_spec (data : List Nat) (todo : List Nat) :
    ∀ s, (∀ i ∈ todo, (hexDecode (data.drop (i * 8)) 4).length = 4) →
      ∃ t, writeRegsLoop data todo s = some t ∧ t.regsValid = s.regsValid ∧
        t.regs.length = s.regs.length ∧
        (∀ i ∈ todo, i < s.regs.length →
          t.regs.getD i 0 = u32OfBytes (hexDecode (data.drop (i * 8)) 4)) ∧
        (∀ i, i ∉ todo → t.regs.getD i 0 = s.regs.getD i 0) := by
  induction todo with
  | nil =>
    intro s _
    exact ⟨s, rfl, rfl, rfl, fun _ h => absurd h (List.not_mem_nil _), fun _ _ => rfl⟩
  | cons i rest ih =>
    intro s hdec
    have hi := hdec i (List.mem_cons_self _ _)
    obtain ⟨w1, w2, w3, w4⟩ := writeReg_step i (u32OfBytes (hexDecode (data.drop (i * 8)) 4)) s
    obtain ⟨t, e, r1, r2, r3, r4⟩ :=
      ih (if u32OfBytes (hexDecode (data.drop (i * 8)) 4) ≠ s.regs.getD i 0 then
          hudsonStoreReg i (u32OfBytes (hexDecode (data.drop (i * 8)) 4)) s else s)
        (fun j hj => hdec j (List.mem_cons_of_mem _ hj))
    refine ⟨t, ?_, by rw [r1, w1], by rw [r2, w2], fun j hj hjl => ?_, fun j hj => ?_⟩
    · unfold writeRegsLoop
      rw [if_neg (by omega)]
      exact e
    · by_cases hjr : j ∈ rest
      · exact r3 j hjr (by rw [w2]; exact hjl)
      · have hji : j = i := by
          rcases List.mem_cons.1 hj with h | h
          · exact h
          · exact absurd h hjr
        subst hji
        rw [r4 j hjr]
        exact w3 hjl
    · have hji : j ≠ i := fun h => hj (by rw [h]; exact List.mem_cons_self _ _)
      have hjr : j ∉ rest := fun h => hj (List.mem_cons_of_mem _ h)
      rw [r4 j hjr]
      exact w4 j hji

theorem handlePacket_G (data : List Nat) (s : Bridge) :
    handlePacket 0x47 data s = (handleWriteRegs data s).map (fun t => (t, false)) := rfl

/-- The handler of a `G` packet that carries 144 hex digits. -/
theorem handleWriteRegs_spec (s : Bridge) (data : List Nat) (hl : s.regs.length = NUM_REGS)
    (hlen : 144 ≤ data.length) (hhex : ∀ c ∈ data.take 144, 0 ≤ hexVal c) :
    ∃ t, handlePacket 0x47 data s = some (replied [0x4f, 0x4b] t, false) ∧
      t.regsValid = (ensureRegs s).regsValid ∧
      (∀ i, i < NUM_REGS → t.regs.getD i 0 = hexNumber ((data.drop (i * 8)).take 8)) := by
  have hdig : ∀ i, i < NUM_REGS →
      (hexDecode (data.drop (i * 8)) 4).length = 4 ∧
      u32OfBytes (hexDecode (data.drop (i * 8)) 4) = hexNumber ((data.drop (i * 8)).take 8) := by
    intro i hi
    have hi18 : i < 18 := hi
    obtain ⟨d1, d2, _⟩ := u32OfBytes_hexDecode (data.drop (i * 8))
      (by rw [List.length_drop]; omega)
      (fun c hc => hhex c (mem_take_drop_of_take data (i * 8) 8 144 (by omega) c hc))
    exact ⟨d1, d2⟩
  have hel : (ensureRegs s).regs.length = NUM_REGS := by
    unfold ensureRegs
    split
    · exact hl
    · rw [(hudsonFetchRegs_fields s).2.2.2.2.2.1]
      exact hl
  obtain ⟨t, e, r1, _, r3, _⟩ := writeRegsLoop_spec data (List.range NUM_REGS) (ensureRegs s)
    (fun i hi => (hdig i (List.mem_range.1 hi)).1)
  refine ⟨t, ?_, r1, fun i hi => ?_⟩
  · rw [handlePacket_G]
    unfold handleWriteRegs
    rw [e]
    simp only [Option.some_bind]
    rw [rspPutPacket_replied _ _ OK_fits.1 OK_fits.2]
    rfl
  · rw [r3 i (List.mem_range.2 hi) (by rw [hel]; exact hi)]
    exact (hdig i hi).2

/-- C24 (counterexample): on the initial bridge, whose cache is invalid, the
packet `Pf=12345678` followed by `pf` makes the bridge send `x a7`, `12345678`
and then the register dump command `x`; and when the read from the target
fails, a `G` packet of 144 zeros followed by `g` makes it send the dump
command twice. -/
theorem register_read_after_write_fetches :
    ((handlePacket 0x50 dataS5 (bridgeWith [] (storeAnswer ++ dumpAfterStore))).bind
        (fun r => handlePacket 0x70 [0x66] r.1)).map (fun r => (r.1.targetOut, r.1.gdbOut)) =
      some ([[0x78, 0x20, 0x61, 0x37, 0x0d],
             [0x31, 0x32, 0x33, 0x34, 0x35, 0x36, 0x37, 0x38, 0x0d], [0x78, 0x0d]],
            [[0x24, 0x4f, 0x4b, 0x23, 0x39, 0x61],
             [0x24, 0x31, 0x32, 0x33, 0x34, 0x35, 0x36, 0x37, 0x38, 0x23, 0x61, 0x34]]) ∧
    ((handlePacket 0x47 (List.replicate 144 0x30) (bridgeWith [] [])).bind
        (fun r => handlePacket 0x67 [] r.1)).map (fun r => r.1.targetOut) =
      some [[0x78, 0x0d], [0x78, 0x0d]] := by
  decide!

/-- C24 (amended): after a `G` packet with 144 hex digits, handled in a state
whose cache is valid or whose register fetch does not fail, and after a `P`
packet with an index below 18 and eight hex digits, handled in a state whose
cache is valid, the cache holds the values of the packet, and a `g` or `p`
packet that follows is answered from them; the state after each of these
replies differs from the state before it in the reply written to the client
only, so nothing is sent to the target. -/
theorem register_cache_coherence :
    (∀ (s : Bridge) (data : List Nat), s.regs.length = NUM_REGS →
      (s.regsValid = true ∨ 0 ≤ (hudsonFetchRegs s).1) →
      144 ≤ data.length → (∀ c ∈ data.take 144, 0 ≤ hexVal c) →
      ∃ t, handlePacket 0x47 data s = some (t, false) ∧
        (∀ i, i < NUM_REGS → t.regs.getD i 0 = hexNumber ((data.drop (i * 8)).take 8)) ∧
        (∀ d2, handlePacket 0x67 d2 t =
          some (replied ((List.range NUM_REGS).map
            (fun i => hex8 (hexNumber ((data.drop (i * 8)).take 8)))).flatten t, false)) ∧
        (∀ d2, hexToU32 d2 < NUM_REGS → handlePacket 0x70 d2 t =
          some (replied (hex8 (hexNumber ((data.drop (hexToU32 d2 * 8)).take 8))) t, false))) ∧
    (∀ (s : Bridge) (data value : List Nat), s.regs.length = NUM_REGS →
      s.regsValid = true → afterChar 0x3d data = some value →
      hexToU32 (data.takeWhile (fun b => b != 0x3d)) < NUM_REGS →
      8 ≤ value.length → (∀ c ∈ value.take 8, 0 ≤ hexVal c) →
      ∃ t, handlePacket 0x50 data s = some (t, false) ∧
        t.regs = s.regs.set (hexToU32 (data.takeWhile (fun b => b != 0x3d)))
          (hexNumber (value.take 8)) ∧
        (∀ d2, handlePacket 0x67 d2 t =
          some (replied ((List.range NUM_REGS).map
            (fun i => hex8 (t.regs.getD i 0))).flatten t, false)) ∧
        (∀ d2, hexToU32 d2 = hexToU32 (data.takeWhile (fun b => b != 0x3d)) →
          handlePacket 0x70 d2 t = some (replied (hex8 (hexNumber (value.take 8))) t, false))) ∧
    (∀ (payload : List Nat) (t : Bridge), (replied payload t).targetOut = t.targetOut ∧
      (replied payload t).regs = t.regs ∧ (replied payload t).regsValid = t.regsValid) := by
  refine ⟨fun s data hl hv hlen hhex => ?_, fun s data value hl hv heq hn hlen hhex => ?_,
    fun payload t => ⟨rfl, rfl, rfl⟩⟩
  · obtain ⟨t, e, r1, r3⟩ := handleWriteRegs_spec s data hl hlen hhex
    have hvalid : (replied [0x4f, 0x4b] t).regsValid = true := by
      show t.regsValid = true
      rw [r1]
      unfold ensureRegs
      split
      · rename_i h
        exact h
      · rcases hv with h | h
        · rename_i hn
          exact absurd h hn
        · exact (hudsonFetchRegs_fields s).2.2.2.2.2.2.1 h
    have hregs : ∀ i, i < NUM_REGS → (replied [0x4f, 0x4b] t).regs.getD i 0 =
        hexNumber ((data.drop (i * 8)).take 8) := r3
    refine ⟨_, e, hregs, fun d2 => ?_, fun d2 hd2 => ?_⟩
    · rw [handleReadRegs_valid d2 _ hvalid]
      have hm : (List.range NUM_REGS).map
          (fun i => hex8 ((replied [0x4f, 0x4b] t).regs.getD i 0)) =
          (List.range NUM_REGS).map (fun i => hex8 (hexNumber ((data.drop (i * 8)).take 8))) :=
        List.map_congr_left (fun i hi => by rw [hregs i (List.mem_range.1 hi)])
      rw [hm]
    · rw [handleReadReg_valid d2 _ hvalid hd2, hregs _ hd2]
  · obtain ⟨_, _, e3, e4, _, _, _⟩ := hudsonStoreReg_fields
      (hexToU32 (data.takeWhile (fun b => b != 0x3d))) (hexNumber (value.take 8)) s
    have hvalid : (replied [0x4f, 0x4b] (hudsonStoreReg
        (hexToU32 (data.takeWhile (fun b => b != 0x3d))) (hexNumber (value.take 8)) s)).regsValid
        = true := by
      show (hudsonStoreReg _ _ s).regsValid = true
      rw [e4]
      exact hv
    refine ⟨_, handleWriteReg_eq s data value heq hn hlen hhex, e3,
      fun d2 => handleReadRegs_valid d2 _ hvalid, fun d2 hd2 => ?_⟩
    rw [handleReadReg_valid d2 _ hvalid (by rw [hd2]; exact hn), hd2]
    have : (replied [0x4f, 0x4b] (hudsonStoreReg
        (hexToU32 (data.takeWhile (fun b => b != 0x3d))) (hexNumber (value.take 8)) s)).regs.getD
        (hexToU32 (data.takeWhile (fun b => b != 0x3d))) 0 = hexNumber (value.take 8) := by
      show (hudsonStoreReg _ _ s).regs.getD _ 0 = _
      rw [e3, List.getD_eq_getElem?_getD, List.getElem?_set]
      simp [hl, hn]
    rw [this]

/-- C24 (amended) applied to the packet `Pf=12345678` on a valid cache,
followed by `pf`: the reply is `12345678`. -/
theorem register_cache_coherence_witness :
    ∃ t, handlePacket 0x50 dataS5 (cachedBridge storeAnswer) = some (t, false) ∧
      t.regs = (cachedBridge storeAnswer).regs.set
        (hexToU32 (dataS5.takeWhile (fun b => b != 0x3d)))
        (hexNumber ((dataS5.drop 2).take 8)) ∧
      (∀ d2, handlePacket 0x67 d2 t =
        some (replied ((List.range NUM_REGS).map
          (fun i => hex8 (t.regs.getD i 0))).flatten t, false)) ∧
      (∀ d2, hexToU32 d2 = hexToU32 (dataS5.takeWhile (fun b => b != 0x3d)) →
        handlePacket 0x70 d2 t =
          some (replied (hex8 (hexNumber ((dataS5.drop 2).take 8))) t, false)) :=
  register_cache_coherence.2.1 (cachedBridge storeAnswer) dataS5 (dataS5.drop 2) (by decide)
    (by decide) (by decide) (by decide) (by decide) (by decide)

/-! ## Memory read -/

theorem parseWords_length (len : Nat) (ws : List (List Nat)) :
    ∀ acc : List Nat, acc.length ≤ len → (parseWords len ws acc).length ≤ len := by
  induction ws with
  | nil =>
    intro acc h
    exact h
  | cons wp rest ih =>
    intro acc h
    unfold parseWords
    split
    · split
      · split
        · exact ih _ (by simp only [List.length_append, List.length_cons, List.length_nil]; omega)
        · exact ih _ (by simp only [List.length_append, List.length_cons, List.length_nil]; omega)
      · split
        · exact h
        · exact ih _ h
    · exact h

theorem parseLines_length (len : Nat) (ls : List (List Nat)) :
    ∀ acc : List Nat, acc.length ≤ len → (parseLines len ls acc).length ≤ len := by
  induction ls with
  | nil =>
    intro acc h
    exact h
  | cons line rest ih =>
    intro acc h
    unfold parseLines
    split
    · split
      · exact ih _ h
      · exact ih _ (parseWords_length len _ acc h)
    · exact h

theorem hexEncode_length (bytes : List Nat) : (hexEncode bytes).length = 2 * bytes.length := by
  induction bytes with
  | nil => rfl
  | cons b rest ih =>
    simp only [hexEncode, List.length_cons]
    rw [ih]
    omega

theorem hexEncode_mem (bytes : List Nat) : ∀ c ∈ hexEncode bytes, c ∈ hexDigits := by
  induction bytes with
  | nil =>
    intro c hc
    simp [hexEncode] at hc
  | cons b rest ih =>
    intro c hc
    simp only [hexEncode, List.mem_cons] at hc
    rcases hc with h | h | h
    · rw [h]
      exact hexDigits_mem _ (by rw [Nat.shiftRight_eq_div_pow]; omega)
    · rw [h, and_0f]
      exact hexDigits_mem _ (Nat.mod_lt _ (by decide))
    · exact ih c h

theorem hexEncode_spec (bytes : List Nat) :
    (hexEncode bytes).length = 2 * bytes.length ∧ (∀ c ∈ hexEncode bytes, c ∈ hexDigits) ∧
    (0 : Nat) ∉ hexEncode bytes :=
  ⟨hexEncode_length bytes, hexEncode_mem bytes,
    fun h0 => zero_not_mem_hexDigits (hexEncode_mem bytes 0 h0)⟩

/-- The length that `handleReadMem` passes on: a length up to 2047 is not
changed by the two limits. -/
theorem readMem_clamp (len : Nat) (h : len ≤ 2047) :
    (if (if len > (RSP_BUFSIZE - 1) / 2 then (RSP_BUFSIZE - 1) / 2 else len) > 2048 then 2048
      else (if len > (RSP_BUFSIZE - 1) / 2 then (RSP_BUFSIZE - 1) / 2 else len)) = len := by
  have h2047 : (RSP_BUFSIZE - 1) / 2 = 2047 := rfl
  rw [h2047]
  split_ifs <;> omega

/-- The run of `hudsonReadMem` for a length that is not 0. -/
theorem hudsonReadMem_eq (addr len : Nat) (s : Bridge) (h1 : 1 ≤ len) :
    (targetWaitPrompt TARGET_BUFSIZE (targetSend ([0x64, 0x20] ++ fmtHex addr ++ [0x20] ++
        fmtHex ((addr + len - 1) % 4294967296) ++ [0x0d]) s)).1 < 0 ∧
      hudsonReadMem addr len s = (-1, [],
        commanded ([0x64, 0x20] ++ fmtHex addr ++ [0x20] ++
          fmtHex ((addr + len - 1) % 4294967296) ++ [0x0d]) s) ∨
    0 ≤ (targetWaitPrompt TARGET_BUFSIZE (targetSend ([0x64, 0x20] ++ fmtHex addr ++ [0x20] ++
        fmtHex ((addr + len - 1) % 4294967296) ++ [0x0d]) s)).1 ∧
      hudsonReadMem addr len s =
        (((parseLines len (tokens [0x0d, 0x0a] (cstring (targetWaitPrompt TARGET_BUFSIZE
            (targetSend ([0x64, 0x20] ++ fmtHex addr ++ [0x20] ++
              fmtHex ((addr + len - 1) % 4294967296) ++ [0x0d]) s)).2.1)) []).length : Int),
          parseLines len (tokens [0x0d, 0x0a] (cstring (targetWaitPrompt TARGET_BUFSIZE
            (targetSend ([0x64, 0x20] ++ fmtHex addr ++ [0x20] ++
              fmtHex ((addr + len - 1) % 4294967296) ++ [0x0d]) s)).2.1)) [],
          commanded ([0x64, 0x20] ++ fmtHex addr ++ [0x20] ++
            fmtHex ((addr + len - 1) % 4294967296) ++ [0x0d]) s) := by
  have hend : (addr + len + 4294967296 - 1) % 4294967296 = (addr + len - 1) % 4294967296 := by
    omega
  unfold hudsonReadMem commanded
  rw [if_neg (by omega)]
  simp only [hend]
  rcases hw : targetWaitPrompt TARGET_BUFSIZE (targetSend ([0x64, 0x20] ++ fmtHex addr ++
      [0x20] ++ fmtHex ((addr + len - 1) % 4294967296) ++ [0x0d]) s) with ⟨n, buf, s2⟩
  simp only
  by_cases hn : n < 0
  · rw [if_pos hn]
    exact Or.inl ⟨hn, rfl⟩
  · rw [if_neg hn]
    exact Or.inr ⟨by omega, rfl⟩

theorem handlePacket_m (data : List Nat) (s : Bridge) :
    handlePacket 0x6d data s = (handleReadMem data s).map (fun t => (t, false)) := rfl

/-- C26: for a packet `m` with an address, a comma and a length `len` from 1
to 2047 the bridge sends `d`, a blank, the address as `%x`, a blank, the
32-bit sum address + len - 1 as `%x`, and a carriage return, and waits for the
prompt; when the wait does not fail it replies with the hex encoding of the
bytes that the dump parser has taken from the text received, which are at
most `len`, and when the wait fails it replies `E01`.  For the length 0 it
replies with an empty payload and sends nothing.  For S4 the command is
`d 100 103` and the reply is `deadbeef`. -/
theorem memory_read_request :
    (∀ (s : Bridge) (data lenText : List Nat), afterChar 0x2c data = some lenText →
      1 ≤ hexToU32 lenText → hexToU32 lenText ≤ 2047 →
      (commanded ([0x64, 0x20] ++ fmtHex (hexToU32 data) ++ [0x20] ++
          fmtHex ((hexToU32 data + hexToU32 lenText - 1) % 4294967296) ++ [0x0d]) s).targetOut =
        s.targetOut ++ [[0x64, 0x20] ++ fmtHex (hexToU32 data) ++ [0x20] ++
          fmtHex ((hexToU32 data + hexToU32 lenText - 1) % 4294967296) ++ [0x0d]] ∧
      (0 ≤ (targetWaitPrompt TARGET_BUFSIZE (targetSend ([0x64, 0x20] ++
          fmtHex (hexToU32 data) ++ [0x20] ++
          fmtHex ((hexToU32 data + hexToU32 lenText - 1) % 4294967296) ++ [0x0d]) s)).1 →
        handlePacket 0x6d data s =
          some (replied (hexEncode (parseLines (hexToU32 lenText)
              (tokens [0x0d, 0x0a] (cstring (targetWaitPrompt TARGET_BUFSIZE
                (targetSend ([0x64, 0x20] ++ fmtHex (hexToU32 data) ++ [0x20] ++
                  fmtHex ((hexToU32 data + hexToU32 lenText - 1) % 4294967296) ++ [0x0d])
                  s)).2.1)) []))
            (commanded ([0x64, 0x20] ++ fmtHex (hexToU32 data) ++ [0x20] ++
              fmtHex ((hexToU32 data + hexToU32 lenText - 1) % 4294967296) ++ [0x0d]) s),
            false) ∧
        (parseLines (hexToU32 lenText)
          (tokens [0x0d, 0x0a] (cstring (targetWaitPrompt TARGET_BUFSIZE
            (targetSend ([0x64, 0x20] ++ fmtHex (hexToU32 data) ++ [0x20] ++
              fmtHex ((hexToU32 data + hexToU32 lenText - 1) % 4294967296) ++ [0x0d])
              s)).2.1)) []).length ≤ hexToU32 lenText) ∧
      ((targetWaitPrompt TARGET_BUFSIZE (targetSend ([0x64, 0x20] ++
          fmtHex (hexToU32 data) ++ [0x20] ++
          fmtHex ((hexToU32 data + hexToU32 lenText - 1) % 4294967296) ++ [0x0d]) s)).1 < 0 →
        handlePacket 0x6d data s =
          some (replied [0x45, 0x30, 0x31]
            (commanded ([0x64, 0x20] ++ fmtHex (hexToU32 data) ++ [0x20] ++
              fmtHex ((hexToU32 data + hexToU32 lenText - 1) % 4294967296) ++ [0x0d]) s),
            false))) ∧
    (∀ (s : Bridge) (data lenText : List Nat), afterChar 0x2c data = some lenText →
      hexToU32 lenText = 0 → handlePacket 0x6d data s = some (replied [] s, false)) ∧
    handlePacket 0x6d dataS4 (bridgeWith [] dumpS4) = some (afterS4, false) := by
  refine ⟨fun s data lenText hc h1 h2 => ⟨(commanded_fields _ s (by simp)).1, fun hw => ?_,
    fun hw => ?_⟩, fun s data lenText hc h0 => ?_, by decide!⟩
  · have hlen := parseLines_length (hexToU32 lenText)
      (tokens [0x0d, 0x0a] (cstring (targetWaitPrompt TARGET_BUFSIZE
        (targetSend ([0x64, 0x20] ++ fmtHex (hexToU32 data) ++ [0x20] ++
          fmtHex ((hexToU32 data + hexToU32 lenText - 1) % 4294967296) ++ [0x0d])
          s)).2.1)) [] (Nat.zero_le _)
    refine ⟨?_, hlen⟩
    rcases hudsonReadMem_eq (hexToU32 data) (hexToU32 lenText) s h1 with ⟨hneg, _⟩ | ⟨_, hr⟩
    · omega
    · rw [handlePacket_m]
      unfold handleReadMem
      rw [hc]
      simp only [readMem_clamp _ h2, hr]
      rw [if_neg (by omega),
        rspPutPacket_replied _ _ (hexEncode_spec _).2.2 (by rw [(hexEncode_spec _).1]; omega)]
      rfl
  · rcases hudsonReadMem_eq (hexToU32 data) (hexToU32 lenText) s h1 with ⟨_, hr⟩ | ⟨hpos, _⟩
    · rw [handlePacket_m]
      unfold handleReadMem
      rw [hc]
      simp only [readMem_clamp _ h2, hr]
      rw [if_pos (by decide), rspPutPacket_replied _ _ E01_fits.1 E01_fits.2]
      rfl
    · omega
  · rw [handlePacket_m]
    unfold handleReadMem
    rw [hc]
    have hr : hudsonReadMem (hexToU32 data) 0 s = (0, [], s) := by
      unfold hudsonReadMem
      rw [if_pos rfl]
    simp only [h0, readMem_clamp 0 (by decide), hr]
    rw [if_neg (by decide)]
    exact congrArg (fun o => Option.map (fun t => (t, false)) o)
      (rspPutPacket_replied [] s (by simp) (by simp))

/-- C26 applied to the packet `m100,4` of scenario S4: one command is sent to
the target. -/
theorem memory_read_request_witness :
    (commanded ([0x64, 0x20] ++ fmtHex (hexToU32 dataS4) ++ [0x20] ++
        fmtHex ((hexToU32 dataS4 + hexToU32 [0x34] - 1) % 4294967296) ++ [0x0d])
        (bridgeWith [] dumpS4)).targetOut =
      (bridgeWith [] dumpS4).targetOut ++ [[0x64, 0x20] ++ fmtHex (hexToU32 dataS4) ++ [0x20] ++
        fmtHex ((hexToU32 dataS4 + hexToU32 [0x34] - 1) % 4294967296) ++ [0x0d]] :=
  (memory_read_request.1 (bridgeWith [] dumpS4) dataS4 [0x34] (by decide) (by decide)
    (by decide)).1

/-! ## Continue and step -/

theorem S05_fits : (0 : Nat) ∉ [0x53, 0x30, 0x35] ∧ ([0x53, 0x30, 0x35] : List Nat).length ≤ 4095 := by
  decide

theorem handlePacket_c (data : List Nat) (s : Bridge) :
    handlePacket 0x63 data s =
      some (replied [0x53, 0x30, 0x35]
        (hudsonContinue (resumeAddr data s).1 (resumeAddr data s).2), false) := by
  have h : handlePacket 0x63 data s = (handleContinue data s).map (fun t => (t, false)) := rfl
  rw [h]
  unfold handleContinue
  rw [rspPutPacket_replied _ _ S05_fits.1 S05_fits.2]
  rfl

theorem handlePacket_s (data : List Nat) (s : Bridge) :
    handlePacket 0x73 data s =
      some (replied [0x53, 0x30, 0x35]
        (hudsonStep (resumeAddr data s).1 (resumeAddr data s).2), false) := by
  have h : handlePacket 0x73 data s = (handleStep data s).map (fun t => (t, false)) := rfl
  rw [h]
  unfold handleStep
  rw [rspPutPacket_replied _ _ S05_fits.1 S05_fits.2]
  rfl

theorem hudsonContinue_eq (addr : Nat) (s : Bridge) :
    hudsonContinue addr s =
      commanded ([0x67, 0x3d] ++ fmtHex addr ++ [0x0d]) { s with regsValid := false } := rfl

theorem hudsonStep_eq (addr : Nat) (s : Bridge) :
    hudsonStep addr s =
      commanded ([0x74, 0x3d] ++ fmtHex addr ++ [0x0d]) { s with regsValid := false } := rfl

/-- C28: a `c` packet makes the bridge mark the cache invalid, send `g=`, the
address as `%x` and a carriage return, wait for the prompt and reply `S05`; an
`s` packet does the same with `t=`.  The address is the value that `hexToU32`
reads from the packet when the packet has text after its first character, and
otherwise cache entry 17, after a fetch of the registers when the cache was
invalid.  The text of `%x` is never empty, and after the packet the cache is
invalid. -/
theorem continue_and_step (s : Bridge) (data : List Nat) :
    (data.getD 0 0 ≠ 0 →
      handlePacket 0x63 data s =
        some (replied [0x53, 0x30, 0x35]
          (commanded ([0x67, 0x3d] ++ fmtHex (hexToU32 data) ++ [0x0d])
            { s with regsValid := false }), false) ∧
      handlePacket 0x73 data s =
        some (replied [0x53, 0x30, 0x35]
          (commanded ([0x74, 0x3d] ++ fmtHex (hexToU32 data) ++ [0x0d])
            { s with regsValid := false }), false)) ∧
    (data.getD 0 0 = 0 → s.regsValid = true →
      handlePacket 0x63 data s =
        some (replied [0x53, 0x30, 0x35]
          (commanded ([0x67, 0x3d] ++ fmtHex (s.regs.getD 17 0) ++ [0x0d])
            { s with regsValid := false }), false) ∧
      handlePacket 0x73 data s =
        some (replied [0x53, 0x30, 0x35]
          (commanded ([0x74, 0x3d] ++ fmtHex (s.regs.getD 17 0) ++ [0x0d])
            { s with regsValid := false }), false)) ∧
    (data.getD 0 0 = 0 → s.regsValid = false →
      handlePacket 0x63 data s =
        some (replied [0x53, 0x30, 0x35]
          (commanded ([0x67, 0x3d] ++ fmtHex ((hudsonFetchRegs s).2.regs.getD 17 0) ++ [0x0d])
            { (hudsonFetchRegs s).2 with regsValid := false }), false) ∧
      handlePacket 0x73 data s =
        some (replied [0x53, 0x30, 0x35]
          (commanded ([0x74, 0x3d] ++ fmtHex ((hudsonFetchRegs s).2.regs.getD 17 0) ++ [0x0d])
            { (hudsonFetchRegs s).2 with regsValid := false }), false) ∧
      (hudsonFetchRegs s).2.targetOut = s.targetOut ++ [[0x78, 0x0d]]) ∧
    (∀ (letter addr : Nat) (t : Bridge),
      (replied [0x53, 0x30, 0x35]
        (commanded ([letter, 0x3d] ++ fmtHex addr ++ [0x0d])
          { t with regsValid := false })).regsValid = false ∧
      (replied [0x53, 0x30, 0x35]
        (commanded ([letter, 0x3d] ++ fmtHex addr ++ [0x0d])
          { t with regsValid := false })).targetOut =
        t.targetOut ++ [[letter, 0x3d] ++ fmtHex addr ++ [0x0d]] ∧
      fmtHex addr ≠ []) := by
  refine ⟨fun hd => ?_, fun hd hv => ?_, fun hd hv => ?_, fun letter addr t => ?_⟩
  · have hr : resumeAddr data s = (hexToU32 data, s) := by
      unfold resumeAddr
      rw [if_pos hd]
    rw [handlePacket_c, handlePacket_s, hr, hudsonContinue_eq, hudsonStep_eq]
    exact ⟨rfl, rfl⟩
  · have hr : resumeAddr data s = (s.regs.getD 17 0, s) := by
      unfold resumeAddr
      rw [if_neg (not_not.2 hd), ensureRegs_valid s hv]
    rw [handlePacket_c, handlePacket_s, hr, hudsonContinue_eq, hudsonStep_eq]
    exact ⟨rfl, rfl⟩
  · have hr : resumeAddr data s =
        ((hudsonFetchRegs s).2.regs.getD 17 0, (hudsonFetchRegs s).2) := by
      unfold resumeAddr
      rw [if_neg (not_not.2 hd), ensureRegs_invalid s hv]
    rw [handlePacket_c, handlePacket_s, hr, hudsonContinue_eq, hudsonStep_eq]
    exact ⟨rfl, rfl, (hudsonFetchRegs_fields s).1⟩
  · obtain ⟨f1, _, _, _, f5, _, _⟩ := commanded_fields ([letter, 0x3d] ++ fmtHex addr ++ [0x0d])
      { t with regsValid := false } (by simp)
    exact ⟨f5, f1, (fmtHex_spec addr).2.1⟩

/-- C28 applied to a bare `c` packet on a cache that holds the registers of
`dumpAnswer`, whose pc is 0x00FF0D3C: the target receives `g=ff0d3c`. -/
theorem continue_and_step_witness :
    handlePacket 0x63 [] (cachedBridge fourPrompts) =
      some (replied [0x53, 0x30, 0x35]
        (commanded ([0x67, 0x3d] ++ fmtHex ((cachedBridge fourPrompts).regs.getD 17 0) ++ [0x0d])
          { cachedBridge fourPrompts with regsValid := false }), false) ∧
    fmtHex ((cachedBridge fourPrompts).regs.getD 17 0) = [0x66, 0x66, 0x30, 0x64, 0x33, 0x63] :=
  ⟨((continue_and_step (cachedBridge fourPrompts) []).2.1 (by decide) (by decide)).1, by decide⟩

/-! ## Packets that do not touch the target -/

theorem put_small (payload : List Nat) (s : Bridge) (h0 : 0 ∉ payload)
    (hlen : payload.length ≤ 4095) :
    (rspPutPacket payload s).map (fun t => (t, false)) = some (replied payload s, false) := by
  rw [rspPutPacket_replied payload s h0 hlen]
  rfl

/-- The first turn of the dispatch loop on a break byte: the bridge replies
`S05` and goes on with the next turn. -/
theorem dispatchLoop_break (handlers : Nat → List Nat → Bridge → Option (Bridge × Bool))
    (fuel : Nat) (s : Bridge) (rest : List Nat) (hs : s.gdbIn = 0x03 :: rest) :
    dispatchLoop handlers (fuel + 1) s =
      dispatchLoop handlers fuel (replied [0x53, 0x30, 0x35] { s with gdbIn := rest }) := by
  have hg : rspGetPacket RSP_BUFSIZE s = (1, [0x03], { s with gdbIn := rest }) := by
    unfold rspGetPacket
    rw [hs]
    rfl
  rw [dispatchLoop, hg]
  simp only
  rw [if_neg (by decide), if_pos (by decide),
    rspPutPacket_replied _ _ S05_fits.1 S05_fits.2]

/-- C29: the replies that are made without a target command.  `?` and the
break byte are answered with `S05`, `H` with `OK`, `p` with an index of 18 or
more with `00000000`, `Z` and `z` with a type character other than `0` with an
empty payload, `q` with `PacketSize=4096` when the text starts with
`Supported`, with `1` for `Attached`, `m1` for `fThreadInfo`, `l` for
`sThreadInfo`, `QC1` for `C`, `Text=0;Data=0;Bss=0` when the text starts with
`Offsets`, and with an empty payload otherwise; a packet whose first byte
is none of `g G p P m M c s Z z ? q H k D` is answered with an empty payload.
The state after each of these replies differs from the state before it in the
reply written to the client only. -/
theorem packets_without_target (s : Bridge) (data : List Nat) :
    handlePacket 0x3f data s = some (replied [0x53, 0x30, 0x35] s, false) ∧
    (∀ (fuel : Nat) (rest : List Nat), s.gdbIn = 0x03 :: rest →
      dispatchLoop handlePacket (fuel + 1) s =
        dispatchLoop handlePacket fuel (replied [0x53, 0x30, 0x35] { s with gdbIn := rest })) ∧
    handlePacket 0x48 data s = some (replied [0x4f, 0x4b] s, false) ∧
    (NUM_REGS ≤ hexToU32 data →
      handlePacket 0x70 data s =
        some (replied [0x30, 0x30, 0x30, 0x30, 0x30, 0x30, 0x30, 0x30] s, false)) ∧
    (data.getD 0 0 ≠ 0x30 →
      handlePacket 0x5a data s = some (replied [] s, false) ∧
      handlePacket 0x7a data s = some (replied [] s, false)) ∧
    (data.take 9 = [0x53, 0x75, 0x70, 0x70, 0x6f, 0x72, 0x74, 0x65, 0x64] →
      handlePacket 0x71 data s =
        some (replied [0x50, 0x61, 0x63, 0x6b, 0x65, 0x74, 0x53, 0x69, 0x7a, 0x65, 0x3d,
          0x34, 0x30, 0x39, 0x36] s, false)) ∧
    (data = [0x41, 0x74, 0x74, 0x61, 0x63, 0x68, 0x65, 0x64] →
      handlePacket 0x71 data s = some (replied [0x31] s, false)) ∧
    (data = [0x66, 0x54, 0x68, 0x72, 0x65, 0x61, 0x64, 0x49, 0x6e, 0x66, 0x6f] →
      handlePacket 0x71 data s = some (replied [0x6d, 0x31] s, false)) ∧
    (data = [0x73, 0x54, 0x68, 0x72, 0x65, 0x61, 0x64, 0x49, 0x6e, 0x66, 0x6f] →
      handlePacket 0x71 data s = some (replied [0x6c] s, false)) ∧
    (data = [0x43] → handlePacket 0x71 data s = some (replied [0x51, 0x43, 0x31] s, false)) ∧
    (data.take 9 ≠ [0x53, 0x75, 0x70, 0x70, 0x6f, 0x72, 0x74, 0x65, 0x64] →
      data.take 7 = [0x4f, 0x66, 0x66, 0x73, 0x65, 0x74, 0x73] →
      handlePacket 0x71 data s =
        some (replied [0x54, 0x65, 0x78, 0x74, 0x3d, 0x30, 0x3b, 0x44, 0x61, 0x74, 0x61, 0x3d,
          0x30, 0x3b, 0x42, 0x73, 0x73, 0x3d, 0x30] s, false)) ∧
    (data.take 9 ≠ [0x53, 0x75, 0x70, 0x70, 0x6f, 0x72, 0x74, 0x65, 0x64] →
      data ≠ [0x41, 0x74, 0x74, 0x61, 0x63, 0x68, 0x65, 0x64] →
      data ≠ [0x66, 0x54, 0x68, 0x72, 0x65, 0x61, 0x64, 0x49, 0x6e, 0x66, 0x6f] →
      data ≠ [0x73, 0x54, 0x68, 0x72, 0x65, 0x61, 0x64, 0x49, 0x6e, 0x66, 0x6f] →
      data ≠ [0x43] → data.take 7 ≠ [0x4f, 0x66, 0x66, 0x73, 0x65, 0x74, 0x73] →
      handlePacket 0x71 data s = some (replied [] s, false)) ∧
    (∀ cmd, cmd ∉ [0x67, 0x47, 0x70, 0x50, 0x6d, 0x4d, 0x63, 0x73, 0x5a, 0x7a, 0x3f, 0x71, 0x48,
        0x6b, 0x44] →
      handlePacket cmd data s = some (replied [] s, false)) ∧
    (∀ payload, (replied payload s).targetOut = s.targetOut ∧
      (replied payload s).targetIn = s.targetIn ∧ (replied payload s).regs = s.regs ∧
      (replied payload s).regsValid = s.regsValid ∧ (replied payload s).bpTable = s.bpTable) := by
  refine ⟨?_, fun fuel rest hs => dispatchLoop_break handlePacket fuel s rest hs, ?_,
    fun hn => ?_, fun hd => ⟨?_, ?_⟩, fun h => ?_, fun h => ?_, fun h => ?_, fun h => ?_,
    fun h => ?_, fun h1 h2 => ?_, fun h1 h2 h3 h4 h5 h6 => ?_, fun cmd hc => ?_,
    fun payload => ⟨rfl, rfl, rfl, rfl, rfl⟩⟩
  · exact put_small _ s S05_fits.1 S05_fits.2
  · exact put_small _ s OK_fits.1 OK_fits.2
  · rw [handlePacket_p]
    unfold handleReadReg
    rw [if_pos hn]
    exact put_small _ s (by decide) (by decide)
  · rw [handlePacket_Z]
    unfold handleSetBreakpoint
    rw [if_pos hd]
    exact put_small _ s (by simp) (by simp)
  · rw [handlePacket_z]
    unfold handleClearBreakpoint
    rw [if_pos hd]
    exact put_small _ s (by simp) (by simp)
  · have e : handlePacket 0x71 data s = (handleQuery data s).map (fun t => (t, false)) := rfl
    rw [e]
    unfold handleQuery
    rw [if_pos h]
    exact put_small _ s (by decide) (by decide)
  · have e : handlePacket 0x71 data s = (handleQuery data s).map (fun t => (t, false)) := rfl
    rw [e, h]
    unfold handleQuery
    rw [if_neg (by decide), if_pos rfl]
    exact put_small _ s (by decide) (by decide)
  · have e : handlePacket 0x71 data s = (handleQuery data s).map (fun t => (t, false)) := rfl
    rw [e, h]
    unfold handleQuery
    rw [if_neg (by decide), if_neg (by decide), if_pos rfl]
    exact put_small _ s (by decide) (by decide)
  · have e : handlePacket 0x71 data s = (handleQuery data s).map (fun t => (t, false)) := rfl
    rw [e, h]
    unfold handleQuery
    rw [if_neg (by decide), if_neg (by decide), if_neg (by decide), if_pos rfl]
    exact put_small _ s (by decide) (by decide)
  · have e : handlePacket 0x71 data s = (handleQuery data s).map (fun t => (t, false)) := rfl
    rw [e, h]
    unfold handleQuery
    rw [if_neg (by decide), if_neg (by decide), if_neg (by decide), if_neg (by decide), if_pos rfl]
    exact put_small _ s (by decide) (by decide)
  · have e : handlePacket 0x71 data s = (handleQuery data s).map (fun t => (t, false)) := rfl
    have g2 : data ≠ [0x41, 0x74, 0x74, 0x61, 0x63, 0x68, 0x65, 0x64] := by
      intro hh
      rw [hh] at h2
      exact absurd h2 (by decide)
    have g3 : data ≠ [0x66, 0x54, 0x68, 0x72, 0x65, 0x61, 0x64, 0x49, 0x6e, 0x66, 0x6f] := by
      intro hh
      rw [hh] at h2
      exact absurd h2 (by decide)
    have g4 : data ≠ [0x73, 0x54, 0x68, 0x72, 0x65, 0x61, 0x64, 0x49, 0x6e, 0x66, 0x6f] := by
      intro hh
      rw [hh] at h2
      exact absurd h2 (by decide)
    have g5 : data ≠ [0x43] := by
      intro hh
      rw [hh] at h2
      exact absurd h2 (by decide)
    rw [e]
    unfold handleQuery
    rw [if_neg h1, if_neg g2, if_neg g3, if_neg g4, if_neg g5, if_pos h2]
    exact put_small _ s (by decide) (by decide)
  · have e : handlePacket 0x71 data s = (handleQuery data s).map (fun t => (t, false)) := rfl
    rw [e]
    unfold handleQuery
    rw [if_neg h1, if_neg h2, if_neg h3, if_neg h4, if_neg h5, if_neg h6]
    exact put_small _ s (by simp) (by simp)
  · simp only [List.mem_cons, List.mem_singleton, List.not_mem_nil, or_false, not_or] at hc
    obtain ⟨c1, c2, c3, c4, c5, c6, c7, c8, c9, c10, c11, c12, c13, c14, c15⟩ := hc
    unfold handlePacket
    rw [if_neg c1, if_neg c2, if_neg c3, if_neg c4, if_neg c5, if_neg c6, if_neg c7, if_neg c8,
      if_neg c9, if_neg c10, if_neg c11, if_neg c12, if_neg c13, if_neg c14, if_neg c15]
    exact put_small _ s (by simp) (by simp)

/-- C29 applied to the packet `qSupported:multiprocess+`: the reply is
`PacketSize=4096`. -/
theorem packets_without_target_witness :
    handlePacket 0x71 [0x53, 0x75, 0x70, 0x70, 0x6f, 0x72, 0x74, 0x65, 0x64, 0x3a, 0x6d, 0x75,
        0x6c, 0x74, 0x69, 0x70, 0x72, 0x6f, 0x63, 0x65, 0x73, 0x73, 0x2b] (bridgeWith [] []) =
      some (replied [0x50, 0x61, 0x63, 0x6b, 0x65, 0x74, 0x53, 0x69, 0x7a, 0x65, 0x3d,
        0x34, 0x30, 0x39, 0x36] (bridgeWith [] []), false) :=
  (packets_without_target (bridgeWith [] []) [0x53, 0x75, 0x70, 0x70, 0x6f, 0x72, 0x74, 0x65,
    0x64, 0x3a, 0x6d, 0x75, 0x6c, 0x74, 0x69, 0x70, 0x72, 0x6f, 0x63, 0x65, 0x73, 0x73,
    0x2b]).2.2.2.2.2.1 (by decide)

/-! ## Kill and detach -/

/-- The loop of `hudsonClearAllBreakpoints` over slot numbers without a
repetition: one `bc` command for each slot that was active, in the order of
the loop; every slot visited ends free with its address kept, and no other
slot changes. -/
theorem clearAllLoop_spec (todo : List Nat) (s : Bridge) (hnd : todo.Nodup)
    (hlt : ∀ i ∈ todo, i < s.bpTable.length) :
    (clearAllLoop todo s).targetOut = s.targetOut ++
      (todo.filter (fun i => (slotAt s i).active)).map
        (fun i => [0x62, 0x63, 0x20] ++ fmtDec i ++ [0x0d]) ∧
    (∀ j, slotAt (clearAllLoop todo s) j =
      if j ∈ todo then ⟨(slotAt s j).addr, false⟩ else slotAt s j) ∧
    (clearAllLoop todo s).gdbOut = s.gdbOut ∧ (clearAllLoop todo s).gdbIn = s.gdbIn ∧
    (clearAllLoop todo s).regs = s.regs ∧ (clearAllLoop todo s).regsValid = s.regsValid ∧
    (clearAllLoop todo s).promptChar = s.promptChar := by
  induction todo generalizing s with
  | nil => exact ⟨by simp [clearAllLoop], fun j => by simp [clearAllLoop], rfl, rfl, rfl, rfl, rfl⟩
  | cons i rest ih =>
    have hi : i < s.bpTable.length := hlt i (List.mem_cons_self _ _)
    have hnr : rest.Nodup := (List.nodup_cons.1 hnd).2
    have hir : i ∉ rest := (List.nodup_cons.1 hnd).1
    unfold clearAllLoop
    by_cases hact : (slotAt s i).active = true
    · rw [if_pos hact]
      have hc := commanded_fields ([0x62, 0x63, 0x20] ++ fmtDec i ++ [0x0d]) s (by simp)
      unfold commanded at hc
      obtain ⟨hto, hgi, hgo, hr, hrv, hb, hp⟩ := hc
      have key : ∀ s2 : Bridge, s2.targetOut = s.targetOut ++ [[0x62, 0x63, 0x20] ++ fmtDec i ++ [0x0d]] →
          s2.gdbOut = s.gdbOut → s2.gdbIn = s.gdbIn → s2.regs = s.regs →
          s2.regsValid = s.regsValid → s2.promptChar = s.promptChar →
          s2.bpTable = s.bpTable.set i ⟨(slotAt s i).addr, false⟩ →
          (clearAllLoop rest s2).targetOut = s.targetOut ++
            ((i :: rest).filter (fun i => (slotAt s i).active)).map
              (fun i => [0x62, 0x63, 0x20] ++ fmtDec i ++ [0x0d]) ∧
          (∀ j, slotAt (clearAllLoop rest s2) j =
            if j ∈ i :: rest then ⟨(slotAt s j).addr, false⟩ else slotAt s j) ∧
          (clearAllLoop rest s2).gdbOut = s.gdbOut ∧ (clearAllLoop rest s2).gdbIn = s.gdbIn ∧
          (clearAllLoop rest s2).regs = s.regs ∧ (clearAllLoop rest s2).regsValid = s.regsValid ∧
          (clearAllLoop rest s2).promptChar = s.promptChar := by
        intro s2 e1 e2 e3 e4 e5 e6 e7
        have hslot : ∀ j, slotAt s2 j = if i = j then ⟨(slotAt s i).addr, false⟩ else slotAt s j :=
          fun j => slotAt_set s s2 i j _ hi e7
        obtain ⟨h1, h2, h3, h4, h5, h6, h7⟩ := ih s2 hnr (fun j hj => by
          rw [e7, List.length_set]
          exact hlt j (List.mem_cons_of_mem _ hj))
        refine ⟨?_, fun j => ?_, h3.trans e2, h4.trans e3, h5.trans e4, h6.trans e5, h7.trans e6⟩
        · rw [h1, e1, List.filter_cons_of_pos (by simpa using hact), List.map_cons,
            List.append_assoc, List.singleton_append]
          congr 3
          apply List.filter_congr
          intro j hj
          rw [hslot j, if_neg (fun (e : i = j) => hir (e ▸ hj))]
        · rw [h2 j]
          by_cases hji : i = j
          · subst hji
            rw [if_neg hir, hslot i, if_pos rfl, if_pos (List.mem_cons_self _ _)]
          · have hji2 : j ≠ i := fun e => hji e.symm
            rw [hslot j, if_neg hji]
            simp only [List.mem_cons, hji2, false_or]
      exact key _ hto hgo hgi hr hrv hp (by
        show List.set _ _ _ = _
        simp only [slotAt, hb])
    · rw [if_neg hact]
      obtain ⟨h1, h2, h3, h4, h5, h6, h7⟩ := ih s hnr (fun j hj => hlt j (List.mem_cons_of_mem _ hj))
      have hfalse : (slotAt s i).active = false := by simpa using hact
      refine ⟨?_, fun j => ?_, h3, h4, h5, h6, h7⟩
      · rw [h1, List.filter_cons_of_neg (by simpa using hact)]
      · rw [h2 j]
        by_cases hji : j = i
        · subst hji
          simp only [List.mem_cons, true_or, if_true, if_neg hir]
          cases hs : slotAt s j with
          | mk a b =>
            rw [hs] at hfalse
            simp only at hfalse
            simp [hfalse]
        · simp only [List.mem_cons, hji, false_or]

/-- C31: kill and detach.  On a table of ten slots a `k` packet sends
`bc <i>` and a carriage return once for each active slot `i`, in ascending
order, and nothing for a slot that is free; after it all ten slots are free,
no reply has been written to the client, and the `case` ends with `return`, so
that the dispatch loop ends with this packet whatever follows it.  A `D`
packet does the same and replies `OK` before the loop ends. -/
theorem kill_and_detach (s : Bridge) (data : List Nat)
    (hlen : s.bpTable.length = MAX_BREAKPOINTS) :
    handlePacket 0x6b data s = some (hudsonClearAllBreakpoints s, true) ∧
    handlePacket 0x44 data s = some (replied [0x4f, 0x4b] (hudsonClearAllBreakpoints s), true) ∧
    (hudsonClearAllBreakpoints s).targetOut = s.targetOut ++
      ((List.range 10).filter (fun i => (slotAt s i).active)).map
        (fun i => [0x62, 0x63, 0x20, 0x30 + i, 0x0d]) ∧
    (∀ i, i < 10 → (slotAt (hudsonClearAllBreakpoints s) i).active = false) ∧
    (hudsonClearAllBreakpoints s).gdbOut = s.gdbOut ∧
    (replied [0x4f, 0x4b] (hudsonClearAllBreakpoints s)).gdbOut =
      s.gdbOut ++ [[0x24, 0x4f, 0x4b, 0x23, 0x39, 0x61]] ∧
    (replied [0x4f, 0x4b] (hudsonClearAllBreakpoints s)).targetOut =
      (hudsonClearAllBreakpoints s).targetOut ∧
    (replied [0x4f, 0x4b] (hudsonClearAllBreakpoints s)).bpTable =
      (hudsonClearAllBreakpoints s).bpTable ∧
    (∀ (fuel : Nat) (rest : List Nat), s.gdbIn = [0x24, 0x6b, 0x23, 0x36, 0x62] ++ rest →
      dispatchLoop handlePacket (fuel + 1) s = .returned (hudsonClearAllBreakpoints
        { s with gdbIn := rest, gdbOut := s.gdbOut ++ [[0x2b]] })) ∧
    (∀ (fuel : Nat) (rest : List Nat), s.gdbIn = [0x24, 0x44, 0x23, 0x34, 0x34] ++ rest →
      dispatchLoop handlePacket (fuel + 1) s = .returned (replied [0x4f, 0x4b]
        (hudsonClearAllBreakpoints { s with gdbIn := rest, gdbOut := s.gdbOut ++ [[0x2b]] }))) := by
  have hspec := clearAllLoop_spec (List.range MAX_BREAKPOINTS) s (List.nodup_range _)
    (fun i hi => by rw [hlen]; exact List.mem_range.1 hi)
  obtain ⟨h1, h2, h3, -⟩ := hspec
  refine ⟨handlePacket_k data s, handlePacket_D data s, ?_, fun i hi => ?_, h3, ?_, rfl, rfl,
    fun fuel rest hs => ?_, fun fuel rest hs => ?_⟩
  · unfold hudsonClearAllBreakpoints
    rw [h1]
    congr 1
    apply List.map_congr_left
    intro i hi
    have hi10 : i < 10 := List.mem_range.1 (List.mem_filter.1 hi).1
    rw [fmtDec_digit i hi10]
    rfl
  · unfold hudsonClearAllBreakpoints
    rw [h2 i, if_pos (show i ∈ List.range MAX_BREAKPOINTS from List.mem_range.2 hi)]
  · show (hudsonClearAllBreakpoints s).gdbOut ++ _ = _
    unfold hudsonClearAllBreakpoints
    rw [h3]
    rfl
  · have hg := rspGetPacket_frame RSP_BUFSIZE s [0x6b] rest 0x36 0x62 (by decide) (by decide) hs
    rw [if_neg (by decide)] at hg
    rw [dispatchLoop, hg]
    simp only
    rw [if_neg (by decide), if_neg (by decide)]
    show (match handlePacket 0x6b (cstring (List.drop 1 [0x6b])) _ with
      | some (s2, true) => LoopResult.returned s2
      | some (s2, false) => dispatchLoop handlePacket fuel s2
      | none => LoopResult.undefined) = _
    rw [handlePacket_k]
  · have hg := rspGetPacket_frame RSP_BUFSIZE s [0x44] rest 0x34 0x34 (by decide) (by decide) hs
    rw [if_neg (by decide)] at hg
    rw [dispatchLoop, hg]
    simp only
    rw [if_neg (by decide), if_neg (by decide)]
    show (match handlePacket 0x44 (cstring (List.drop 1 [0x44])) _ with
      | some (s2, true) => LoopResult.returned s2
      | some (s2, false) => dispatchLoop handlePacket fuel s2
      | none => LoopResult.undefined) = _
    rw [handlePacket_D]

/-- C31 applied to the table of scenario S6 after one `Z0` packet: slot 0 is
the one active slot, so a `k` packet sends the single command `bc 0`. -/
theorem kill_and_detach_witness :
    handlePacket 0x6b [] afterOneSet = some (hudsonClearAllBreakpoints afterOneSet, true) ∧
    (hudsonClearAllBreakpoints afterOneSet).targetOut =
      afterOneSet.targetOut ++ [[0x62, 0x63, 0x20, 0x30, 0x0d]] :=
  ⟨(kill_and_detach afterOneSet [] (by decide)).1,
    ((kill_and_detach afterOneSet [] (by decide)).2.2.1).trans (by decide)⟩

/-! ## The diff of a write of all registers -/

/-- The loop of `handleWriteRegs` over register numbers without a repetition:
the dialog `x NAME`, value is run for the registers whose value in the packet
differs from the cache entry at the start of the loop, in the order of the
loop, and nothing else is sent. -/
theorem writeRegsLoop_out (data : List Nat) (todo : List Nat) :
    ∀ s, todo.Nodup → (∀ i ∈ todo, (hexDecode (data.drop (i * 8)) 4).length = 4) →
      ∃ t, writeRegsLoop data todo s = some t ∧
        t.targetOut = s.targetOut ++
          ((todo.filter (fun i =>
              decide (u32OfBytes (hexDecode (data.drop (i * 8)) 4) ≠ s.regs.getD i 0))).map
            (fun i => [[0x78, 0x20] ++ regNames.getD i [] ++ [0x0d],
              fmtHex (u32OfBytes (hexDecode (data.drop (i * 8)) 4)) ++ [0x0d]])).flatten ∧
        t.gdbOut = s.gdbOut ∧ t.gdbIn = s.gdbIn ∧ t.bpTable = s.bpTable := by
  induction todo with
  | nil =>
    intro s _ _
    exact ⟨s, rfl, by simp, rfl, rfl, rfl⟩
  | cons i rest ih =>
    intro s hnd hdec
    have hi := hdec i (List.mem_cons_self _ _)
    have hnr : rest.Nodup := (List.nodup_cons.1 hnd).2
    have hir : i ∉ rest := (List.nodup_cons.1 hnd).1
    obtain ⟨_, _, _, w4⟩ := writeReg_step i (u32OfBytes (hexDecode (data.drop (i * 8)) 4)) s
    obtain ⟨t, e, r1, r2, r3, r4⟩ :=
      ih (if u32OfBytes (hexDecode (data.drop (i * 8)) 4) ≠ s.regs.getD i 0 then
          hudsonStoreReg i (u32OfBytes (hexDecode (data.drop (i * 8)) 4)) s else s)
        hnr (fun j hj => hdec j (List.mem_cons_of_mem _ hj))
    have hfil : rest.filter (fun j => decide (u32OfBytes (hexDecode (data.drop (j * 8)) 4) ≠
          (if u32OfBytes (hexDecode (data.drop (i * 8)) 4) ≠ s.regs.getD i 0 then
            hudsonStoreReg i (u32OfBytes (hexDecode (data.drop (i * 8)) 4)) s
            else s).regs.getD j 0)) =
        rest.filter (fun j =>
          decide (u32OfBytes (hexDecode (data.drop (j * 8)) 4) ≠ s.regs.getD j 0)) := by
      apply List.filter_congr
      intro j hj
      rw [w4 j (fun (e : j = i) => hir (e ▸ hj))]
    rw [hfil] at r1
    refine ⟨t, ?_, ?_, ?_, ?_, ?_⟩
    · unfold writeRegsLoop
      rw [if_neg (by omega)]
      exact e
    · rw [r1]
      by_cases hne : u32OfBytes (hexDecode (data.drop (i * 8)) 4) ≠ s.regs.getD i 0
      · rw [if_pos hne, (hudsonStoreReg_fields i _ s).2.1,
          List.filter_cons_of_pos (by simpa using hne), List.map_cons, List.flatten_cons,
          List.append_assoc, List.append_assoc]
      · rw [if_neg hne, List.filter_cons_of_neg (by simpa using hne)]
    · rw [r2]
      split
      · exact (hudsonStoreReg_fields i _ s).2.2.2.2.2.1
      · rfl
    · rw [r3]
      split
      · exact (hudsonStoreReg_fields i _ s).2.2.2.2.2.2
      · rfl
    · rw [r4]
      split
      · exact (hudsonStoreReg_fields i _ s).2.2.2.2.1
      · rfl

/-- C36: a `G` packet that carries 144 hex digits, on a valid cache of 18
entries.  The bridge sends `x NAME` and the new value, each with a carriage
return, for exactly the registers whose value in the packet differs from the
cache entry, in ascending order of the register number, and sends nothing
else to the target; afterwards the cache holds the 18 values of the packet
and is still valid, and the reply is `OK`. -/
theorem write_all_registers_diff (s : Bridge) (data : List Nat)
    (hl : s.regs.length = NUM_REGS) (hv : s.regsValid = true)
    (hlen : 144 ≤ data.length) (hhex : ∀ c ∈ data.take 144, 0 ≤ hexVal c) :
    ∃ t, handlePacket 0x47 data s = some (replied [0x4f, 0x4b] t, false) ∧
      t.targetOut = s.targetOut ++
        (((List.range 18).filter (fun i =>
            decide (hexNumber ((data.drop (i * 8)).take 8) ≠ s.regs.getD i 0))).map
          (fun i => [[0x78, 0x20] ++ regNames.getD i [] ++ [0x0d],
            fmtHex (hexNumber ((data.drop (i * 8)).take 8)) ++ [0x0d]])).flatten ∧
      (∀ i, i < 18 → t.regs.getD i 0 = hexNumber ((data.drop (i * 8)).take 8)) ∧
      t.regs.length = 18 ∧ t.regsValid = true ∧
      t.gdbOut = s.gdbOut ∧ t.bpTable = s.bpTable ∧
      (replied [0x4f, 0x4b] t).gdbOut = s.gdbOut ++ [[0x24, 0x4f, 0x4b, 0x23, 0x39, 0x61]] ∧
      (replied [0x4f, 0x4b] t).targetOut = t.targetOut ∧
      (replied [0x4f, 0x4b] t).regs = t.regs := by
  have hdig : ∀ i, i < NUM_REGS →
      (hexDecode (data.drop (i * 8)) 4).length = 4 ∧
      u32OfBytes (hexDecode (data.drop (i * 8)) 4) = hexNumber ((data.drop (i * 8)).take 8) := by
    intro i hi
    have hi18 : i < 18 := hi
    obtain ⟨d1, d2, _⟩ := u32OfBytes_hexDecode (data.drop (i * 8))
      (by rw [List.length_drop]; omega)
      (fun c hc => hhex c (mem_take_drop_of_take data (i * 8) 8 144 (by omega) c hc))
    exact ⟨d1, d2⟩
  have he : ensureRegs s = s := ensureRegs_valid s hv
  obtain ⟨t, e, r1, r2, r3, _⟩ := writeRegsLoop_spec data (List.range NUM_REGS) s
    (fun i hi => (hdig i (List.mem_range.1 hi)).1)
  obtain ⟨t2, e2, o1, o2, _, o4⟩ := writeRegsLoop_out data (List.range NUM_REGS) s
    (List.nodup_range _) (fun i hi => (hdig i (List.mem_range.1 hi)).1)
  have ht : t2 = t := Option.some.inj (e2.symm.trans e)
  subst ht
  refine ⟨t2, ?_, ?_, fun i hi => ?_, r2.trans hl, r1.trans hv, o2, o4, ?_, rfl, rfl⟩
  · rw [handlePacket_G]
    unfold handleWriteRegs
    rw [he, e]
    simp only [Option.some_bind]
    rw [rspPutPacket_replied _ _ OK_fits.1 OK_fits.2]
    rfl
  · rw [o1]
    congr 2
    have hf : (List.range NUM_REGS).filter (fun i =>
          decide (u32OfBytes (hexDecode (data.drop (i * 8)) 4) ≠ s.regs.getD i 0)) =
        (List.range 18).filter (fun i =>
          decide (hexNumber ((data.drop (i * 8)).take 8) ≠ s.regs.getD i 0)) := by
      apply List.filter_congr
      intro i hi
      rw [(hdig i (List.mem_range.1 hi)).2]
    rw [hf]
    apply List.map_congr_left
    intro i hi
    rw [(hdig i (List.mem_range.1 (List.mem_filter.1 hi).1)).2]
  · rw [r3 i (List.mem_range.2 hi) (by rw [hl]; exact hi)]
    exact (hdig i hi).2
  · show t2.gdbOut ++ _ = _
    rw [o2]
    rfl

/-- C36 applied to a packet that differs from the valid cache `dumpRegs` in d0
and a7: the bridge sends `x d0`, `1`, `x a7` and `12345678`, in this order. -/
theorem write_all_registers_diff_witness :
    ∃ t, handlePacket 0x47 dataGTwoChanged (cachedBridge []) =
        some (replied [0x4f, 0x4b] t, false) ∧
      t.targetOut = [[0x78, 0x20, 0x64, 0x30, 0x0d], [0x31, 0x0d],
        [0x78, 0x20, 0x61, 0x37, 0x0d],
        [0x31, 0x32, 0x33, 0x34, 0x35, 0x36, 0x37, 0x38, 0x0d]] := by
  obtain ⟨t, h1, h2, -⟩ := write_all_registers_diff (cachedBridge []) dataGTwoChanged
    (by decide) (by decide) (by decide!) (by decide!)
  exact ⟨t, h1, h2.trans (by decide!)⟩

/-! ## Memory write -/

theorem commandedAll_append (xs ys : List (List Nat)) (s : Bridge) :
    commandedAll (xs ++ ys) s = commandedAll ys (commandedAll xs s) := by
  unfold commandedAll
  rw [List.foldl_append]

/-- A sequence of commands changes the target streams only: every text is one
more write, in order. -/
theorem commandedAll_fields (texts : List (List Nat)) :
    ∀ s : Bridge, (∀ x ∈ texts, x ≠ []) →
      (commandedAll texts s).targetOut = s.targetOut ++ texts ∧
      (commandedAll texts s).gdbIn = s.gdbIn ∧ (commandedAll texts s).gdbOut = s.gdbOut ∧
      (commandedAll texts s).regs = s.regs ∧ (commandedAll texts s).regsValid = s.regsValid ∧
      (commandedAll texts s).bpTable = s.bpTable ∧
      (commandedAll texts s).promptChar = s.promptChar := by
  induction texts with
  | nil =>
    intro s _
    exact ⟨by simp [commandedAll], rfl, rfl, rfl, rfl, rfl, rfl⟩
  | cons x rest ih =>
    intro s hne
    obtain ⟨c1, c2, c3, c4, c5, c6, c7⟩ := commanded_fields x s (hne x (List.mem_cons_self _ _))
    obtain ⟨r1, r2, r3, r4, r5, r6, r7⟩ := ih (commanded x s)
      (fun y hy => hne y (List.mem_cons_of_mem _ hy))
    have e : commandedAll (x :: rest) s = commandedAll rest (commanded x s) := rfl
    rw [e]
    exact ⟨by rw [r1, c1]; simp, r2.trans c2, r3.trans c3, r4.trans c4, r5.trans c5,
      r6.trans c6, r7.trans c7⟩

theorem editCommand_ne_nil (addr : Nat) (data : List Nat) (pos w : Nat) :
    editCommand addr data pos w ≠ [] := by
  unfold editCommand
  simp

theorem editCommands_ne_nil (addr : Nat) (data : List Nat) (ws : List Nat) :
    ∀ pos, ∀ x ∈ editCommands addr data pos ws, x ≠ [] := by
  induction ws with
  | nil =>
    intro pos x hx
    simp [editCommands] at hx
  | cons w rest ih =>
    intro pos x hx
    simp only [editCommands, List.mem_cons] at hx
    rcases hx with h | h
    · rw [h]
      exact editCommand_ne_nil _ _ _ _
    · exact ih _ x h

theorem editCommands_append (addr : Nat) (data : List Nat) (xs ys : List Nat) :
    ∀ pos, editCommands addr data pos (xs ++ ys) =
      editCommands addr data pos xs ++ editCommands addr data (pos + xs.sum) ys := by
  induction xs with
  | nil =>
    intro pos
    simp [editCommands]
  | cons w rest ih =>
    intro pos
    show editCommand addr data pos w :: editCommands addr data (pos + w) (rest ++ ys) = _
    rw [ih, List.sum_cons, Nat.add_assoc]
    rfl

/-- The value that `hudsonWriteMem` builds from two bytes. -/
theorem word_value (b0 b1 : Nat) (h1 : b1 < 256) :
    (b0 <<< 8) ||| b1 = 256 * (256 * 0 + b0) + b1 := by
  rw [Nat.shiftLeft_eq, Nat.mul_comm, ← Nat.mul_add_lt_is_or (by omega) b0]
  omega

/-- The value that `hudsonWriteMem` builds from four bytes. -/
theorem long_value (b0 b1 b2 b3 : Nat) (h0 : b0 < 256) (h1 : b1 < 256) (h2 : b2 < 256)
    (h3 : b3 < 256) :
    (b0 <<< 24) ||| (b1 <<< 16) ||| (b2 <<< 8) ||| b3 =
      256 * (256 * (256 * (256 * 0 + b0) + b1) + b2) + b3 := by
  have h := u32OfBytes_value b0 b1 b2 b3 h0 h1 h2 h3
  unfold u32OfBytes at h
  simp only [List.getD_cons_zero, List.getD_cons_succ, Nat.mod_eq_of_lt h0, Nat.mod_eq_of_lt h1,
    Nat.mod_eq_of_lt h2, Nat.mod_eq_of_lt h3] at h
  rw [h]
  omega

theorem bigEndian_one (data : List Nat) (pos : Nat) :
    bigEndian data pos 1 = data.getD pos 0 % 256 := by
  simp [bigEndian, List.range_succ]

theorem bigEndian_two (data : List Nat) (pos : Nat) :
    bigEndian data pos 2 = 256 * (data.getD pos 0 % 256) + data.getD (pos + 1) 0 % 256 := by
  simp [bigEndian, List.range_succ]

theorem bigEndian_four (data : List Nat) (pos : Nat) :
    bigEndian data pos 4 =
      16777216 * (data.getD pos 0 % 256) + 65536 * (data.getD (pos + 1) 0 % 256) +
        256 * (data.getD (pos + 2) 0 % 256) + data.getD (pos + 3) 0 % 256 := by
  simp [bigEndian, List.range_succ]
  omega

theorem memEdit_s (addr : Nat) (data : List Nat) (pos : Nat) (s : Bridge) :
    memEdit 0x73 ((addr + pos) % 4294967296) 2 (data.getD pos 0 % 256) s =
      commanded (editCommand addr data pos 1) s := by
  unfold memEdit commanded editCommand
  rw [bigEndian_one]
  rfl

theorem memEdit_w (addr : Nat) (data : List Nat) (pos : Nat) (s : Bridge) :
    memEdit 0x77 ((addr + pos) % 4294967296) 4
        (((data.getD pos 0 % 256) <<< 8) ||| (data.getD (pos + 1) 0 % 256)) s =
      commanded (editCommand addr data pos 2) s := by
  unfold memEdit commanded editCommand
  rw [bigEndian_two, word_value _ _ (Nat.mod_lt _ (by decide))]
  simp

theorem memEdit_l (addr : Nat) (data : List Nat) (pos : Nat) (s : Bridge) :
    memEdit 0x6c ((addr + pos) % 4294967296) 8
        (((data.getD pos 0 % 256) <<< 24) ||| ((data.getD (pos + 1) 0 % 256) <<< 16) |||
          ((data.getD (pos + 2) 0 % 256) <<< 8) ||| (data.getD (pos + 3) 0 % 256)) s =
      commanded (editCommand addr data pos 4) s := by
  unfold memEdit commanded editCommand
  rw [bigEndian_four, long_value _ _ _ _ (Nat.mod_lt _ (by decide)) (Nat.mod_lt _ (by decide))
    (Nat.mod_lt _ (by decide)) (Nat.mod_lt _ (by decide))]
  have e : 256 * (256 * (256 * (256 * 0 + data.getD pos 0 % 256) + data.getD (pos + 1) 0 % 256) +
      data.getD (pos + 2) 0 % 256) + data.getD (pos + 3) 0 % 256 =
      16777216 * (data.getD pos 0 % 256) + 65536 * (data.getD (pos + 1) 0 % 256) +
        256 * (data.getD (pos + 2) 0 % 256) + data.getD (pos + 3) 0 % 256 := by omega
  rw [e]
  rfl

/-- The longword loop of `hudsonWriteMem` with enough fuel: one `mel` command
for each whole group of four bytes that is left. -/
theorem melLoop_spec (addr : Nat) (data : List Nat) (len : Nat) :
    ∀ (fuel pos : Nat) (s : Bridge), (len - pos) / 4 ≤ fuel →
      melLoop addr data len fuel pos s =
        (pos + 4 * ((len - pos) / 4),
          commandedAll (editCommands addr data pos (List.replicate ((len - pos) / 4) 4)) s) := by
  intro fuel
  induction fuel with
  | zero =>
    intro pos s h
    have h0 : (len - pos) / 4 = 0 := by omega
    rw [h0]
    rfl
  | succ n ih =>
    intro pos s h
    unfold melLoop
    by_cases hc : pos + 3 < len
    · rw [if_pos hc, memEdit_l, ih (pos + 4) _ (by omega)]
      have e : (len - pos) / 4 = (len - (pos + 4)) / 4 + 1 := by omega
      rw [e, List.replicate_succ]
      simp only [editCommands]
      refine Prod.ext (by simp only; omega) rfl
    · rw [if_neg hc]
      have h0 : (len - pos) / 4 = 0 := by omega
      rw [h0]
      rfl

theorem and_two (x : Nat) : (x &&& 2 ≠ 0) ↔ 2 ≤ x % 4 := by
  have e : x &&& 2 = (x % 4) &&& 2 := by
    have h3 : x &&& 3 = x % 4 := Nat.and_pow_two_sub_one_eq_mod x 2
    have h32 : (3 : Nat) &&& 2 = 2 := by decide
    rw [← h3, Nat.and_assoc, h32]
  rw [e]
  have hlt : x % 4 < 4 := Nat.mod_lt _ (by decide)
  generalize x % 4 = r at hlt
  interval_cases r <;> decide

theorem and_one (x : Nat) : (x &&& 1 ≠ 0) ↔ x % 2 = 1 := by
  rw [Nat.and_one_is_mod]
  omega

theorem stage_lead (addr : Nat) (data : List Nat) (len : Nat) (s : Bridge) (hlen : 1 ≤ len) :
    (if addr &&& 1 ≠ 0 ∧ 0 < len then
        (1, memEdit 0x73 (addr % 4294967296) 2 (data.getD 0 0 % 256) s)
      else (0, s)) =
      ((if addr % 2 = 1 then 1 else 0),
        commandedAll (editCommands addr data 0
          (List.replicate (if addr % 2 = 1 then 1 else 0) 1)) s) := by
  by_cases h : addr % 2 = 1
  · rw [if_pos ⟨(and_one addr).2 h, by omega⟩, if_pos h]
    exact Prod.ext rfl (memEdit_s addr data 0 s)
  · rw [if_neg (fun hc => h ((and_one addr).1 hc.1)), if_neg h]
    rfl

theorem stage_word (addr : Nat) (data : List Nat) (len pos : Nat) (s : Bridge) :
    (if ((addr + pos) % 4294967296) &&& 2 ≠ 0 ∧ pos + 1 < len then
        (pos + 2, memEdit 0x77 ((addr + pos) % 4294967296) 4
          (((data.getD pos 0 % 256) <<< 8) ||| (data.getD (pos + 1) 0 % 256)) s)
      else (pos, s)) =
      (pos + 2 * (if 2 ≤ (addr + pos) % 4 ∧ pos + 1 < len then 1 else 0),
        commandedAll (editCommands addr data pos
          (List.replicate (if 2 ≤ (addr + pos) % 4 ∧ pos + 1 < len then 1 else 0) 2)) s) := by
  have e : (((addr + pos) % 4294967296) &&& 2 ≠ 0) ↔ 2 ≤ (addr + pos) % 4 := by
    rw [and_two]
    omega
  by_cases h : 2 ≤ (addr + pos) % 4 ∧ pos + 1 < len
  · rw [if_pos ⟨e.2 h.1, h.2⟩, if_pos h, memEdit_w]
    rfl
  · rw [if_neg (fun hc => h ⟨e.1 hc.1, hc.2⟩), if_neg h]
    rfl

theorem stage_trail_word (addr : Nat) (data : List Nat) (len pos : Nat) (s : Bridge) :
    (if pos + 1 < len then
        (pos + 2, memEdit 0x77 ((addr + pos) % 4294967296) 4
          (((data.getD pos 0 % 256) <<< 8) ||| (data.getD (pos + 1) 0 % 256)) s)
      else (pos, s)) =
      (pos + 2 * (if pos + 1 < len then 1 else 0),
        commandedAll (editCommands addr data pos
          (List.replicate (if pos + 1 < len then 1 else 0) 2)) s) := by
  by_cases h : pos + 1 < len
  · rw [if_pos h, if_pos h, memEdit_w]
    rfl
  · rw [if_neg h, if_neg h]
    rfl

theorem stage_trail_byte (addr : Nat) (data : List Nat) (len pos : Nat) (s : Bridge) :
    (if pos < len then memEdit 0x73 ((addr + pos) % 4294967296) 2 (data.getD pos 0 % 256) s
      else s) =
      commandedAll (editCommands addr data pos
        (List.replicate (if pos < len then 1 else 0) 1)) s := by
  by_cases h : pos < len
  · rw [if_pos h, if_pos h, memEdit_s]
    rfl
  · rw [if_neg h, if_neg h]
    rfl

/-- The commands of `hudsonWriteMem`: `a` leading `mes` (one when the address
is odd), `b` leading `mew`, `m` `mel`, `c` trailing `mew` and `d` trailing
`mes`, for pieces that follow one another from the first byte to the last. -/
theorem hudsonWriteMem_plan (addr : Nat) (data : List Nat) (len : Nat) (s : Bridge)
    (hlen : 1 ≤ len) :
    ∃ a b m c d, a ≤ 1 ∧ b ≤ 1 ∧ c ≤ 1 ∧ d ≤ 1 ∧ a + 2 * b + 4 * m + 2 * c + d = len ∧
      (a = 1 ↔ addr % 2 = 1) ∧ (b = 1 → (addr + a) % 4 = 2) ∧
      (0 < m ∨ c = 1 → (addr + a + 2 * b) % 4 = 0) ∧
      hudsonWriteMem addr data len s =
        commandedAll (editCommands addr data 0
          (List.replicate a 1 ++ List.replicate b 2 ++ List.replicate m 4 ++
            List.replicate c 2 ++ List.replicate d 1)) s := by
  unfold hudsonWriteMem
  rw [if_neg (by omega), stage_lead addr data len s hlen]
  simp only []
  rw [stage_word]
  simp only []
  rw [melLoop_spec addr data len len _ _
    (Nat.le_trans (Nat.div_le_self _ _) (Nat.sub_le _ _))]
  simp only []
  rw [stage_trail_word]
  simp only []
  rw [stage_trail_byte]
  generalize ha : (if addr % 2 = 1 then 1 else 0) = a
  generalize hb : (if 2 ≤ (addr + a) % 4 ∧ a + 1 < len then 1 else 0) = b
  generalize hm : (len - (a + 2 * b)) / 4 = m
  generalize hc : (if a + 2 * b + 4 * m + 1 < len then 1 else 0) = c
  generalize hd : (if a + 2 * b + 4 * m + 2 * c < len then 1 else 0) = d
  have fa : (addr % 2 = 1 ∧ a = 1) ∨ (addr % 2 ≠ 1 ∧ a = 0) := by
    by_cases h : addr % 2 = 1
    · rw [if_pos h] at ha
      exact Or.inl ⟨h, ha.symm⟩
    · rw [if_neg h] at ha
      exact Or.inr ⟨h, ha.symm⟩
  have fb : ((2 ≤ (addr + a) % 4 ∧ a + 1 < len) ∧ b = 1) ∨
      (¬(2 ≤ (addr + a) % 4 ∧ a + 1 < len) ∧ b = 0) := by
    by_cases h : 2 ≤ (addr + a) % 4 ∧ a + 1 < len
    · rw [if_pos h] at hb
      exact Or.inl ⟨h, hb.symm⟩
    · rw [if_neg h] at hb
      exact Or.inr ⟨h, hb.symm⟩
  have fc : (a + 2 * b + 4 * m + 1 < len ∧ c = 1) ∨ (¬(a + 2 * b + 4 * m + 1 < len) ∧ c = 0) := by
    by_cases h : a + 2 * b + 4 * m + 1 < len
    · rw [if_pos h] at hc
      exact Or.inl ⟨h, hc.symm⟩
    · rw [if_neg h] at hc
      exact Or.inr ⟨h, hc.symm⟩
  have fd : (a + 2 * b + 4 * m + 2 * c < len ∧ d = 1) ∨
      (¬(a + 2 * b + 4 * m + 2 * c < len) ∧ d = 0) := by
    by_cases h : a + 2 * b + 4 * m + 2 * c < len
    · rw [if_pos h] at hd
      exact Or.inl ⟨h, hd.symm⟩
    · rw [if_neg h] at hd
      exact Or.inr ⟨h, hd.symm⟩
  refine ⟨a, b, m, c, d, by omega, by omega, by omega, by omega, by omega, by omega, by omega,
    by omega, ?_⟩
  have p1 : 0 + (List.replicate a 1).sum = a := by simp
  have p2 : 0 + (List.replicate a 1 ++ List.replicate b 2).sum = a + 2 * b := by
    simp
    omega
  have p3 : 0 + (List.replicate a 1 ++ List.replicate b 2 ++ List.replicate m 4).sum =
      a + 2 * b + 4 * m := by
    simp
    omega
  have p4 : 0 + (List.replicate a 1 ++ List.replicate b 2 ++ List.replicate m 4 ++
      List.replicate c 2).sum = a + 2 * b + 4 * m + 2 * c := by
    simp
    omega
  rw [editCommands_append, p4, editCommands_append, p3, editCommands_append, p2,
    editCommands_append, p1, commandedAll_append, commandedAll_append, commandedAll_append,
    commandedAll_append]

theorem fmtDigits_length_le (fuel : Nat) :
    ∀ (k v : Nat) (acc : List Nat), v < 16 ^ k → 1 ≤ k → k ≤ fuel →
      (fmtDigits 16 fuel v acc).length ≤ k + acc.length := by
  induction fuel with
  | zero =>
    intro k v acc _ h1 h2
    omega
  | succ n ih =>
    intro k v acc hv h1 h2
    unfold fmtDigits
    split
    · simp only [List.length_cons]
      omega
    · rename_i hge
      have hk : 2 ≤ k := by
        rcases Nat.lt_or_ge k 2 with h | h
        · have : k = 1 := by omega
          subst this
          simp at hv
          omega
        · exact h
      have hq : v / 16 < 16 ^ (k - 1) := by
        have e : 16 ^ k = 16 ^ (k - 1) * 16 := by
          rw [← Nat.pow_succ]
          congr 1
          omega
        rw [e] at hv
        exact Nat.div_lt_of_lt_mul (by rw [Nat.mul_comm]; exact hv)
      have h := ih (k - 1) (v / 16) (hexDigits.getD (v % 16) 0 :: acc) hq (by omega) (by omega)
      simp only [List.length_cons] at h
      omega

theorem hexNumber_zeros (k : Nat) (ds : List Nat) :
    hexNumber (List.replicate k 0x30 ++ ds) = hexNumber ds := by
  unfold hexNumber
  rw [List.foldl_append]
  congr 1
  induction k with
  | zero => rfl
  | succ n ih =>
    rw [List.replicate_succ, List.foldl_cons]
    exact ih

/-- The characters of `%02x`, `%04x` and `%08x` for a value that fits the
width: exactly `w` hex digits that denote the value. -/
theorem fmtHexPad_spec (w v : Nat) (hv : v < 16 ^ w) (hw1 : 1 ≤ w) (hw8 : w ≤ 8) :
    (fmtHexPad w v).length = w ∧ hexNumber (fmtHexPad w v) = v := by
  have h32 : v < 4294967296 :=
    Nat.lt_of_lt_of_le hv (Nat.pow_le_pow_right (by decide) hw8)
  have hl : (fmtHex v).length ≤ w := by
    unfold fmtHex
    rw [Nat.mod_eq_of_lt h32]
    exact fmtDigits_length_le 8 w v [] hv hw1 hw8
  unfold fmtHexPad
  refine ⟨?_, ?_⟩
  · rw [List.length_append, List.length_replicate]
    omega
  · rw [hexNumber_zeros, (fmtHex_spec v).1, Nat.mod_eq_of_lt h32]

/-- C33: memory write coverage.  For a write of `len` bytes, 1 or more, the
commands that `hudsonWriteMem` sends are memory
edit commands for pieces of 1, 2 or 4 bytes that follow one another in the
array from its first byte and make up the `len` bytes; the piece at index
`pos` goes to the 32-bit address `addr + pos`, which is the number `addr + pos`
when the range does not pass the end of the address space, and the value of
each command is the big-endian number of the bytes of its piece, written as
2, 4 or 8 hex digits.  Nothing but the target streams changes. -/
theorem memory_write_coverage (addr : Nat) (data : List Nat) (len : Nat) (s : Bridge)
    (hlen : 1 ≤ len) :
    ∃ widths : List Nat, (∀ w ∈ widths, w = 1 ∨ w = 2 ∨ w = 4) ∧ widths.sum = len ∧
      hudsonWriteMem addr data len s = commandedAll (editCommands addr data 0 widths) s ∧
      (hudsonWriteMem addr data len s).targetOut =
        s.targetOut ++ editCommands addr data 0 widths ∧
      (hudsonWriteMem addr data len s).gdbOut = s.gdbOut ∧
      (hudsonWriteMem addr data len s).regs = s.regs ∧
      (hudsonWriteMem addr data len s).bpTable = s.bpTable ∧
      (∀ pos w, w = 1 ∨ w = 2 ∨ w = 4 →
        (fmtHexPad (2 * w) (bigEndian data pos w)).length = 2 * w ∧
        hexNumber (fmtHexPad (2 * w) (bigEndian data pos w)) = bigEndian data pos w) ∧
      (∀ pos,
        bigEndian data pos 1 = data.getD pos 0 % 256 ∧
        bigEndian data pos 2 = 256 * (data.getD pos 0 % 256) + data.getD (pos + 1) 0 % 256 ∧
        bigEndian data pos 4 =
          16777216 * (data.getD pos 0 % 256) + 65536 * (data.getD (pos + 1) 0 % 256) +
            256 * (data.getD (pos + 2) 0 % 256) + data.getD (pos + 3) 0 % 256) ∧
      (∀ pos, addr + pos < 4294967296 →
        hexNumber (fmtHex ((addr + pos) % 4294967296)) = addr + pos) := by
  obtain ⟨a, b, m, c, d, ha, hb, hc, hd, hsum, -, -, -, he⟩ :=
    hudsonWriteMem_plan addr data len s hlen
  have hf := commandedAll_fields _ s (editCommands_ne_nil addr data
    (List.replicate a 1 ++ List.replicate b 2 ++ List.replicate m 4 ++
      List.replicate c 2 ++ List.replicate d 1) 0)
  rw [← he] at hf
  refine ⟨_, ?_, ?_, he, hf.1, hf.2.2.1, hf.2.2.2.1, hf.2.2.2.2.2.1, ?_, ?_, ?_⟩
  · intro w hw
    simp only [List.mem_append, List.mem_replicate] at hw
    omega
  · simp
    omega
  · intro pos w hw
    rcases hw with h | h | h
    · subst h
      refine fmtHexPad_spec 2 _ ?_ (by decide) (by decide)
      rw [bigEndian_one]
      omega
    · subst h
      refine fmtHexPad_spec 4 _ ?_ (by decide) (by decide)
      rw [bigEndian_two]
      omega
    · subst h
      refine fmtHexPad_spec 8 _ ?_ (by decide) (by decide)
      rw [bigEndian_four]
      omega
  · intro pos
    exact ⟨bigEndian_one data pos, bigEndian_two data pos, bigEndian_four data pos⟩
  · intro pos hp
    rw [(fmtHex_spec _).1, Nat.mod_mod, Nat.mod_eq_of_lt hp]

/-- C33 applied to a write of the eight bytes of `dataEight` at 0x1001. -/
theorem memory_write_coverage_witness :
    ∃ widths : List Nat, (∀ w ∈ widths, w = 1 ∨ w = 2 ∨ w = 4) ∧ widths.sum = 8 ∧
      (hudsonWriteMem 0x1001 dataEight 8 (bridgeWith [] [])).targetOut =
        (bridgeWith [] []).targetOut ++ editCommands 0x1001 dataEight 0 widths := by
  obtain ⟨ws, h1, h2, -, h4, -⟩ :=
    memory_write_coverage 0x1001 dataEight 8 (bridgeWith [] []) (by decide)
  exact ⟨ws, h1, h2, h4⟩

/-- C34: memory write alignment.  For a write of 1 byte or more the commands
of `hudsonWriteMem` are, in this order: at most one `mes`, sent only when the
address is odd; at most one `mew`; the `mel` commands; at most one `mew`; at
most one `mes`.  The 32-bit address of every `mew` is even and that of every
`mel` is a multiple of 4. -/
theorem memory_write_alignment (addr : Nat) (data : List Nat) (len : Nat) (s : Bridge)
    (hlen : 1 ≤ len) :
    ∃ a b m c d, a ≤ 1 ∧ b ≤ 1 ∧ c ≤ 1 ∧ d ≤ 1 ∧ (a = 1 → addr % 2 = 1) ∧
      (hudsonWriteMem addr data len s).targetOut = s.targetOut ++
        (editCommands addr data 0 (List.replicate a 1) ++
          editCommands addr data a (List.replicate b 2) ++
          editCommands addr data (a + 2 * b) (List.replicate m 4) ++
          editCommands addr data (a + 2 * b + 4 * m) (List.replicate c 2) ++
          editCommands addr data (a + 2 * b + 4 * m + 2 * c) (List.replicate d 1)) ∧
      (b = 1 → (addr + a) % 4294967296 % 2 = 0) ∧
      (∀ k, k < m → (addr + (a + 2 * b + 4 * k)) % 4294967296 % 4 = 0) ∧
      (c = 1 → (addr + (a + 2 * b + 4 * m)) % 4294967296 % 2 = 0) ∧
      (∀ k, editCommands addr data (a + 2 * b) (List.replicate (k + 1) 4) =
        editCommand addr data (a + 2 * b) 4 ::
          editCommands addr data (a + 2 * b + 4) (List.replicate k 4)) := by
  obtain ⟨a, b, m, c, d, ha, hb, hc, hd, hsum, hodd, hb2, hmc, he⟩ :=
    hudsonWriteMem_plan addr data len s hlen
  have hf := commandedAll_fields _ s (editCommands_ne_nil addr data
    (List.replicate a 1 ++ List.replicate b 2 ++ List.replicate m 4 ++
      List.replicate c 2 ++ List.replicate d 1) 0)
  rw [← he] at hf
  have p1 : 0 + (List.replicate a 1).sum = a := by simp
  have p2 : 0 + (List.replicate a 1 ++ List.replicate b 2).sum = a + 2 * b := by
    simp
    omega
  have p3 : 0 + (List.replicate a 1 ++ List.replicate b 2 ++ List.replicate m 4).sum =
      a + 2 * b + 4 * m := by
    simp
    omega
  have p4 : 0 + (List.replicate a 1 ++ List.replicate b 2 ++ List.replicate m 4 ++
      List.replicate c 2).sum = a + 2 * b + 4 * m + 2 * c := by
    simp
    omega
  refine ⟨a, b, m, c, d, ha, hb, hc, hd, hodd.1, ?_, ?_, ?_, ?_, fun k => rfl⟩
  · rw [hf.1, editCommands_append, p4, editCommands_append, p3, editCommands_append, p2,
      editCommands_append, p1]
  · intro h
    have := hb2 h
    omega
  · intro k hk
    have := hmc (Or.inl (by omega))
    omega
  · intro h
    have := hmc (Or.inr h)
    omega

/-- C34 applied to a write of the eight bytes of `dataEight` at 0x1001: the
commands are `mes 1001 11`, `mew 1002 2233`, `mel 1004 44556677` and
`mes 1008 88`. -/
theorem memory_write_alignment_witness :
    (∃ a b m c d, a ≤ 1 ∧ b ≤ 1 ∧ c ≤ 1 ∧ d ≤ 1 ∧ (a = 1 → 0x1001 % 2 = 1) ∧
      (hudsonWriteMem 0x1001 dataEight 8 (bridgeWith [] [])).targetOut =
        (bridgeWith [] []).targetOut ++
        (editCommands 0x1001 dataEight 0 (List.replicate a 1) ++
          editCommands 0x1001 dataEight a (List.replicate b 2) ++
          editCommands 0x1001 dataEight (a + 2 * b) (List.replicate m 4) ++
          editCommands 0x1001 dataEight (a + 2 * b + 4 * m) (List.replicate c 2) ++
          editCommands 0x1001 dataEight (a + 2 * b + 4 * m + 2 * c) (List.replicate d 1))) ∧
    (hudsonWriteMem 0x1001 dataEight 8 (bridgeWith [] [])).targetOut =
      [[0x6d, 0x65, 0x73, 0x20, 0x31, 0x30, 0x30, 0x31, 0x20, 0x31, 0x31, 0x0d],
       [0x6d, 0x65, 0x77, 0x20, 0x31, 0x30, 0x30, 0x32, 0x20, 0x32, 0x32, 0x33, 0x33, 0x0d],
       [0x6d, 0x65, 0x6c, 0x20, 0x31, 0x30, 0x30, 0x34, 0x20, 0x34, 0x34, 0x35, 0x35, 0x36, 0x36,
        0x37, 0x37, 0x0d],
       [0x6d, 0x65, 0x73, 0x20, 0x31, 0x30, 0x30, 0x38, 0x20, 0x38, 0x38, 0x0d]] := by
  obtain ⟨a, b, m, c, d, h1, h2, h3, h4, h5, h6, -⟩ :=
    memory_write_alignment 0x1001 dataEight 8 (bridgeWith [] []) (by decide)
  exact ⟨⟨a, b, m, c, d, h1, h2, h3, h4, h5, h6⟩, by decide!⟩

/-! ## The register dump parser -/

/-- The token loop of `hudsonFetchRegs` passes over plain tokens. -/
theorem parseRegs_plain (toks : List (List Nat)) (rest : List (List Nat)) (regs : List Nat)
    (h : ∀ p ∈ toks, PlainToken p) :
    parseRegs (toks ++ rest) none regs = parseRegs rest none regs := by
  induction toks with
  | nil => rfl
  | cons p t ih =>
    obtain ⟨h1, h2, h3, h4⟩ := h p (List.mem_cons_self _ _)
    rw [List.cons_append, parseRegs, if_neg h1, if_neg h2, if_neg h3, if_neg h4]
    exact ih (fun q hq => h q (List.mem_cons_of_mem _ hq))

theorem getD_set_nat (l : List Nat) (i j x : Nat) :
    (l.set i x).getD j 0 = if i = j ∧ i < l.length then x else l.getD j 0 := by
  simp only [List.getD_eq_getElem?_getD, List.getElem?_set]
  by_cases h : i = j
  · subst h
    by_cases hi : i < l.length
    · simp [hi]
    · have : l[i]? = none := List.getElem?_eq_none (by omega)
      simp [hi, this]
  · simp [h]

/-- The `for` loop of a `D` or `A` row on the values that are left of its
eight: value `k` of them goes to register `base + i + k`, and the token after
the last is looked at by the outer loop. -/
theorem parseRegs_row (vals : List (List Nat)) :
    ∀ (base i : Nat) (rest : List (List Nat)) (regs : List Nat), vals ≠ [] →
      i + vals.length = 8 →
      ∃ regs2, parseRegs (vals ++ rest) (some (base, i)) regs = parseRegs rest none regs2 ∧
        regs2.length = regs.length ∧
        (∀ k, k < vals.length → base + i + k < regs.length →
          regs2.getD (base + i + k) 0 = hexToU32 (vals.getD k [])) ∧
        (∀ j, j < base + i ∨ base + i + vals.length ≤ j → regs2.getD j 0 = regs.getD j 0) := by
  induction vals with
  | nil =>
    intro _ _ _ _ h
    exact absurd rfl h
  | cons v vs ih =>
    intro base i rest regs _ hlen
    simp only [List.length_cons] at hlen
    rw [List.cons_append, parseRegs]
    by_cases hvs : vs = []
    · subst hvs
      simp only [List.length_nil] at hlen
      have hi : i = 7 := by omega
      subst hi
      refine ⟨regs.set (base + 7) (hexToU32 v), rfl, List.length_set _ _ _, ?_, ?_⟩
      · intro k hk hb
        simp only [List.length_cons, List.length_nil] at hk
        have hk0 : k = 0 := by omega
        subst hk0
        rw [getD_set_nat, if_pos ⟨rfl, hb⟩]
        rfl
      · intro j hj
        simp only [List.length_cons, List.length_nil] at hj
        rw [getD_set_nat, if_neg (by omega)]
    · have hpos : 0 < vs.length := List.length_pos.2 hvs
      rw [if_pos (by omega)]
      obtain ⟨regs2, e, l2, g1, g2⟩ := ih base (i + 1) rest (regs.set (base + i) (hexToU32 v))
        hvs (by omega)
      rw [List.length_set] at l2 g1
      refine ⟨regs2, e, l2, ?_, ?_⟩
      · intro k hk hb
        simp only [List.length_cons] at hk
        rcases Nat.eq_zero_or_pos k with h0 | h0
        · subst h0
          rw [g2 (base + i + 0) (Or.inl (by omega)), getD_set_nat,
            if_pos ⟨rfl, by omega⟩]
          rfl
        · obtain ⟨k2, rfl⟩ : ∃ k2, k = k2 + 1 := ⟨k - 1, by omega⟩
          have := g1 k2 (by omega) (by omega)
          rw [show base + i + (k2 + 1) = base + (i + 1) + k2 by omega, this]
          rfl
      · intro j hj
        simp only [List.length_cons] at hj
        rw [g2 j (by omega), getD_set_nat, if_neg (by omega)]

/-- The token loop of `hudsonFetchRegs` on the tokens of a dump in the
documented format. -/
theorem parseRegs_dump (regs : List Nat) (pcLabel srLabel pc sr : List Nat)
    (pre mid1 mid2 mid3 post dvals avals : List (List Nat)) (hl : regs.length = 18)
    (hpc : pcLabel = [0x50, 0x43, 0x3a] ∨ pcLabel = [0x50, 0x43, 0x3d])
    (hsr : srLabel = [0x53, 0x52, 0x3a] ∨ srLabel = [0x53, 0x52, 0x3d])
    (hd : dvals.length = 8) (ha : avals.length = 8)
    (hplain : ∀ p ∈ pre ++ mid1 ++ mid2 ++ mid3 ++ post, PlainToken p) :
    ∃ regs2, parseRegs (pre ++ (pcLabel ++ pc) :: (mid1 ++ (srLabel ++ sr) :: (mid2 ++
        [0x44] :: (dvals ++ (mid3 ++ [0x41] :: (avals ++ post)))))) none regs = regs2 ∧
      regs2.length = 18 ∧ regs2.getD 17 0 = hexToU32 pc ∧ regs2.getD 16 0 = hexToU32 sr ∧
      (∀ i, i < 8 → regs2.getD i 0 = hexToU32 (dvals.getD i [])) ∧
      (∀ i, i < 8 → regs2.getD (8 + i) 0 = hexToU32 (avals.getD i [])) := by
  have hp : ∀ p ∈ pre, PlainToken p := fun p h => hplain p (by simp [h])
  have hm1 : ∀ p ∈ mid1, PlainToken p := fun p h => hplain p (by simp [h])
  have hm2 : ∀ p ∈ mid2, PlainToken p := fun p h => hplain p (by simp [h])
  have hm3 : ∀ p ∈ mid3, PlainToken p := fun p h => hplain p (by simp [h])
  have hpo : ∀ p ∈ post, PlainToken p := fun p h => hplain p (by simp [h])
  have tpc : (pcLabel ++ pc).take 3 = pcLabel ∧ (pcLabel ++ pc).drop 3 = pc := by
    rcases hpc with h | h <;> subst h <;> exact ⟨rfl, rfl⟩
  have tsr : (srLabel ++ sr).take 3 = srLabel ∧ (srLabel ++ sr).drop 3 = sr := by
    rcases hsr with h | h <;> subst h <;> exact ⟨rfl, rfl⟩
  have nsr : ¬(srLabel = [0x50, 0x43, 0x3a] ∨ srLabel = [0x50, 0x43, 0x3d]) := by
    rcases hsr with h | h <;> subst h <;> decide
  rw [parseRegs_plain pre _ _ hp, parseRegs, tpc.1, if_pos hpc, tpc.2,
    parseRegs_plain mid1 _ _ hm1, parseRegs, tsr.1, if_neg nsr, if_pos hsr, tsr.2,
    parseRegs_plain mid2 _ _ hm2, parseRegs, if_neg (by decide), if_neg (by decide),
    if_pos (by decide)]
  obtain ⟨r1, e1, l1, g1, k1⟩ := parseRegs_row dvals 0 0 (mid3 ++ [0x41] :: (avals ++ post))
    ((regs.set 17 (hexToU32 pc)).set 16 (hexToU32 sr))
    (fun h => by rw [h] at hd; simp at hd) (by omega)
  rw [e1, parseRegs_plain mid3 _ _ hm3, parseRegs, if_neg (by decide), if_neg (by decide),
    if_neg (by decide), if_pos (by decide)]
  obtain ⟨r2, e2, l2, g2, k2⟩ := parseRegs_row avals 8 0 post r1
    (fun h => by rw [h] at ha; simp at ha) (by omega)
  have epost : parseRegs post none r2 = r2 := by
    have := parseRegs_plain post [] r2 hpo
    rw [List.append_nil] at this
    rw [this]
    rfl
  rw [e2, epost]
  simp only [List.length_set] at l1
  have hr1 : r1.length = 18 := l1.trans hl
  have hr2 : r2.length = 18 := l2.trans hr1
  refine ⟨r2, rfl, hr2, ?_, ?_, fun i hi => ?_, fun i hi => ?_⟩
  · rw [k2 17 (Or.inr (by omega)), k1 17 (Or.inr (by omega)), getD_set_nat,
      if_neg (by omega), getD_set_nat, if_pos ⟨rfl, by omega⟩]
  · rw [k2 16 (Or.inr (by omega)), k1 16 (Or.inr (by omega)), getD_set_nat,
      if_pos ⟨rfl, by simp only [List.length_set]; omega⟩]
  · have h := g1 i (by omega) (by simp only [List.length_set]; omega)
    rw [k2 i (Or.inl (by omega))]
    simpa using h
  · have h := g2 i (by omega) (by omega)
    simpa using h

theorem triple_eta {α β γ : Type} (x : α × β × γ) : x = (x.1, x.2.1, x.2.2) := rfl

/-- C37: the register dump parser.  The bridge has sent `x` and the wait for
the prompt has stored a dump whose tokens, separated by spaces and line ends,
are in the documented format: a token that starts with `PC:` or `PC=`, later
one that starts with `SR:` or `SR=`, later the token `D` followed by eight
values, later the token `A` followed by eight values, and apart from these
only tokens that are none of the labels.  Then `hudsonFetchRegs` returns 0
with the cache marked valid, register 17 holding the value after the PC label,
register 16 the value after the SR label, registers 0 to 7 the values of the
`D` row and registers 8 to 15 those of the `A` row, in order; the value of a
string of up to eight hex digits is the number it denotes. -/
theorem register_dump_parsing (s : Bridge) (len : Int) (buf : List Nat) (s2 : Bridge)
    (pcLabel srLabel pc sr : List Nat)
    (pre mid1 mid2 mid3 post dvals avals : List (List Nat))
    (hl : s.regs.length = NUM_REGS)
    (hw : targetWaitPrompt TARGET_BUFSIZE (targetSend [0x78, 0x0d] s) = (len, buf, s2))
    (hlen : 0 ≤ len)
    (hpc : pcLabel = [0x50, 0x43, 0x3a] ∨ pcLabel = [0x50, 0x43, 0x3d])
    (hsr : srLabel = [0x53, 0x52, 0x3a] ∨ srLabel = [0x53, 0x52, 0x3d])
    (hd : dvals.length = 8) (ha : avals.length = 8)
    (hplain : ∀ p ∈ pre ++ mid1 ++ mid2 ++ mid3 ++ post, PlainToken p)
    (htok : tokens [0x20, 0x0d, 0x0a] (cstring buf) =
      pre ++ (pcLabel ++ pc) :: (mid1 ++ (srLabel ++ sr) :: (mid2 ++
        [0x44] :: (dvals ++ (mid3 ++ [0x41] :: (avals ++ post)))))) :
    (hudsonFetchRegs s).1 = 0 ∧ (hudsonFetchRegs s).2.regsValid = true ∧
    (hudsonFetchRegs s).2.regs.length = 18 ∧
    (hudsonFetchRegs s).2.regs.getD 17 0 = hexToU32 pc ∧
    (hudsonFetchRegs s).2.regs.getD 16 0 = hexToU32 sr ∧
    (∀ i, i < 8 → (hudsonFetchRegs s).2.regs.getD i 0 = hexToU32 (dvals.getD i [])) ∧
    (∀ i, i < 8 → (hudsonFetchRegs s).2.regs.getD (8 + i) 0 = hexToU32 (avals.getD i [])) ∧
    (∀ v : List Nat, v.length ≤ 8 → (∀ c ∈ v, 0 ≤ hexVal c) → hexToU32 v = hexNumber v) ∧
    (hudsonFetchRegs s).2.targetOut = s.targetOut ++ [[0x78, 0x0d]] ∧
    (hudsonFetchRegs s).2.gdbOut = s.gdbOut ∧ (hudsonFetchRegs s).2.bpTable = s.bpTable := by
  have hf := hudsonFetchRegs_fields s
  have hs2 : s2.regs = s.regs := by
    have h := (targetWaitPrompt_fields TARGET_BUFSIZE (targetSend [0x78, 0x0d] s)).2.2.2.1
    rw [hw, targetSend_of_ne_nil _ s (by simp)] at h
    exact h
  have he : hudsonFetchRegs s = (0, { s2 with
      regs := parseRegs (tokens [0x20, 0x0d, 0x0a] (cstring buf)) none s2.regs,
      regsValid := true }) := by
    unfold hudsonFetchRegs
    rw [hw]
    simp only
    rw [if_neg (by omega)]
  obtain ⟨r, e, l, g17, g16, gd, ga⟩ := parseRegs_dump s2.regs pcLabel srLabel pc sr pre mid1
    mid2 mid3 post dvals avals (by rw [hs2]; exact hl) hpc hsr hd ha hplain
  rw [← htok] at e
  have hregs : (hudsonFetchRegs s).2.regs = r := by
    rw [he]
    exact e
  refine ⟨by rw [he], by rw [he], by rw [hregs]; exact l, by rw [hregs]; exact g17,
    by rw [hregs]; exact g16, fun i hi => by rw [hregs]; exact gd i hi,
    fun i hi => by rw [hregs]; exact ga i hi,
    fun v hv hh => hexToU32_eq_hexNumber v hh hv, hf.1, hf.2.2.1, hf.2.2.2.1⟩

/-- C37 applied to the dump in the comment above `hudsonFetchRegs`, with the
labels `PC=` and `SR=`: pc is 0x00FF0D3C, sr 0x2000, d1 0xFFFF9470 and a7
0x00001FFC; and to the same dump with the labels `PC:` and `SR:`. -/
theorem register_dump_parsing_witness :
    (hudsonFetchRegs (bridgeWith [] dumpAnswer)).1 = 0 ∧
    (hudsonFetchRegs (bridgeWith [] dumpAnswer)).2.regsValid = true ∧
    (hudsonFetchRegs (bridgeWith [] dumpAnswer)).2.regs.getD 17 0 = 0x00FF0D3C ∧
    (hudsonFetchRegs (bridgeWith [] dumpAnswer)).2.regs.getD 16 0 = 0x2000 ∧
    (hudsonFetchRegs (bridgeWith [] dumpAnswer)).2.regs.getD 1 0 = 0xFFFF9470 ∧
    (hudsonFetchRegs (bridgeWith [] dumpAnswer)).2.regs.getD (8 + 7) 0 = 0x00001FFC ∧
    (hudsonFetchRegs (bridgeWith [] dumpAnswerColon)).2.regs.getD 17 0 = 0x00FF0D3C ∧
    (hudsonFetchRegs (bridgeWith [] dumpAnswerColon)).2.regs.getD 16 0 = 0x2000 := by
  have h := register_dump_parsing (bridgeWith [] dumpAnswer)
    (targetWaitPrompt TARGET_BUFSIZE (targetSend [0x78, 0x0d] (bridgeWith [] dumpAnswer))).1
    (targetWaitPrompt TARGET_BUFSIZE (targetSend [0x78, 0x0d] (bridgeWith [] dumpAnswer))).2.1
    (targetWaitPrompt TARGET_BUFSIZE (targetSend [0x78, 0x0d] (bridgeWith [] dumpAnswer))).2.2
    [0x50, 0x43, 0x3d] [0x53, 0x52, 0x3d] ((dumpTokens.getD 1 []).drop 3)
    ((dumpTokens.getD 4 []).drop 3) (dumpTokens.take 1) ((dumpTokens.drop 2).take 2)
    ((dumpTokens.drop 5).take 5) [] [] ((dumpTokens.drop 11).take 8)
    ((dumpTokens.drop 20).take 8) (by decide) (triple_eta _) (by decide!) (by decide) (by decide)
    (by decide!) (by decide!) (by decide!) (by decide!)
  have hc := register_dump_parsing (bridgeWith [] dumpAnswerColon)
    (targetWaitPrompt TARGET_BUFSIZE
      (targetSend [0x78, 0x0d] (bridgeWith [] dumpAnswerColon))).1
    (targetWaitPrompt TARGET_BUFSIZE
      (targetSend [0x78, 0x0d] (bridgeWith [] dumpAnswerColon))).2.1
    (targetWaitPrompt TARGET_BUFSIZE
      (targetSend [0x78, 0x0d] (bridgeWith [] dumpAnswerColon))).2.2
    [0x50, 0x43, 0x3a] [0x53, 0x52, 0x3a] ((dumpTokensColon.getD 1 []).drop 3)
    ((dumpTokensColon.getD 4 []).drop 3) (dumpTokensColon.take 1)
    ((dumpTokensColon.drop 2).take 2) ((dumpTokensColon.drop 5).take 5) [] []
    ((dumpTokensColon.drop 11).take 8) ((dumpTokensColon.drop 20).take 8) (by decide)
    (triple_eta _) (by decide!) (by decide) (by decide) (by decide!) (by decide!) (by decide!)
    (by decide!)
  exact ⟨h.1, h.2.1, h.2.2.2.1.trans (by decide!), h.2.2.2.2.1.trans (by decide!),
    (h.2.2.2.2.2.1 1 (by decide)).trans (by decide!),
    (h.2.2.2.2.2.2.1 7 (by decide)).trans (by decide!),
    hc.2.2.2.1.trans (by decide!), hc.2.2.2.2.1.trans (by decide!)⟩

/-! ## The memory dump parser -/

theorem tokensFrom_word (delims : List Nat) (w : List Nat) :
    ∀ (cur rest : List Nat), (∀ c ∈ w, c ∉ delims) →
      tokensFrom delims (w ++ rest) cur = tokensFrom delims rest (cur ++ w) := by
  induction w with
  | nil =>
    intro cur rest _
    simp
  | cons c t ih =>
    intro cur rest h
    rw [List.cons_append, tokensFrom, if_neg (h c (List.mem_cons_self _ _)),
      ih _ _ (fun d hd => h d (List.mem_cons_of_mem _ hd))]
    simp

/-- The tokens of words that are each followed by a blank, and of the text
after them. -/
theorem tokens_words (ws : List (List Nat)) (rest : List Nat)
    (hw : ∀ w ∈ ws, w ≠ [] ∧ ∀ c ∈ w, c ∉ [0x20, 0x09]) :
    tokensFrom [0x20, 0x09] ((ws.map (fun w => w ++ [0x20])).flatten ++ rest) [] =
      ws ++ tokensFrom [0x20, 0x09] rest [] := by
  induction ws with
  | nil => simp
  | cons w t ih =>
    obtain ⟨hne, hnd⟩ := hw w (List.mem_cons_self _ _)
    rw [List.map_cons, List.flatten_cons, List.append_assoc, List.append_assoc,
      tokensFrom_word _ w _ _ hnd, List.nil_append, List.singleton_append, tokensFrom,
      if_pos (by decide)]
    have he : w.isEmpty = false := by
      cases w with
      | nil => exact absurd rfl hne
      | cons _ _ => rfl
    rw [he]
    simp only [Bool.false_eq_true, if_false, List.cons_append, List.cons.injEq, true_and]
    exact ih (fun v hv => hw v (List.mem_cons_of_mem _ hv))

theorem hex_not_blank (c : Nat) (h : 0 ≤ hexVal c) : c ∉ [0x20, 0x09] := by
  intro hm
  simp only [List.mem_cons, List.mem_singleton, List.not_mem_nil, or_false] at hm
  rcases hm with e | e <;> subst e <;> exact absurd h (by decide)

/-- The tokens that the word loop sees on a data line of the documented
shape: the words, then the tokens of the ASCII column. -/
theorem tokens_dumpLine (addr : List Nat) (ws : List (List Nat)) (ascii : List Nat)
    (h : PlainDumpLine addr ws ascii) :
    tokens [0x20, 0x09] (skipAddress (dumpLine addr ws ascii)) =
      ws ++ tokens [0x20, 0x09] ascii := by
  obtain ⟨hl, hhex, hws, _⟩ := h
  have hskip : skipAddress (dumpLine addr ws ascii) =
      [0x20, 0x20] ++ ((ws.map (fun w => w ++ [0x20])).flatten ++ ([0x20] ++ ascii)) := by
    have hshape : dumpLine addr ws ascii =
        addr ++ 0x20 :: (0x20 :: ((ws.map (fun w => w ++ [0x20])).flatten ++
          ([0x20] ++ ascii))) := by
      unfold dumpLine
      simp
    unfold skipAddress
    rw [hshape]
    cases addr with
    | nil => simp at hl
    | cons a0 at1 =>
      have ha0 : 0 ≤ hexVal a0 := hhex a0 (List.mem_cons_self _ _)
      have hne : ¬((a0 == 0x20) = true) := by
        intro e
        have : a0 = 0x20 := by simpa using e
        subst this
        exact absurd ha0 (by decide)
      have hdw : ∀ X : List Nat, List.dropWhile (fun c => c == 0x20) (a0 :: at1 ++ X) =
          a0 :: at1 ++ X := by
        intro X
        rw [List.cons_append, List.dropWhile_cons]
        simp [hne]
      rw [hdw]
      have htw : (((a0 :: at1) ++ 0x20 :: (0x20 :: ((ws.map (fun w => w ++ [0x20])).flatten ++
          ([0x20] ++ ascii)))).takeWhile (fun c => decide (0 ≤ hexVal c))) = a0 :: at1 := by
        rw [List.takeWhile_append_of_pos (fun c hc => by simpa using hhex c hc),
          List.takeWhile_cons_of_neg (by decide), List.append_nil]
      simp only [htw]
      rw [if_pos (by rw [hl]; decide), List.drop_left]
      rfl
  rw [hskip]
  unfold tokens
  rw [List.cons_append, List.cons_append, List.nil_append, tokensFrom, if_pos (by decide)]
  simp only [List.isEmpty_nil, if_true]
  rw [tokensFrom, if_pos (by decide)]
  simp only [List.isEmpty_nil, if_true]
  rw [tokens_words ws _ (fun w hw => ⟨fun e => by
      have := (hws w hw).1
      rw [e] at this
      simp at this, fun c hc => hex_not_blank c ((hws w hw).2 c hc)⟩),
    List.cons_append, List.nil_append, tokensFrom, if_pos (by decide)]
  simp only [List.isEmpty_nil, if_true]

/-- The bytes that the word loop stores for a word of four hex digits. -/
theorem word_bytes (w : List Nat) (hl : w.length = 4) (hh : ∀ c ∈ w, 0 ≤ hexVal c) :
    [(hexToU32 w >>> 8) &&& 0xff, hexToU32 w &&& 0xff] = wordBytes w := by
  obtain ⟨e1, e2⟩ := hexToU32Loop_eq w hh 0 0 (by omega) (by decide)
  have e : hexToU32 w = hexNumber w := e1
  have hlt : hexNumber w < 65536 := by
    rw [← e]
    have : hexToU32Loop w 0 < 16 ^ (w.length + 0) := e2
    rw [hl] at this
    exact this
  unfold wordBytes
  rw [e, and_ff, and_ff, Nat.shiftRight_eq_div_pow]
  have e3 : hexNumber w / 2 ^ 8 % 256 = hexNumber w / 256 := by omega
  rw [e3]

theorem parseWords_full (len : Nat) (toks : List (List Nat)) (acc : List Nat)
    (h : len ≤ acc.length) : parseWords len toks acc = acc := by
  cases toks with
  | nil => rfl
  | cons t rest =>
    unfold parseWords
    rw [if_neg (by omega)]

/-- The word loop on the words of a data line, followed by nothing or by a
token that holds a character that is no hex digit: it stores the bytes of the
words until `len` bytes are stored. -/
theorem parseWords_words (len : Nat) (ws : List (List Nat)) (tail : List (List Nat))
    (hws : ∀ w ∈ ws, w.length = 4 ∧ ∀ c ∈ w, 0 ≤ hexVal c)
    (htail : ∀ t, tail.head? = some t → ¬(t.all (fun c => decide (0 ≤ hexVal c)) = true)) :
    ∀ acc : List Nat, acc.length ≤ len →
      parseWords len (ws ++ tail) acc =
        acc ++ ((ws.map wordBytes).flatten).take (len - acc.length) := by
  induction ws with
  | nil =>
    intro acc hacc
    simp only [List.nil_append, List.map_nil, List.flatten_nil, List.take_nil, List.append_nil]
    cases tail with
    | nil => rfl
    | cons t more =>
      have ht := htail t rfl
      unfold parseWords
      split
      · have hf : (t.all fun c => decide (0 ≤ hexVal c)) = false := by
          simpa using ht
        rw [hf]
        simp
      · rfl
  | cons w rest ih =>
    intro acc hacc
    obtain ⟨hl, hh⟩ := hws w (List.mem_cons_self _ _)
    have hrest : ∀ v ∈ rest, v.length = 4 ∧ ∀ c ∈ v, 0 ≤ hexVal c :=
      fun v hv => hws v (List.mem_cons_of_mem _ hv)
    have hall : w.all (fun c => decide (0 ≤ hexVal c)) = true := by
      rw [List.all_eq_true]
      intro c hc
      simpa using hh c hc
    have hb := word_bytes w hl hh
    rw [List.cons_append, parseWords]
    by_cases h1 : acc.length < len
    · rw [if_pos h1, if_pos ⟨hall, hl⟩]
      by_cases h2 : acc.length + 1 < len
      · rw [if_pos h2, hb, ih hrest (acc ++ wordBytes w) (by
          simp only [List.length_append, wordBytes, List.length_cons, List.length_nil]
          omega)]
        simp only [List.map_cons, List.flatten_cons, List.length_append, wordBytes,
          List.length_cons, List.length_nil, List.append_assoc]
        congr 1
        have e : len - acc.length = (len - (acc.length + (0 + 1 + 1))) + 2 := by omega
        rw [e]
        rfl
      · rw [if_neg h2]
        have hb1 : [(hexToU32 w >>> 8) &&& 0xff] = [hexNumber w / 256] := by
          have := hb
          unfold wordBytes at this
          simp only [List.cons.injEq, and_true] at this
          rw [this.1]
        rw [hb1, parseWords_full len _ _ (by
          simp only [List.length_append, List.length_cons, List.length_nil]
          omega)]
        have e : len - acc.length = 1 := by omega
        rw [e]
        simp only [List.map_cons, List.flatten_cons, wordBytes]
        rfl
    · rw [if_neg h1]
      have e : len - acc.length = 0 := by omega
      rw [e, List.take_zero, List.append_nil]

/-- The line loop on data lines of the documented shape: it stores the bytes
of the words, line after line, until `len` bytes are stored. -/
theorem parseLines_dump (len : Nat) (lines : List (List Nat × List (List Nat) × List Nat))
    (hlines : ∀ l ∈ lines, PlainDumpLine l.1 l.2.1 l.2.2) :
    ∀ acc : List Nat, acc.length ≤ len →
      parseLines len (lines.map (fun l => dumpLine l.1 l.2.1 l.2.2)) acc =
        acc ++ (dumpBytes lines).take (len - acc.length) := by
  induction lines with
  | nil =>
    intro acc _
    simp [parseLines, dumpBytes]
  | cons l rest ih =>
    intro acc hacc
    have hl := hlines l (List.mem_cons_self _ _)
    have hrest : ∀ m ∈ rest, PlainDumpLine m.1 m.2.1 m.2.2 :=
      fun m hm => hlines m (List.mem_cons_of_mem _ hm)
    rw [List.map_cons, parseLines]
    by_cases h1 : acc.length < len
    · rw [if_pos h1]
      have hnot : ¬((dumpLine l.1 l.2.1 l.2.2).getD 0 0 = 0x64 ∧
          ((dumpLine l.1 l.2.1 l.2.2).getD 1 0 = 0x20 ∨
            (dumpLine l.1 l.2.1 l.2.2).getD 1 0 = 0x09)) := by
        obtain ⟨hal, hah, _, _⟩ := hl
        rcases hadr : l.1 with _ | ⟨a0, _ | ⟨a1, at2⟩⟩
        · rw [hadr] at hal
          simp at hal
        · rw [hadr] at hal
          simp at hal
        · have ha1 : 0 ≤ hexVal a1 := hah a1 (by rw [hadr]; simp)
          have e : (dumpLine (a0 :: a1 :: at2) l.2.1 l.2.2).getD 1 0 = a1 := by
            unfold dumpLine
            rfl
          rw [e]
          intro hc
          rcases hc.2 with k | k <;> rw [k] at ha1 <;> exact absurd ha1 (by decide)
      rw [if_neg hnot, tokens_dumpLine _ _ _ hl]
      have hw := parseWords_words len l.2.1 (tokens [0x20, 0x09] l.2.2) hl.2.2.1 hl.2.2.2 acc hacc
      rw [hw, ih hrest _ (by
        rw [List.length_append, List.length_take]
        omega)]
      have hd : dumpBytes (l :: rest) = (l.2.1.map wordBytes).flatten ++ dumpBytes rest := by
        unfold dumpBytes
        rw [List.map_cons, List.flatten_cons]
      rw [hd, List.take_append_eq_append_take, List.append_assoc]
      congr 2
      rw [List.length_append, List.length_take]
      by_cases hle : ((l.2.1.map wordBytes).flatten).length ≤ len - acc.length
      · rw [Nat.min_eq_right hle]
        congr 1
        omega
      · have hlt : len - acc.length < ((l.2.1.map wordBytes).flatten).length := by omega
        rw [Nat.min_eq_left (Nat.le_of_lt hlt)]
        have e1 : len - (acc.length + (len - acc.length)) = 0 := by omega
        have e2 : len - acc.length - ((l.2.1.map wordBytes).flatten).length = 0 := by omega
        rw [e1, e2]
    · rw [if_neg h1]
      have e : len - acc.length = 0 := by omega
      rw [e, List.take_zero, List.append_nil]

/-- The function `hudsonReadMem` on a dump of the documented shape whose
ASCII columns do not start with a token of hex digits only: it returns the
first `len` bytes of the dumped words. -/
theorem hudsonReadMem_dump (addr len : Nat) (s : Bridge) (echo : List Nat)
    (lines : List (List Nat × List (List Nat) × List Nat)) (h1 : 1 ≤ len)
    (hwait : 0 ≤ (targetWaitPrompt TARGET_BUFSIZE (targetSend ([0x64, 0x20] ++ fmtHex addr ++
      [0x20] ++ fmtHex ((addr + len - 1) % 4294967296) ++ [0x0d]) s)).1)
    (htok : tokens [0x0d, 0x0a] (cstring (targetWaitPrompt TARGET_BUFSIZE
      (targetSend ([0x64, 0x20] ++ fmtHex addr ++ [0x20] ++
        fmtHex ((addr + len - 1) % 4294967296) ++ [0x0d]) s)).2.1) =
      echo :: lines.map (fun l => dumpLine l.1 l.2.1 l.2.2))
    (hecho : echo.getD 0 0 = 0x64 ∧ echo.getD 1 0 = 0x20)
    (hlines : ∀ l ∈ lines, PlainDumpLine l.1 l.2.1 l.2.2) :
    (hudsonReadMem addr len s).2.1 = (dumpBytes lines).take len ∧
    (hudsonReadMem addr len s).1 = (((dumpBytes lines).take len).length : Int) := by
  have hp : parseLines len (echo :: lines.map (fun l => dumpLine l.1 l.2.1 l.2.2)) [] =
      (dumpBytes lines).take len := by
    rw [parseLines, if_pos (by simpa using h1), if_pos ⟨hecho.1, Or.inl hecho.2⟩,
      parseLines_dump len lines hlines [] (Nat.zero_le _)]
    simp
  rcases hudsonReadMem_eq addr len s h1 with ⟨hneg, _⟩ | ⟨_, e⟩
  · omega
  · rw [e, htok, hp]
    exact ⟨rfl, rfl⟩

/-- The dump of scenario S4 is of the documented shape: the echo line and
the data line with the address `00000100`, the words `DEAD` and `BEEF` and
the ASCII column `....`. -/
theorem dumpS4_shape :
    tokens [0x0d, 0x0a] dumpS4.dropLast =
      [[0x64, 0x20, 0x31, 0x30, 0x30, 0x20, 0x31, 0x30, 0x33],
       dumpLine [0x30, 0x30, 0x30, 0x30, 0x30, 0x31, 0x30, 0x30]
         [[0x44, 0x45, 0x41, 0x44], [0x42, 0x45, 0x45, 0x46]] [0x2e, 0x2e, 0x2e, 0x2e]] ∧
    PlainDumpLine [0x30, 0x30, 0x30, 0x30, 0x30, 0x31, 0x30, 0x30]
      [[0x44, 0x45, 0x41, 0x44], [0x42, 0x45, 0x45, 0x46]] [0x2e, 0x2e, 0x2e, 0x2e] ∧
    dumpBytes [([0x30, 0x30, 0x30, 0x30, 0x30, 0x31, 0x30, 0x30],
      [[0x44, 0x45, 0x41, 0x44], [0x42, 0x45, 0x45, 0x46]], [0x2e, 0x2e, 0x2e, 0x2e])] =
      [0xde, 0xad, 0xbe, 0xef] := by
  decide

/-- C35: the dump parser takes text of the ASCII column as data.  The target
answers `d 100 113` with two lines; the first dumps the 16 bytes of the text
`abcd 1234 ` and six NUL bytes, so that its ASCII column starts with the
tokens `abcd` and `1234`, and the second dumps 01 02 03 04.  For a read of 20
bytes `hudsonReadMem` returns 20 bytes whose last four are AB CD 12 34, taken
from the ASCII column of the first line, and not 01 02 03 04; a read of 16
bytes from the same text returns the 16 bytes of the first line.  Whatever the
text, the bytes returned are never more than the length asked for; and when
the text is an echo line that starts with `d` and a blank, followed by data
lines of the documented shape in which no ASCII column starts with a token of
hex digits only, the bytes returned are the first `len` bytes of the dumped
words, each word giving its most significant byte first. -/
theorem ascii_column_taken_as_words :
    (hudsonReadMem 0x100 20 (bridgeWith [] dumpHexText)).1 = 20 ∧
    (hudsonReadMem 0x100 20 (bridgeWith [] dumpHexText)).2.1 =
      [0x61, 0x62, 0x63, 0x64, 0x20, 0x31, 0x32, 0x33, 0x34, 0x20, 0x00, 0x00, 0x00, 0x00,
       0x00, 0x00, 0xab, 0xcd, 0x12, 0x34] ∧
    (hudsonReadMem 0x100 20 (bridgeWith [] dumpHexText)).2.2.targetOut =
      [[0x64, 0x20, 0x31, 0x30, 0x30, 0x20, 0x31, 0x31, 0x33, 0x0d]] ∧
    (tokens [0x0d, 0x0a] dumpHexText).getD 2 [] =
      [0x30, 0x30, 0x30, 0x30, 0x30, 0x31, 0x31, 0x30, 0x20, 0x20, 0x30, 0x31, 0x30, 0x32, 0x20,
       0x30, 0x33, 0x30, 0x34, 0x20, 0x20, 0x2e, 0x2e, 0x2e, 0x2e] ∧
    (parseLines 16 (tokens [0x0d, 0x0a] dumpHexText.dropLast) []) =
      [0x61, 0x62, 0x63, 0x64, 0x20, 0x31, 0x32, 0x33, 0x34, 0x20, 0x00, 0x00, 0x00, 0x00,
       0x00, 0x00] ∧
    (∀ (addr len : Nat) (s : Bridge), (hudsonReadMem addr len s).2.1.length ≤ len) ∧
    (∀ (addr len : Nat) (s : Bridge) (echo : List Nat)
      (lines : List (List Nat × List (List Nat) × List Nat)), 1 ≤ len →
      0 ≤ (targetWaitPrompt TARGET_BUFSIZE (targetSend ([0x64, 0x20] ++ fmtHex addr ++
        [0x20] ++ fmtHex ((addr + len - 1) % 4294967296) ++ [0x0d]) s)).1 →
      tokens [0x0d, 0x0a] (cstring (targetWaitPrompt TARGET_BUFSIZE
        (targetSend ([0x64, 0x20] ++ fmtHex addr ++ [0x20] ++
          fmtHex ((addr + len - 1) % 4294967296) ++ [0x0d]) s)).2.1) =
        echo :: lines.map (fun l => dumpLine l.1 l.2.1 l.2.2) →
      echo.getD 0 0 = 0x64 ∧ echo.getD 1 0 = 0x20 →
      (∀ l ∈ lines, PlainDumpLine l.1 l.2.1 l.2.2) →
      (hudsonReadMem addr len s).2.1 = (dumpBytes lines).take len) := by
  refine ⟨by decide!, by decide!, by decide!, by decide!, by decide!, fun addr len s => ?_,
    fun addr len s echo lines h1 hw ht he hl =>
      (hudsonReadMem_dump addr len s echo lines h1 hw ht he hl).1⟩
  rcases Nat.eq_zero_or_pos len with h0 | h1
  · subst h0
    exact Nat.le_refl 0
  · rcases hudsonReadMem_eq addr len s h1 with ⟨_, e⟩ | ⟨_, e⟩
    · rw [e]
      exact Nat.zero_le _
    · rw [e]
      exact parseLines_length len _ [] (Nat.zero_le _)

/-! ## Target selection on the command line -/

theorem list_two_step {α : Type} (P : List α → Prop) (h0 : P []) (h1 : ∀ a, P [a])
    (h2 : ∀ a p rest, P rest → P (p :: rest) → P (a :: p :: rest)) : ∀ l, P l := by
  have h : ∀ l, P l ∧ ∀ a, P (a :: l) := by
    intro l
    induction l with
    | nil => exact ⟨h0, h1⟩
    | cons x t ih => exact ⟨ih.2 x, fun a => h2 a x t ih.1 (ih.2 x)⟩
  exact fun l => (h l).1

/-- What the branches without a following argument do to the variables. -/
theorem plainArgument_spec (a : List Nat) (o : Settings) :
    (∀ r, plainArgument a o = .inl r →
      (r = .usageExit 0 ∧ (a = [0x2d, 0x68] ∨ a = [0x2d, 0x2d, 0x68, 0x65, 0x6c, 0x70])) ∨
      (r = .usageExit 1 ∧ a.headD 0 = 0x2d)) ∧
    (∀ o2, plainArgument a o = .inr o2 →
      o2.targetListenPort = o.targetListenPort ∧
      ((a.headD 0 = 0x2d ∧ o2.target = o.target) ∨ (a.headD 0 ≠ 0x2d ∧ o2.target = some a))) := by
  unfold plainArgument
  by_cases h1 : a = [0x2d, 0x76]
  · rw [if_pos h1]
    refine ⟨fun r h => (by cases h), fun o2 h => ?_⟩
    cases h
    exact ⟨rfl, Or.inl ⟨(by rw [h1]; rfl), rfl⟩⟩
  · rw [if_neg h1]
    by_cases h2 : a = [0x2d, 0x68] ∨ a = [0x2d, 0x2d, 0x68, 0x65, 0x6c, 0x70]
    · rw [if_pos h2]
      refine ⟨fun r h => ?_, fun o2 h => (by cases h)⟩
      cases h
      exact Or.inl ⟨rfl, h2⟩
    · rw [if_neg h2]
      by_cases h3 : a.headD 0 ≠ 0x2d
      · rw [if_pos h3]
        refine ⟨fun r h => (by cases h), fun o2 h => ?_⟩
        cases h
        exact ⟨rfl, Or.inr ⟨h3, rfl⟩⟩
      · rw [if_neg h3]
        refine ⟨fun r h => ?_, fun o2 h => (by cases h)⟩
        cases h
        exact Or.inr ⟨rfl, not_not.1 h3⟩

/-- An outcome that is within the rest of the arguments is within all of
them. -/
theorem StartupWithin_mono (args rest : List (List Nat)) (o o1 : Settings) (r : Startup)
    (h : StartupWithin rest o1 r)
    (ht : ∀ t ∈ suppliedTargets rest, t ∈ suppliedTargets args)
    (hp : ∀ p ∈ suppliedListenPorts rest, p ∈ suppliedListenPorts args)
    (ha : ∀ a ∈ rest, a ∈ args)
    (h1 : o1.target = o.target ∨ ∃ t ∈ suppliedTargets args, o1.target = some t)
    (h2 : o1.targetListenPort = o.targetListenPort ∨
      ∃ p ∈ suppliedListenPorts args, atoi p = some o1.targetListenPort) :
    StartupWithin args o r := by
  obtain ⟨g1, g2, g3⟩ := h
  refine ⟨fun o2 e => ?_, fun st e => ?_, fun e => ?_⟩
  · obtain ⟨k1, k2, k3⟩ := g1 o2 e
    refine ⟨k1, ?_, ?_⟩
    · rcases k2 with k | ⟨t, tm, te⟩
      · rw [k]
        exact h1
      · exact Or.inr ⟨t, ht t tm, te⟩
    · rcases k3 with k | ⟨p, pm, pe⟩
      · rw [k]
        exact h2
      · exact Or.inr ⟨p, hp p pm, pe⟩
  · rcases g2 st e with k | ⟨k, hh | hh⟩
    · exact Or.inl k
    · exact Or.inr ⟨k, Or.inl (ha _ hh)⟩
    · exact Or.inr ⟨k, Or.inr (ha _ hh)⟩
  · obtain ⟨p, pm, pe⟩ := g3 e
    exact ⟨p, ha p pm, pe⟩

theorem argLoop_nil (o : Settings) : StartupWithin [] o (argLoop [] o) := by
  unfold argLoop
  by_cases h : o.target = none ∧ o.targetListenPort = 0
  · rw [if_pos h]
    refine ⟨fun o2 e => (by cases e), fun st e => ?_, fun e => (by cases e)⟩
    cases e
    exact Or.inl rfl
  · rw [if_neg h]
    refine ⟨fun o2 e => ?_, fun st e => (by cases e), fun e => (by cases e)⟩
    cases e
    refine ⟨?_, Or.inl rfl, Or.inl rfl⟩
    by_cases ht : o.target = none
    · exact Or.inr (fun hp => h ⟨ht, hp⟩)
    · exact Or.inl ht

/-- The outcome of the branches without a following argument, when the loop
ends with them. -/
theorem plainArgument_within (a : List Nat) (args : List (List Nat)) (o : Settings)
    (r : Startup) (h : plainArgument a o = .inl r) (ha : a ∈ args) :
    StartupWithin args o r := by
  rcases (plainArgument_spec a o).1 r h with ⟨e, hh⟩ | ⟨e, _⟩
  · subst e
    refine ⟨fun o2 e => (by cases e), fun st e => ?_, fun e => (by cases e)⟩
    cases e
    rcases hh with k | k
    · exact Or.inr ⟨rfl, Or.inl (k ▸ ha)⟩
    · exact Or.inr ⟨rfl, Or.inr (k ▸ ha)⟩
  · subst e
    refine ⟨fun o2 e => (by cases e), fun st e => ?_, fun e => (by cases e)⟩
    cases e
    exact Or.inl rfl

/-- The argument loop and the check after it: the outcome is within the
arguments. -/
theorem argLoop_spec : ∀ (args : List (List Nat)) (o : Settings),
    StartupWithin args o (argLoop args o) := by
  intro args
  refine list_two_step (fun args => ∀ (o : Settings), StartupWithin args o (argLoop args o))
    argLoop_nil ?_ ?_ args
  · intro a o
    unfold argLoop
    rcases hp : plainArgument a o with r | o2
    · exact plainArgument_within a [a] o r hp (List.mem_singleton_self a)
    · obtain ⟨k1, k2⟩ := (plainArgument_spec a o).2 o2 hp
      refine StartupWithin_mono [a] [] o o2 _ (argLoop_nil o2) (fun t ht => ?_)
        (fun p hp => ?_) (fun b hb => ?_) ?_ (Or.inl k1)
      · simp [suppliedTargets] at ht
      · simp [suppliedListenPorts] at hp
      · simp at hb
      · rcases k2 with ⟨_, e⟩ | ⟨hd, e⟩
        · exact Or.inl e
        · exact Or.inr ⟨a, by rw [suppliedTargets, if_pos hd]; exact List.mem_singleton_self a, e⟩
  · intro a p rest ih1 ih2 o
    unfold argLoop
    by_cases hl : a = [0x2d, 0x6c]
    · rw [if_pos hl]
      have st : suppliedTargets (a :: p :: rest) = suppliedTargets rest := by
        rw [suppliedTargets, if_pos (Or.inl hl)]
      have sp : suppliedListenPorts (a :: p :: rest) = p :: suppliedListenPorts rest := by
        rw [suppliedListenPorts, if_pos hl]
      rcases hv : atoi p with _ | v
      · exact ⟨fun o2 e => (by cases e), fun st e => (by cases e),
          fun _ => ⟨p, by simp, hv⟩⟩
      · refine StartupWithin_mono _ rest o _ _ (ih1 _) (fun t ht => by rw [st]; exact ht)
          (fun q hq => by rw [sp]; exact List.mem_cons_of_mem _ hq)
          (fun b hb => List.mem_cons_of_mem _ (List.mem_cons_of_mem _ hb)) (Or.inl rfl)
          (Or.inr ⟨p, by rw [sp]; exact List.mem_cons_self _ _, hv⟩)
    · rw [if_neg hl]
      by_cases hq : a = [0x2d, 0x70]
      · rw [if_pos hq]
        have st : suppliedTargets (a :: p :: rest) = suppliedTargets rest := by
          rw [suppliedTargets, if_pos (Or.inr (Or.inl hq))]
        have sp : suppliedListenPorts (a :: p :: rest) = suppliedListenPorts rest := by
          rw [suppliedListenPorts, if_neg hl, if_pos (Or.inl hq)]
        rcases hv : atoi p with _ | v
        · exact ⟨fun o2 e => (by cases e), fun st e => (by cases e),
            fun _ => ⟨p, by simp, hv⟩⟩
        · exact StartupWithin_mono _ rest o _ _ (ih1 _) (fun t ht => by rw [st]; exact ht)
            (fun q hq => by rw [sp]; exact hq)
            (fun b hb => List.mem_cons_of_mem _ (List.mem_cons_of_mem _ hb)) (Or.inl rfl)
            (Or.inl rfl)
      · rw [if_neg hq]
        by_cases hP : a = [0x2d, 0x50]
        · rw [if_pos hP]
          have st : suppliedTargets (a :: p :: rest) = suppliedTargets rest := by
            rw [suppliedTargets, if_pos (Or.inr (Or.inr hP))]
          have sp : suppliedListenPorts (a :: p :: rest) = suppliedListenPorts rest := by
            rw [suppliedListenPorts, if_neg hl, if_pos (Or.inr hP)]
          exact StartupWithin_mono _ rest o _ _ (ih1 _) (fun t ht => by rw [st]; exact ht)
            (fun q hq => by rw [sp]; exact hq)
            (fun b hb => List.mem_cons_of_mem _ (List.mem_cons_of_mem _ hb)) (Or.inl rfl)
            (Or.inl rfl)
        · rw [if_neg hP]
          have st : suppliedTargets (a :: p :: rest) =
              (if a.headD 0 ≠ 0x2d then [a] else []) ++ suppliedTargets (p :: rest) := by
            rw [suppliedTargets, if_neg (by
              intro h
              rcases h with h | h | h
              · exact hl h
              · exact hq h
              · exact hP h)]
          have sp : suppliedListenPorts (a :: p :: rest) = suppliedListenPorts (p :: rest) := by
            rw [suppliedListenPorts, if_neg hl, if_neg (by
              intro h
              rcases h with h | h
              · exact hq h
              · exact hP h)]
          rcases hp : plainArgument a o with r | o2
          · exact plainArgument_within a _ o r hp (List.mem_cons_self _ _)
          · obtain ⟨k1, k2⟩ := (plainArgument_spec a o).2 o2 hp
            refine StartupWithin_mono _ (p :: rest) o o2 _ (ih2 o2)
              (fun t ht => by rw [st]; exact List.mem_append_right _ ht)
              (fun q hq => by rw [sp]; exact hq)
              (fun b hb => List.mem_cons_of_mem _ hb) ?_ (Or.inl k1)
            rcases k2 with ⟨_, e⟩ | ⟨hd, e⟩
            · exact Or.inl e
            · exact Or.inr ⟨a, by rw [st, if_pos hd]; simp, e⟩

/-- C32 (counterexample): with both `-l 1234` and the positional target
`localhost:1234` the start-up proceeds past the argument checking, with both
variables set, and goes on to listen on port 1234; and with `-h`, where
neither is supplied, it prints usage and exits with status 0. -/
theorem both_targets_proceed :
    mainStartup argvBoth = .proceeds { Settings.init with
      targetListenPort := 1234,
      target := some [0x6c, 0x6f, 0x63, 0x61, 0x6c, 0x68, 0x6f, 0x73, 0x74, 0x3a, 0x31, 0x32,
        0x33, 0x34] } ∧
    suppliedTargets argvBoth.tail =
      [[0x6c, 0x6f, 0x63, 0x61, 0x6c, 0x68, 0x6f, 0x73, 0x74, 0x3a, 0x31, 0x32, 0x33, 0x34]] ∧
    suppliedListenPorts argvBoth.tail = [[0x31, 0x32, 0x33, 0x34]] ∧
    connectChoice { Settings.init with
      targetListenPort := 1234,
      target := some [0x6c, 0x6f, 0x63, 0x61, 0x6c, 0x68, 0x6f, 0x73, 0x74, 0x3a, 0x31, 0x32,
        0x33, 0x34] } = some (.listen 1234) ∧
    mainStartup argvHelp = .usageExit 0 ∧
    suppliedTargets argvHelp.tail = [] ∧ suppliedListenPorts argvHelp.tail = [] := by
  decide

/-- C32 (amended): target selection on the command line.  When the start-up
proceeds past the argument checking, a positional target of the argument
vector is the target, or the value of a `-l` of the vector is the listen port
and is not 0: at least one of the two is supplied.  When neither is supplied,
and no value is out of the range of `atoi`, the bridge prints usage and
exits, with status 1, or with status 0 when `-h` or `--help` is among the
arguments. -/
theorem target_selection (argv : List (List Nat)) :
    (∀ o, mainStartup argv = .proceeds o →
      (∃ t ∈ suppliedTargets argv.tail, o.target = some t) ∨
      (∃ p ∈ suppliedListenPorts argv.tail,
        atoi p = some o.targetListenPort ∧ o.targetListenPort ≠ 0)) ∧
    (suppliedTargets argv.tail = [] → suppliedListenPorts argv.tail = [] →
      (∀ a ∈ argv.tail, atoi a ≠ none) →
      mainStartup argv = .usageExit 1 ∨
      (mainStartup argv = .usageExit 0 ∧
        ([0x2d, 0x68] ∈ argv.tail ∨ [0x2d, 0x2d, 0x68, 0x65, 0x6c, 0x70] ∈ argv.tail))) := by
  obtain ⟨g1, g2, g3⟩ := argLoop_spec argv.tail Settings.init
  have key : ∀ o, mainStartup argv = .proceeds o →
      (∃ t ∈ suppliedTargets argv.tail, o.target = some t) ∨
      (∃ p ∈ suppliedListenPorts argv.tail,
        atoi p = some o.targetListenPort ∧ o.targetListenPort ≠ 0) := by
    intro o e
    obtain ⟨k1, k2, k3⟩ := g1 o e
    rcases k1 with k | k
    · rcases k2 with h | h
      · exact absurd h k
      · exact Or.inl h
    · rcases k3 with h | ⟨p, pm, pe⟩
      · exact absurd h k
      · exact Or.inr ⟨p, pm, pe, k⟩
  refine ⟨key, fun ht hp ha => ?_⟩
  rcases hr : mainStartup argv with st | o | _
  · rcases g2 st hr with k | ⟨k, hh⟩
    · exact Or.inl (by rw [k])
    · exact Or.inr ⟨by rw [k], hh⟩
  · rcases key o hr with ⟨t, tm, _⟩ | ⟨p, pm, _⟩
    · rw [ht] at tm
      exact absurd tm (List.not_mem_nil _)
    · rw [hp] at pm
      exact absurd pm (List.not_mem_nil _)
  · obtain ⟨p, pm, pe⟩ := g3 hr
    exact absurd pe (ha p pm)

/-- C32 applied to `hudson-bridge -v -p 2345`, which supplies neither a
target nor a listen port: usage and status 1. -/
theorem target_selection_witness :
    mainStartup argvNeither = .usageExit 1 ∨
    (mainStartup argvNeither = .usageExit 0 ∧
      ([0x2d, 0x68] ∈ argvNeither.tail ∨
        [0x2d, 0x2d, 0x68, 0x65, 0x6c, 0x70] ∈ argvNeither.tail)) :=
  (target_selection argvNeither).2 (by decide) (by decide) (by decide)

end HudsonBridge
